import Mathlib

/-!
# libnetfilter_conntrack: attribute codec, protocol registry and request dispatch

A shallow embedding of `src/libnetfilter_conntrack.c`.

* Machine integers are natural numbers; every conversion and every store into
  an attribute payload truncates explicitly.
* The host is a parameter (`Build`): byte order, the width of `unsigned long`,
  and the two compile-time strings `VERSION` and `LIBNETFILTER_CONNTRACK_DIR`.
* The body of a request is the list of attributes appended to it; an
  attribute is a leaf carrying its payload bytes or a nest carrying its
  children, and `encode_attrs` gives the bytes they occupy.  The capacity check
  of the 4 KiB request buffer is not part of this model.
* A received message is memory: a function from offsets to bytes that goes on
  behind the message.  The parser walks the attributes framed in the first
  `len` bytes of it, and a read through a pointer takes the bytes found at
  that address whatever the length of the attribute.
* Everything the code keeps outside its arguments (the handler list, the
  plugin files on disk, the socket) is a field of `World`, passed explicitly.
* `findproto` calls itself after a successful `dlopen`, so it takes fuel;
  `Result.diverge` is the answer of a call that ran out of it and
  `Result.exit` the answer of a call during which `exit` was reached.
* `findproto` formats the plugin path into a buffer on its stack; the bytes
  `sprintf` writes behind the end of that buffer are counted in
  `World.overrun`, and the call goes on as it does on the machine.
* Text written to `stdout` and `stderr` is not part of the state.
-/

namespace Nfct

set_option autoImplicit false

/-! ## Host parameters and byte order -/

/-- Byte order of the host. -/
inductive Endian where
  | little
  | big
deriving DecidableEq, Repr

/-- The build the library was compiled for: the host byte order, whether
`unsigned long` is 8 bytes wide (LP64) or 4 (ILP32), and the two compile-time
strings the source takes from its configuration header. -/
structure Build where
  endian : Endian
  lp64 : Bool
  VERSION : String
  LIBNETFILTER_CONNTRACK_DIR : String

/-- Value of `sizeof(unsigned long)`. -/
def Build.sizeof_long (b : Build) : Nat := if b.lp64 then 8 else 4

/-- The `n` low-order bytes of `v`, least significant first. -/
def le_bytes : Nat → Nat → List Nat
  | 0, _ => []
  | n + 1, v => v % 256 :: le_bytes n (v / 256)

/-- The `n` low-order bytes of `v`, most significant first. -/
def be_bytes (n v : Nat) : List Nat := (le_bytes n v).reverse

/-- Value of a byte string read least significant byte first. -/
def from_le : List Nat → Nat
  | [] => 0
  | b :: bs => b + 256 * from_le bs

/-- Value of a byte string read most significant byte first. -/
def from_be (bs : List Nat) : Nat := from_le bs.reverse

/-- Object representation of an `n`-byte unsigned integer holding `v`: the
bytes `nfnl_addattr_l` copies when it is handed the address of that integer. -/
def obj_bytes (e : Endian) (n v : Nat) : List Nat :=
  match e with
  | Endian.little => le_bytes n v
  | Endian.big => be_bytes n v

/-- Value of an unsigned integer whose object representation is `bs`. -/
def obj_value (e : Endian) (bs : List Nat) : Nat :=
  match e with
  | Endian.little => from_le bs
  | Endian.big => from_be bs

/-- The `n` bytes found in memory from an address on; `mem i` is the byte at
offset `i` from that address. -/
def mem_read (n : Nat) (mem : Nat → Nat) : List Nat :=
  (List.range n).map (fun i => mem i % 256)

/-- Memory in which the bytes `bs` are followed by the memory `rest`. -/
def mem_of (bs : List Nat) (rest : Nat → Nat) : Nat → Nat :=
  fun i => if i < bs.length then bs.getD i 0 else rest (i - bs.length)

/-- C library `strlen`, for a string that holds no NUL. -/
def strlen (s : String) : Nat := s.utf8ByteSize

/-- Value of `sizeof` applied to a string literal: its bytes and the NUL. -/
def sizeof_literal (s : String) : Nat := strlen s + 1

/-- Byte reversal of a 32-bit value. -/
def bswap32 (x : Nat) : Nat := from_be (le_bytes 4 x)

/-- Byte reversal of a 64-bit value. -/
def bswap64 (x : Nat) : Nat := from_be (le_bytes 8 x)

/-- C library `htonl`: the argument is converted to 32 bits, then reversed on
a little-endian host. -/
def htonl (e : Endian) (x : Nat) : Nat :=
  match e with
  | Endian.big => x % 2 ^ 32
  | Endian.little => bswap32 (x % 2 ^ 32)

/-- C library `ntohl`. -/
def ntohl (e : Endian) (x : Nat) : Nat :=
  match e with
  | Endian.big => x % 2 ^ 32
  | Endian.little => bswap32 (x % 2 ^ 32)

/-- Kernel helper `__be64_to_cpu`. -/
def be64_to_cpu (e : Endian) (x : Nat) : Nat :=
  match e with
  | Endian.big => x % 2 ^ 64
  | Endian.little => bswap64 (x % 2 ^ 64)

/-! ## Attributes -/

/-- One attribute of a request body, as the build path appends it. -/
inductive nfattr where
  | leaf (nfa_type : Nat) (data : List Nat)
  | nest (nfa_type : Nat) (children : List nfattr)

/-- The type tag an attribute is appended with. -/
def nfattr.nfa_type : nfattr → Nat
  | nfattr.leaf t _ => t
  | nfattr.nest t _ => t

/-- Attributes appended inside a nest; a leaf holds none. -/
def nfattr.children : nfattr → List nfattr
  | nfattr.leaf _ _ => []
  | nfattr.nest _ cs => cs

/-- Whether a list of attributes holds one of type `t`. -/
def has_attr (t : Nat) (l : List nfattr) : Bool := l.any (fun a => a.nfa_type == t)

/-- Macro `NFA_ALIGN`: the next multiple of 4. -/
def NFA_ALIGN (len : Nat) : Nat := (len + 3) / 4 * 4

/-- Macro `NFA_LENGTH`: a payload length plus the 4-byte attribute header. -/
def NFA_LENGTH (len : Nat) : Nat := len + 4

/-- Modelled from the spec: the bytes one type-length-value triple occupies in
a message.  The header is the 16-bit length of header and payload followed by
the 16-bit type tag, both as the host stores them; the payload follows and is
padded with zero bytes to a multiple of 4. -/
def nfattr_frame (e : Endian) (type : Nat) (payload : List Nat) : List Nat :=
  obj_bytes e 2 (NFA_LENGTH payload.length) ++ obj_bytes e 2 type ++ payload ++
    List.replicate (NFA_ALIGN payload.length - payload.length) 0

mutual
/-- The payload of an attribute in a message: the bytes of a leaf, the framed
children of a nest. -/
def nfattr.payload (e : Endian) : nfattr → List Nat
  | nfattr.leaf _ d => d
  | nfattr.nest _ cs => encode_attrs e cs
/-- Modelled from the spec: the bytes `append_attribute`, `nest_begin` and
`nest_end` leave in the buffer for a list of attributes. -/
def encode_attrs (e : Endian) : List nfattr → List Nat
  | [] => []
  | a :: as => nfattr_frame e a.nfa_type (a.payload e) ++ encode_attrs e as
end

/-- The bytes one attribute occupies in a message. -/
def nfattr.encode (e : Endian) (a : nfattr) : List Nat :=
  nfattr_frame e a.nfa_type (a.payload e)

/-- What a `struct nfattr *` into a received message gives access to: the two
fields of the header it points at, and the memory that starts at `NFA_DATA`,
which goes on behind the payload. -/
structure nfattr_ptr where
  nfa_len : Nat
  nfa_type : Nat
  mem : Nat → Nat

/-- The pointer to an attribute header lying at the start of the memory `p`. -/
def nfattr_at (e : Endian) (p : Nat → Nat) : nfattr_ptr :=
  ⟨obj_value e (mem_read 2 p), obj_value e (mem_read 2 (fun i => p (i + 2))),
    fun i => p (i + NFA_LENGTH 0)⟩

/-- Macro `NFA_PAYLOAD`, an `int`. -/
def NFA_PAYLOAD (a : nfattr_ptr) : Int := (a.nfa_len : Int) - (NFA_LENGTH 0 : Nat)

/-- The payload of an attribute: the `NFA_PAYLOAD` bytes at `NFA_DATA`. -/
def nfattr_ptr.data (a : nfattr_ptr) : List Nat := mem_read (a.nfa_len - NFA_LENGTH 0) a.mem

/-- Dereference `*(u_int32_t *)NFA_DATA(a)`. -/
def deref_u32 (b : Build) (a : nfattr_ptr) : Nat := obj_value b.endian (mem_read 4 a.mem)

/-- Dereference `*(u_int64_t *)NFA_DATA(a)`. -/
def deref_u64 (b : Build) (a : nfattr_ptr) : Nat := obj_value b.endian (mem_read 8 a.mem)

/-- Dereference `*(unsigned long *)NFA_DATA(a)`. -/
def deref_ulong (b : Build) (a : nfattr_ptr) : Nat :=
  obj_value b.endian (mem_read b.sizeof_long a.mem)

/-- Dereference `*(u_int8_t *)NFA_DATA(a)`. -/
def deref_u8 (a : nfattr_ptr) : Nat := a.mem 0 % 256

/-! ### Attribute type tags (kernel ABI, `nfnetlink_conntrack.h`) -/

def CTA_TUPLE_ORIG : Nat := 1
def CTA_TUPLE_REPLY : Nat := 2
def CTA_STATUS : Nat := 3
def CTA_PROTOINFO : Nat := 4
def CTA_HELP : Nat := 5
def CTA_NAT : Nat := 6
def CTA_TIMEOUT : Nat := 7
def CTA_MARK : Nat := 8
def CTA_COUNTERS_ORIG : Nat := 9
def CTA_COUNTERS_REPLY : Nat := 10
def CTA_USE : Nat := 11
def CTA_ID : Nat := 12
def CTA_MAX : Nat := 12

def CTA_TUPLE_IP : Nat := 1
def CTA_TUPLE_PROTO : Nat := 2
def CTA_TUPLE_MAX : Nat := 2

def CTA_IP_V4_SRC : Nat := 1
def CTA_IP_V4_DST : Nat := 2
def CTA_IP_V6_SRC : Nat := 3
def CTA_IP_V6_DST : Nat := 4
def CTA_IP_MAX : Nat := 4

def CTA_PROTO_NUM : Nat := 1
def CTA_PROTO_SRC_PORT : Nat := 2
def CTA_PROTO_DST_PORT : Nat := 3
def CTA_PROTO_ICMP_ID : Nat := 4
def CTA_PROTO_ICMP_TYPE : Nat := 5
def CTA_PROTO_ICMP_CODE : Nat := 6
def CTA_PROTO_MAX : Nat := 6

def CTA_PROTOINFO_TCP : Nat := 1
def CTA_PROTOINFO_MAX : Nat := 1

def CTA_COUNTERS_PACKETS : Nat := 1
def CTA_COUNTERS_BYTES : Nat := 2
def CTA_COUNTERS32_PACKETS : Nat := 3
def CTA_COUNTERS32_BYTES : Nat := 4
def CTA_COUNTERS_MAX : Nat := 4

def CTA_NAT_MINIP : Nat := 1
def CTA_NAT_MAXIP : Nat := 2
def CTA_NAT_PROTO : Nat := 3
def CTA_NAT_MAX : Nat := 3

def CTA_EXPECT_MASTER : Nat := 1
def CTA_EXPECT_TUPLE : Nat := 2
def CTA_EXPECT_MASK : Nat := 3
def CTA_EXPECT_TIMEOUT : Nat := 4
def CTA_EXPECT_ID : Nat := 5
def CTA_EXPECT_HELP_NAME : Nat := 6
def CTA_EXPECT_MAX : Nat := 6

/-! ### Message types and header flags (kernel ABI) -/

def IPCTNL_MSG_CT_NEW : Nat := 0
def IPCTNL_MSG_CT_GET : Nat := 1
def IPCTNL_MSG_CT_DELETE : Nat := 2
def IPCTNL_MSG_CT_GET_CTRZERO : Nat := 3
def IPCTNL_MSG_MAX : Nat := 4

def IPCTNL_MSG_EXP_NEW : Nat := 0
def IPCTNL_MSG_EXP_GET : Nat := 1
def IPCTNL_MSG_EXP_DELETE : Nat := 2
def IPCTNL_MSG_EXP_MAX : Nat := 3

def NFNL_SUBSYS_CTNETLINK : Nat := 1
def NFNL_SUBSYS_CTNETLINK_EXP : Nat := 2

def NLM_F_REQUEST : Nat := 0x1
def NLM_F_MULTI : Nat := 0x2
def NLM_F_ACK : Nat := 0x4
def NLM_F_ROOT : Nat := 0x100
def NLM_F_MATCH : Nat := 0x200
def NLM_F_DUMP : Nat := NLM_F_ROOT ||| NLM_F_MATCH
def NLM_F_EXCL : Nat := 0x200
def NLM_F_CREATE : Nat := 0x400

def NLMSG_ERROR : Nat := 0x2
def NLMSG_DONE : Nat := 0x3

def AF_INET : Nat := 2
def EINVAL : Int := 22
def ENODEV : Int := 19

/-- Macro `NFNL_SUBSYS_ID`. -/
def NFNL_SUBSYS_ID (x : Nat) : Nat := (x &&& 0xff00) >>> 8

/-- Macro `NFNL_MSG_TYPE`. -/
def NFNL_MSG_TYPE (x : Nat) : Nat := x &&& 0x00ff

/-- Macro `NLMSG_LENGTH`: payload length plus the 16-byte netlink header. -/
def NLMSG_LENGTH (len : Nat) : Nat := len + 16

/-- Size of `struct nfgenmsg`. -/
def sizeof_nfgenmsg : Nat := 4

/-! ### Library constants (`libnetfilter_conntrack.h`) -/

/-- Macro `NFCT_BUFSIZE` of the source: the size of the buffer a request is
built in. -/
def NFCT_BUFSIZE : Nat := 4096

def NFCT_DIR_ORIGINAL : Nat := 0
def NFCT_DIR_REPLY : Nat := 1

def NFCT_ANY_ID : Nat := 0

def NFCT_STATUS : Nat := 1 <<< 0
def NFCT_PROTOINFO : Nat := 1 <<< 1
def NFCT_TIMEOUT : Nat := 1 <<< 2
def NFCT_MARK : Nat := 1 <<< 3
def NFCT_COUNTERS_ORIG : Nat := 1 <<< 4
def NFCT_COUNTERS_RPLY : Nat := 1 <<< 5
def NFCT_USE : Nat := 1 <<< 6
def NFCT_ID : Nat := 1 <<< 7

def NFCT_MSG_UNKNOWN : Nat := 0
def NFCT_MSG_NEW : Nat := 1
def NFCT_MSG_UPDATE : Nat := 2
def NFCT_MSG_DESTROY : Nat := 3

def IPPROTO_ICMP : Nat := 1
def IPPROTO_TCP : Nat := 6
def IPPROTO_UDP : Nat := 17
def IPPROTO_SCTP : Nat := 132
def IPPROTO_MAX : Nat := 256

/-! ## Records -/

/-- C union `nfct_l4`, seen through its member `all`. -/
structure nfct_l4 where
  all : Nat
deriving DecidableEq, Repr

/-- C struct `nfct_tuple`.  `src` and `dst` are the `v4` members, held as the
32-bit integers the host reads at those addresses; `pad` is the byte that
follows the one-byte `protonum` in memory. -/
structure nfct_tuple where
  src : Nat
  dst : Nat
  protonum : Nat
  pad : Nat
  l4src : nfct_l4
  l4dst : nfct_l4
deriving DecidableEq, Repr

/-- C struct `nfct_counters`. -/
structure nfct_counters where
  packets : Nat
  bytes : Nat
deriving DecidableEq, Repr

/-- C struct `nfct_nat`. -/
structure nfct_nat where
  min_ip : Nat
  max_ip : Nat
  l4min : nfct_l4
  l4max : nfct_l4
deriving DecidableEq, Repr

/-- A C array of two elements indexed by direction. -/
structure DirArray (α : Type) where
  original : α
  reply : α
deriving DecidableEq, Repr

/-- Read `a[dir]`. -/
def DirArray.get {α : Type} (a : DirArray α) (dir : Nat) : α :=
  if dir = NFCT_DIR_ORIGINAL then a.original else a.reply

/-- Write `a[dir] = v`. -/
def DirArray.set {α : Type} (a : DirArray α) (dir : Nat) (v : α) : DirArray α :=
  if dir = NFCT_DIR_ORIGINAL then { a with original := v } else { a with reply := v }

/-- C struct `nfct_conntrack`; `protoinfo` is the raw content of the union. -/
structure nfct_conntrack where
  tuple : DirArray nfct_tuple
  timeout : Nat
  mark : Nat
  status : Nat
  use : Nat
  id : Nat
  protoinfo : Nat
  counters : DirArray nfct_counters
  nat : nfct_nat
deriving DecidableEq, Repr

/-- C struct `nfct_expect`. -/
structure nfct_expect where
  master : nfct_tuple
  tuple : nfct_tuple
  mask : nfct_tuple
  timeout : Nat
  id : Nat
deriving DecidableEq, Repr

/-- A tuple after `memset(0)`. -/
def nfct_tuple.zero : nfct_tuple := ⟨0, 0, 0, 0, ⟨0⟩, ⟨0⟩⟩

/-- A flow record after `memset(0)`. -/
def nfct_conntrack.zero : nfct_conntrack :=
  ⟨⟨nfct_tuple.zero, nfct_tuple.zero⟩, 0, 0, 0, 0, 0, 0, ⟨⟨0, 0⟩, ⟨0, 0⟩⟩, ⟨0, 0, ⟨0⟩, ⟨0⟩⟩⟩

/-- An expectation record after `memset(0)`. -/
def nfct_expect.zero : nfct_expect :=
  ⟨nfct_tuple.zero, nfct_tuple.zero, nfct_tuple.zero, 0, 0⟩

/-! ## Outcome of a call -/

/-- What a call that may end the process, or recurse without bound, gives. -/
inductive Result (α : Type) where
  | ok (a : α)
  | exit (status : Nat)
  | diverge

/-- Sequencing: the continuation runs only after a normal return. -/
def Result.bind {α β : Type} (r : Result α) (f : α → Result β) : Result β :=
  match r with
  | Result.ok a => f a
  | Result.exit s => Result.exit s
  | Result.diverge => Result.diverge

/-! ## Requests and the attribute primitives of the netlink adapter -/

/-- C struct `nfnlhdr`: the header fields a request carries and the attributes
appended to it so far, in buffer order. -/
structure nfnlhdr where
  nlmsg_type : Nat
  nlmsg_flags : Nat
  nfgen_family : Nat
  res_id : Nat
  attrs : List nfattr

/-- A request buffer after `memset(0)`. -/
def nfnlhdr.zero : nfnlhdr := ⟨0, 0, 0, 0, []⟩

/-- C struct `nfnl_handle`, reduced to the subsystem the socket is bound to. -/
structure nfnl_handle where
  subsys_id : Nat

/-- Modelled from the spec: `fill_header` of the netlink adapter, which is not
part of this repository.  It stamps the subsystem of the handle and the message
type into the type word and stores the flags, the family and the resource id. -/
def nfnl_fill_hdr (nfnlh : nfnl_handle) (req : nfnlhdr) (family res_id msg_type msg_flags : Nat) :
    nfnlhdr :=
  { req with
    nlmsg_type := ((nfnlh.subsys_id % 256) <<< 8) ||| (msg_type % 65536)
    nlmsg_flags := msg_flags % 65536
    nfgen_family := family
    res_id := res_id }

/-- Modelled from the spec: `append_attribute` of the netlink adapter; one
attribute carrying `data` is put at the end of the buffer. -/
def nfnl_addattr_l (req : nfnlhdr) (type : Nat) (data : List Nat) : nfnlhdr :=
  { req with attrs := req.attrs ++ [nfattr.leaf type data] }

/-- Modelled from the spec: `nest_begin` of the netlink adapter.  An attribute
with nothing in it is put at the end of the buffer; the marker returned is its
position. -/
def nfnl_nest (req : nfnlhdr) (type : Nat) : nfnlhdr × Nat :=
  ({ req with attrs := req.attrs ++ [nfattr.nest type []] }, req.attrs.length)

/-- Modelled from the spec: `nest_end` of the netlink adapter.  The attribute
at the marker is stretched to the end of the buffer, so everything appended
after it becomes its content. -/
def nfnl_nest_end (req : nfnlhdr) (tail : Nat) : nfnlhdr :=
  match req.attrs.drop tail with
  | [] => req
  | a :: rest => { req with attrs := req.attrs.take tail ++ [nfattr.nest a.nfa_type rest] }

/-- Modelled from the spec: the walk of `parse_attribute_vector` over the
attributes framed in the `len` bytes at `p`.  It goes on while `len` is
positive and the header at hand gives a length of at least 4 and at most
`len` (macro `NFA_OK`), and steps by that length rounded up to a multiple of 4
(macro `NFA_NEXT`).  Every step takes at least 4 from `len`, so the walk ends
within `len` steps; `fuel` bounds their number. -/
def nfattr_walk (e : Endian) : Nat → (Nat → Nat) → Int → List nfattr_ptr
  | 0, _, _ => []
  | fuel + 1, p, len =>
    if 0 < len ∧ NFA_LENGTH 0 ≤ (nfattr_at e p).nfa_len ∧ ((nfattr_at e p).nfa_len : Int) ≤ len then
      nfattr_at e p ::
        nfattr_walk e fuel (fun i => p (i + NFA_ALIGN (nfattr_at e p).nfa_len))
          (len - (NFA_ALIGN (nfattr_at e p).nfa_len : Nat))
    else []

/-- Modelled from the spec: `parse_attribute_vector` of the netlink adapter.
The table is cleared, then every attribute framed in the `len` bytes at `p`
whose type is in `1..max` is stored at index `type - 1`, a later one replacing
an earlier one. -/
def nfnl_parse_attr (e : Endian) (max : Nat) (p : Nat → Nat) (len : Int) (i : Nat) :
    Option nfattr_ptr :=
  if i < max then (nfattr_walk e len.toNat p len).reverse.find? (fun a => a.nfa_type == i + 1)
  else none

/-- Modelled from the spec: `parse_nested` of the netlink adapter, which parses
the `NFA_PAYLOAD` bytes at `NFA_DATA`. -/
def nfnl_parse_nested (e : Endian) (max : Nat) (attr : nfattr_ptr) (i : Nat) :
    Option nfattr_ptr :=
  nfnl_parse_attr e max attr.mem (NFA_PAYLOAD attr) i

/-! ## Protocol handlers and the world outside the arguments -/

/-- Modelled from the spec: C struct `nfct_proto`, declared in a header that is
not part of the sources at hand.  A handler carries a name, a version stamp and
optional routines.  Following the handler contract, a build routine yields the
attributes it appends to the request, `parse_proto` yields the layer-4 endpoint
pair of the tuple and `parse_protoinfo` yields the protocol state of the flow.
The print routines are left out. -/
structure nfct_proto where
  name : String
  version : String
  build_tuple_proto : Option (nfct_tuple → List nfattr)
  build_protoinfo : Option (nfct_conntrack → List nfattr)
  parse_proto : Option ((Nat → Option nfattr_ptr) → nfct_tuple → nfct_l4 × nfct_l4)
  parse_protoinfo : Option ((Nat → Option nfattr_ptr) → nfct_conntrack → Nat)

/-- C struct `nlmsghdr` of a received message together with the memory it lies
in.  `error` is the code an `NLMSG_ERROR` message carries; `data` is the memory
from `NFA_DATA(NLMSG_DATA(nlh))` on, so the bytes behind the netlink header
and the `nfgenmsg` header, as far as the receive buffer and what follows it
reach, whatever `nlmsg_len` says. -/
structure nlmsghdr where
  nlmsg_len : Nat
  nlmsg_type : Nat
  nlmsg_flags : Nat
  error : Int
  data : Nat → Nat

/-- First argument of the user callback: the record it is handed. -/
inductive CallbackArg where
  | conntrack (ct : nfct_conntrack)
  | expect (exp : nfct_expect)
deriving DecidableEq, Repr

/-- One invocation of the user callback. -/
structure CallbackCall where
  arg : CallbackArg
  flags : Nat
  type : Nat
  data : Nat
deriving DecidableEq, Repr

/-- One call to a transport primitive of the netlink adapter. -/
inductive TransportEvent where
  | send (req : nfnlhdr)
  | talk (req : nfnlhdr)
  | listen

/-- Everything the code reaches without being handed it.
* `proto_list`: the registered handlers, most recent first;
* `getenv_dir`: the value of the environment variable `LIBNETFILTER_CONNTRACK_DIR`;
* `files`: for each path, the handlers the initialiser of the shared object
  found there registers, or `none` when the loader cannot map that path;
* `loaded`: the paths already mapped;
* `send_result`, `talk_result`: the code the adapter returns for a request;
* `inbox`: the messages the socket delivers, after which it reports end of file;
* `trace`: the calls made to the adapter so far;
* `calls`: the invocations of the user callback so far;
* `overrun`: the number of bytes written so far behind the end of the buffer
  `path` of `findproto`. -/
structure World where
  proto_list : List nfct_proto
  getenv_dir : Option String
  files : String → Option (List nfct_proto)
  loaded : List String
  send_result : nfnlhdr → Int
  talk_result : nfnlhdr → Int
  inbox : List nlmsghdr
  trace : List TransportEvent
  calls : List CallbackCall
  overrun : Nat

/-- The table `proto2str`. -/
def proto2str (protonum : Nat) : Option String :=
  if protonum = IPPROTO_TCP then some "tcp"
  else if protonum = IPPROTO_UDP then some "udp"
  else if protonum = IPPROTO_ICMP then some "icmp"
  else if protonum = IPPROTO_SCTP then some "sctp"
  else none

/-- Source function `nfct_register_proto`. -/
def nfct_register_proto (b : Build) (w : World) (h : nfct_proto) : Result World :=
  if h.version ≠ b.VERSION then Result.exit 1
  else Result.ok { w with proto_list := h :: w.proto_list }

/-- The initialiser of a shared object: it registers its handlers in turn. -/
def run_init (b : Build) : World → List nfct_proto → Result World
  | w, [] => Result.ok w
  | w, h :: hs => (nfct_register_proto b w h).bind (fun w1 => run_init b w1 hs)

/-- Modelled from the spec: the plugin loader (`dlopen` with immediate symbol
resolution).  A path that cannot be mapped gives failure; a path mapped before
gives success and runs nothing; otherwise the initialiser runs. -/
def dlopen (b : Build) (w : World) (path : String) : Result (World × Bool) :=
  if path ∈ w.loaded then Result.ok (w, true)
  else
    match w.files path with
    | none => Result.ok (w, false)
    | some hs => (run_init b { w with loaded := path :: w.loaded } hs).bind
        (fun w1 => Result.ok (w1, true))

/-- The scan of `proto_list` by name inside `findproto`. -/
def scan_proto_list (l : List nfct_proto) (name : String) : Option nfct_proto :=
  l.find? (fun cur => cur.name == name)

/-- The string `sprintf(path, "%s/nfct_proto_%s.so", lib_dir, name)` formats,
which is the path `findproto` hands to the loader. -/
def plugin_path (lib_dir name : String) : String :=
  lib_dir ++ "/nfct_proto_" ++ name ++ ".so"

/-- The number of elements of the array `path` in `findproto`:
`sizeof("nfct_proto_.so") + strlen(name) + strlen(lib_dir)`. -/
def path_size (lib_dir name : String) : Nat :=
  sizeof_literal "nfct_proto_.so" + strlen name + strlen lib_dir

/-- The number of bytes `sprintf` writes for a string: its bytes and the NUL. -/
def sprintf_bytes (s : String) : Nat := strlen s + 1

/-- The value `findproto` gives the static `lib_dir` on entry: the environment
variable when it is set, the compile-time default otherwise. -/
def lib_dir (b : Build) (w : World) : String :=
  match w.getenv_dir with
  | some d => d
  | none => b.LIBNETFILTER_CONNTRACK_DIR

/-- Source function `findproto`; `name` is `none` for a null pointer.  One unit
of fuel is spent on each entry.  When the scan finds nothing the path is
formatted into the array `path`, and the bytes that do not fit it are counted
in `overrun`. -/
def findproto (b : Build) : Nat → World → Option String → Result (World × Option nfct_proto)
  | 0, _, _ => Result.diverge
  | _ + 1, w, none => Result.ok (w, none)
  | fuel + 1, w, some name =>
    match scan_proto_list w.proto_list name with
    | some handler => Result.ok (w, some handler)
    | none =>
      let path := plugin_path (lib_dir b w) name
      let w := { w with
        overrun := w.overrun + (sprintf_bytes path - path_size (lib_dir b w) name) }
      (dlopen b w path).bind (fun r =>
        if r.2 then findproto b fuel r.1 (some name)
        else Result.ok (r.1, none))

/-! ## Build path -/

/-- Source function `nfct_build_tuple_ip`. -/
def nfct_build_tuple_ip (b : Build) (req : nfnlhdr) (t : nfct_tuple) : nfnlhdr :=
  let n := nfnl_nest req CTA_TUPLE_IP
  let req := nfnl_addattr_l n.1 CTA_IP_V4_SRC (obj_bytes b.endian 4 t.src)
  let req := nfnl_addattr_l req CTA_IP_V4_DST (obj_bytes b.endian 4 t.dst)
  nfnl_nest_end req n.2

/-- The two bytes `nfnl_addattr_l` copies from the address of the one-byte
`protonum` when told to copy `sizeof(u_int16_t)`. -/
def protonum_bytes (t : nfct_tuple) : List Nat := [t.protonum % 256, t.pad % 256]

/-- Source function `nfct_build_tuple_proto`. -/
def nfct_build_tuple_proto (b : Build) (fuel : Nat) (w : World) (req : nfnlhdr) (t : nfct_tuple) :
    Result (World × nfnlhdr) :=
  let n := nfnl_nest req CTA_TUPLE_PROTO
  let req := nfnl_addattr_l n.1 CTA_PROTO_NUM (protonum_bytes t)
  (findproto b fuel w (proto2str t.protonum)).bind (fun r =>
    let req := match r.2 with
      | some h =>
        match h.build_tuple_proto with
        | some build => { req with attrs := req.attrs ++ build t }
        | none => req
      | none => req
    Result.ok (r.1, nfnl_nest_end req n.2))

/-- Source function `nfct_build_tuple`. -/
def nfct_build_tuple (b : Build) (fuel : Nat) (w : World) (req : nfnlhdr) (t : nfct_tuple)
    (type : Nat) : Result (World × nfnlhdr) :=
  let n := nfnl_nest req type
  let req := nfct_build_tuple_ip b n.1 t
  (nfct_build_tuple_proto b fuel w req t).bind (fun r =>
    Result.ok (r.1, nfnl_nest_end r.2 n.2))

/-- Source function `nfct_build_protoinfo`. -/
def nfct_build_protoinfo (b : Build) (fuel : Nat) (w : World) (req : nfnlhdr)
    (ct : nfct_conntrack) : Result (World × nfnlhdr) :=
  (findproto b fuel w (proto2str (ct.tuple.get NFCT_DIR_ORIGINAL).protonum)).bind (fun r =>
    match r.2 with
    | some h =>
      match h.build_protoinfo with
      | some build =>
        let n := nfnl_nest req CTA_PROTOINFO
        let req := { n.1 with attrs := n.1.attrs ++ build ct }
        Result.ok (r.1, nfnl_nest_end req n.2)
      | none => Result.ok (r.1, req)
    | none => Result.ok (r.1, req))

/-- Source function `nfct_build_protonat`; both cases of its `switch` are
compiled out, so nothing is put between the two nest calls. -/
def nfct_build_protonat (req : nfnlhdr) (_ct : nfct_conntrack) : nfnlhdr :=
  let n := nfnl_nest req CTA_NAT_PROTO
  nfnl_nest_end n.1 n.2

/-- Source function `nfct_build_nat`. -/
def nfct_build_nat (b : Build) (req : nfnlhdr) (ct : nfct_conntrack) : nfnlhdr :=
  let n := nfnl_nest req CTA_NAT
  let req := nfnl_addattr_l n.1 CTA_NAT_MINIP (obj_bytes b.endian 4 ct.nat.min_ip)
  let req := if ct.nat.min_ip ≠ ct.nat.max_ip then
      nfnl_addattr_l req CTA_NAT_MAXIP (obj_bytes b.endian 4 ct.nat.max_ip)
    else req
  let req := if ct.nat.l4min.all ≠ ct.nat.l4max.all then nfct_build_protonat req ct else req
  nfnl_nest_end req n.2

/-- Source function `nfct_build_conntrack`.  `status`, `id` and `mark` are
`unsigned int` locals and are copied with `sizeof(unsigned int)`; `timeout` is
an `unsigned long` local and is copied with `sizeof(unsigned long)`. -/
def nfct_build_conntrack (b : Build) (fuel : Nat) (w : World) (req : nfnlhdr)
    (ct : nfct_conntrack) : Result (World × nfnlhdr) :=
  let status := htonl b.endian ct.status
  let timeout := htonl b.endian ct.timeout
  let id := htonl b.endian ct.id
  let mark := htonl b.endian ct.mark
  (nfct_build_tuple b fuel w req (ct.tuple.get NFCT_DIR_ORIGINAL) CTA_TUPLE_ORIG).bind (fun r1 =>
  (nfct_build_tuple b fuel r1.1 r1.2 (ct.tuple.get NFCT_DIR_REPLY) CTA_TUPLE_REPLY).bind (fun r2 =>
    let req := nfnl_addattr_l r2.2 CTA_STATUS (obj_bytes b.endian 4 status)
    let req := nfnl_addattr_l req CTA_TIMEOUT (obj_bytes b.endian b.sizeof_long timeout)
    let req := if ct.mark ≠ 0 then nfnl_addattr_l req CTA_MARK (obj_bytes b.endian 4 mark) else req
    let req := if ct.id ≠ NFCT_ANY_ID then nfnl_addattr_l req CTA_ID (obj_bytes b.endian 4 id)
      else req
    (nfct_build_protoinfo b fuel r2.1 req ct).bind (fun r3 =>
      let req := if ct.nat.min_ip ≠ 0 then nfct_build_nat b r3.2 ct else r3.2
      Result.ok (r3.1, req))))

/-! ## Parse path -/

/-- Source function `parse_ip`. -/
def parse_ip (b : Build) (attr : nfattr_ptr) (tuple : nfct_tuple) : nfct_tuple :=
  let tb := nfnl_parse_nested b.endian CTA_IP_MAX attr
  let tuple := match tb (CTA_IP_V4_SRC - 1) with
    | some a => { tuple with src := deref_u32 b a }
    | none => tuple
  match tb (CTA_IP_V4_DST - 1) with
  | some a => { tuple with dst := deref_u32 b a }
  | none => tuple

/-- Source function `parse_proto`. -/
def parse_proto (b : Build) (fuel : Nat) (w : World) (attr : nfattr_ptr) (tuple : nfct_tuple) :
    Result (World × nfct_tuple) :=
  let tb := nfnl_parse_nested b.endian CTA_PROTO_MAX attr
  let tuple := match tb (CTA_PROTO_NUM - 1) with
    | some a => { tuple with protonum := deref_u8 a }
    | none => tuple
  (findproto b fuel w (proto2str tuple.protonum)).bind (fun r =>
    match r.2 with
    | some h =>
      match h.parse_proto with
      | some parse =>
        Result.ok (r.1, { tuple with l4src := (parse tb tuple).1, l4dst := (parse tb tuple).2 })
      | none => Result.ok (r.1, tuple)
    | none => Result.ok (r.1, tuple))

/-- Source function `parse_tuple`. -/
def parse_tuple (b : Build) (fuel : Nat) (w : World) (attr : nfattr_ptr) (tuple : nfct_tuple) :
    Result (World × nfct_tuple) :=
  let tb := nfnl_parse_nested b.endian CTA_TUPLE_MAX attr
  let tuple := match tb (CTA_TUPLE_IP - 1) with
    | some a => parse_ip b a tuple
    | none => tuple
  match tb (CTA_TUPLE_PROTO - 1) with
  | some a => parse_proto b fuel w a tuple
  | none => Result.ok (w, tuple)

/-- Source function `parse_protoinfo`. -/
def parse_protoinfo (b : Build) (fuel : Nat) (w : World) (attr : nfattr_ptr) (ct : nfct_conntrack) :
    Result (World × nfct_conntrack) :=
  let tb := nfnl_parse_nested b.endian CTA_PROTOINFO_MAX attr
  (findproto b fuel w (proto2str (ct.tuple.get NFCT_DIR_ORIGINAL).protonum)).bind (fun r =>
    match r.2 with
    | some h =>
      match h.parse_protoinfo with
      | some parse => Result.ok (r.1, { ct with protoinfo := parse tb ct })
      | none => Result.ok (r.1, ct)
    | none => Result.ok (r.1, ct))

/-- Source function `nfct_parse_counters`. -/
def nfct_parse_counters (b : Build) (attr : nfattr_ptr) (ct : nfct_conntrack) (parent : Nat) :
    nfct_conntrack :=
  let dir := if parent = CTA_COUNTERS_ORIG then NFCT_DIR_REPLY else NFCT_DIR_ORIGINAL
  let tb := nfnl_parse_nested b.endian CTA_COUNTERS_MAX attr
  let ct := match tb (CTA_COUNTERS_PACKETS - 1) with
    | some a =>
      let c := { (ct.counters.get dir) with packets := be64_to_cpu b.endian (deref_u64 b a) }
      { ct with counters := ct.counters.set dir c }
    | none => ct
  let ct := match tb (CTA_COUNTERS_BYTES - 1) with
    | some a =>
      let c := { (ct.counters.get dir) with bytes := be64_to_cpu b.endian (deref_u64 b a) }
      { ct with counters := ct.counters.set dir c }
    | none => ct
  let ct := match tb (CTA_COUNTERS32_PACKETS - 1) with
    | some a =>
      let c := { (ct.counters.get dir) with packets := htonl b.endian (deref_u32 b a) }
      { ct with counters := ct.counters.set dir c }
    | none => ct
  match tb (CTA_COUNTERS32_BYTES - 1) with
  | some a =>
    let c := { (ct.counters.get dir) with bytes := htonl b.endian (deref_u32 b a) }
    { ct with counters := ct.counters.set dir c }
  | none => ct

/-- Source function `typemsg2enum`; both arguments are `u_int16_t`. -/
def typemsg2enum (type flags : Nat) : Nat :=
  if type % 65536 = IPCTNL_MSG_CT_NEW then
    if (flags % 65536) &&& (NLM_F_CREATE ||| NLM_F_EXCL) ≠ 0 then NFCT_MSG_NEW
    else NFCT_MSG_UPDATE
  else if type % 65536 = IPCTNL_MSG_CT_DELETE then NFCT_MSG_DESTROY
  else NFCT_MSG_UNKNOWN

/-! ## Handles and reply handlers -/

/-- The three functions the library stores in the handler slot of a handle. -/
inductive nfct_handler where
  | conntrack
  | event
  | expect
deriving DecidableEq, Repr

/-- C struct `nfct_handle`.  The user callback answers an integer. -/
structure nfct_handle where
  nfnlh : nfnl_handle
  callback : Option (CallbackArg → Nat → Nat → Nat → Int)
  callback_data : Nat
  handler : Option nfct_handler

/-- The conversion of a 32-bit unsigned value to `int`. -/
def to_int (x : Nat) : Int :=
  if x % 2 ^ 32 < 2 ^ 31 then ((x % 2 ^ 32 : Nat) : Int) else ((x % 2 ^ 32 : Nat) : Int) - 2 ^ 32

/-- The statement `len -= n` for an `int` `len` and a `size_t` `n`: `len` is
converted to `size_t`, the difference is taken there, and the result is
converted back to `int`, which keeps its 32 low-order bits. -/
def sub_size_t (len : Int) (n : Nat) : Int := to_int ((len - (n : Int)) % 2 ^ 32).toNat

/-- The value of `len` the two reply handlers test and then hand to
`nfnl_parse_attr`: `int len = nlh->nlmsg_len; len -= NLMSG_LENGTH(sizeof(struct
nfgenmsg));`. -/
def attr_len (nlh : nlmsghdr) : Int :=
  sub_size_t (to_int nlh.nlmsg_len) (NLMSG_LENGTH sizeof_nfgenmsg)

/-- The call of the user callback at the end of a reply handler: the
invocation is recorded and the answer of the callback is `ret`; without a
callback nothing is recorded and `ret` keeps its initial 0. -/
def invoke_callback (w : World) (cth : nfct_handle) (arg : CallbackArg) (flags type : Nat) :
    World × Int :=
  match cth.callback with
  | some cb =>
    ({ w with calls := w.calls ++ [⟨arg, flags, type, cth.callback_data⟩] },
      cb arg flags type cth.callback_data)
  | none => (w, 0)

/-- Source function `nfct_conntrack_netlink_handler`. -/
def nfct_conntrack_netlink_handler (b : Build) (fuel : Nat) (w : World) (cth : nfct_handle)
    (nlh : nlmsghdr) : Result (World × Int) :=
  let flags := 0
  let type := NFNL_MSG_TYPE nlh.nlmsg_type
  let len := attr_len nlh
  if len < 0 then Result.ok (w, -EINVAL)
  else
    let ct := nfct_conntrack.zero
    let cda := nfnl_parse_attr b.endian CTA_MAX nlh.data len
    (match cda (CTA_TUPLE_ORIG - 1) with
      | some a => (parse_tuple b fuel w a (ct.tuple.get NFCT_DIR_ORIGINAL)).bind (fun r =>
          Result.ok (r.1, { ct with tuple := ct.tuple.set NFCT_DIR_ORIGINAL r.2 }))
      | none => Result.ok (w, ct)).bind (fun s1 =>
    (match cda (CTA_TUPLE_REPLY - 1) with
      | some a => (parse_tuple b fuel s1.1 a (s1.2.tuple.get NFCT_DIR_REPLY)).bind (fun r =>
          Result.ok (r.1, { s1.2 with tuple := s1.2.tuple.set NFCT_DIR_REPLY r.2 }))
      | none => Result.ok s1).bind (fun s2 =>
    let ct := s2.2
    let cf := match cda (CTA_STATUS - 1) with
      | some a => ({ ct with status := ntohl b.endian (deref_u32 b a) }, flags ||| NFCT_STATUS)
      | none => (ct, flags)
    (match cda (CTA_PROTOINFO - 1) with
      | some a => (parse_protoinfo b fuel s2.1 a cf.1).bind (fun r =>
          Result.ok (r.1, r.2, cf.2 ||| NFCT_PROTOINFO))
      | none => Result.ok (s2.1, cf)).bind (fun s3 =>
    let cf := s3.2
    let cf := match cda (CTA_TIMEOUT - 1) with
      | some a => ({ cf.1 with timeout := ntohl b.endian (deref_u32 b a) }, cf.2 ||| NFCT_TIMEOUT)
      | none => cf
    let cf := match cda (CTA_MARK - 1) with
      | some a => ({ cf.1 with mark := ntohl b.endian (deref_u32 b a) }, cf.2 ||| NFCT_MARK)
      | none => cf
    let cf := match cda (CTA_COUNTERS_ORIG - 1) with
      | some a => (nfct_parse_counters b a cf.1 (a.nfa_type - 1), cf.2 ||| NFCT_COUNTERS_ORIG)
      | none => cf
    let cf := match cda (CTA_COUNTERS_REPLY - 1) with
      | some a => (nfct_parse_counters b a cf.1 (a.nfa_type - 1), cf.2 ||| NFCT_COUNTERS_RPLY)
      | none => cf
    let cf := match cda (CTA_USE - 1) with
      | some a => ({ cf.1 with use := ntohl b.endian (deref_u32 b a) }, cf.2 ||| NFCT_USE)
      | none => cf
    let cf := match cda (CTA_ID - 1) with
      | some a => ({ cf.1 with id := ntohl b.endian (deref_u32 b a) }, cf.2 ||| NFCT_ID)
      | none => cf
    Result.ok (invoke_callback s3.1 cth (CallbackArg.conntrack cf.1) cf.2
      (typemsg2enum type nlh.nlmsg_flags)))))

/-- Source function `nfct_event_netlink_handler`; what it prints is not kept. -/
def nfct_event_netlink_handler (b : Build) (fuel : Nat) (w : World) (cth : nfct_handle)
    (nlh : nlmsghdr) : Result (World × Int) :=
  nfct_conntrack_netlink_handler b fuel w cth nlh

/-- Source function `nfct_expect_netlink_handler`. -/
def nfct_expect_netlink_handler (b : Build) (fuel : Nat) (w : World) (cth : nfct_handle)
    (nlh : nlmsghdr) : Result (World × Int) :=
  let type := NFNL_MSG_TYPE nlh.nlmsg_type
  let len := attr_len nlh
  if len < 0 then Result.ok (w, -EINVAL)
  else
    let exp := nfct_expect.zero
    let cda := nfnl_parse_attr b.endian CTA_EXPECT_MAX nlh.data len
    (match cda (CTA_EXPECT_TUPLE - 1) with
      | some a => (parse_tuple b fuel w a exp.tuple).bind (fun r =>
          Result.ok (r.1, { exp with tuple := r.2 }))
      | none => Result.ok (w, exp)).bind (fun s1 =>
    (match cda (CTA_EXPECT_MASK - 1) with
      | some a => (parse_tuple b fuel s1.1 a s1.2.mask).bind (fun r =>
          Result.ok (r.1, { s1.2 with mask := r.2 }))
      | none => Result.ok s1).bind (fun s2 =>
    let exp := s2.2
    let exp := match cda (CTA_EXPECT_TIMEOUT - 1) with
      | some a => { exp with timeout := ntohl b.endian (deref_ulong b a) }
      | none => exp
    let exp := match cda (CTA_EXPECT_ID - 1) with
      | some a => { exp with id := ntohl b.endian (deref_u32 b a) }
      | none => exp
    let r := invoke_callback s2.1 cth (CallbackArg.expect exp) 0
      (typemsg2enum type nlh.nlmsg_flags)
    Result.ok (r.1, 0)))

/-- The call through the handler slot. -/
def nfct_handler.run (h : nfct_handler) (b : Build) (fuel : Nat) (w : World) (cth : nfct_handle)
    (nlh : nlmsghdr) : Result (World × Int) :=
  match h with
  | nfct_handler.conntrack => nfct_conntrack_netlink_handler b fuel w cth nlh
  | nfct_handler.event => nfct_event_netlink_handler b fuel w cth nlh
  | nfct_handler.expect => nfct_expect_netlink_handler b fuel w cth nlh

/-- Source function `callback_handler`; `arg` is `none` for a null pointer. -/
def callback_handler (b : Build) (fuel : Nat) (w : World) (n : nlmsghdr)
    (arg : Option nfct_handle) : Result (World × Int) :=
  if NFNL_SUBSYS_ID n.nlmsg_type ≠ NFNL_SUBSYS_CTNETLINK ∧
      NFNL_SUBSYS_ID n.nlmsg_type ≠ NFNL_SUBSYS_CTNETLINK_EXP then
    Result.ok (w, 0)
  else
    match arg with
    | none => Result.ok (w, -ENODEV)
    | some cth =>
      match cth.handler with
      | none => Result.ok (w, -ENODEV)
      | some h => h.run b fuel w cth n

/-! ## Transport primitives -/

/-- Modelled from the spec: `send` of the netlink adapter. -/
def nfnl_send (w : World) (req : nfnlhdr) : World × Int :=
  ({ w with trace := w.trace ++ [TransportEvent.send req] }, w.send_result req)

/-- Modelled from the spec: `talk` of the netlink adapter, which sends the
request and waits for its acknowledgement. -/
def nfnl_talk (w : World) (req : nfnlhdr) : World × Int :=
  ({ w with trace := w.trace ++ [TransportEvent.talk req] }, w.talk_result req)

/-- The receive loop of `nfnl_listen` over the messages still to come.  The
end of a dump gives 0, an acknowledgement gives the code it carries, a nonzero
answer of the trampoline stops the loop and is returned, and the end of the
stream gives -1. -/
def nfnl_listen_loop (handler : World → nlmsghdr → Result (World × Int)) :
    World → List nlmsghdr → Result (World × Int)
  | w, [] => Result.ok ({ w with inbox := [] }, -1)
  | w, n :: rest =>
    if n.nlmsg_type = NLMSG_DONE then Result.ok ({ w with inbox := rest }, 0)
    else if n.nlmsg_type = NLMSG_ERROR then Result.ok ({ w with inbox := rest }, n.error)
    else
      (handler { w with inbox := rest } n).bind (fun r =>
        if r.2 ≠ 0 then Result.ok r else nfnl_listen_loop handler r.1 rest)

/-- Modelled from the spec: `listen` of the netlink adapter. -/
def nfnl_listen (w : World) (handler : World → nlmsghdr → Result (World × Int)) :
    Result (World × Int) :=
  nfnl_listen_loop handler { w with trace := w.trace ++ [TransportEvent.listen] } w.inbox

/-- The call `nfnl_listen(&cth->nfnlh, &callback_handler, cth)`. -/
def listen_with (b : Build) (fuel : Nat) (w : World) (cth : nfct_handle) :
    Result (World × nfct_handle × Int) :=
  (nfnl_listen w (fun w1 n => callback_handler b fuel w1 n (some cth))).bind (fun r =>
    Result.ok (r.1, cth, r.2))

/-- The tail shared by the draining verbs: `err = nfnl_send(...)`, return it
when negative, otherwise return what `nfnl_listen` gives. -/
def send_then_listen (b : Build) (fuel : Nat) (w : World) (cth : nfct_handle) (req : nfnlhdr) :
    Result (World × nfct_handle × Int) :=
  let s := nfnl_send w req
  if s.2 < 0 then Result.ok (s.1, cth, s.2)
  else listen_with b fuel s.1 cth

/-! ## Public operations -/

/-- Source function `nfct_conntrack_alloc`; `none` is the null pointer
returned when `malloc` fails, and `range` is `none` for a null pointer. -/
def nfct_conntrack_alloc (malloc_ok : Bool) (orig reply : nfct_tuple) (timeout protoinfo status
    mark id : Nat) (range : Option nfct_nat) : Option nfct_conntrack :=
  if malloc_ok = false then none
  else
    let ct := nfct_conntrack.zero
    let ct := { ct with tuple := (ct.tuple.set NFCT_DIR_ORIGINAL orig).set NFCT_DIR_REPLY reply }
    let ct := { ct with timeout := timeout, status := status, protoinfo := protoinfo, mark := mark }
    let ct := if id ≠ NFCT_ANY_ID then { ct with id := id } else ct
    match range with
    | some r => some { ct with nat := r }
    | none => some ct

/-- Source function `nfct_create_conntrack`. -/
def nfct_create_conntrack (b : Build) (fuel : Nat) (w : World) (cth : nfct_handle)
    (ct : nfct_conntrack) : Result (World × nfct_handle × Int) :=
  let req := nfnl_fill_hdr cth.nfnlh nfnlhdr.zero AF_INET 0 IPCTNL_MSG_CT_NEW
    (NLM_F_REQUEST ||| NLM_F_CREATE ||| NLM_F_ACK ||| NLM_F_EXCL)
  (nfct_build_conntrack b fuel w req ct).bind (fun r =>
    let t := nfnl_talk r.1 r.2
    Result.ok (t.1, cth, t.2))

/-- Source function `nfct_update_conntrack`. -/
def nfct_update_conntrack (b : Build) (fuel : Nat) (w : World) (cth : nfct_handle)
    (ct : nfct_conntrack) : Result (World × nfct_handle × Int) :=
  let req := nfnl_fill_hdr cth.nfnlh nfnlhdr.zero AF_INET 0 IPCTNL_MSG_CT_NEW
    (NLM_F_REQUEST ||| NLM_F_ACK)
  (nfct_build_conntrack b fuel w req ct).bind (fun r =>
    send_then_listen b fuel r.1 cth r.2)

/-- Source function `nfct_delete_conntrack`. -/
def nfct_delete_conntrack (b : Build) (fuel : Nat) (w : World) (cth : nfct_handle)
    (tuple : nfct_tuple) (dir : Int) (id : Nat) : Result (World × nfct_handle × Int) :=
  let type := if dir ≠ 0 then CTA_TUPLE_REPLY else CTA_TUPLE_ORIG
  let req := nfnl_fill_hdr cth.nfnlh nfnlhdr.zero AF_INET 0 IPCTNL_MSG_CT_DELETE
    (NLM_F_ROOT ||| NLM_F_MATCH ||| NLM_F_REQUEST ||| NLM_F_ACK)
  (nfct_build_tuple b fuel w req tuple type).bind (fun r =>
    let req := if id ≠ NFCT_ANY_ID then
        nfnl_addattr_l r.2 CTA_ID (obj_bytes b.endian 4 (htonl b.endian id))
      else r.2
    let t := nfnl_talk r.1 req
    Result.ok (t.1, cth, t.2))

/-- Source function `nfct_get_conntrack`. -/
def nfct_get_conntrack (b : Build) (fuel : Nat) (w : World) (cth : nfct_handle)
    (tuple : nfct_tuple) (dir : Int) (id : Nat) : Result (World × nfct_handle × Int) :=
  let type := if dir ≠ 0 then CTA_TUPLE_REPLY else CTA_TUPLE_ORIG
  let cth := { cth with handler := some nfct_handler.conntrack }
  let req := nfnl_fill_hdr cth.nfnlh nfnlhdr.zero AF_INET 0 IPCTNL_MSG_CT_GET
    (NLM_F_REQUEST ||| NLM_F_ACK)
  (nfct_build_tuple b fuel w req tuple type).bind (fun r =>
    let req := if id ≠ NFCT_ANY_ID then
        nfnl_addattr_l r.2 CTA_ID (obj_bytes b.endian 4 (htonl b.endian id))
      else r.2
    send_then_listen b fuel r.1 cth req)

/-- Source function `__nfct_dump_conntrack_table`. -/
def nfct_dump_conntrack_table_aux (b : Build) (fuel : Nat) (w : World) (cth : nfct_handle)
    (zero : Int) : Result (World × nfct_handle × Int) :=
  let cth := { cth with handler := some nfct_handler.conntrack }
  let msg := if zero ≠ 0 then IPCTNL_MSG_CT_GET_CTRZERO else IPCTNL_MSG_CT_GET
  let req := nfnl_fill_hdr cth.nfnlh nfnlhdr.zero AF_INET 0 msg
    (NLM_F_ROOT ||| NLM_F_MATCH ||| NLM_F_REQUEST ||| NLM_F_DUMP)
  send_then_listen b fuel w cth req

/-- Source function `nfct_dump_conntrack_table`. -/
def nfct_dump_conntrack_table (b : Build) (fuel : Nat) (w : World) (cth : nfct_handle) :
    Result (World × nfct_handle × Int) :=
  nfct_dump_conntrack_table_aux b fuel w cth 0

/-- Source function `nfct_dump_conntrack_table_reset_counters`. -/
def nfct_dump_conntrack_table_reset_counters (b : Build) (fuel : Nat) (w : World)
    (cth : nfct_handle) : Result (World × nfct_handle × Int) :=
  nfct_dump_conntrack_table_aux b fuel w cth 1

/-- Source function `nfct_event_conntrack`. -/
def nfct_event_conntrack (b : Build) (fuel : Nat) (w : World) (cth : nfct_handle) :
    Result (World × nfct_handle × Int) :=
  let cth := { cth with handler := some nfct_handler.event }
  listen_with b fuel w cth

/-- Source function `nfct_dump_expect_list`. -/
def nfct_dump_expect_list (b : Build) (fuel : Nat) (w : World) (cth : nfct_handle) :
    Result (World × nfct_handle × Int) :=
  let cth := { cth with handler := some nfct_handler.expect }
  let req := nfnl_fill_hdr cth.nfnlh nfnlhdr.zero AF_INET 0 IPCTNL_MSG_EXP_GET
    (NLM_F_ROOT ||| NLM_F_MATCH ||| NLM_F_REQUEST)
  send_then_listen b fuel w cth req

/-- Source function `nfct_flush_conntrack_table`. -/
def nfct_flush_conntrack_table (w : World) (cth : nfct_handle) : World × nfct_handle × Int :=
  let req := nfnl_fill_hdr cth.nfnlh nfnlhdr.zero AF_INET 0 IPCTNL_MSG_CT_DELETE
    (NLM_F_REQUEST ||| NLM_F_ACK)
  let t := nfnl_talk w req
  (t.1, cth, t.2)

/-- Source function `nfct_get_expectation`; `id` is copied as it stands. -/
def nfct_get_expectation (b : Build) (fuel : Nat) (w : World) (cth : nfct_handle)
    (tuple : nfct_tuple) (id : Nat) : Result (World × nfct_handle × Int) :=
  let req := nfnl_fill_hdr cth.nfnlh nfnlhdr.zero AF_INET 0 IPCTNL_MSG_EXP_GET
    (NLM_F_REQUEST ||| NLM_F_ACK)
  let cth := { cth with handler := some nfct_handler.expect }
  (nfct_build_tuple b fuel w req tuple CTA_EXPECT_MASTER).bind (fun r =>
    let req := if id ≠ NFCT_ANY_ID then nfnl_addattr_l r.2 CTA_EXPECT_ID (obj_bytes b.endian 4 id)
      else r.2
    send_then_listen b fuel r.1 cth req)

/-- Source function `nfct_expect_alloc`; `none` is the null pointer returned
when `malloc` fails. -/
def nfct_expect_alloc (b : Build) (malloc_ok : Bool) (master tuple mask : nfct_tuple)
    (timeout id : Nat) : Option nfct_expect :=
  if malloc_ok = false then none
  else
    let exp := nfct_expect.zero
    let exp := { exp with master := master, tuple := tuple, mask := mask }
    let exp := { exp with timeout := htonl b.endian timeout }
    if id ≠ NFCT_ANY_ID then some { exp with id := htonl b.endian id } else some exp

/-- The attributes `nfct_create_expectation` puts into its request. -/
def nfct_create_expectation_body (b : Build) (fuel : Nat) (w : World) (req : nfnlhdr)
    (exp : nfct_expect) : Result (World × nfnlhdr) :=
  (nfct_build_tuple b fuel w req exp.master CTA_EXPECT_MASTER).bind (fun r1 =>
  (nfct_build_tuple b fuel r1.1 r1.2 exp.tuple CTA_EXPECT_TUPLE).bind (fun r2 =>
  (nfct_build_tuple b fuel r2.1 r2.2 exp.mask CTA_EXPECT_MASK).bind (fun r3 =>
    Result.ok (r3.1, nfnl_addattr_l r3.2 CTA_EXPECT_TIMEOUT
      (obj_bytes b.endian b.sizeof_long exp.timeout)))))

/-- Source function `nfct_create_expectation`. -/
def nfct_create_expectation (b : Build) (fuel : Nat) (w : World) (cth : nfct_handle)
    (exp : nfct_expect) : Result (World × nfct_handle × Int) :=
  let req := nfnl_fill_hdr cth.nfnlh nfnlhdr.zero AF_INET 0 IPCTNL_MSG_EXP_NEW
    (NLM_F_REQUEST ||| NLM_F_CREATE ||| NLM_F_ACK)
  (nfct_create_expectation_body b fuel w req exp).bind (fun r =>
    send_then_listen b fuel r.1 cth r.2)

/-- Source function `nfct_delete_expectation`; `id` is copied as it stands. -/
def nfct_delete_expectation (b : Build) (fuel : Nat) (w : World) (cth : nfct_handle)
    (tuple : nfct_tuple) (id : Nat) : Result (World × nfct_handle × Int) :=
  let req := nfnl_fill_hdr cth.nfnlh nfnlhdr.zero AF_INET 0 IPCTNL_MSG_EXP_DELETE
    (NLM_F_ROOT ||| NLM_F_MATCH ||| NLM_F_REQUEST ||| NLM_F_ACK)
  (nfct_build_tuple b fuel w req tuple CTA_EXPECT_MASTER).bind (fun r =>
    let req := if id ≠ NFCT_ANY_ID then nfnl_addattr_l r.2 CTA_EXPECT_ID (obj_bytes b.endian 4 id)
      else r.2
    send_then_listen b fuel r.1 cth req)

/-- Source function `nfct_event_expectation`. -/
def nfct_event_expectation (b : Build) (fuel : Nat) (w : World) (cth : nfct_handle) :
    Result (World × nfct_handle × Int) :=
  let cth := { cth with handler := some nfct_handler.expect }
  listen_with b fuel w cth

/-- Source function `nfct_flush_expectation_table`. -/
def nfct_flush_expectation_table (w : World) (cth : nfct_handle) : World × nfct_handle × Int :=
  let req := nfnl_fill_hdr cth.nfnlh nfnlhdr.zero AF_INET 0 IPCTNL_MSG_EXP_DELETE
    (NLM_F_REQUEST ||| NLM_F_ACK)
  let t := nfnl_talk w req
  (t.1, cth, t.2)

/-! ## Closed forms and predicates used in the statements and proofs -/

/-- The IP nest `nfct_build_tuple_ip` appends. -/
def ip_tree (b : Build) (t : nfct_tuple) : nfattr :=
  nfattr.nest CTA_TUPLE_IP [nfattr.leaf CTA_IP_V4_SRC (obj_bytes b.endian 4 t.src),
    nfattr.leaf CTA_IP_V4_DST (obj_bytes b.endian 4 t.dst)]

/-- The leaves the handler found for a tuple contributes after `NUM`. -/
def proto_leaves (h : Option nfct_proto) (t : nfct_tuple) : List nfattr :=
  match h with
  | some h =>
    match h.build_tuple_proto with
    | some build => build t
    | none => []
  | none => []

/-- The PROTO nest `nfct_build_tuple_proto` appends. -/
def proto_tree (h : Option nfct_proto) (t : nfct_tuple) : nfattr :=
  nfattr.nest CTA_TUPLE_PROTO (nfattr.leaf CTA_PROTO_NUM (protonum_bytes t) :: proto_leaves h t)

/-- The nest `nfct_build_tuple` appends. -/
def tuple_tree (b : Build) (h : Option nfct_proto) (t : nfct_tuple) (type : Nat) : nfattr :=
  nfattr.nest type [ip_tree b t, proto_tree h t]

/-- What `nfct_build_protoinfo` appends: nothing, or one PROTOINFO nest. -/
def protoinfo_part (h : Option nfct_proto) (ct : nfct_conntrack) : List nfattr :=
  match h with
  | some h =>
    match h.build_protoinfo with
    | some build => [nfattr.nest CTA_PROTOINFO (build ct)]
    | none => []
  | none => []

/-- What is found inside the NAT nest. -/
def nat_children (b : Build) (ct : nfct_conntrack) : List nfattr :=
  [nfattr.leaf CTA_NAT_MINIP (obj_bytes b.endian 4 ct.nat.min_ip)]
    ++ (if ct.nat.min_ip ≠ ct.nat.max_ip then
          [nfattr.leaf CTA_NAT_MAXIP (obj_bytes b.endian 4 ct.nat.max_ip)] else [])
    ++ (if ct.nat.l4min.all ≠ ct.nat.l4max.all then [nfattr.nest CTA_NAT_PROTO []] else [])

/-- What `nfct_build_conntrack` appends, given the handlers its three lookups found. -/
def conntrack_attrs (b : Build) (ct : nfct_conntrack) (h1 h2 h3 : Option nfct_proto) :
    List nfattr :=
  [tuple_tree b h1 (ct.tuple.get NFCT_DIR_ORIGINAL) CTA_TUPLE_ORIG,
    tuple_tree b h2 (ct.tuple.get NFCT_DIR_REPLY) CTA_TUPLE_REPLY,
    nfattr.leaf CTA_STATUS (obj_bytes b.endian 4 (htonl b.endian ct.status)),
    nfattr.leaf CTA_TIMEOUT (obj_bytes b.endian b.sizeof_long (htonl b.endian ct.timeout))]
    ++ (if ct.mark ≠ 0 then
          [nfattr.leaf CTA_MARK (obj_bytes b.endian 4 (htonl b.endian ct.mark))] else [])
    ++ (if ct.id ≠ NFCT_ANY_ID then
          [nfattr.leaf CTA_ID (obj_bytes b.endian 4 (htonl b.endian ct.id))] else [])
    ++ protoinfo_part h3 ct
    ++ (if ct.nat.min_ip ≠ 0 then [nfattr.nest CTA_NAT (nat_children b ct)] else [])

/-- Relation between the world before and after a lookup: only the handler list,
the set of mapped paths and the count of bytes written behind `path` may
differ. -/
def World.frame (w w1 : World) : Prop :=
  w1.getenv_dir = w.getenv_dir ∧ w1.files = w.files ∧ w1.send_result = w.send_result ∧
    w1.talk_result = w.talk_result ∧ w1.inbox = w.inbox ∧ w1.trace = w.trace ∧
    w1.calls = w.calls

/-- A world whose plugins are well formed: every shared object the loader can
map registers handlers that carry the version of the library, one of them under
the name the file is named after, and a shared object already mapped has left
that handler in the list. -/
def World.sane (b : Build) (w : World) : Prop :=
  ∀ name : String,
    (plugin_path (lib_dir b w) name ∈ w.loaded →
      (scan_proto_list w.proto_list name).isSome = true) ∧
    (∀ hs, w.files (plugin_path (lib_dir b w) name) = some hs →
      (∀ h ∈ hs, h.version = b.VERSION) ∧ ∃ h ∈ hs, h.name = name)

/-- The world after `sprintf` has formatted the plugin path for `name`. -/
def World.formatted (b : Build) (w : World) (name : String) : World :=
  { w with overrun := w.overrun +
      (sprintf_bytes (plugin_path (lib_dir b w) name) - path_size (lib_dir b w) name) }

/-- The tuple after the NUM leaf of a PROTO nest has been read. -/
def with_protonum (b : Build) (attr : nfattr_ptr) (tuple : nfct_tuple) : nfct_tuple :=
  match nfnl_parse_nested b.endian CTA_PROTO_MAX attr (CTA_PROTO_NUM - 1) with
  | some a => { tuple with protonum := deref_u8 a }
  | none => tuple

/-- The tuple after the handler found for it has read a PROTO nest. -/
def with_l4 (b : Build) (h : Option nfct_proto) (attr : nfattr_ptr) (tuple : nfct_tuple) : nfct_tuple :=
  match h with
  | some h =>
    match h.parse_proto with
    | some parse =>
      { tuple with
        l4src := (parse (nfnl_parse_nested b.endian CTA_PROTO_MAX attr) tuple).1
        l4dst := (parse (nfnl_parse_nested b.endian CTA_PROTO_MAX attr) tuple).2 }
    | none => tuple
  | none => tuple

/-- The record after the handler found for it has read a PROTOINFO nest. -/
def with_protoinfo (b : Build) (h : Option nfct_proto) (attr : nfattr_ptr) (ct : nfct_conntrack) :
    nfct_conntrack :=
  match h with
  | some h =>
    match h.parse_protoinfo with
    | some parse => { ct with protoinfo := parse (nfnl_parse_nested b.endian CTA_PROTOINFO_MAX attr) ct }
    | none => ct
  | none => ct

/-- The tuple `parse_tuple` has after its IP nest. -/
def with_ip (b : Build) (attr : nfattr_ptr) (tuple : nfct_tuple) : nfct_tuple :=
  match nfnl_parse_nested b.endian CTA_TUPLE_MAX attr (CTA_TUPLE_IP - 1) with
  | some a => parse_ip b a tuple
  | none => tuple

/-- Counters of one direction after `nfct_parse_counters` has read a counters nest. -/
def counters_after (b : Build) (attr : nfattr_ptr) (c : nfct_counters) : nfct_counters :=
  let tb := nfnl_parse_nested b.endian CTA_COUNTERS_MAX attr
  let c := match tb (CTA_COUNTERS_PACKETS - 1) with
    | some a => { c with packets := be64_to_cpu b.endian (deref_u64 b a) }
    | none => c
  let c := match tb (CTA_COUNTERS_BYTES - 1) with
    | some a => { c with bytes := be64_to_cpu b.endian (deref_u64 b a) }
    | none => c
  let c := match tb (CTA_COUNTERS32_PACKETS - 1) with
    | some a => { c with packets := htonl b.endian (deref_u32 b a) }
    | none => c
  match tb (CTA_COUNTERS32_BYTES - 1) with
  | some a => { c with bytes := htonl b.endian (deref_u32 b a) }
  | none => c

/-- The direction `nfct_parse_counters` writes to, given its `parent` argument. -/
def counters_dir (parent : Nat) : Nat :=
  if parent = CTA_COUNTERS_ORIG then NFCT_DIR_REPLY else NFCT_DIR_ORIGINAL

/-- One optional attribute of a flow message: when it is there the record is
updated by `f` and the flag `F` is set, otherwise nothing changes. -/
def opt_step (o : Option nfattr_ptr) (f : nfattr_ptr → nfct_conntrack → nfct_conntrack) (F : Nat)
    (cf : nfct_conntrack × Nat) : nfct_conntrack × Nat :=
  match o with
  | some a => (f a cf.1, cf.2 ||| F)
  | none => cf

/-- The record and the flags after the STATUS attribute has been looked at. -/
def status_step (b : Build) (cda : Nat → Option nfattr_ptr) (ct : nfct_conntrack) :
    nfct_conntrack × Nat :=
  opt_step (cda (CTA_STATUS - 1))
    (fun a c => { c with status := ntohl b.endian (deref_u32 b a) }) NFCT_STATUS (ct, 0)

/-- The record and the flags after TIMEOUT, MARK, the two counters nests, USE
and ID have been looked at. -/
def parse_tail (b : Build) (cda : Nat → Option nfattr_ptr) (cf : nfct_conntrack × Nat) :
    nfct_conntrack × Nat :=
  opt_step (cda (CTA_ID - 1))
    (fun a c => { c with id := ntohl b.endian (deref_u32 b a) }) NFCT_ID
  (opt_step (cda (CTA_USE - 1))
    (fun a c => { c with use := ntohl b.endian (deref_u32 b a) }) NFCT_USE
  (opt_step (cda (CTA_COUNTERS_REPLY - 1))
    (fun a c => nfct_parse_counters b a c (a.nfa_type - 1)) NFCT_COUNTERS_RPLY
  (opt_step (cda (CTA_COUNTERS_ORIG - 1))
    (fun a c => nfct_parse_counters b a c (a.nfa_type - 1)) NFCT_COUNTERS_ORIG
  (opt_step (cda (CTA_MARK - 1))
    (fun a c => { c with mark := ntohl b.endian (deref_u32 b a) }) NFCT_MARK
  (opt_step (cda (CTA_TIMEOUT - 1))
    (fun a c => { c with timeout := ntohl b.endian (deref_u32 b a) }) NFCT_TIMEOUT cf)))))

/-- The record and the flags `nfct_conntrack_netlink_handler` hands to the
callback, given the two tuples it parsed and the handler its PROTOINFO lookup
found. -/
def parsed_flow (b : Build) (cda : Nat → Option nfattr_ptr) (t0 t1 : nfct_tuple)
    (h : Option nfct_proto) : nfct_conntrack × Nat :=
  parse_tail b cda (opt_step (cda (CTA_PROTOINFO - 1)) (with_protoinfo b h) NFCT_PROTOINFO
    (status_step b cda { nfct_conntrack.zero with tuple := ⟨t0, t1⟩ }))

/-- Flags word built from the presence of the eight optional attributes. -/
def flags_of (s p t m co cr u i : Bool) : Nat :=
  0 ||| (if s then NFCT_STATUS else 0) ||| (if p then NFCT_PROTOINFO else 0)
    ||| (if t then NFCT_TIMEOUT else 0) ||| (if m then NFCT_MARK else 0)
    ||| (if co then NFCT_COUNTERS_ORIG else 0) ||| (if cr then NFCT_COUNTERS_RPLY else 0)
    ||| (if u then NFCT_USE else 0) ||| (if i then NFCT_ID else 0)
/-- No handler can be found for a protocol number: none is registered under
its name and the loader cannot map the plugin file of that name. -/
def no_handler (b : Build) (w : World) (protonum : Nat) : Prop :=
  ∀ name, proto2str protonum = some name →
    scan_proto_list w.proto_list name = none ∧
    plugin_path (lib_dir b w) name ∉ w.loaded ∧
    w.files (plugin_path (lib_dir b w) name) = none

/-- The world after a lookup for protocol number `p` that found nothing: when
the number has a name in `proto2str`, the plugin path was formatted once. -/
def World.missed (b : Build) (w : World) (p : Nat) : World :=
  match proto2str p with
  | some name => w.formatted b name
  | none => w

/-- The fields of a tuple fit their C types. -/
def nfct_tuple.wf (t : nfct_tuple) : Prop :=
  t.src < 2 ^ 32 ∧ t.dst < 2 ^ 32 ∧ t.protonum < 256

/-- The fields of a flow record this development looks at fit the widths the
data model gives them: 32 bits for status, mark and id. -/
def nfct_conntrack.wf (ct : nfct_conntrack) : Prop :=
  ct.tuple.original.wf ∧ ct.tuple.reply.wf ∧ ct.status < 2 ^ 32 ∧ ct.mark < 2 ^ 32 ∧
    ct.id < 2 ^ 32

/-- The record `nfct_expect_netlink_handler` hands to the callback, given the
two tuples it parsed. -/
def parsed_expect (b : Build) (cda : Nat → Option nfattr_ptr) (t m : nfct_tuple) : nfct_expect :=
  { master := nfct_tuple.zero
    tuple := t
    mask := m
    timeout := match cda (CTA_EXPECT_TIMEOUT - 1) with
      | some a => ntohl b.endian (deref_ulong b a)
      | none => 0
    id := match cda (CTA_EXPECT_ID - 1) with
      | some a => ntohl b.endian (deref_u32 b a)
      | none => 0 }

/-- The expectation record after TIMEOUT and ID have been looked at. -/
def expect_tail (b : Build) (cda : Nat → Option nfattr_ptr) (exp : nfct_expect) : nfct_expect :=
  let exp := match cda (CTA_EXPECT_TIMEOUT - 1) with
    | some a => { exp with timeout := ntohl b.endian (deref_ulong b a) }
    | none => exp
  match cda (CTA_EXPECT_ID - 1) with
  | some a => { exp with id := ntohl b.endian (deref_u32 b a) }
  | none => exp

/-! ### Concrete inputs -/

/-- A little-endian build with a 4-byte `unsigned long`. -/
def ex_build_le32 : Build := ⟨Endian.little, false, "1.0.0", "/usr/lib/conntrack"⟩

/-- A little-endian build with an 8-byte `unsigned long`. -/
def ex_build_le64 : Build := ⟨Endian.little, true, "1.0.0", "/usr/lib/conntrack"⟩

/-- A big-endian build with an 8-byte `unsigned long`. -/
def ex_build_be64 : Build := ⟨Endian.big, true, "1.0.0", "/usr/lib/conntrack"⟩

/-- A world with an empty registry, no plugin on disk and a silent socket. -/
def ex_world : World := ⟨[], none, fun _ => none, [], fun _ => 0, fun _ => 0, [], [], [], 0⟩

/-- A handle on the flow subsystem whose callback always answers 0. -/
def ex_handle : nfct_handle := ⟨⟨NFNL_SUBSYS_CTNETLINK⟩, some (fun _ _ _ _ => 0), 0, none⟩

/-- The TCP flow of the first scenario: 10.0.0.1 to 10.0.0.2 and back, timeout
300, nothing else set (addresses as a little-endian host holds them). -/
def ex_flow : nfct_conntrack :=
  { nfct_conntrack.zero with
    tuple := ⟨⟨0x0100000A, 0x0200000A, 6, 0, ⟨0⟩, ⟨0⟩⟩, ⟨0x0200000A, 0x0100000A, 6, 0, ⟨0⟩, ⟨0⟩⟩⟩
    timeout := 300 }

/-- An expectation whose master tuple is not all zero. -/
def ex_expect : nfct_expect :=
  ⟨⟨0x0100000A, 0x0200000A, 6, 0, ⟨0⟩, ⟨0⟩⟩, ⟨0x0100000A, 0x0200000A, 6, 0, ⟨0⟩, ⟨0⟩⟩,
    ⟨0xFFFFFFFF, 0xFFFFFFFF, 255, 0, ⟨0⟩, ⟨0⟩⟩, 0, 0⟩

/-- A received message of the given type word and flags whose body is `attrs`
as the host of byte order `e` frames them: `nlmsg_len` is the length of the two
headers and of those bytes, and the memory behind the message is `rest`. -/
def framed (e : Endian) (type flags : Nat) (attrs : List nfattr) (rest : Nat → Nat) :
    nlmsghdr :=
  ⟨NLMSG_LENGTH sizeof_nfgenmsg + (encode_attrs e attrs).length, type, flags, 0,
    mem_of (encode_attrs e attrs) rest⟩

/-- A received message of the given type word and flags carrying `attrs`, as a
little-endian host frames them, in a receive buffer that was zeroed. -/
def ex_msg (type flags : Nat) (attrs : List nfattr) : nlmsghdr :=
  framed Endian.little type flags attrs (fun _ => 0)

/-- The message of `ex_msg` as a big-endian host frames it. -/
def ex_msg_be (type flags : Nat) (attrs : List nfattr) : nlmsghdr :=
  framed Endian.big type flags attrs (fun _ => 0)

/-- Between the world `w` an operation starts in and the world `w1` it ends in,
the first thing handed to the adapter is a request whose header carries the
message type `msg` and exactly the flags `flags`. -/
def hands_over (w w1 : World) (msg flags : Nat) : Prop :=
  ∃ ev req rest, w1.trace = w.trace ++ ev :: rest ∧
    (ev = TransportEvent.send req ∨ ev = TransportEvent.talk req) ∧
    NFNL_MSG_TYPE req.nlmsg_type = msg ∧ req.nlmsg_flags = flags

/-- The event stream of the fourth scenario on the flow subsystem: a CT_NEW
carrying CREATE and EXCL, a CT_NEW carrying neither, and a CT_DELETE. -/
def ex_stream : List nlmsghdr :=
  [ex_msg ((NFNL_SUBSYS_CTNETLINK <<< 8) ||| IPCTNL_MSG_CT_NEW) (NLM_F_CREATE ||| NLM_F_EXCL) [],
    ex_msg ((NFNL_SUBSYS_CTNETLINK <<< 8) ||| IPCTNL_MSG_CT_NEW) 0 [],
    ex_msg ((NFNL_SUBSYS_CTNETLINK <<< 8) ||| IPCTNL_MSG_CT_DELETE) 0 []]

/-- Reply mode of an operation that completes through the send-and-wait-for-ACK
primitive: between `w` and `w1` the adapter was called once, through
`nfnl_talk`, the receive loop was not entered, no callback ran, and `ret` is
the code that one call gave. -/
def ack_only (w w1 : World) (ret : Int) : Prop :=
  ∃ req, w1.trace = w.trace ++ [TransportEvent.talk req] ∧ ret = w.talk_result req ∧
    w1.calls = w.calls

/-- What an operation ending in `send_then_listen` leaves behind: either the
send gave a negative code, which is the result, and nothing else happened, or
the send was followed by one run of the receive loop. -/
def drain_mode (w w1 : World) (ret : Int) : Prop :=
  ∃ req,
    (w.send_result req < 0 ∧ w1.trace = w.trace ++ [TransportEvent.send req] ∧
      ret = w.send_result req ∧ w1.calls = w.calls) ∨
    (0 ≤ w.send_result req ∧
      w1.trace = w.trace ++ [TransportEvent.send req, TransportEvent.listen])

/-- Reply mode of an operation that sends its request and then drains the
replies: the first call to the adapter is `nfnl_send`, and unless that send
failed the only other call is one run of the receive loop. -/
def drains (w w1 : World) : Prop :=
  ∃ req rest, w1.trace = w.trace ++ TransportEvent.send req :: rest ∧
    (0 ≤ w.send_result req → rest = [TransportEvent.listen])

/-- A failed send passes through: the first call to the adapter is `nfnl_send`,
and when it gave a negative code that code is the result, the receive loop was
not entered and no callback ran. -/
def send_error_passes (w w1 : World) (ret : Int) : Prop :=
  ∃ req rest, w1.trace = w.trace ++ TransportEvent.send req :: rest ∧
    (w.send_result req < 0 → ret = w.send_result req ∧ rest = [] ∧ w1.calls = w.calls)

/-- The world of `ex_world` with one acknowledgement of code 0 waiting on the
socket. -/
def ex_world_ack : World := { ex_world with inbox := [⟨36, NLMSG_ERROR, 0, 0, fun _ => 0⟩] }

/-- The world of `ex_world` with a transport whose send fails with code -5. -/
def ex_world_down : World := { ex_world with send_result := fun _ => -5 }

/-- A handle on the flow subsystem with `nfct_conntrack_netlink_handler`
installed, whose callback always answers 7 and whose callback data is 99. -/
def ex_handle_stop : nfct_handle :=
  ⟨⟨NFNL_SUBSYS_CTNETLINK⟩, some (fun _ _ _ _ => 7), 99, some nfct_handler.conntrack⟩

/-- The handler list at the moment `nfct_register_proto` stops, by returning
or by `exit(1)`: the call to `exit` stands before `list_add`, so a refused
handler has not been linked in. -/
def nfct_register_proto_list (b : Build) (w : World) (h : nfct_proto) : List nfct_proto :=
  if h.version ≠ b.VERSION then w.proto_list else h :: w.proto_list

/-- A handler named "tcp" that carries the version of the example builds and
no routine. -/
def ex_proto_tcp : nfct_proto := ⟨"tcp", "1.0.0", none, none, none, none⟩

/-- A second handler named "tcp" of the same version, with a build routine
that contributes nothing. -/
def ex_proto_tcp_again : nfct_proto := ⟨"tcp", "1.0.0", some (fun _ => []), none, none, none⟩

/-- A handler named "tcp" built against another version of the library. -/
def ex_proto_stale : nfct_proto := ⟨"tcp", "0.9.0", none, none, none, none⟩

/-- The world of `ex_world` in which the plugin file for "tcp" exists in the
default directory of the example builds and its initialiser registers no
handler. -/
def ex_world_silent_plugin : World :=
  { ex_world with
    files := fun path =>
      if path = "/usr/lib/conntrack/nfct_proto_tcp.so" then some [] else none }

/-- An SCTP tuple, 10.0.0.1 to 10.0.0.2, as a little-endian host holds it. -/
def ex_tuple_sctp : nfct_tuple := ⟨0x0100000A, 0x0200000A, 132, 0, ⟨0⟩, ⟨0⟩⟩

/-- A flow reply for an SCTP flow as the kernel sends it: both tuples with
their addresses, protocol number 132 and the two ports, a status and a
protocol-information nest. -/
def ex_reply_sctp : nlmsghdr :=
  ex_msg ((NFNL_SUBSYS_CTNETLINK <<< 8) ||| IPCTNL_MSG_CT_NEW) 0
    [nfattr.nest CTA_TUPLE_ORIG
        [nfattr.nest CTA_TUPLE_IP [nfattr.leaf CTA_IP_V4_SRC [10, 0, 0, 1],
          nfattr.leaf CTA_IP_V4_DST [10, 0, 0, 2]],
         nfattr.nest CTA_TUPLE_PROTO [nfattr.leaf CTA_PROTO_NUM [132],
          nfattr.leaf 2 [0x04, 0xD2], nfattr.leaf 3 [0x00, 0x50]]],
      nfattr.nest CTA_TUPLE_REPLY
        [nfattr.nest CTA_TUPLE_IP [nfattr.leaf CTA_IP_V4_SRC [10, 0, 0, 2],
          nfattr.leaf CTA_IP_V4_DST [10, 0, 0, 1]],
         nfattr.nest CTA_TUPLE_PROTO [nfattr.leaf CTA_PROTO_NUM [132],
          nfattr.leaf 2 [0x00, 0x50], nfattr.leaf 3 [0x04, 0xD2]]],
      nfattr.leaf CTA_STATUS [0, 0, 0, 2],
      nfattr.nest CTA_PROTOINFO [nfattr.nest 2 [nfattr.leaf 1 [3]]]]

/-- A handle on the expectation subsystem whose callback always answers 7 and
whose callback data is 99; no handler is installed yet. -/
def ex_handle_exp_stop : nfct_handle :=
  ⟨⟨NFNL_SUBSYS_CTNETLINK_EXP⟩, some (fun _ _ _ _ => 7), 99, none⟩

/-- The world of `ex_world` with two expectation events waiting on the socket. -/
def ex_world_two_expect : World :=
  { ex_world with
    inbox := [ex_msg ((NFNL_SUBSYS_CTNETLINK_EXP <<< 8) ||| IPCTNL_MSG_EXP_NEW) 0 [],
      ex_msg ((NFNL_SUBSYS_CTNETLINK_EXP <<< 8) ||| IPCTNL_MSG_EXP_NEW) 0 []] }

/-- The world of `ex_world` with two flow events waiting on the socket. -/
def ex_world_two_flow : World :=
  { ex_world with
    inbox := [ex_msg ((NFNL_SUBSYS_CTNETLINK <<< 8) ||| IPCTNL_MSG_CT_NEW) 0 [],
      ex_msg ((NFNL_SUBSYS_CTNETLINK <<< 8) ||| IPCTNL_MSG_CT_NEW) 0 []] }

/-- A flow reply that carries COUNTERS_ORIG only: 5 packets and 100 bytes as
64-bit big-endian values. -/
def ex_reply_counters_orig : nlmsghdr :=
  ex_msg ((NFNL_SUBSYS_CTNETLINK <<< 8) ||| IPCTNL_MSG_CT_NEW) 0
    [nfattr.nest CTA_COUNTERS_ORIG
      [nfattr.leaf CTA_COUNTERS_PACKETS [0, 0, 0, 0, 0, 0, 0, 5],
        nfattr.leaf CTA_COUNTERS_BYTES [0, 0, 0, 0, 0, 0, 0, 100]]]

/-- A flow reply that carries both counters nests, as a big-endian host frames
it: 5 packets and 100 bytes in the original direction, 7 packets and 200 bytes
in the reply direction. -/
def ex_reply_counters_both : nlmsghdr :=
  ex_msg_be ((NFNL_SUBSYS_CTNETLINK <<< 8) ||| IPCTNL_MSG_CT_NEW) 0
    [nfattr.nest CTA_COUNTERS_ORIG
      [nfattr.leaf CTA_COUNTERS_PACKETS [0, 0, 0, 0, 0, 0, 0, 5],
        nfattr.leaf CTA_COUNTERS_BYTES [0, 0, 0, 0, 0, 0, 0, 100]],
     nfattr.nest CTA_COUNTERS_REPLY
      [nfattr.leaf CTA_COUNTERS_PACKETS [0, 0, 0, 0, 0, 0, 0, 7],
        nfattr.leaf CTA_COUNTERS_BYTES [0, 0, 0, 0, 0, 0, 0, 200]]]

/-- The operation ended in `nfnl_send` followed, unless the send failed, by
the receive loop, and the handle the trampoline of that loop was given, which
is also the handle afterwards, is `c`. -/
def drains_with (b : Build) (fuel : Nat) (w w1 : World) (c c1 : nfct_handle) (ret : Int) :
    Prop :=
  c1 = c ∧ ∃ w0 req, w.frame w0 ∧ send_then_listen b fuel w0 c req = Result.ok (w1, c1, ret)

/-- The operation was one run of the receive loop, and the handle the
trampoline of that loop was given, which is also the handle afterwards, is
`c`. -/
def listens_with (b : Build) (fuel : Nat) (w w1 : World) (c c1 : nfct_handle) (ret : Int) :
    Prop :=
  c1 = c ∧ listen_with b fuel w c = Result.ok (w1, c1, ret)

/-- The protocol number an optional tuple nest carries: the first byte of the
NUM leaf of its PROTO nest, and 0 when the tuple nest, the PROTO nest or the
leaf is not there. -/
def carried_protonum (b : Build) (o : Option nfattr_ptr) : Nat :=
  match o with
  | none => 0
  | some a =>
    match nfnl_parse_nested b.endian CTA_TUPLE_MAX a (CTA_TUPLE_PROTO - 1) with
    | none => 0
    | some p =>
      match nfnl_parse_nested b.endian CTA_PROTO_MAX p (CTA_PROTO_NUM - 1) with
      | none => 0
      | some n => deref_u8 n

/-- A flow record whose original tuple is TCP and whose reply tuple is UDP. -/
def ex_flow_mixed : nfct_conntrack :=
  { nfct_conntrack.zero with
    tuple := ⟨⟨0x0100000A, 0x0200000A, 6, 0, ⟨0⟩, ⟨0⟩⟩, ⟨0x0200000A, 0x0100000A, 17, 0, ⟨0⟩, ⟨0⟩⟩⟩
    timeout := 300 }
/-- The pointer to the attribute `a` when its bytes lie at the start of memory
that goes on with `rest`. -/
def nfattr.ptr (e : Endian) (a : nfattr) (rest : Nat → Nat) : nfattr_ptr :=
  nfattr_at e (mem_of (a.encode e) rest)

/-- The pointers to the attributes of a list whose bytes lie at the start of
memory that goes on with `rest`, in the order of the list. -/
def ptrs (e : Endian) : List nfattr → (Nat → Nat) → List nfattr_ptr
  | [], _ => []
  | a :: as, rest => a.ptr e (mem_of (encode_attrs e as) rest) :: ptrs e as rest

/-- The 16-bit length field of the header can hold the length of the
attribute. -/
def nfattr.fits (e : Endian) (a : nfattr) : Prop := NFA_LENGTH (a.payload e).length < 65536

/-- The attribute of a list that a parse table holds under type `t`: the last
one whose type tag, as the 16 bits the header keeps of it, is `t`. -/
def last_of_type (t : Nat) (as : List nfattr) : Option nfattr :=
  as.reverse.find? (fun a => a.nfa_type % 65536 == t)

/-- What `nfct_create_expectation` puts into its request, given the handlers
its three lookups found. -/
def expect_attrs (b : Build) (exp : nfct_expect) (h1 h2 h3 : Option nfct_proto) : List nfattr :=
  [tuple_tree b h1 exp.master CTA_EXPECT_MASTER, tuple_tree b h2 exp.tuple CTA_EXPECT_TUPLE,
    tuple_tree b h3 exp.mask CTA_EXPECT_MASK,
    nfattr.leaf CTA_EXPECT_TIMEOUT (obj_bytes b.endian b.sizeof_long exp.timeout)]

/-- In the PROTO nest of every attribute of type `t` of the list, no attribute
behind the leading NUM leaf carries a type that is read as NUM. -/
def num_once (t : Nat) (attrs : List nfattr) : Prop :=
  ∀ tup ∈ attrs, tup.nfa_type = t → ∀ p ∈ tup.children, p.nfa_type = CTA_TUPLE_PROTO →
    ∀ x ∈ p.children.tail, x.nfa_type % 65536 ≠ CTA_PROTO_NUM

/-- The expectation of `ex_expect` as `nfct_expect_alloc` stores it on a
little-endian host when it is given the timeout 300 and the id 42. -/
def ex_expect_live : nfct_expect := { ex_expect with timeout := 0x2C010000, id := 0x2A000000 }

/-- Whether an attribute of type `t` is in the message: whether one of the
attributes framed in the `len` bytes of its body carries that type. -/
def msg_has_attr (b : Build) (nlh : nlmsghdr) (t : Nat) : Bool :=
  (nfattr_walk b.endian (attr_len nlh).toNat nlh.data (attr_len nlh)).any
    (fun a => a.nfa_type == t)

/-! ## Lemmas: sequencing and the attribute primitives -/

@[simp] theorem Result.bind_ok {α β : Type} (a : α) (f : α → Result β) :
    (Result.ok a).bind f = f a := rfl

@[simp] theorem Result.bind_exit {α β : Type} (s : Nat) (f : α → Result β) :
    (Result.exit s : Result α).bind f = Result.exit s := rfl

@[simp] theorem Result.bind_diverge {α β : Type} (f : α → Result β) :
    (Result.diverge : Result α).bind f = Result.diverge := rfl

theorem Result.bind_eq_ok {α β : Type} {r : Result α} {f : α → Result β} {y : β}
    (h : r.bind f = Result.ok y) : ∃ a, r = Result.ok a ∧ f a = Result.ok y := by
  cases r with
  | ok a => exact ⟨a, rfl, h⟩
  | exit s => simp at h
  | diverge => simp at h

theorem nfct_build_tuple_ip_eq (b : Build) (req : nfnlhdr) (t : nfct_tuple) :
    nfct_build_tuple_ip b req t = { req with attrs := req.attrs ++ [ip_tree b t] } := by
  simp [nfct_build_tuple_ip, nfnl_nest, nfnl_addattr_l, ip_tree, nfnl_nest_end, nfattr.nfa_type]

theorem nfct_build_tuple_proto_eq (b : Build) (fuel : Nat) (w : World) (req : nfnlhdr)
    (t : nfct_tuple) :
    nfct_build_tuple_proto b fuel w req t =
      (findproto b fuel w (proto2str t.protonum)).bind (fun r =>
        Result.ok (r.1, { req with attrs := req.attrs ++ [proto_tree r.2 t] })) := by
  unfold nfct_build_tuple_proto
  cases findproto b fuel w (proto2str t.protonum) with
  | exit s => rfl
  | diverge => rfl
  | ok r =>
    rcases r with ⟨w1, h⟩
    cases h with
    | none => simp [nfnl_nest, nfnl_addattr_l, nfnl_nest_end, nfattr.nfa_type, proto_tree,
        proto_leaves]
    | some h =>
      cases hb : h.build_tuple_proto <;>
        simp [nfnl_nest, nfnl_addattr_l, nfnl_nest_end, nfattr.nfa_type, proto_tree,
          proto_leaves, hb]

theorem nfct_build_tuple_eq (b : Build) (fuel : Nat) (w : World) (req : nfnlhdr)
    (t : nfct_tuple) (type : Nat) :
    nfct_build_tuple b fuel w req t type =
      (findproto b fuel w (proto2str t.protonum)).bind (fun r =>
        Result.ok (r.1, { req with attrs := req.attrs ++ [tuple_tree b r.2 t type] })) := by
  unfold nfct_build_tuple
  simp only [nfct_build_tuple_proto_eq, nfct_build_tuple_ip_eq]
  cases findproto b fuel w (proto2str t.protonum) with
  | ok r => simp [nfnl_nest, nfnl_nest_end, nfattr.nfa_type, tuple_tree]
  | exit s => rfl
  | diverge => rfl

theorem nfct_build_protoinfo_eq (b : Build) (fuel : Nat) (w : World) (req : nfnlhdr)
    (ct : nfct_conntrack) :
    nfct_build_protoinfo b fuel w req ct =
      (findproto b fuel w (proto2str (ct.tuple.get NFCT_DIR_ORIGINAL).protonum)).bind (fun r =>
        Result.ok (r.1, { req with attrs := req.attrs ++ protoinfo_part r.2 ct })) := by
  unfold nfct_build_protoinfo
  cases findproto b fuel w (proto2str (ct.tuple.get NFCT_DIR_ORIGINAL).protonum) with
  | exit s => rfl
  | diverge => rfl
  | ok r =>
    rcases r with ⟨w1, h⟩
    cases h with
    | none => simp [protoinfo_part]
    | some h =>
      cases hb : h.build_protoinfo <;>
        simp [nfnl_nest, nfnl_nest_end, nfattr.nfa_type, protoinfo_part, hb]

theorem nfct_build_protonat_eq (req : nfnlhdr) (ct : nfct_conntrack) :
    nfct_build_protonat req ct =
      { req with attrs := req.attrs ++ [nfattr.nest CTA_NAT_PROTO []] } := by
  simp [nfct_build_protonat, nfnl_nest, nfnl_nest_end, nfattr.nfa_type]

theorem nfct_build_nat_eq (b : Build) (req : nfnlhdr) (ct : nfct_conntrack) :
    nfct_build_nat b req ct =
      { req with attrs := req.attrs ++ [nfattr.nest CTA_NAT (nat_children b ct)] } := by
  unfold nfct_build_nat nat_children
  simp only [nfct_build_protonat_eq]
  by_cases h1 : ct.nat.min_ip = ct.nat.max_ip <;>
    by_cases h2 : ct.nat.l4min.all = ct.nat.l4max.all <;>
    simp [nfnl_nest, nfnl_addattr_l, nfnl_nest_end, nfattr.nfa_type, h1, h2]

theorem nfct_build_conntrack_eq (b : Build) (fuel : Nat) (w : World) (req : nfnlhdr)
    (ct : nfct_conntrack) :
    nfct_build_conntrack b fuel w req ct =
      (findproto b fuel w (proto2str (ct.tuple.get NFCT_DIR_ORIGINAL).protonum)).bind (fun r1 =>
      (findproto b fuel r1.1 (proto2str (ct.tuple.get NFCT_DIR_REPLY).protonum)).bind (fun r2 =>
      (findproto b fuel r2.1 (proto2str (ct.tuple.get NFCT_DIR_ORIGINAL).protonum)).bind (fun r3 =>
        Result.ok (r3.1,
          { req with attrs := req.attrs ++ conntrack_attrs b ct r1.2 r2.2 r3.2 })))) := by
  unfold nfct_build_conntrack
  simp only [nfct_build_tuple_eq, nfct_build_protoinfo_eq, nfct_build_nat_eq]
  cases findproto b fuel w (proto2str (ct.tuple.get NFCT_DIR_ORIGINAL).protonum) with
  | exit s => rfl
  | diverge => rfl
  | ok r1 =>
    simp only [Result.bind_ok]
    cases findproto b fuel r1.1 (proto2str (ct.tuple.get NFCT_DIR_REPLY).protonum) with
    | exit s => rfl
    | diverge => rfl
    | ok r2 =>
      simp only [Result.bind_ok]
      cases findproto b fuel r2.1 (proto2str (ct.tuple.get NFCT_DIR_ORIGINAL).protonum) with
      | exit s => rfl
      | diverge => rfl
      | ok r3 =>
        by_cases h1 : ct.mark = 0 <;> by_cases h2 : ct.id = NFCT_ANY_ID <;>
          by_cases h3 : ct.nat.min_ip = 0 <;>
          simp [nfnl_addattr_l, conntrack_attrs, h1, h2, h3]

/-! ## Lemmas: byte order -/

theorem le_bytes_length (n v : Nat) : (le_bytes n v).length = n := by
  induction n generalizing v with
  | zero => rfl
  | succ n ih => simp [le_bytes, ih]

theorem le_bytes_lt (n v : Nat) : ∀ x ∈ le_bytes n v, x < 256 := by
  induction n generalizing v with
  | zero => simp [le_bytes]
  | succ n ih =>
    intro x hx
    simp only [le_bytes, List.mem_cons] at hx
    rcases hx with rfl | hx
    · exact Nat.mod_lt _ (by norm_num)
    · exact ih _ x hx

theorem from_le_le_bytes (n v : Nat) : from_le (le_bytes n v) = v % 256 ^ n := by
  induction n generalizing v with
  | zero => simp [le_bytes, from_le, Nat.mod_one]
  | succ n ih =>
    simp only [le_bytes, from_le, ih]
    rw [pow_succ, Nat.mul_comm (256 ^ n) 256, Nat.mod_mul]

theorem le_bytes_from_le (bs : List Nat) (h : ∀ x ∈ bs, x < 256) :
    le_bytes bs.length (from_le bs) = bs := by
  induction bs with
  | nil => rfl
  | cons x xs ih =>
    have hx : x < 256 := h x (List.mem_cons_self _ _)
    have hxs : ∀ y ∈ xs, y < 256 := fun y hy => h y (List.mem_cons_of_mem _ hy)
    simp only [List.length_cons, le_bytes, from_le]
    have h1 : (x + 256 * from_le xs) % 256 = x := by omega
    have h2 : (x + 256 * from_le xs) / 256 = from_le xs := by omega
    rw [h1, h2, ih hxs]

theorem le_bytes_mod (n v : Nat) : le_bytes n (v % 256 ^ n) = le_bytes n v := by
  have h := le_bytes_from_le (le_bytes n v) (le_bytes_lt n v)
  rw [le_bytes_length, from_le_le_bytes] at h
  exact h

theorem be_bytes_length (n v : Nat) : (be_bytes n v).length = n := by
  simp [be_bytes, le_bytes_length]

theorem be_bytes_lt (n v : Nat) : ∀ x ∈ be_bytes n v, x < 256 := by
  intro x hx
  exact le_bytes_lt n v x (by simpa [be_bytes] using hx)

theorem from_be_be_bytes (n v : Nat) : from_be (be_bytes n v) = v % 256 ^ n := by
  simp [from_be, be_bytes, from_le_le_bytes]

theorem mem_read_length (n : Nat) (m : Nat → Nat) : (mem_read n m).length = n := by
  simp [mem_read]

theorem mem_read_lt (n : Nat) (m : Nat → Nat) : ∀ x ∈ mem_read n m, x < 256 := by
  intro x hx
  simp only [mem_read, List.mem_map] at hx
  obtain ⟨i, _, rfl⟩ := hx
  exact Nat.mod_lt _ (by norm_num)

theorem mem_of_append (xs ys : List Nat) (rest : Nat → Nat) :
    mem_of (xs ++ ys) rest = mem_of xs (mem_of ys rest) := by
  funext i
  unfold mem_of
  by_cases h1 : i < xs.length
  · have h2 : i < (xs ++ ys).length := by rw [List.length_append]; omega
    simp only [h1, h2, if_true]
    simp [List.getD, List.getElem?_append_left h1]
  · by_cases h2 : i - xs.length < ys.length
    · have h3 : i < (xs ++ ys).length := by rw [List.length_append]; omega
      simp only [h1, h2, h3, if_true, if_false]
      simp [List.getD, List.getElem?_append_right (Nat.le_of_not_lt h1)]
    · have h3 : ¬ i < (xs ++ ys).length := by rw [List.length_append]; omega
      simp only [h1, h2, h3, if_false]
      rw [List.length_append, Nat.sub_add_eq]

theorem mem_of_nil (rest : Nat → Nat) : mem_of [] rest = rest := by
  funext i
  simp [mem_of]

theorem mem_of_shift (xs : List Nat) (rest : Nat → Nat) (n : Nat) (h : n = xs.length) :
    (fun i => mem_of xs rest (i + n)) = rest := by
  funext i
  subst h
  simp [mem_of]

theorem mem_read_mem_of (xs : List Nat) (rest : Nat → Nat) (h : ∀ x ∈ xs, x < 256) :
    mem_read xs.length (mem_of xs rest) = xs := by
  apply List.ext_getElem
  · simp [mem_read]
  · intro i h1 h2
    have hx : xs[i] < 256 := h _ (List.getElem_mem h2)
    simp [mem_read, mem_of, h2, List.getD, List.getElem?_eq_getElem h2, Nat.mod_eq_of_lt hx]

theorem mem_read_append (xs ys : List Nat) (rest : Nat → Nat) (h : ∀ x ∈ xs, x < 256) :
    mem_read xs.length (mem_of (xs ++ ys) rest) = xs := by
  rw [mem_of_append]
  exact mem_read_mem_of xs _ h

theorem mem_read_of_eq (n : Nat) (xs ys : List Nat) (rest : Nat → Nat) (hn : xs.length = n)
    (h : ∀ x ∈ xs, x < 256) : mem_read n (mem_of (xs ++ ys) rest) = xs := by
  subst hn
  exact mem_read_append xs ys rest h

theorem obj_bytes_length (e : Endian) (n v : Nat) : (obj_bytes e n v).length = n := by
  cases e
  · exact le_bytes_length n v
  · exact be_bytes_length n v

theorem obj_bytes_lt (e : Endian) (n v : Nat) : ∀ x ∈ obj_bytes e n v, x < 256 := by
  cases e
  · exact le_bytes_lt n v
  · exact be_bytes_lt n v

theorem bswap32_eq (y : Nat) : bswap32 y = from_le (be_bytes 4 y) := by
  simp [bswap32, from_be, be_bytes]

theorem le_bytes_bswap32 (y : Nat) : le_bytes 4 (bswap32 y) = be_bytes 4 y := by
  rw [bswap32_eq]
  have h := le_bytes_from_le (be_bytes 4 y) (be_bytes_lt 4 y)
  rwa [be_bytes_length] at h

theorem be_bytes_mod (n v : Nat) : be_bytes n (v % 256 ^ n) = be_bytes n v := by
  simp [be_bytes, le_bytes_mod]

theorem obj_bytes_htonl (e : Endian) (x : Nat) : obj_bytes e 4 (htonl e x) = be_bytes 4 x := by
  have h32 : (2 : Nat) ^ 32 = 256 ^ 4 := by norm_num
  cases e with
  | big => simp only [obj_bytes, htonl, h32, be_bytes_mod]
  | little => simp only [obj_bytes, htonl, h32, le_bytes_bswap32, be_bytes_mod]

theorem obj_value_bytes (e : Endian) (n v : Nat) :
    obj_value e (obj_bytes e n v) = v % 256 ^ n := by
  cases e with
  | little => simp only [obj_value, obj_bytes, from_le_le_bytes]
  | big => simp only [obj_value, obj_bytes, from_be_be_bytes]

theorem obj_value_obj_bytes (e : Endian) (n v : Nat) (ys : List Nat) (rest : Nat → Nat) :
    obj_value e (mem_read n (mem_of (obj_bytes e n v ++ ys) rest)) = v % 256 ^ n := by
  rw [mem_read_of_eq n _ ys rest (obj_bytes_length e n v) (obj_bytes_lt e n v), obj_value_bytes]

theorem bswap32_from_le_be_bytes (x : Nat) :
    bswap32 (from_le (be_bytes 4 x) % 2 ^ 32) = x % 2 ^ 32 := by
  have h32 : (2 : Nat) ^ 32 = 256 ^ 4 := by norm_num
  have h := le_bytes_from_le (be_bytes 4 x) (be_bytes_lt 4 x)
  rw [be_bytes_length] at h
  rw [bswap32, h32, le_bytes_mod, h, from_be_be_bytes]

theorem ntohl_obj_value_be_bytes (e : Endian) (x : Nat) (ys : List Nat) (rest : Nat → Nat) :
    ntohl e (obj_value e (mem_read 4 (mem_of (be_bytes 4 x ++ ys) rest))) = x % 2 ^ 32 := by
  have h32 : (2 : Nat) ^ 32 = 256 ^ 4 := by norm_num
  have h := mem_read_append (be_bytes 4 x) ys rest (be_bytes_lt 4 x)
  rw [be_bytes_length] at h
  cases e with
  | big => simp only [ntohl, obj_value, h, from_be_be_bytes, h32, Nat.mod_mod]
  | little => simp only [ntohl, obj_value, h, bswap32_from_le_be_bytes]

/-! ## Lemmas: the registry -/

theorem World.frame_refl (w : World) : w.frame w := ⟨rfl, rfl, rfl, rfl, rfl, rfl, rfl⟩

theorem World.frame_trans {w w1 w2 : World} (h1 : w.frame w1) (h2 : w1.frame w2) :
    w.frame w2 := by
  obtain ⟨a1, a2, a3, a4, a5, a6, a7⟩ := h1
  obtain ⟨b1, b2, b3, b4, b5, b6, b7⟩ := h2
  exact ⟨b1.trans a1, b2.trans a2, b3.trans a3, b4.trans a4, b5.trans a5, b6.trans a6,
    b7.trans a7⟩

theorem World.frame_formatted (b : Build) (w : World) (name : String) :
    w.frame (w.formatted b name) := ⟨rfl, rfl, rfl, rfl, rfl, rfl, rfl⟩

theorem run_init_frame (b : Build) (hs : List nfct_proto) :
    ∀ (w w1 : World), run_init b w hs = Result.ok w1 → w.frame w1 ∧ w1.loaded = w.loaded := by
  induction hs with
  | nil =>
    intro w w1 h
    simp only [run_init, Result.ok.injEq] at h
    subst h
    exact ⟨World.frame_refl w, rfl⟩
  | cons x xs ih =>
    intro w w1 h
    simp only [run_init, nfct_register_proto] at h
    by_cases hv : x.version ≠ b.VERSION
    · simp [hv] at h
    · simp only [hv, if_false, Result.bind_ok] at h
      obtain ⟨f, l⟩ := ih _ _ h
      exact ⟨World.frame_trans ⟨rfl, rfl, rfl, rfl, rfl, rfl, rfl⟩ f, l⟩

theorem dlopen_frame (b : Build) (w w1 : World) (path : String) (r : Bool)
    (h : dlopen b w path = Result.ok (w1, r)) : w.frame w1 := by
  unfold dlopen at h
  by_cases hl : path ∈ w.loaded
  · simp only [hl, if_true, Result.ok.injEq, Prod.mk.injEq] at h
    rw [← h.1]
    exact World.frame_refl w
  · simp only [hl, if_false] at h
    cases hf : w.files path with
    | none =>
      simp only [hf, Result.ok.injEq, Prod.mk.injEq] at h
      rw [← h.1]
      exact World.frame_refl w
    | some hs =>
      simp only [hf] at h
      obtain ⟨w2, h2, h3⟩ := Result.bind_eq_ok h
      simp only [Result.ok.injEq, Prod.mk.injEq] at h3
      rw [← h3.1]
      exact World.frame_trans ⟨rfl, rfl, rfl, rfl, rfl, rfl, rfl⟩ (run_init_frame b hs _ _ h2).1

theorem findproto_frame (b : Build) (fuel : Nat) :
    ∀ (w w1 : World) (name : Option String) (r : Option nfct_proto),
      findproto b fuel w name = Result.ok (w1, r) → w.frame w1 := by
  induction fuel with
  | zero => intro w w1 name r h; simp [findproto] at h
  | succ fuel ih =>
    intro w w1 name r h
    cases name with
    | none =>
      simp only [findproto, Result.ok.injEq, Prod.mk.injEq] at h
      rw [← h.1]
      exact World.frame_refl w
    | some name =>
      simp only [findproto] at h
      cases hs : scan_proto_list w.proto_list name with
      | some hd =>
        simp only [hs, Result.ok.injEq, Prod.mk.injEq] at h
        rw [← h.1]
        exact World.frame_refl w
      | none =>
        simp only [hs] at h
        obtain ⟨⟨w2, okk⟩, h2, h3⟩ := Result.bind_eq_ok h
        have f2 := World.frame_trans (World.frame_formatted b w name)
          (dlopen_frame b (w.formatted b name) w2 _ okk h2)
        cases okk with
        | true =>
          simp only [if_true] at h3
          exact World.frame_trans f2 (ih _ _ _ _ h3)
        | false =>
          simp only [Bool.false_eq_true, if_false, Result.ok.injEq, Prod.mk.injEq] at h3
          rw [← h3.1]
          exact f2

theorem run_init_ok (b : Build) (hs : List nfct_proto) :
    ∀ w : World, (∀ h ∈ hs, h.version = b.VERSION) →
      run_init b w hs = Result.ok { w with proto_list := hs.reverse ++ w.proto_list } := by
  induction hs with
  | nil => intro w _; rfl
  | cons x xs ih =>
    intro w hv
    have hx : x.version = b.VERSION := hv x (List.mem_cons_self _ _)
    have hxs : ∀ h ∈ xs, h.version = b.VERSION := fun h hh => hv h (List.mem_cons_of_mem _ hh)
    simp only [run_init, nfct_register_proto, hx, ne_eq, not_true_eq_false, if_false,
      Result.bind_ok]
    rw [ih _ hxs]
    simp

theorem scan_isSome_iff (l : List nfct_proto) (name : String) :
    (scan_proto_list l name).isSome = true ↔ ∃ h ∈ l, h.name = name := by
  simp [scan_proto_list, List.find?_isSome]

theorem findproto_some (b : Build) (fuel : Nat) (w : World) (name : String) :
    findproto b (fuel + 1) w (some name) =
      match scan_proto_list w.proto_list name with
      | some handler => Result.ok (w, some handler)
      | none =>
        (dlopen b (w.formatted b name) (plugin_path (lib_dir b w) name)).bind (fun r =>
          if r.2 then findproto b fuel r.1 (some name)
          else Result.ok (r.1, none)) := rfl

theorem strlen_append (s t : String) : strlen (s ++ t) = strlen s + strlen t := by
  cases s with
  | mk a =>
    cases t with
    | mk c =>
      show String.utf8ByteSize (String.append ⟨a⟩ ⟨c⟩) = _
      unfold strlen
      rw [String.append, String.utf8ByteSize_mk, String.utf8ByteSize_mk, String.utf8ByteSize_mk,
        String.utf8Len_append]

/-- The formatted path is one byte longer than the array it is written to. -/
theorem sprintf_bytes_plugin_path (d n : String) :
    sprintf_bytes (plugin_path d n) = path_size d n + 1 := by
  simp only [sprintf_bytes, path_size, sizeof_literal, plugin_path, strlen_append]
  have h1 : strlen "/nfct_proto_" = 12 := by decide
  have h2 : strlen ".so" = 3 := by decide
  have h3 : strlen "nfct_proto_.so" = 14 := by decide
  omega

theorem World.formatted_overrun (b : Build) (w : World) (name : String) :
    (w.formatted b name).overrun = w.overrun + 1 := by
  simp only [World.formatted, sprintf_bytes_plugin_path]
  omega

theorem World.formatted_eq (b : Build) (w : World) (name : String) :
    w.formatted b name = { w with overrun := w.overrun + 1 } := by
  simp only [World.formatted, sprintf_bytes_plugin_path]
  congr 1
  omega

theorem findproto_found (b : Build) (fuel : Nat) (w : World) (name : String) (h : nfct_proto)
    (hs : scan_proto_list w.proto_list name = some h) :
    findproto b (fuel + 1) w (some name) = Result.ok (w, some h) := by
  rw [findproto_some, hs]

theorem lib_dir_frame (b : Build) {w w1 : World} (h : w.frame w1) : lib_dir b w1 = lib_dir b w := by
  unfold lib_dir
  rw [h.1]

theorem findproto_sane (b : Build) (fuel : Nat) (w : World) (name : Option String)
    (hs : w.sane b) :
    ∃ w1 r, findproto b (fuel + 2) w name = Result.ok (w1, r) ∧ w1.sane b := by
  cases name with
  | none => exact ⟨w, none, rfl, hs⟩
  | some name =>
    cases hscan : scan_proto_list w.proto_list name with
    | some hd => exact ⟨w, some hd, findproto_found b _ w name hd hscan, hs⟩
    | none =>
      have hnl : plugin_path (lib_dir b w) name ∉ w.loaded := by
        intro hl
        have := (hs name).1 hl
        simp [hscan] at this
      rw [findproto_some, hscan]
      simp only [World.formatted, dlopen, hnl, if_false]
      cases hf : w.files (plugin_path (lib_dir b w) name) with
      | none => exact ⟨w.formatted b name, none, by simp [World.formatted], hs⟩
      | some hl =>
        obtain ⟨hv, hd, hdm, hdn⟩ := (hs name).2 hl hf
        simp only [run_init_ok b hl _ hv, Result.bind_ok, if_true]
        have hfound : (scan_proto_list (hl.reverse ++ w.proto_list) name).isSome = true := by
          rw [scan_isSome_iff]
          exact ⟨hd, by simp [hdm], hdn⟩
        obtain ⟨hh, hhe⟩ := Option.isSome_iff_exists.mp hfound
        refine ⟨_, some hh, findproto_found b _ _ name hh hhe, ?_⟩
        intro nm
        have hdir : ∀ (l : List nfct_proto) (ld : List String) (n : Nat),
            lib_dir b ⟨l, w.getenv_dir, w.files, ld, w.send_result, w.talk_result, w.inbox,
              w.trace, w.calls, n⟩ = lib_dir b w := fun _ _ _ => rfl
        constructor
        · intro hmem
          simp only [hdir, List.mem_cons] at hmem
          rw [scan_isSome_iff]
          rcases hmem with heq | hmem
          · rw [← heq] at hf
            obtain ⟨_, hd2, hd2m, hd2n⟩ := (hs nm).2 hl hf
            exact ⟨hd2, by simp [hd2m], hd2n⟩
          · obtain ⟨h3, h3m, h3n⟩ := (scan_isSome_iff _ _).mp ((hs nm).1 hmem)
            exact ⟨h3, by simp [h3m], h3n⟩
        · intro hs2 hf2
          exact (hs nm).2 hs2 hf2

/-! ## Lemmas: the parse path -/

theorem parse_proto_eq (b : Build) (fuel : Nat) (w : World) (attr : nfattr_ptr) (tuple : nfct_tuple) :
    parse_proto b fuel w attr tuple =
      (findproto b fuel w (proto2str (with_protonum b attr tuple).protonum)).bind (fun r =>
        Result.ok (r.1, with_l4 b r.2 attr (with_protonum b attr tuple))) := by
  unfold parse_proto
  have e : (match nfnl_parse_nested b.endian CTA_PROTO_MAX attr (CTA_PROTO_NUM - 1) with
      | some a => { tuple with protonum := deref_u8 a }
      | none => tuple) = with_protonum b attr tuple := rfl
  simp only [e]
  cases findproto b fuel w (proto2str (with_protonum b attr tuple).protonum) with
  | exit s => rfl
  | diverge => rfl
  | ok r =>
    rcases r with ⟨w1, h⟩
    cases h with
    | none => rfl
    | some h =>
      cases hp : h.parse_proto <;> simp [with_l4, hp]

theorem parse_protoinfo_eq (b : Build) (fuel : Nat) (w : World) (attr : nfattr_ptr)
    (ct : nfct_conntrack) :
    parse_protoinfo b fuel w attr ct =
      (findproto b fuel w (proto2str (ct.tuple.get NFCT_DIR_ORIGINAL).protonum)).bind (fun r =>
        Result.ok (r.1, with_protoinfo b r.2 attr ct)) := by
  unfold parse_protoinfo
  cases findproto b fuel w (proto2str (ct.tuple.get NFCT_DIR_ORIGINAL).protonum) with
  | exit s => rfl
  | diverge => rfl
  | ok r =>
    rcases r with ⟨w1, h⟩
    cases h with
    | none => rfl
    | some h =>
      cases hp : h.parse_protoinfo <;> simp [with_protoinfo, hp]

theorem with_l4_fields {b : Build} (h : Option nfct_proto) (attr : nfattr_ptr) (t : nfct_tuple) :
    (with_l4 b h attr t).src = t.src ∧ (with_l4 b h attr t).dst = t.dst ∧
      (with_l4 b h attr t).protonum = t.protonum ∧ (with_l4 b h attr t).pad = t.pad := by
  cases h with
  | none => exact ⟨rfl, rfl, rfl, rfl⟩
  | some h =>
    cases hp : h.parse_proto <;> simp [with_l4, hp]

theorem with_protoinfo_fields {b : Build} (h : Option nfct_proto) (attr : nfattr_ptr) (ct : nfct_conntrack) :
    ∃ p, with_protoinfo b h attr ct = { ct with protoinfo := p } := by
  cases h with
  | none => exact ⟨ct.protoinfo, rfl⟩
  | some h =>
    cases hp : h.parse_protoinfo with
    | none => exact ⟨ct.protoinfo, by simp [with_protoinfo, hp]⟩
    | some f => exact ⟨f (nfnl_parse_nested b.endian CTA_PROTOINFO_MAX attr) ct, by simp [with_protoinfo, hp]⟩

theorem parse_tuple_eq (b : Build) (fuel : Nat) (w : World) (attr : nfattr_ptr) (tuple : nfct_tuple) :
    parse_tuple b fuel w attr tuple =
      match nfnl_parse_nested b.endian CTA_TUPLE_MAX attr (CTA_TUPLE_PROTO - 1) with
      | some a =>
        (findproto b fuel w (proto2str (with_protonum b a (with_ip b attr tuple)).protonum)).bind
          (fun r => Result.ok (r.1, with_l4 b r.2 a (with_protonum b a (with_ip b attr tuple))))
      | none => Result.ok (w, with_ip b attr tuple) := by
  unfold parse_tuple
  simp only [parse_proto_eq]
  rfl

theorem parse_tuple_ok {b : Build} {fuel : Nat} {w w1 : World} {attr : nfattr_ptr}
    {tuple t1 : nfct_tuple} (h : parse_tuple b fuel w attr tuple = Result.ok (w1, t1)) :
    w.frame w1 ∧
      match nfnl_parse_nested b.endian CTA_TUPLE_MAX attr (CTA_TUPLE_PROTO - 1) with
      | some a => ∃ hd, findproto b fuel w
            (proto2str (with_protonum b a (with_ip b attr tuple)).protonum) = Result.ok (w1, hd) ∧
          t1 = with_l4 b hd a (with_protonum b a (with_ip b attr tuple))
      | none => w1 = w ∧ t1 = with_ip b attr tuple := by
  rw [parse_tuple_eq] at h
  cases hp : nfnl_parse_nested b.endian CTA_TUPLE_MAX attr (CTA_TUPLE_PROTO - 1) with
  | none =>
    simp only [hp, Result.ok.injEq, Prod.mk.injEq] at h
    refine ⟨?_, h.1.symm, h.2.symm⟩
    rw [← h.1]
    exact World.frame_refl w
  | some a =>
    simp only [hp] at h
    obtain ⟨⟨w2, hd⟩, h2, h3⟩ := Result.bind_eq_ok h
    simp only [Result.ok.injEq, Prod.mk.injEq] at h3
    refine ⟨?_, hd, ?_, h3.2.symm⟩
    · rw [← h3.1]
      exact findproto_frame b fuel _ _ _ _ h2
    · rw [← h3.1]
      exact h2

theorem parse_tuple_sane (b : Build) (fuel : Nat) (w : World) (attr : nfattr_ptr) (tuple : nfct_tuple)
    (hs : w.sane b) :
    ∃ w1 t1, parse_tuple b (fuel + 2) w attr tuple = Result.ok (w1, t1) ∧ w1.sane b := by
  rw [parse_tuple_eq]
  cases nfnl_parse_nested b.endian CTA_TUPLE_MAX attr (CTA_TUPLE_PROTO - 1) with
  | none => exact ⟨w, with_ip b attr tuple, rfl, hs⟩
  | some a =>
    obtain ⟨w1, r, h1, s1⟩ := findproto_sane b fuel w
      (proto2str (with_protonum b a (with_ip b attr tuple)).protonum) hs
    refine ⟨w1, with_l4 b r a (with_protonum b a (with_ip b attr tuple)), ?_, s1⟩
    simp only [h1, Result.bind_ok]

theorem parse_protoinfo_sane (b : Build) (fuel : Nat) (w : World) (attr : nfattr_ptr)
    (ct : nfct_conntrack) (hs : w.sane b) :
    ∃ w1 ct1, parse_protoinfo b (fuel + 2) w attr ct = Result.ok (w1, ct1) ∧ w1.sane b := by
  rw [parse_protoinfo_eq]
  obtain ⟨w1, r, h1, s1⟩ := findproto_sane b fuel w
    (proto2str (ct.tuple.get NFCT_DIR_ORIGINAL).protonum) hs
  refine ⟨w1, with_protoinfo b r attr ct, ?_, s1⟩
  simp only [h1, Result.bind_ok]

theorem DirArray.set_get {α : Type} (a : DirArray α) (dir : Nat) : a.set dir (a.get dir) = a := by
  unfold DirArray.set DirArray.get
  split <;> rfl

theorem DirArray.set_set {α : Type} (a : DirArray α) (dir : Nat) (x y : α) :
    (a.set dir x).set dir y = a.set dir y := by
  unfold DirArray.set
  split <;> rfl

theorem DirArray.get_set {α : Type} (a : DirArray α) (dir : Nat) (x : α) :
    (a.set dir x).get dir = x := by
  unfold DirArray.set DirArray.get
  split <;> simp [*]

theorem nfct_parse_counters_eq (b : Build) (attr : nfattr_ptr) (ct : nfct_conntrack) (parent : Nat) :
    nfct_parse_counters b attr ct parent =
      { ct with counters := (ct.counters.set (counters_dir parent)
          (counters_after b attr (ct.counters.get (counters_dir parent)))) } := by
  unfold nfct_parse_counters counters_after counters_dir
  dsimp only
  cases nfnl_parse_nested b.endian CTA_COUNTERS_MAX attr (CTA_COUNTERS_PACKETS - 1) <;>
    cases nfnl_parse_nested b.endian CTA_COUNTERS_MAX attr (CTA_COUNTERS_BYTES - 1) <;>
    cases nfnl_parse_nested b.endian CTA_COUNTERS_MAX attr (CTA_COUNTERS32_PACKETS - 1) <;>
    cases nfnl_parse_nested b.endian CTA_COUNTERS_MAX attr (CTA_COUNTERS32_BYTES - 1) <;>
    simp [DirArray.set_get, DirArray.set_set, DirArray.get_set]

/-! ## Lemmas: the flow reply handler -/

theorem to_int_lt (x : Nat) : to_int x < 2 ^ 31 := by
  unfold to_int
  split
  · omega
  · have := Nat.mod_lt x (show 0 < 2 ^ 32 by norm_num)
    omega

theorem to_int_of_lt (x : Nat) (h : x < 2 ^ 31) : to_int x = x := by
  unfold to_int
  have e : x % 2 ^ 32 = x := Nat.mod_eq_of_lt (by omega)
  rw [e, if_pos h]

/-- When `nlmsg_len` covers the two headers, `len` is what is left of it. -/
theorem attr_len_of_nonneg (nlh : nlmsghdr)
    (hl : 0 ≤ to_int nlh.nlmsg_len - (NLMSG_LENGTH sizeof_nfgenmsg : Nat)) :
    attr_len nlh = to_int nlh.nlmsg_len - (NLMSG_LENGTH sizeof_nfgenmsg : Nat) := by
  have h1 := to_int_lt nlh.nlmsg_len
  unfold attr_len sub_size_t
  generalize to_int nlh.nlmsg_len = x at *
  have e : (NLMSG_LENGTH sizeof_nfgenmsg : Nat) = 20 := rfl
  rw [e] at hl ⊢
  have h2 : (x - ((20 : Nat) : Int)) % 2 ^ 32 = x - 20 := by
    apply Int.emod_eq_of_lt <;> omega
  rw [h2]
  have h3 : ((x - 20).toNat : Int) = x - 20 := Int.toNat_of_nonneg (by omega)
  rw [to_int_of_lt _ (by omega), h3]
  rfl

theorem attr_len_not_neg (nlh : nlmsghdr)
    (hl : 0 ≤ to_int nlh.nlmsg_len - (NLMSG_LENGTH sizeof_nfgenmsg : Nat)) :
    ¬ (attr_len nlh < 0) := by
  rw [attr_len_of_nonneg nlh hl]
  exact not_lt.mpr hl

theorem nfnl_parse_attr_isSome (e : Endian) (max : Nat) (p : Nat → Nat) (len : Int) (i : Nat)
    (hi : i < max) :
    (nfnl_parse_attr e max p len i).isSome =
      (nfattr_walk e len.toNat p len).any (fun a => a.nfa_type == i + 1) := by
  simp only [nfnl_parse_attr, hi, if_true]
  rw [Bool.eq_iff_iff]
  simp [List.find?_isSome]

theorem nfnl_parse_attr_type {e : Endian} {max : Nat} {p : Nat → Nat} {len : Int} {i : Nat}
    {a : nfattr_ptr} (h : nfnl_parse_attr e max p len i = some a) :
    a.nfa_type = i + 1 ∧ a ∈ nfattr_walk e len.toNat p len := by
  unfold nfnl_parse_attr at h
  split at h
  · have h1 := List.find?_some h
    have h2 := List.mem_of_find?_eq_some h
    exact ⟨by simpa using h1, by simpa using h2⟩
  · simp at h

theorem nfct_conntrack_netlink_handler_eq (b : Build) (fuel : Nat) (w : World)
    (cth : nfct_handle) (nlh : nlmsghdr) :
    nfct_conntrack_netlink_handler b fuel w cth nlh =
      if attr_len nlh < 0 then
        Result.ok (w, -EINVAL)
      else
        (match nfnl_parse_attr b.endian CTA_MAX nlh.data (attr_len nlh) (CTA_TUPLE_ORIG - 1) with
          | some a => (parse_tuple b fuel w a nfct_tuple.zero).bind (fun r =>
              Result.ok (r.1, { nfct_conntrack.zero with tuple := ⟨r.2, nfct_tuple.zero⟩ }))
          | none => Result.ok (w, nfct_conntrack.zero)).bind (fun s1 =>
        (match nfnl_parse_attr b.endian CTA_MAX nlh.data (attr_len nlh) (CTA_TUPLE_REPLY - 1) with
          | some a => (parse_tuple b fuel s1.1 a s1.2.tuple.reply).bind (fun r =>
              Result.ok (r.1, { s1.2 with tuple := ⟨s1.2.tuple.original, r.2⟩ }))
          | none => Result.ok s1).bind (fun s2 =>
        (match nfnl_parse_attr b.endian CTA_MAX nlh.data (attr_len nlh) (CTA_PROTOINFO - 1) with
          | some a => (parse_protoinfo b fuel s2.1 a
                (status_step b (nfnl_parse_attr b.endian CTA_MAX nlh.data (attr_len nlh)) s2.2).1).bind (fun r =>
              Result.ok (r.1, r.2,
                (status_step b (nfnl_parse_attr b.endian CTA_MAX nlh.data (attr_len nlh)) s2.2).2 ||| NFCT_PROTOINFO))
          | none => Result.ok (s2.1, status_step b (nfnl_parse_attr b.endian CTA_MAX nlh.data (attr_len nlh)) s2.2)).bind
        (fun s3 =>
          Result.ok (invoke_callback s3.1 cth
            (CallbackArg.conntrack (parse_tail b (nfnl_parse_attr b.endian CTA_MAX nlh.data (attr_len nlh)) s3.2).1)
            (parse_tail b (nfnl_parse_attr b.endian CTA_MAX nlh.data (attr_len nlh)) s3.2).2
            (typemsg2enum (NFNL_MSG_TYPE nlh.nlmsg_type) nlh.nlmsg_flags))))) := rfl

theorem nfct_conntrack_netlink_handler_ok {b : Build} {fuel : Nat} {w w1 : World}
    {cth : nfct_handle} {nlh : nlmsghdr} {ret : Int}
    (hl : ¬ (attr_len nlh < 0))
    (h : nfct_conntrack_netlink_handler b fuel w cth nlh = Result.ok (w1, ret)) :
    ∃ wa t0 wb t1 wc hd,
      (match nfnl_parse_attr b.endian CTA_MAX nlh.data (attr_len nlh) (CTA_TUPLE_ORIG - 1) with
        | some a => parse_tuple b fuel w a nfct_tuple.zero = Result.ok (wa, t0)
        | none => wa = w ∧ t0 = nfct_tuple.zero) ∧
      (match nfnl_parse_attr b.endian CTA_MAX nlh.data (attr_len nlh) (CTA_TUPLE_REPLY - 1) with
        | some a => parse_tuple b fuel wa a nfct_tuple.zero = Result.ok (wb, t1)
        | none => wb = wa ∧ t1 = nfct_tuple.zero) ∧
      (match nfnl_parse_attr b.endian CTA_MAX nlh.data (attr_len nlh) (CTA_PROTOINFO - 1) with
        | some _ => findproto b fuel wb (proto2str t0.protonum) = Result.ok (wc, hd)
        | none => wc = wb) ∧
      w.frame wc ∧
      (w1, ret) = invoke_callback wc cth
        (CallbackArg.conntrack (parsed_flow b (nfnl_parse_attr b.endian CTA_MAX nlh.data (attr_len nlh)) t0 t1 hd).1)
        (parsed_flow b (nfnl_parse_attr b.endian CTA_MAX nlh.data (attr_len nlh)) t0 t1 hd).2
        (typemsg2enum (NFNL_MSG_TYPE nlh.nlmsg_type) nlh.nlmsg_flags) := by
  rw [nfct_conntrack_netlink_handler_eq, if_neg hl] at h
  obtain ⟨⟨wa, c1⟩, h1, h⟩ := Result.bind_eq_ok h
  obtain ⟨⟨wb, c2⟩, h2, h⟩ := Result.bind_eq_ok h
  obtain ⟨⟨wc, c3⟩, h3, h⟩ := Result.bind_eq_ok h
  simp only [Result.ok.injEq] at h
  -- first tuple
  have e1 : ∃ t0, c1 = { nfct_conntrack.zero with tuple := ⟨t0, nfct_tuple.zero⟩ } ∧
      (match nfnl_parse_attr b.endian CTA_MAX nlh.data (attr_len nlh) (CTA_TUPLE_ORIG - 1) with
        | some a => parse_tuple b fuel w a nfct_tuple.zero = Result.ok (wa, t0)
        | none => wa = w ∧ t0 = nfct_tuple.zero) := by
    cases hc : nfnl_parse_attr b.endian CTA_MAX nlh.data (attr_len nlh) (CTA_TUPLE_ORIG - 1) with
    | none =>
      simp only [hc, Result.ok.injEq, Prod.mk.injEq] at h1
      exact ⟨nfct_tuple.zero, h1.2.symm, h1.1.symm, rfl⟩
    | some a =>
      simp only [hc] at h1
      obtain ⟨⟨wx, tx⟩, p1, p2⟩ := Result.bind_eq_ok h1
      simp only [Result.ok.injEq, Prod.mk.injEq] at p2
      refine ⟨tx, p2.2.symm, ?_⟩
      rw [← p2.1]
      exact p1
  obtain ⟨t0, hc1, m1⟩ := e1
  subst hc1
  have e2 : ∃ t1, c2 = { nfct_conntrack.zero with tuple := ⟨t0, t1⟩ } ∧
      (match nfnl_parse_attr b.endian CTA_MAX nlh.data (attr_len nlh) (CTA_TUPLE_REPLY - 1) with
        | some a => parse_tuple b fuel wa a nfct_tuple.zero = Result.ok (wb, t1)
        | none => wb = wa ∧ t1 = nfct_tuple.zero) := by
    cases hc : nfnl_parse_attr b.endian CTA_MAX nlh.data (attr_len nlh) (CTA_TUPLE_REPLY - 1) with
    | none =>
      simp only [hc, Result.ok.injEq, Prod.mk.injEq] at h2
      exact ⟨nfct_tuple.zero, h2.2.symm, h2.1.symm, rfl⟩
    | some a =>
      simp only [hc] at h2
      obtain ⟨⟨wx, tx⟩, p1, p2⟩ := Result.bind_eq_ok h2
      simp only [Result.ok.injEq, Prod.mk.injEq] at p2
      refine ⟨tx, p2.2.symm, ?_⟩
      rw [← p2.1]
      exact p1
  obtain ⟨t1, hc2, m2⟩ := e2
  subst hc2
  have e3 : ∃ hd, c3 = opt_step (nfnl_parse_attr b.endian CTA_MAX nlh.data (attr_len nlh) (CTA_PROTOINFO - 1))
        (with_protoinfo b hd) NFCT_PROTOINFO
        (status_step b (nfnl_parse_attr b.endian CTA_MAX nlh.data (attr_len nlh))
          { nfct_conntrack.zero with tuple := ⟨t0, t1⟩ }) ∧
      (match nfnl_parse_attr b.endian CTA_MAX nlh.data (attr_len nlh) (CTA_PROTOINFO - 1) with
        | some _ => findproto b fuel wb (proto2str t0.protonum) = Result.ok (wc, hd)
        | none => wc = wb) := by
    cases hc : nfnl_parse_attr b.endian CTA_MAX nlh.data (attr_len nlh) (CTA_PROTOINFO - 1) with
    | none =>
      simp only [hc, Result.ok.injEq, Prod.mk.injEq] at h3
      exact ⟨none, h3.2.symm, h3.1.symm⟩
    | some a =>
      simp only [hc, parse_protoinfo_eq] at h3
      obtain ⟨⟨wx, cx⟩, p1, p2⟩ := Result.bind_eq_ok h3
      obtain ⟨⟨wy, hy⟩, q1, q2⟩ := Result.bind_eq_ok p1
      simp only [Result.ok.injEq, Prod.mk.injEq] at p2 q2
      refine ⟨hy, ?_, ?_⟩
      · rw [← p2.2, ← q2.2]
        rfl
      · rw [← p2.1, ← q2.1]
        have e : (status_step b (nfnl_parse_attr b.endian CTA_MAX nlh.data (attr_len nlh))
            { nfct_conntrack.zero with tuple := ⟨t0, t1⟩ }).1.tuple.get NFCT_DIR_ORIGINAL = t0 := by
          unfold status_step opt_step
          cases nfnl_parse_attr b.endian CTA_MAX nlh.data (attr_len nlh) (CTA_STATUS - 1) <;> rfl
        rw [e] at q1
        exact q1
  obtain ⟨hd, hc3, m3⟩ := e3
  subst hc3
  have f1 : w.frame wa := by
    cases hc : nfnl_parse_attr b.endian CTA_MAX nlh.data (attr_len nlh) (CTA_TUPLE_ORIG - 1) with
    | none =>
      rw [hc] at m1
      rw [m1.1]
      exact World.frame_refl w
    | some a =>
      rw [hc] at m1
      exact (parse_tuple_ok m1).1
  have f2 : wa.frame wb := by
    cases hc : nfnl_parse_attr b.endian CTA_MAX nlh.data (attr_len nlh) (CTA_TUPLE_REPLY - 1) with
    | none =>
      rw [hc] at m2
      rw [m2.1]
      exact World.frame_refl wa
    | some a =>
      rw [hc] at m2
      exact (parse_tuple_ok m2).1
  have f3 : wb.frame wc := by
    cases hc : nfnl_parse_attr b.endian CTA_MAX nlh.data (attr_len nlh) (CTA_PROTOINFO - 1) with
    | none =>
      rw [hc] at m3
      rw [m3]
      exact World.frame_refl wb
    | some a =>
      rw [hc] at m3
      exact findproto_frame b fuel _ _ _ _ m3
  exact ⟨wa, t0, wb, t1, wc, hd, m1, m2, m3, World.frame_trans (World.frame_trans f1 f2) f3,
    h.symm⟩

theorem opt_step_snd (o : Option nfattr_ptr) (f : nfattr_ptr → nfct_conntrack → nfct_conntrack) (F : Nat)
    (cf : nfct_conntrack × Nat) :
    (opt_step o f F cf).2 = cf.2 ||| (if o.isSome then F else 0) := by
  cases o <;> simp [opt_step]

theorem opt_step_none (f : nfattr_ptr → nfct_conntrack → nfct_conntrack) (F : Nat)
    (cf : nfct_conntrack × Nat) : opt_step none f F cf = cf := rfl

theorem opt_step_keep {α : Type} (π : nfct_conntrack → α) (o : Option nfattr_ptr)
    (f : nfattr_ptr → nfct_conntrack → nfct_conntrack) (F : Nat) (cf : nfct_conntrack × Nat)
    (hf : ∀ a c, π (f a c) = π c) : π (opt_step o f F cf).1 = π cf.1 := by
  cases o with
  | none => rfl
  | some a => exact hf a cf.1

theorem opt_step_own {α : Type} (π : nfct_conntrack → α) (o : Option nfattr_ptr)
    (f : nfattr_ptr → nfct_conntrack → nfct_conntrack) (F : Nat) (cf : nfct_conntrack × Nat)
    (v : nfattr_ptr → α) (hf : ∀ a c, π (f a c) = v a) :
    π (opt_step o f F cf).1 = match o with
      | some a => v a
      | none => π cf.1 := by
  cases o with
  | none => rfl
  | some a => exact hf a cf.1

theorem with_protoinfo_keep {b : Build} {α : Type} (π : nfct_conntrack → α)
    (hπ : ∀ (c : nfct_conntrack) (p : Nat), π { c with protoinfo := p } = π c)
    (h : Option nfct_proto) (a : nfattr_ptr) (c : nfct_conntrack) :
    π (with_protoinfo b h a c) = π c := by
  obtain ⟨p, hp⟩ := with_protoinfo_fields h a c
  rw [hp, hπ]

theorem nfct_parse_counters_keep {α : Type} (π : nfct_conntrack → α)
    (hπ : ∀ (c : nfct_conntrack) (x : DirArray nfct_counters), π { c with counters := x } = π c)
    (b : Build) (a : nfattr_ptr) (c : nfct_conntrack) (p : Nat) :
    π (nfct_parse_counters b a c p) = π c := by
  rw [nfct_parse_counters_eq, hπ]

theorem parsed_flow_flags (b : Build) (cda : Nat → Option nfattr_ptr) (t0 t1 : nfct_tuple)
    (h : Option nfct_proto) :
    (parsed_flow b cda t0 t1 h).2 =
      flags_of (cda (CTA_STATUS - 1)).isSome (cda (CTA_PROTOINFO - 1)).isSome
        (cda (CTA_TIMEOUT - 1)).isSome (cda (CTA_MARK - 1)).isSome
        (cda (CTA_COUNTERS_ORIG - 1)).isSome (cda (CTA_COUNTERS_REPLY - 1)).isSome
        (cda (CTA_USE - 1)).isSome (cda (CTA_ID - 1)).isSome := by
  simp only [parsed_flow, parse_tail, status_step, opt_step_snd, flags_of]

theorem flags_of_bits (s p t m co cr u i : Bool) :
    (flags_of s p t m co cr u i &&& NFCT_STATUS ≠ 0 ↔ s = true) ∧
    (flags_of s p t m co cr u i &&& NFCT_PROTOINFO ≠ 0 ↔ p = true) ∧
    (flags_of s p t m co cr u i &&& NFCT_TIMEOUT ≠ 0 ↔ t = true) ∧
    (flags_of s p t m co cr u i &&& NFCT_MARK ≠ 0 ↔ m = true) ∧
    (flags_of s p t m co cr u i &&& NFCT_COUNTERS_ORIG ≠ 0 ↔ co = true) ∧
    (flags_of s p t m co cr u i &&& NFCT_COUNTERS_RPLY ≠ 0 ↔ cr = true) ∧
    (flags_of s p t m co cr u i &&& NFCT_USE ≠ 0 ↔ u = true) ∧
    (flags_of s p t m co cr u i &&& NFCT_ID ≠ 0 ↔ i = true) := by
  cases s <;> cases p <;> cases t <;> cases m <;> cases co <;> cases cr <;> cases u <;>
    cases i <;> decide

theorem parsed_flow_scalars (b : Build) (cda : Nat → Option nfattr_ptr) (t0 t1 : nfct_tuple)
    (h : Option nfct_proto) :
    (parsed_flow b cda t0 t1 h).1.tuple = ⟨t0, t1⟩ ∧
    (parsed_flow b cda t0 t1 h).1.status = (match cda (CTA_STATUS - 1) with
      | some a => ntohl b.endian (deref_u32 b a)
      | none => 0) ∧
    (parsed_flow b cda t0 t1 h).1.timeout = (match cda (CTA_TIMEOUT - 1) with
      | some a => ntohl b.endian (deref_u32 b a)
      | none => 0) ∧
    (parsed_flow b cda t0 t1 h).1.mark = (match cda (CTA_MARK - 1) with
      | some a => ntohl b.endian (deref_u32 b a)
      | none => 0) ∧
    (parsed_flow b cda t0 t1 h).1.use = (match cda (CTA_USE - 1) with
      | some a => ntohl b.endian (deref_u32 b a)
      | none => 0) ∧
    (parsed_flow b cda t0 t1 h).1.id = (match cda (CTA_ID - 1) with
      | some a => ntohl b.endian (deref_u32 b a)
      | none => 0) ∧
    (parsed_flow b cda t0 t1 h).1.nat = nfct_conntrack.zero.nat ∧
    (cda (CTA_PROTOINFO - 1) = none → (parsed_flow b cda t0 t1 h).1.protoinfo = 0) := by
  have kc : ∀ {α : Type} (π : nfct_conntrack → α)
      (_ : ∀ (c : nfct_conntrack) (x : DirArray nfct_counters), π { c with counters := x } = π c)
      (a : nfattr_ptr) (c : nfct_conntrack), π (nfct_parse_counters b a c (a.nfa_type - 1)) = π c :=
    fun π hπ a c => nfct_parse_counters_keep π hπ b a c _
  unfold parsed_flow parse_tail status_step
  refine ⟨?_, ?_, ?_, ?_, ?_, ?_, ?_, ?_⟩
  · rw [opt_step_keep nfct_conntrack.tuple,
      opt_step_keep nfct_conntrack.tuple,
      opt_step_keep nfct_conntrack.tuple,
      opt_step_keep nfct_conntrack.tuple,
      opt_step_keep nfct_conntrack.tuple,
      opt_step_keep nfct_conntrack.tuple,
      opt_step_keep nfct_conntrack.tuple,
      opt_step_keep nfct_conntrack.tuple]
    all_goals first
      | rfl
      | exact fun _ _ => rfl
      | exact kc nfct_conntrack.tuple (fun _ _ => rfl)
      | exact with_protoinfo_keep nfct_conntrack.tuple (fun _ _ => rfl) h
  · rw [opt_step_keep nfct_conntrack.status,
      opt_step_keep nfct_conntrack.status,
      opt_step_keep nfct_conntrack.status,
      opt_step_keep nfct_conntrack.status,
      opt_step_keep nfct_conntrack.status,
      opt_step_keep nfct_conntrack.status,
      opt_step_keep nfct_conntrack.status,
      opt_step_own nfct_conntrack.status]
    all_goals first
      | rfl
      | exact fun _ _ => rfl
      | exact kc nfct_conntrack.status (fun _ _ => rfl)
      | exact with_protoinfo_keep nfct_conntrack.status (fun _ _ => rfl) h
  · rw [opt_step_keep nfct_conntrack.timeout,
      opt_step_keep nfct_conntrack.timeout,
      opt_step_keep nfct_conntrack.timeout,
      opt_step_keep nfct_conntrack.timeout,
      opt_step_keep nfct_conntrack.timeout,
      opt_step_own nfct_conntrack.timeout,
      opt_step_keep nfct_conntrack.timeout,
      opt_step_keep nfct_conntrack.timeout]
    all_goals first
      | rfl
      | exact fun _ _ => rfl
      | exact kc nfct_conntrack.timeout (fun _ _ => rfl)
      | exact with_protoinfo_keep nfct_conntrack.timeout (fun _ _ => rfl) h
  · rw [opt_step_keep nfct_conntrack.mark,
      opt_step_keep nfct_conntrack.mark,
      opt_step_keep nfct_conntrack.mark,
      opt_step_keep nfct_conntrack.mark,
      opt_step_own nfct_conntrack.mark,
      opt_step_keep nfct_conntrack.mark,
      opt_step_keep nfct_conntrack.mark,
      opt_step_keep nfct_conntrack.mark]
    all_goals first
      | rfl
      | exact fun _ _ => rfl
      | exact kc nfct_conntrack.mark (fun _ _ => rfl)
      | exact with_protoinfo_keep nfct_conntrack.mark (fun _ _ => rfl) h
  · rw [opt_step_keep nfct_conntrack.use,
      opt_step_own nfct_conntrack.use,
      opt_step_keep nfct_conntrack.use,
      opt_step_keep nfct_conntrack.use,
      opt_step_keep nfct_conntrack.use,
      opt_step_keep nfct_conntrack.use,
      opt_step_keep nfct_conntrack.use,
      opt_step_keep nfct_conntrack.use]
    all_goals first
      | rfl
      | exact fun _ _ => rfl
      | exact kc nfct_conntrack.use (fun _ _ => rfl)
      | exact with_protoinfo_keep nfct_conntrack.use (fun _ _ => rfl) h
  · rw [opt_step_own nfct_conntrack.id,
      opt_step_keep nfct_conntrack.id,
      opt_step_keep nfct_conntrack.id,
      opt_step_keep nfct_conntrack.id,
      opt_step_keep nfct_conntrack.id,
      opt_step_keep nfct_conntrack.id,
      opt_step_keep nfct_conntrack.id,
      opt_step_keep nfct_conntrack.id]
    all_goals first
      | rfl
      | exact fun _ _ => rfl
      | exact kc nfct_conntrack.id (fun _ _ => rfl)
      | exact with_protoinfo_keep nfct_conntrack.id (fun _ _ => rfl) h
  · rw [opt_step_keep nfct_conntrack.nat,
      opt_step_keep nfct_conntrack.nat,
      opt_step_keep nfct_conntrack.nat,
      opt_step_keep nfct_conntrack.nat,
      opt_step_keep nfct_conntrack.nat,
      opt_step_keep nfct_conntrack.nat,
      opt_step_keep nfct_conntrack.nat,
      opt_step_keep nfct_conntrack.nat]
    all_goals first
      | rfl
      | exact fun _ _ => rfl
      | exact kc nfct_conntrack.nat (fun _ _ => rfl)
      | exact with_protoinfo_keep nfct_conntrack.nat (fun _ _ => rfl) h
  · intro hp
    rw [opt_step_keep nfct_conntrack.protoinfo,
      opt_step_keep nfct_conntrack.protoinfo,
      opt_step_keep nfct_conntrack.protoinfo,
      opt_step_keep nfct_conntrack.protoinfo,
      opt_step_keep nfct_conntrack.protoinfo,
      opt_step_keep nfct_conntrack.protoinfo, hp, opt_step_none,
      opt_step_keep nfct_conntrack.protoinfo]
    all_goals first
      | rfl
      | exact fun _ _ => rfl
      | exact kc nfct_conntrack.protoinfo (fun _ _ => rfl)

theorem parsed_flow_counters (b : Build) (p : Nat → Nat) (len : Int) (t0 t1 : nfct_tuple)
    (h : Option nfct_proto) :
    (parsed_flow b (nfnl_parse_attr b.endian CTA_MAX p len) t0 t1 h).1.counters.original =
      (match nfnl_parse_attr b.endian CTA_MAX p len (CTA_COUNTERS_ORIG - 1) with
        | some a => counters_after b a ⟨0, 0⟩
        | none => ⟨0, 0⟩) ∧
    (parsed_flow b (nfnl_parse_attr b.endian CTA_MAX p len) t0 t1 h).1.counters.reply =
      (match nfnl_parse_attr b.endian CTA_MAX p len (CTA_COUNTERS_REPLY - 1) with
        | some a => counters_after b a ⟨0, 0⟩
        | none => ⟨0, 0⟩) := by
  have kc : ∀ {α : Type} (π : nfct_conntrack → α)
      (_ : ∀ (c : nfct_conntrack) (x : DirArray nfct_counters), π { c with counters := x } = π c)
      (a : nfattr_ptr) (c : nfct_conntrack), π (nfct_parse_counters b a c (a.nfa_type - 1)) = π c :=
    fun π hπ a c => nfct_parse_counters_keep π hπ b a c _
  unfold parsed_flow parse_tail status_step
  generalize hin : (opt_step (nfnl_parse_attr b.endian CTA_MAX p len (CTA_MARK - 1))
      (fun a c => { c with mark := ntohl b.endian (deref_u32 b a) }) NFCT_MARK
      (opt_step (nfnl_parse_attr b.endian CTA_MAX p len (CTA_TIMEOUT - 1))
        (fun a c => { c with timeout := ntohl b.endian (deref_u32 b a) }) NFCT_TIMEOUT
        (opt_step (nfnl_parse_attr b.endian CTA_MAX p len (CTA_PROTOINFO - 1)) (with_protoinfo b h)
          NFCT_PROTOINFO
          (opt_step (nfnl_parse_attr b.endian CTA_MAX p len (CTA_STATUS - 1))
            (fun a c => { c with status := ntohl b.endian (deref_u32 b a) }) NFCT_STATUS
            ({ nfct_conntrack.zero with tuple := ⟨t0, t1⟩ }, 0))))) = inner
  have hz : inner.1.counters = ⟨⟨0, 0⟩, ⟨0, 0⟩⟩ := by
    rw [← hin, opt_step_keep nfct_conntrack.counters, opt_step_keep nfct_conntrack.counters,
      opt_step_keep nfct_conntrack.counters, opt_step_keep nfct_conntrack.counters]
    all_goals first
      | rfl
      | exact fun _ _ => rfl
      | exact with_protoinfo_keep nfct_conntrack.counters (fun _ _ => rfl) h
  rw [opt_step_keep nfct_conntrack.counters, opt_step_keep nfct_conntrack.counters]
  rotate_left
  · exact fun _ _ => rfl
  · exact fun _ _ => rfl
  cases h9 : nfnl_parse_attr b.endian CTA_MAX p len (CTA_COUNTERS_REPLY - 1) with
  | none =>
    cases h8 : nfnl_parse_attr b.endian CTA_MAX p len (CTA_COUNTERS_ORIG - 1) with
    | none => simp [opt_step, hz]
    | some a8 =>
      have ht := (nfnl_parse_attr_type h8).1
      simp [opt_step, nfct_parse_counters_eq, ht, counters_dir, hz, CTA_COUNTERS_ORIG,
        DirArray.set, DirArray.get, NFCT_DIR_ORIGINAL, NFCT_DIR_REPLY]
  | some a9 =>
    have ht9 := (nfnl_parse_attr_type h9).1
    cases h8 : nfnl_parse_attr b.endian CTA_MAX p len (CTA_COUNTERS_ORIG - 1) with
    | none =>
      simp [opt_step, nfct_parse_counters_eq, ht9, counters_dir, hz, CTA_COUNTERS_ORIG,
        CTA_COUNTERS_REPLY, DirArray.set, DirArray.get, NFCT_DIR_ORIGINAL, NFCT_DIR_REPLY]
    | some a8 =>
      have ht := (nfnl_parse_attr_type h8).1
      simp [opt_step, nfct_parse_counters_eq, ht, ht9, counters_dir, hz, CTA_COUNTERS_ORIG,
        CTA_COUNTERS_REPLY, DirArray.set, DirArray.get, NFCT_DIR_ORIGINAL, NFCT_DIR_REPLY]

theorem invoke_callback_some (w : World) (cth : nfct_handle) (arg : CallbackArg) (flags type : Nat)
    (cb : CallbackArg → Nat → Nat → Nat → Int) (h : cth.callback = some cb) :
    invoke_callback w cth arg flags type =
      ({ w with calls := w.calls ++ [⟨arg, flags, type, cth.callback_data⟩] },
        cb arg flags type cth.callback_data) := by
  simp [invoke_callback, h]

theorem invoke_callback_sane (b : Build) (w : World) (cth : nfct_handle) (arg : CallbackArg)
    (flags type : Nat) (hs : w.sane b) : (invoke_callback w cth arg flags type).1.sane b := by
  unfold invoke_callback
  cases cth.callback with
  | none => exact hs
  | some f => exact hs

theorem nfct_conntrack_netlink_handler_sane (b : Build) (fuel : Nat) (w : World)
    (cth : nfct_handle) (nlh : nlmsghdr) (hs : w.sane b) :
    ∃ w1 ret, nfct_conntrack_netlink_handler b (fuel + 2) w cth nlh = Result.ok (w1, ret) ∧
      w1.sane b := by
  rw [nfct_conntrack_netlink_handler_eq]
  split
  · exact ⟨w, _, rfl, hs⟩
  · have s1 : ∃ wa ca, (match nfnl_parse_attr b.endian CTA_MAX nlh.data (attr_len nlh) (CTA_TUPLE_ORIG - 1) with
          | some a => (parse_tuple b (fuel + 2) w a nfct_tuple.zero).bind (fun r =>
              Result.ok (r.1, { nfct_conntrack.zero with tuple := ⟨r.2, nfct_tuple.zero⟩ }))
          | none => Result.ok (w, nfct_conntrack.zero)) = Result.ok (wa, ca) ∧ wa.sane b := by
      cases nfnl_parse_attr b.endian CTA_MAX nlh.data (attr_len nlh) (CTA_TUPLE_ORIG - 1) with
      | none => exact ⟨w, _, rfl, hs⟩
      | some a =>
        obtain ⟨w1, t1, h1, hs1⟩ := parse_tuple_sane b fuel w a nfct_tuple.zero hs
        refine ⟨w1, { nfct_conntrack.zero with tuple := ⟨t1, nfct_tuple.zero⟩ }, ?_, hs1⟩
        simp only [h1, Result.bind_ok]
    obtain ⟨wa, ca, ha, sa⟩ := s1
    rw [ha, Result.bind_ok]
    have s2 : ∃ wb cb, (match nfnl_parse_attr b.endian CTA_MAX nlh.data (attr_len nlh) (CTA_TUPLE_REPLY - 1) with
          | some a => (parse_tuple b (fuel + 2) wa a ca.tuple.reply).bind (fun r =>
              Result.ok (r.1, { ca with tuple := ⟨ca.tuple.original, r.2⟩ }))
          | none => Result.ok (wa, ca)) = Result.ok (wb, cb) ∧ wb.sane b := by
      cases nfnl_parse_attr b.endian CTA_MAX nlh.data (attr_len nlh) (CTA_TUPLE_REPLY - 1) with
      | none => exact ⟨wa, _, rfl, sa⟩
      | some a =>
        obtain ⟨w1, t1, h1, hs1⟩ := parse_tuple_sane b fuel wa a ca.tuple.reply sa
        refine ⟨w1, { ca with tuple := ⟨ca.tuple.original, t1⟩ }, ?_, hs1⟩
        simp only [h1, Result.bind_ok]
    obtain ⟨wb, cb, hb, sb⟩ := s2
    simp only [hb, Result.bind_ok]
    cases nfnl_parse_attr b.endian CTA_MAX nlh.data (attr_len nlh) (CTA_PROTOINFO - 1) with
    | none =>
      simp only [Result.bind_ok]
      exact ⟨_, _, rfl, invoke_callback_sane b wb cth _ _ _ sb⟩
    | some a =>
      obtain ⟨wc, cc, hc, sc⟩ := parse_protoinfo_sane b fuel wb a
        (status_step b (nfnl_parse_attr b.endian CTA_MAX nlh.data (attr_len nlh)) cb).1 sb
      simp only [hc, Result.bind_ok]
      exact ⟨_, _, rfl, invoke_callback_sane b wc cth _ _ _ sc⟩

/-! ## Lemmas: the build path -/

theorem nfct_build_conntrack_ok {b : Build} {fuel : Nat} {w w1 : World} {req req1 : nfnlhdr}
    {ct : nfct_conntrack} (h : nfct_build_conntrack b fuel w req ct = Result.ok (w1, req1)) :
    ∃ h1 h2 h3, req1 = { req with attrs := req.attrs ++ conntrack_attrs b ct h1 h2 h3 } ∧
      w.frame w1 := by
  rw [nfct_build_conntrack_eq] at h
  obtain ⟨⟨wa, h1⟩, ha, h⟩ := Result.bind_eq_ok h
  obtain ⟨⟨wb, h2⟩, hb, h⟩ := Result.bind_eq_ok h
  obtain ⟨⟨wc, h3⟩, hc, h⟩ := Result.bind_eq_ok h
  simp only [Result.ok.injEq, Prod.mk.injEq] at h
  refine ⟨h1, h2, h3, h.2.symm, ?_⟩
  rw [← h.1]
  exact World.frame_trans (World.frame_trans (findproto_frame b fuel _ _ _ _ ha)
    (findproto_frame b fuel _ _ _ _ hb)) (findproto_frame b fuel _ _ _ _ hc)

theorem nfct_build_conntrack_sane (b : Build) (fuel : Nat) (w : World) (req : nfnlhdr)
    (ct : nfct_conntrack) (hs : w.sane b) :
    ∃ w1 req1, nfct_build_conntrack b (fuel + 2) w req ct = Result.ok (w1, req1) ∧
      w1.sane b := by
  rw [nfct_build_conntrack_eq]
  obtain ⟨wa, h1, ha, sa⟩ := findproto_sane b fuel w
    (proto2str (ct.tuple.get NFCT_DIR_ORIGINAL).protonum) hs
  obtain ⟨wb, h2, hb, sb⟩ := findproto_sane b fuel wa
    (proto2str (ct.tuple.get NFCT_DIR_REPLY).protonum) sa
  obtain ⟨wc, h3, hc, sc⟩ := findproto_sane b fuel wb
    (proto2str (ct.tuple.get NFCT_DIR_ORIGINAL).protonum) sb
  refine ⟨wc, { req with attrs := req.attrs ++ conntrack_attrs b ct h1 h2 h3 }, ?_, sc⟩
  simp only [ha, hb, hc, Result.bind_ok]

theorem protoinfo_part_cases (h : Option nfct_proto) (ct : nfct_conntrack) :
    protoinfo_part h ct = [] ∨ ∃ cs, protoinfo_part h ct = [nfattr.nest CTA_PROTOINFO cs] := by
  cases h with
  | none => exact Or.inl rfl
  | some h =>
    cases hb : h.build_protoinfo with
    | none => exact Or.inl (by simp [protoinfo_part, hb])
    | some f => exact Or.inr ⟨f ct, by simp [protoinfo_part, hb]⟩

theorem has_attr_conntrack_attrs (b : Build) (ct : nfct_conntrack) (h1 h2 h3 : Option nfct_proto) :
    (has_attr CTA_MARK (conntrack_attrs b ct h1 h2 h3) = true ↔ ct.mark ≠ 0) ∧
    (has_attr CTA_ID (conntrack_attrs b ct h1 h2 h3) = true ↔ ct.id ≠ NFCT_ANY_ID) ∧
    (has_attr CTA_NAT (conntrack_attrs b ct h1 h2 h3) = true ↔ ct.nat.min_ip ≠ 0) := by
  rcases protoinfo_part_cases h3 ct with hp | ⟨cs, hp⟩ <;>
    by_cases hm : ct.mark = 0 <;> by_cases hi : ct.id = NFCT_ANY_ID <;>
    by_cases hn : ct.nat.min_ip = 0 <;>
    simp [conntrack_attrs, has_attr, tuple_tree, nfattr.nfa_type, hp, hm, hi, hn,
      CTA_MARK, CTA_ID, CTA_NAT, CTA_TUPLE_ORIG, CTA_TUPLE_REPLY, CTA_STATUS, CTA_TIMEOUT,
      CTA_PROTOINFO]

/-! ## Lemmas: lookups that find nothing, and the round trip of a tuple -/

theorem findproto_no_handler (b : Build) (fuel : Nat) (w : World) (p : Nat)
    (h : no_handler b w p) :
    findproto b (fuel + 1) w (proto2str p) = Result.ok (w.missed b p, none) := by
  unfold World.missed
  cases hn : proto2str p with
  | none => rfl
  | some name =>
    obtain ⟨h1, h2, h3⟩ := h name hn
    rw [findproto_some, h1]
    have h2a : plugin_path (lib_dir b w) name ∉ (w.formatted b name).loaded := h2
    have h3a : (w.formatted b name).files (plugin_path (lib_dir b w) name) = none := h3
    simp [dlopen, h2a, h3a]

theorem World.frame_missed (b : Build) (w : World) (p : Nat) : w.frame (w.missed b p) := by
  unfold World.missed
  cases proto2str p with
  | none => exact World.frame_refl w
  | some name => exact World.frame_formatted b w name

theorem no_handler_missed (b : Build) (w : World) (p q : Nat) (h : no_handler b w q) :
    no_handler b (w.missed b p) q := by
  unfold World.missed
  cases proto2str p with
  | none => exact h
  | some name => exact h

theorem World.missed_overrun (b : Build) (w : World) (p : Nat) :
    (w.missed b p).overrun = w.overrun + (if (proto2str p).isSome then 1 else 0) := by
  unfold World.missed
  cases proto2str p with
  | none => rfl
  | some name => simp [World.formatted_overrun]

theorem nfct_build_tuple_no_handler (b : Build) (fuel : Nat) (w : World) (req : nfnlhdr)
    (t : nfct_tuple) (type : Nat) (h : no_handler b w t.protonum) :
    nfct_build_tuple b (fuel + 1) w req t type =
      Result.ok (w.missed b t.protonum,
        { req with attrs := req.attrs ++ [tuple_tree b none t type] }) := by
  rw [nfct_build_tuple_eq, findproto_no_handler b fuel w _ h]
  rfl

/-! ## Lemmas: the expectation reply handler -/

theorem nfct_expect_netlink_handler_eq (b : Build) (fuel : Nat) (w : World)
    (cth : nfct_handle) (nlh : nlmsghdr) :
    nfct_expect_netlink_handler b fuel w cth nlh =
      if attr_len nlh < 0 then
        Result.ok (w, -EINVAL)
      else
        (match nfnl_parse_attr b.endian CTA_EXPECT_MAX nlh.data (attr_len nlh) (CTA_EXPECT_TUPLE - 1) with
          | some a => (parse_tuple b fuel w a nfct_tuple.zero).bind (fun r =>
              Result.ok (r.1, { nfct_expect.zero with tuple := r.2 }))
          | none => Result.ok (w, nfct_expect.zero)).bind (fun s1 =>
        (match nfnl_parse_attr b.endian CTA_EXPECT_MAX nlh.data (attr_len nlh) (CTA_EXPECT_MASK - 1) with
          | some a => (parse_tuple b fuel s1.1 a s1.2.mask).bind (fun r =>
              Result.ok (r.1, { s1.2 with mask := r.2 }))
          | none => Result.ok s1).bind (fun s2 =>
          Result.ok ((invoke_callback s2.1 cth
            (CallbackArg.expect (expect_tail b (nfnl_parse_attr b.endian CTA_EXPECT_MAX nlh.data (attr_len nlh)) s2.2)) 0
            (typemsg2enum (NFNL_MSG_TYPE nlh.nlmsg_type) nlh.nlmsg_flags)).1, 0))) := rfl

theorem expect_tail_eq (b : Build) (cda : Nat → Option nfattr_ptr) (t m : nfct_tuple) :
    expect_tail b cda { nfct_expect.zero with tuple := t, mask := m } =
      parsed_expect b cda t m := by
  unfold expect_tail parsed_expect
  cases cda (CTA_EXPECT_TIMEOUT - 1) <;> cases cda (CTA_EXPECT_ID - 1) <;> rfl

theorem nfct_expect_netlink_handler_ok {b : Build} {fuel : Nat} {w w1 : World}
    {cth : nfct_handle} {nlh : nlmsghdr} {ret : Int}
    (hl : ¬ (attr_len nlh < 0))
    (h : nfct_expect_netlink_handler b fuel w cth nlh = Result.ok (w1, ret)) :
    ∃ wa t wb m,
      (match nfnl_parse_attr b.endian CTA_EXPECT_MAX nlh.data (attr_len nlh) (CTA_EXPECT_TUPLE - 1) with
        | some a => parse_tuple b fuel w a nfct_tuple.zero = Result.ok (wa, t)
        | none => wa = w ∧ t = nfct_tuple.zero) ∧
      (match nfnl_parse_attr b.endian CTA_EXPECT_MAX nlh.data (attr_len nlh) (CTA_EXPECT_MASK - 1) with
        | some a => parse_tuple b fuel wa a nfct_tuple.zero = Result.ok (wb, m)
        | none => wb = wa ∧ m = nfct_tuple.zero) ∧
      w.frame wb ∧
      w1 = (invoke_callback wb cth
        (CallbackArg.expect (parsed_expect b (nfnl_parse_attr b.endian CTA_EXPECT_MAX nlh.data (attr_len nlh)) t m)) 0
        (typemsg2enum (NFNL_MSG_TYPE nlh.nlmsg_type) nlh.nlmsg_flags)).1 ∧
      ret = 0 := by
  rw [nfct_expect_netlink_handler_eq, if_neg hl] at h
  obtain ⟨⟨wa, c1⟩, h1, h⟩ := Result.bind_eq_ok h
  obtain ⟨⟨wb, c2⟩, h2, h⟩ := Result.bind_eq_ok h
  simp only [Result.ok.injEq, Prod.mk.injEq] at h
  have e1 : ∃ t, c1 = { nfct_expect.zero with tuple := t } ∧
      (match nfnl_parse_attr b.endian CTA_EXPECT_MAX nlh.data (attr_len nlh) (CTA_EXPECT_TUPLE - 1) with
        | some a => parse_tuple b fuel w a nfct_tuple.zero = Result.ok (wa, t)
        | none => wa = w ∧ t = nfct_tuple.zero) := by
    cases hc : nfnl_parse_attr b.endian CTA_EXPECT_MAX nlh.data (attr_len nlh) (CTA_EXPECT_TUPLE - 1) with
    | none =>
      simp only [hc, Result.ok.injEq, Prod.mk.injEq] at h1
      exact ⟨nfct_tuple.zero, h1.2.symm, h1.1.symm, rfl⟩
    | some a =>
      simp only [hc] at h1
      obtain ⟨⟨wx, tx⟩, p1, p2⟩ := Result.bind_eq_ok h1
      simp only [Result.ok.injEq, Prod.mk.injEq] at p2
      refine ⟨tx, p2.2.symm, ?_⟩
      rw [← p2.1]
      exact p1
  obtain ⟨t, hc1, m1⟩ := e1
  subst hc1
  have e2 : ∃ m, c2 = { nfct_expect.zero with tuple := t, mask := m } ∧
      (match nfnl_parse_attr b.endian CTA_EXPECT_MAX nlh.data (attr_len nlh) (CTA_EXPECT_MASK - 1) with
        | some a => parse_tuple b fuel wa a nfct_tuple.zero = Result.ok (wb, m)
        | none => wb = wa ∧ m = nfct_tuple.zero) := by
    cases hc : nfnl_parse_attr b.endian CTA_EXPECT_MAX nlh.data (attr_len nlh) (CTA_EXPECT_MASK - 1) with
    | none =>
      simp only [hc, Result.ok.injEq, Prod.mk.injEq] at h2
      exact ⟨nfct_tuple.zero, h2.2.symm, h2.1.symm, rfl⟩
    | some a =>
      simp only [hc] at h2
      obtain ⟨⟨wx, tx⟩, p1, p2⟩ := Result.bind_eq_ok h2
      simp only [Result.ok.injEq, Prod.mk.injEq] at p2
      refine ⟨tx, p2.2.symm, ?_⟩
      rw [← p2.1]
      exact p1
  obtain ⟨m, hc2, m2⟩ := e2
  subst hc2
  rw [expect_tail_eq] at h
  have f1 : w.frame wa := by
    cases hc : nfnl_parse_attr b.endian CTA_EXPECT_MAX nlh.data (attr_len nlh) (CTA_EXPECT_TUPLE - 1) with
    | none =>
      rw [hc] at m1
      rw [m1.1]
      exact World.frame_refl w
    | some a =>
      rw [hc] at m1
      exact (parse_tuple_ok m1).1
  have f2 : wa.frame wb := by
    cases hc : nfnl_parse_attr b.endian CTA_EXPECT_MAX nlh.data (attr_len nlh) (CTA_EXPECT_MASK - 1) with
    | none =>
      rw [hc] at m2
      rw [m2.1]
      exact World.frame_refl wa
    | some a =>
      rw [hc] at m2
      exact (parse_tuple_ok m2).1
  exact ⟨wa, t, wb, m, m1, m2, World.frame_trans f1 f2, h.1.symm, h.2.symm⟩

theorem nfct_expect_netlink_handler_sane (b : Build) (fuel : Nat) (w : World)
    (cth : nfct_handle) (nlh : nlmsghdr) (hs : w.sane b) :
    ∃ w1 ret, nfct_expect_netlink_handler b (fuel + 2) w cth nlh = Result.ok (w1, ret) ∧
      w1.sane b := by
  rw [nfct_expect_netlink_handler_eq]
  split
  · exact ⟨w, _, rfl, hs⟩
  · have s1 : ∃ wa ca, (match nfnl_parse_attr b.endian CTA_EXPECT_MAX nlh.data (attr_len nlh) (CTA_EXPECT_TUPLE - 1) with
          | some a => (parse_tuple b (fuel + 2) w a nfct_tuple.zero).bind (fun r =>
              Result.ok (r.1, { nfct_expect.zero with tuple := r.2 }))
          | none => Result.ok (w, nfct_expect.zero)) = Result.ok (wa, ca) ∧ wa.sane b := by
      cases nfnl_parse_attr b.endian CTA_EXPECT_MAX nlh.data (attr_len nlh) (CTA_EXPECT_TUPLE - 1) with
      | none => exact ⟨w, _, rfl, hs⟩
      | some a =>
        obtain ⟨w1, t1, h1, hs1⟩ := parse_tuple_sane b fuel w a nfct_tuple.zero hs
        refine ⟨w1, { nfct_expect.zero with tuple := t1 }, ?_, hs1⟩
        simp only [h1, Result.bind_ok]
    obtain ⟨wa, ca, ha, sa⟩ := s1
    rw [ha, Result.bind_ok]
    have s2 : ∃ wb cb, (match nfnl_parse_attr b.endian CTA_EXPECT_MAX nlh.data (attr_len nlh) (CTA_EXPECT_MASK - 1) with
          | some a => (parse_tuple b (fuel + 2) wa a ca.mask).bind (fun r =>
              Result.ok (r.1, { ca with mask := r.2 }))
          | none => Result.ok (wa, ca)) = Result.ok (wb, cb) ∧ wb.sane b := by
      cases nfnl_parse_attr b.endian CTA_EXPECT_MAX nlh.data (attr_len nlh) (CTA_EXPECT_MASK - 1) with
      | none => exact ⟨wa, _, rfl, sa⟩
      | some a =>
        obtain ⟨w1, t1, h1, hs1⟩ := parse_tuple_sane b fuel wa a ca.mask sa
        refine ⟨w1, { ca with mask := t1 }, ?_, hs1⟩
        simp only [h1, Result.bind_ok]
    obtain ⟨wb, cb, hb, sb⟩ := s2
    simp only [hb, Result.bind_ok]
    exact ⟨_, _, rfl, invoke_callback_sane b wb cth _ _ _ sb⟩

/-! ## Lemmas: the two round trips -/

theorem ntohl_htonl (e : Endian) (t : Nat) : ntohl e (htonl e t) = t % 2 ^ 32 := by
  cases e with
  | big => simp only [ntohl, htonl, Nat.mod_mod]
  | little =>
    simp only [ntohl, htonl]
    rw [bswap32_eq (t % 2 ^ 32), bswap32_from_le_be_bytes, Nat.mod_mod]

theorem ntohl_mod (e : Endian) (x n : Nat) (h : 4 ≤ n) : ntohl e (x % 256 ^ n) = ntohl e x := by
  have hd : (2 : Nat) ^ 32 ∣ 256 ^ n := by
    have h1 : (256 : Nat) ^ n = 256 ^ 4 * 256 ^ (n - 4) := by
      rw [← pow_add]
      congr 1
      omega
    rw [h1]
    exact Dvd.dvd.mul_right (by norm_num) _
  cases e <;> simp only [ntohl, Nat.mod_mod_of_dvd _ hd]

theorem sizeof_long_ge (b : Build) : 4 ≤ b.sizeof_long := by
  unfold Build.sizeof_long
  split <;> omega

theorem nfct_create_expectation_body_no_handler (b : Build) (fuel : Nat) (w : World)
    (req : nfnlhdr) (exp : nfct_expect) (hm : no_handler b w exp.master.protonum)
    (ht : no_handler b w exp.tuple.protonum) (hk : no_handler b w exp.mask.protonum) :
    nfct_create_expectation_body b (fuel + 1) w req exp =
      Result.ok (((w.missed b exp.master.protonum).missed b exp.tuple.protonum).missed b
          exp.mask.protonum,
        { req with attrs := req.attrs ++
          [tuple_tree b none exp.master CTA_EXPECT_MASTER,
            tuple_tree b none exp.tuple CTA_EXPECT_TUPLE,
            tuple_tree b none exp.mask CTA_EXPECT_MASK,
            nfattr.leaf CTA_EXPECT_TIMEOUT (obj_bytes b.endian b.sizeof_long exp.timeout)] }) := by
  unfold nfct_create_expectation_body
  rw [nfct_build_tuple_no_handler b fuel w req _ _ hm]
  simp only [Result.bind_ok]
  rw [nfct_build_tuple_no_handler b fuel _ _ _ _ (no_handler_missed b w _ _ ht)]
  simp only [Result.bind_ok]
  rw [nfct_build_tuple_no_handler b fuel _ _ _ _
    (no_handler_missed b _ _ _ (no_handler_missed b w _ _ hk))]
  simp [nfnl_addattr_l]

theorem le_bytes_add (m n v : Nat) :
    le_bytes (m + n) v = le_bytes m v ++ le_bytes n (v / 256 ^ m) := by
  induction m generalizing v with
  | zero => simp [le_bytes]
  | succ m ih =>
    have e : m + 1 + n = (m + n) + 1 := by omega
    rw [e]
    simp only [le_bytes, List.cons_append, ih]
    rw [Nat.div_div_eq_div_mul, pow_succ, Nat.mul_comm]

theorem nfct_build_conntrack_no_handler (b : Build) (fuel : Nat) (w : World) (req : nfnlhdr)
    (ct : nfct_conntrack) (ho : no_handler b w ct.tuple.original.protonum)
    (hr : no_handler b w ct.tuple.reply.protonum) :
    nfct_build_conntrack b (fuel + 1) w req ct =
      Result.ok (((w.missed b ct.tuple.original.protonum).missed b
          ct.tuple.reply.protonum).missed b ct.tuple.original.protonum,
        { req with attrs := req.attrs ++ conntrack_attrs b ct none none none }) := by
  have e0 : ct.tuple.get NFCT_DIR_ORIGINAL = ct.tuple.original := rfl
  have e1 : ct.tuple.get NFCT_DIR_REPLY = ct.tuple.reply := rfl
  rw [nfct_build_conntrack_eq, e0, e1, findproto_no_handler b fuel w _ ho]
  simp only [Result.bind_ok]
  rw [findproto_no_handler b fuel _ _ (no_handler_missed b w _ _ hr)]
  simp only [Result.bind_ok]
  rw [findproto_no_handler b fuel _ _
    (no_handler_missed b _ _ _ (no_handler_missed b w _ _ ho))]
  rfl

theorem ex_world_sane (b : Build) : ex_world.sane b :=
  fun _ => ⟨by simp [ex_world], by simp [ex_world]⟩

/-- Supporting fact for the integer leaves: STATUS, MARK and ID are written as
the four big-endian bytes of the value on every build, and so is TIMEOUT where
`unsigned long` is 4 bytes wide; where it is 8 bytes wide the four big-endian
bytes are followed by four zero bytes on a little-endian host and preceded by
them on a big-endian host. -/
theorem integer_leaf_payloads (b : Build) (x : Nat) :
    obj_bytes b.endian 4 (htonl b.endian x) = be_bytes 4 x ∧
    (b.lp64 = false → obj_bytes b.endian b.sizeof_long (htonl b.endian x) = be_bytes 4 x) ∧
    (b.lp64 = true → b.endian = Endian.little →
      obj_bytes b.endian b.sizeof_long (htonl b.endian x) = be_bytes 4 x ++ [0, 0, 0, 0]) ∧
    (b.lp64 = true → b.endian = Endian.big →
      obj_bytes b.endian b.sizeof_long (htonl b.endian x) = [0, 0, 0, 0] ++ be_bytes 4 x) := by
  have h32 : (2 : Nat) ^ 32 = 256 ^ 4 := by norm_num
  have hz : ∀ v, v < 2 ^ 32 → le_bytes 4 (v / 256 ^ 4) = [0, 0, 0, 0] := by
    intro v hv
    have : v / 256 ^ 4 = 0 := Nat.div_eq_of_lt (by rw [← h32]; exact hv)
    rw [this]
    rfl
  refine ⟨obj_bytes_htonl b.endian x, ?_, ?_, ?_⟩
  · intro hl
    have e : b.sizeof_long = 4 := by simp [Build.sizeof_long, hl]
    rw [e]
    exact obj_bytes_htonl b.endian x
  · intro hl he
    have e : b.sizeof_long = 4 + 4 := by simp [Build.sizeof_long, hl]
    have hlt : bswap32 (x % 2 ^ 32) < 2 ^ 32 := by
      rw [bswap32_eq, h32]
      have h := from_le_le_bytes 4 (from_le (be_bytes 4 (x % 256 ^ 4)))
      have h2 := le_bytes_from_le (be_bytes 4 (x % 256 ^ 4)) (be_bytes_lt 4 _)
      rw [be_bytes_length] at h2
      rw [h2] at h
      rw [h]
      exact Nat.mod_lt _ (by norm_num)
    rw [e, he]
    simp only [obj_bytes, htonl, le_bytes_add, le_bytes_bswap32, hz _ hlt]
    rw [h32, be_bytes_mod]
  · intro hl he
    have e : b.sizeof_long = 4 + 4 := by simp [Build.sizeof_long, hl]
    rw [e, he]
    simp only [obj_bytes, htonl, be_bytes, le_bytes_add, List.reverse_append,
      hz _ (Nat.mod_lt x (by norm_num))]
    rw [h32, le_bytes_mod]
    rfl

/-! ## Lemmas: the receive loop and the operations -/

theorem invoke_callback_trace (w : World) (cth : nfct_handle) (arg : CallbackArg)
    (flags type : Nat) : (invoke_callback w cth arg flags type).1.trace = w.trace := by
  unfold invoke_callback
  cases cth.callback <;> rfl

theorem nfct_conntrack_netlink_handler_trace {b : Build} {fuel : Nat} {w w1 : World}
    {cth : nfct_handle} {nlh : nlmsghdr} {ret : Int}
    (h : nfct_conntrack_netlink_handler b fuel w cth nlh = Result.ok (w1, ret)) :
    w1.trace = w.trace := by
  by_cases hl : attr_len nlh < 0
  · rw [nfct_conntrack_netlink_handler_eq, if_pos hl] at h
    simp only [Result.ok.injEq, Prod.mk.injEq] at h
    rw [← h.1]
  · obtain ⟨wa, t0, wb, t1, wc, hd, _, _, _, fr, hres⟩ := nfct_conntrack_netlink_handler_ok hl h
    have e : w1 = (invoke_callback wc cth
        (CallbackArg.conntrack (parsed_flow b (nfnl_parse_attr b.endian CTA_MAX nlh.data (attr_len nlh)) t0 t1 hd).1)
        (parsed_flow b (nfnl_parse_attr b.endian CTA_MAX nlh.data (attr_len nlh)) t0 t1 hd).2
        (typemsg2enum (NFNL_MSG_TYPE nlh.nlmsg_type) nlh.nlmsg_flags)).1 := by
      rw [← hres]
    rw [e, invoke_callback_trace, fr.2.2.2.2.2.1]

theorem nfct_expect_netlink_handler_trace {b : Build} {fuel : Nat} {w w1 : World}
    {cth : nfct_handle} {nlh : nlmsghdr} {ret : Int}
    (h : nfct_expect_netlink_handler b fuel w cth nlh = Result.ok (w1, ret)) :
    w1.trace = w.trace := by
  by_cases hl : attr_len nlh < 0
  · rw [nfct_expect_netlink_handler_eq, if_pos hl] at h
    simp only [Result.ok.injEq, Prod.mk.injEq] at h
    rw [← h.1]
  · obtain ⟨wa, t, wb, m, _, _, fr, hres, _⟩ := nfct_expect_netlink_handler_ok hl h
    rw [hres, invoke_callback_trace, fr.2.2.2.2.2.1]

theorem callback_handler_trace {b : Build} {fuel : Nat} {w w1 : World} {n : nlmsghdr}
    {arg : Option nfct_handle} {ret : Int}
    (h : callback_handler b fuel w n arg = Result.ok (w1, ret)) : w1.trace = w.trace := by
  unfold callback_handler at h
  split at h
  · simp only [Result.ok.injEq, Prod.mk.injEq] at h
    rw [← h.1]
  · cases arg with
    | none =>
      simp only [Result.ok.injEq, Prod.mk.injEq] at h
      rw [← h.1]
    | some cth =>
      simp only at h
      cases hh : cth.handler with
      | none =>
        simp only [hh, Result.ok.injEq, Prod.mk.injEq] at h
        rw [← h.1]
      | some k =>
        simp only [hh] at h
        cases k with
        | conntrack => exact nfct_conntrack_netlink_handler_trace h
        | event => exact nfct_conntrack_netlink_handler_trace h
        | expect => exact nfct_expect_netlink_handler_trace h

theorem nfnl_listen_loop_trace (handler : World → nlmsghdr → Result (World × Int))
    (hh : ∀ w n w1 r, handler w n = Result.ok (w1, r) → w1.trace = w.trace)
    (msgs : List nlmsghdr) :
    ∀ (w w1 : World) (r : Int), nfnl_listen_loop handler w msgs = Result.ok (w1, r) →
      w1.trace = w.trace := by
  induction msgs with
  | nil =>
    intro w w1 r h
    simp only [nfnl_listen_loop, Result.ok.injEq, Prod.mk.injEq] at h
    rw [← h.1]
  | cons n rest ih =>
    intro w w1 r h
    simp only [nfnl_listen_loop] at h
    split at h
    · simp only [Result.ok.injEq, Prod.mk.injEq] at h
      rw [← h.1]
    · split at h
      · simp only [Result.ok.injEq, Prod.mk.injEq] at h
        rw [← h.1]
      · obtain ⟨⟨w2, r2⟩, h1, h2⟩ := Result.bind_eq_ok h
        have t1 := hh _ _ _ _ h1
        split at h2
        · simp only [Result.ok.injEq, Prod.mk.injEq] at h2
          rw [← h2.1, t1]
        · rw [ih _ _ _ h2, t1]

theorem listen_with_trace {b : Build} {fuel : Nat} {w w1 : World} {cth c1 : nfct_handle}
    {ret : Int} (h : listen_with b fuel w cth = Result.ok (w1, c1, ret)) :
    w1.trace = w.trace ++ [TransportEvent.listen] := by
  unfold listen_with nfnl_listen at h
  obtain ⟨⟨w2, r2⟩, h1, h2⟩ := Result.bind_eq_ok h
  simp only [Result.ok.injEq, Prod.mk.injEq] at h2
  rw [← h2.1]
  exact nfnl_listen_loop_trace _ (fun _ _ _ _ hx => callback_handler_trace hx) _ _ _ _ h1

theorem send_then_listen_trace {b : Build} {fuel : Nat} {w w1 : World} {cth c1 : nfct_handle}
    {req : nfnlhdr} {ret : Int}
    (h : send_then_listen b fuel w cth req = Result.ok (w1, c1, ret)) :
    ∃ rest, w1.trace = w.trace ++ TransportEvent.send req :: rest := by
  unfold send_then_listen at h
  simp only [nfnl_send] at h
  split at h
  · simp only [Result.ok.injEq, Prod.mk.injEq] at h
    exact ⟨[], by rw [← h.1]⟩
  · have := listen_with_trace h
    exact ⟨[TransportEvent.listen], by rw [this]; simp⟩

theorem NFNL_MSG_TYPE_fill (nfnlh : nfnl_handle) (req : nfnlhdr) (family res_id msg flags : Nat)
    (hm : msg < 256) :
    NFNL_MSG_TYPE (nfnl_fill_hdr nfnlh req family res_id msg flags).nlmsg_type = msg := by
  have h1 : msg % 65536 = msg := Nat.mod_eq_of_lt (by omega)
  simp only [nfnl_fill_hdr, NFNL_MSG_TYPE, h1]
  rw [Nat.shiftLeft_eq, show (0x00ff : Nat) = 2 ^ 8 - 1 from rfl, Nat.and_pow_two_sub_one_eq_mod]
  have h2 : nfnlh.subsys_id % 256 * 2 ^ 8 ||| msg = nfnlh.subsys_id % 256 * 2 ^ 8 + msg := by
    rw [Nat.mul_comm]
    exact (Nat.mul_add_lt_is_or (by omega) _).symm
  rw [h2]
  omega

theorem nfct_build_tuple_ok {b : Build} {fuel : Nat} {w w1 : World} {req req1 : nfnlhdr}
    {t : nfct_tuple} {type : Nat}
    (h : nfct_build_tuple b fuel w req t type = Result.ok (w1, req1)) :
    ∃ hd, req1 = { req with attrs := req.attrs ++ [tuple_tree b hd t type] } ∧ w.frame w1 := by
  rw [nfct_build_tuple_eq] at h
  obtain ⟨⟨wa, hd⟩, ha, h⟩ := Result.bind_eq_ok h
  simp only [Result.ok.injEq, Prod.mk.injEq] at h
  refine ⟨hd, h.2.symm, ?_⟩
  rw [← h.1]
  exact findproto_frame b fuel _ _ _ _ ha

theorem nfct_build_tuple_sane (b : Build) (fuel : Nat) (w : World) (req : nfnlhdr)
    (t : nfct_tuple) (type : Nat) (hs : w.sane b) :
    ∃ w1 req1, nfct_build_tuple b (fuel + 2) w req t type = Result.ok (w1, req1) ∧ w1.sane b := by
  rw [nfct_build_tuple_eq]
  obtain ⟨wa, hd, ha, sa⟩ := findproto_sane b fuel w (proto2str t.protonum) hs
  refine ⟨wa, { req with attrs := req.attrs ++ [tuple_tree b hd t type] }, ?_, sa⟩
  simp only [ha, Result.bind_ok]

theorem nfct_create_expectation_body_ok {b : Build} {fuel : Nat} {w w1 : World}
    {req req1 : nfnlhdr} {exp : nfct_expect}
    (h : nfct_create_expectation_body b fuel w req exp = Result.ok (w1, req1)) :
    ∃ h1 h2 h3, req1 = { req with attrs := req.attrs ++
        [tuple_tree b h1 exp.master CTA_EXPECT_MASTER, tuple_tree b h2 exp.tuple CTA_EXPECT_TUPLE,
          tuple_tree b h3 exp.mask CTA_EXPECT_MASK,
          nfattr.leaf CTA_EXPECT_TIMEOUT (obj_bytes b.endian b.sizeof_long exp.timeout)] } ∧
      w.frame w1 := by
  unfold nfct_create_expectation_body at h
  obtain ⟨⟨wa, ra⟩, ha, h⟩ := Result.bind_eq_ok h
  obtain ⟨⟨wb, rb⟩, hb, h⟩ := Result.bind_eq_ok h
  obtain ⟨⟨wc, rc⟩, hc, h⟩ := Result.bind_eq_ok h
  obtain ⟨h1, e1, f1⟩ := nfct_build_tuple_ok ha
  obtain ⟨h2, e2, f2⟩ := nfct_build_tuple_ok hb
  obtain ⟨h3, e3, f3⟩ := nfct_build_tuple_ok hc
  simp only [Result.ok.injEq, Prod.mk.injEq] at h
  refine ⟨h1, h2, h3, ?_, ?_⟩
  · rw [← h.2, e3, e2, e1]
    simp [nfnl_addattr_l]
  · rw [← h.1]
    exact World.frame_trans (World.frame_trans f1 f2) f3

theorem nfct_create_expectation_body_sane (b : Build) (fuel : Nat) (w : World) (req : nfnlhdr)
    (exp : nfct_expect) (hs : w.sane b) :
    ∃ w1 req1, nfct_create_expectation_body b (fuel + 2) w req exp = Result.ok (w1, req1) ∧
      w1.sane b := by
  unfold nfct_create_expectation_body
  obtain ⟨wa, ra, ha, sa⟩ := nfct_build_tuple_sane b fuel w req exp.master CTA_EXPECT_MASTER hs
  obtain ⟨wb, rb, hb, sb⟩ := nfct_build_tuple_sane b fuel wa ra exp.tuple CTA_EXPECT_TUPLE sa
  obtain ⟨wc, rc, hc, sc⟩ := nfct_build_tuple_sane b fuel wb rb exp.mask CTA_EXPECT_MASK sb
  refine ⟨wc, nfnl_addattr_l rc CTA_EXPECT_TIMEOUT
    (obj_bytes b.endian b.sizeof_long exp.timeout), ?_, sc⟩
  simp only [ha, hb, hc, Result.bind_ok]

theorem callback_handler_sane (b : Build) (fuel : Nat) (w : World) (n : nlmsghdr)
    (arg : Option nfct_handle) (hs : w.sane b) :
    ∃ w1 r, callback_handler b (fuel + 2) w n arg = Result.ok (w1, r) ∧ w1.sane b := by
  unfold callback_handler
  split
  · exact ⟨w, 0, rfl, hs⟩
  · cases arg with
    | none => exact ⟨w, -ENODEV, rfl, hs⟩
    | some cth =>
      cases hh : cth.handler with
      | none => exact ⟨w, -ENODEV, by simp only [hh], hs⟩
      | some k =>
        simp only [hh]
        cases k with
        | conntrack => exact nfct_conntrack_netlink_handler_sane b fuel w cth n hs
        | event => exact nfct_conntrack_netlink_handler_sane b fuel w cth n hs
        | expect => exact nfct_expect_netlink_handler_sane b fuel w cth n hs

theorem nfnl_listen_loop_sane (b : Build) (fuel : Nat) (arg : Option nfct_handle)
    (msgs : List nlmsghdr) :
    ∀ w : World, w.sane b →
      ∃ w1 r, nfnl_listen_loop (fun w1 n => callback_handler b (fuel + 2) w1 n arg) w msgs =
        Result.ok (w1, r) ∧ w1.sane b := by
  induction msgs with
  | nil => intro w hs; exact ⟨_, _, rfl, hs⟩
  | cons n rest ih =>
    intro w hs
    simp only [nfnl_listen_loop]
    split
    · exact ⟨_, _, rfl, hs⟩
    · split
      · exact ⟨_, _, rfl, hs⟩
      · obtain ⟨w2, r2, h2, s2⟩ := callback_handler_sane b fuel { w with inbox := rest } n arg hs
        simp only [h2, Result.bind_ok]
        split
        · exact ⟨_, _, rfl, s2⟩
        · exact ih w2 s2

theorem listen_with_sane (b : Build) (fuel : Nat) (w : World) (cth : nfct_handle)
    (hs : w.sane b) :
    ∃ out, listen_with b (fuel + 2) w cth = Result.ok out := by
  unfold listen_with nfnl_listen
  obtain ⟨w1, r, h, _⟩ := nfnl_listen_loop_sane b fuel (some cth) w.inbox
    { w with trace := w.trace ++ [TransportEvent.listen] } hs
  exact ⟨(w1, cth, r), by simp only [h, Result.bind_ok]⟩

theorem send_then_listen_sane (b : Build) (fuel : Nat) (w : World) (cth : nfct_handle)
    (req : nfnlhdr) (hs : w.sane b) :
    ∃ out, send_then_listen b (fuel + 2) w cth req = Result.ok out := by
  unfold send_then_listen
  simp only [nfnl_send]
  split
  · exact ⟨_, rfl⟩
  · exact listen_with_sane b fuel _ cth hs

theorem hdr_after_build (r req2 : nfnlhdr) (x : List nfattr)
    (hreq : req2 = { r with attrs := x }) :
    req2.nlmsg_type = r.nlmsg_type ∧ req2.nlmsg_flags = r.nlmsg_flags := by
  subst hreq
  exact ⟨rfl, rfl⟩

theorem addattr_if_type (c : Prop) [Decidable c] (r : nfnlhdr) (t : Nat) (d : List Nat) :
    (if c then nfnl_addattr_l r t d else r).nlmsg_type = r.nlmsg_type ∧
      (if c then nfnl_addattr_l r t d else r).nlmsg_flags = r.nlmsg_flags := by
  split <;> exact ⟨rfl, rfl⟩

theorem hands_over_talk (w w0 : World) (req : nfnlhdr) (msg flags : Nat)
    (htr : w0.trace = w.trace) (ht : NFNL_MSG_TYPE req.nlmsg_type = msg)
    (hf : req.nlmsg_flags = flags) : hands_over w (nfnl_talk w0 req).1 msg flags :=
  ⟨TransportEvent.talk req, req, [], by simp [nfnl_talk, htr], Or.inr rfl, ht, hf⟩

theorem hands_over_send {b : Build} {fuel : Nat} {w w0 w1 : World} {cth c1 : nfct_handle}
    {req : nfnlhdr} {ret : Int} (msg flags : Nat)
    (h : send_then_listen b fuel w0 cth req = Result.ok (w1, c1, ret))
    (htr : w0.trace = w.trace) (ht : NFNL_MSG_TYPE req.nlmsg_type = msg)
    (hf : req.nlmsg_flags = flags) : hands_over w w1 msg flags := by
  obtain ⟨rest, hr⟩ := send_then_listen_trace h
  exact ⟨TransportEvent.send req, req, rest, by rw [hr, htr], Or.inl rfl, ht, hf⟩

theorem hands_over_create_conntrack {b : Build} {fuel : Nat} {w w1 : World}
    {cth c1 : nfct_handle} {ct : nfct_conntrack} {ret : Int}
    (h : nfct_create_conntrack b fuel w cth ct = Result.ok (w1, c1, ret)) :
    hands_over w w1 IPCTNL_MSG_CT_NEW
      (NLM_F_REQUEST ||| NLM_F_CREATE ||| NLM_F_ACK ||| NLM_F_EXCL) := by
  unfold nfct_create_conntrack at h
  obtain ⟨⟨w2, req2⟩, hb, h⟩ := Result.bind_eq_ok h
  obtain ⟨_, _, _, hreq, fr⟩ := nfct_build_conntrack_ok hb
  simp only [Result.ok.injEq, Prod.mk.injEq] at h
  rw [← h.1]
  refine hands_over_talk w w2 req2 _ _ fr.2.2.2.2.2.1 ?_ ?_
  · exact (congrArg NFNL_MSG_TYPE (hdr_after_build _ _ _ hreq).1).trans
      (NFNL_MSG_TYPE_fill _ _ _ _ _ _ (by decide))
  · exact (hdr_after_build _ _ _ hreq).2.trans rfl

theorem hands_over_update_conntrack {b : Build} {fuel : Nat} {w w1 : World}
    {cth c1 : nfct_handle} {ct : nfct_conntrack} {ret : Int}
    (h : nfct_update_conntrack b fuel w cth ct = Result.ok (w1, c1, ret)) :
    hands_over w w1 IPCTNL_MSG_CT_NEW (NLM_F_REQUEST ||| NLM_F_ACK) := by
  unfold nfct_update_conntrack at h
  obtain ⟨⟨w2, req2⟩, hb, h⟩ := Result.bind_eq_ok h
  obtain ⟨_, _, _, hreq, fr⟩ := nfct_build_conntrack_ok hb
  refine hands_over_send _ _ h fr.2.2.2.2.2.1 ?_ ?_
  · exact (congrArg NFNL_MSG_TYPE (hdr_after_build _ _ _ hreq).1).trans
      (NFNL_MSG_TYPE_fill _ _ _ _ _ _ (by decide))
  · exact (hdr_after_build _ _ _ hreq).2.trans rfl

theorem hands_over_delete_conntrack {b : Build} {fuel : Nat} {w w1 : World}
    {cth c1 : nfct_handle} {tuple : nfct_tuple} {dir : Int} {id : Nat} {ret : Int}
    (h : nfct_delete_conntrack b fuel w cth tuple dir id = Result.ok (w1, c1, ret)) :
    hands_over w w1 IPCTNL_MSG_CT_DELETE
      (NLM_F_REQUEST ||| NLM_F_ACK ||| NLM_F_ROOT ||| NLM_F_MATCH) := by
  unfold nfct_delete_conntrack at h
  obtain ⟨⟨w2, req2⟩, hb, h⟩ := Result.bind_eq_ok h
  obtain ⟨_, hreq, fr⟩ := nfct_build_tuple_ok hb
  simp only [Result.ok.injEq, Prod.mk.injEq] at h
  rw [← h.1]
  refine hands_over_talk w w2 _ _ _ fr.2.2.2.2.2.1 ?_ ?_
  · exact (congrArg NFNL_MSG_TYPE
      ((addattr_if_type _ _ _ _).1.trans (hdr_after_build _ _ _ hreq).1)).trans
      (NFNL_MSG_TYPE_fill _ _ _ _ _ _ (by decide))
  · exact ((addattr_if_type _ _ _ _).2.trans (hdr_after_build _ _ _ hreq).2).trans rfl

theorem hands_over_get_conntrack {b : Build} {fuel : Nat} {w w1 : World}
    {cth c1 : nfct_handle} {tuple : nfct_tuple} {dir : Int} {id : Nat} {ret : Int}
    (h : nfct_get_conntrack b fuel w cth tuple dir id = Result.ok (w1, c1, ret)) :
    hands_over w w1 IPCTNL_MSG_CT_GET (NLM_F_REQUEST ||| NLM_F_ACK) := by
  unfold nfct_get_conntrack at h
  obtain ⟨⟨w2, req2⟩, hb, h⟩ := Result.bind_eq_ok h
  obtain ⟨_, hreq, fr⟩ := nfct_build_tuple_ok hb
  refine hands_over_send _ _ h fr.2.2.2.2.2.1 ?_ ?_
  · exact (congrArg NFNL_MSG_TYPE
      ((addattr_if_type _ _ _ _).1.trans (hdr_after_build _ _ _ hreq).1)).trans
      (NFNL_MSG_TYPE_fill _ _ _ _ _ _ (by decide))
  · exact ((addattr_if_type _ _ _ _).2.trans (hdr_after_build _ _ _ hreq).2).trans rfl

theorem hands_over_get_expectation {b : Build} {fuel : Nat} {w w1 : World}
    {cth c1 : nfct_handle} {tuple : nfct_tuple} {id : Nat} {ret : Int}
    (h : nfct_get_expectation b fuel w cth tuple id = Result.ok (w1, c1, ret)) :
    hands_over w w1 IPCTNL_MSG_EXP_GET (NLM_F_REQUEST ||| NLM_F_ACK) := by
  unfold nfct_get_expectation at h
  obtain ⟨⟨w2, req2⟩, hb, h⟩ := Result.bind_eq_ok h
  obtain ⟨_, hreq, fr⟩ := nfct_build_tuple_ok hb
  refine hands_over_send _ _ h fr.2.2.2.2.2.1 ?_ ?_
  · exact (congrArg NFNL_MSG_TYPE
      ((addattr_if_type _ _ _ _).1.trans (hdr_after_build _ _ _ hreq).1)).trans
      (NFNL_MSG_TYPE_fill _ _ _ _ _ _ (by decide))
  · exact ((addattr_if_type _ _ _ _).2.trans (hdr_after_build _ _ _ hreq).2).trans rfl

theorem hands_over_delete_expectation {b : Build} {fuel : Nat} {w w1 : World}
    {cth c1 : nfct_handle} {tuple : nfct_tuple} {id : Nat} {ret : Int}
    (h : nfct_delete_expectation b fuel w cth tuple id = Result.ok (w1, c1, ret)) :
    hands_over w w1 IPCTNL_MSG_EXP_DELETE
      (NLM_F_REQUEST ||| NLM_F_ACK ||| NLM_F_ROOT ||| NLM_F_MATCH) := by
  unfold nfct_delete_expectation at h
  obtain ⟨⟨w2, req2⟩, hb, h⟩ := Result.bind_eq_ok h
  obtain ⟨_, hreq, fr⟩ := nfct_build_tuple_ok hb
  refine hands_over_send _ _ h fr.2.2.2.2.2.1 ?_ ?_
  · exact (congrArg NFNL_MSG_TYPE
      ((addattr_if_type _ _ _ _).1.trans (hdr_after_build _ _ _ hreq).1)).trans
      (NFNL_MSG_TYPE_fill _ _ _ _ _ _ (by decide))
  · exact ((addattr_if_type _ _ _ _).2.trans (hdr_after_build _ _ _ hreq).2).trans rfl

theorem hands_over_create_expectation {b : Build} {fuel : Nat} {w w1 : World}
    {cth c1 : nfct_handle} {exp : nfct_expect} {ret : Int}
    (h : nfct_create_expectation b fuel w cth exp = Result.ok (w1, c1, ret)) :
    hands_over w w1 IPCTNL_MSG_EXP_NEW (NLM_F_REQUEST ||| NLM_F_CREATE ||| NLM_F_ACK) := by
  unfold nfct_create_expectation at h
  obtain ⟨⟨w2, req2⟩, hb, h⟩ := Result.bind_eq_ok h
  obtain ⟨_, _, _, hreq, fr⟩ := nfct_create_expectation_body_ok hb
  refine hands_over_send _ _ h fr.2.2.2.2.2.1 ?_ ?_
  · exact (congrArg NFNL_MSG_TYPE (hdr_after_build _ _ _ hreq).1).trans
      (NFNL_MSG_TYPE_fill _ _ _ _ _ _ (by decide))
  · exact (hdr_after_build _ _ _ hreq).2.trans rfl

theorem hands_over_dump (zero : Int) {b : Build} {fuel : Nat} {w w1 : World}
    {cth c1 : nfct_handle} {ret : Int}
    (h : nfct_dump_conntrack_table_aux b fuel w cth zero = Result.ok (w1, c1, ret)) :
    hands_over w w1 (if zero ≠ 0 then IPCTNL_MSG_CT_GET_CTRZERO else IPCTNL_MSG_CT_GET)
      (NLM_F_REQUEST ||| NLM_F_ROOT ||| NLM_F_MATCH ||| NLM_F_DUMP) := by
  unfold nfct_dump_conntrack_table_aux at h
  refine hands_over_send _ _ h rfl ?_ rfl
  split
  · exact NFNL_MSG_TYPE_fill _ _ _ _ _ _ (by decide)
  · exact NFNL_MSG_TYPE_fill _ _ _ _ _ _ (by decide)

theorem hands_over_dump_expect {b : Build} {fuel : Nat} {w w1 : World}
    {cth c1 : nfct_handle} {ret : Int}
    (h : nfct_dump_expect_list b fuel w cth = Result.ok (w1, c1, ret)) :
    hands_over w w1 IPCTNL_MSG_EXP_GET (NLM_F_REQUEST ||| NLM_F_ROOT ||| NLM_F_MATCH) := by
  unfold nfct_dump_expect_list at h
  exact hands_over_send _ _ h rfl (NFNL_MSG_TYPE_fill _ _ _ _ _ _ (by decide)) rfl

theorem nfct_create_conntrack_sane (b : Build) (fuel : Nat) (w : World) (cth : nfct_handle)
    (ct : nfct_conntrack) (hs : w.sane b) :
    ∃ out, nfct_create_conntrack b (fuel + 2) w cth ct = Result.ok out := by
  unfold nfct_create_conntrack
  obtain ⟨w1, r1, h, _⟩ := nfct_build_conntrack_sane b fuel w
    (nfnl_fill_hdr cth.nfnlh nfnlhdr.zero AF_INET 0 IPCTNL_MSG_CT_NEW
      (NLM_F_REQUEST ||| NLM_F_CREATE ||| NLM_F_ACK ||| NLM_F_EXCL)) ct hs
  exact ⟨((nfnl_talk w1 r1).1, cth, (nfnl_talk w1 r1).2), by simp only [h, Result.bind_ok]⟩

theorem nfct_update_conntrack_sane (b : Build) (fuel : Nat) (w : World) (cth : nfct_handle)
    (ct : nfct_conntrack) (hs : w.sane b) :
    ∃ out, nfct_update_conntrack b (fuel + 2) w cth ct = Result.ok out := by
  unfold nfct_update_conntrack
  obtain ⟨w1, r1, h, s1⟩ := nfct_build_conntrack_sane b fuel w
    (nfnl_fill_hdr cth.nfnlh nfnlhdr.zero AF_INET 0 IPCTNL_MSG_CT_NEW
      (NLM_F_REQUEST ||| NLM_F_ACK)) ct hs
  obtain ⟨out, ho⟩ := send_then_listen_sane b fuel w1 cth r1 s1
  exact ⟨out, by simp only [h, Result.bind_ok, ho]⟩

theorem nfct_delete_conntrack_sane (b : Build) (fuel : Nat) (w : World) (cth : nfct_handle)
    (tuple : nfct_tuple) (dir : Int) (id : Nat) (hs : w.sane b) :
    ∃ out, nfct_delete_conntrack b (fuel + 2) w cth tuple dir id = Result.ok out := by
  unfold nfct_delete_conntrack
  obtain ⟨w1, r1, h, _⟩ := nfct_build_tuple_sane b fuel w
    (nfnl_fill_hdr cth.nfnlh nfnlhdr.zero AF_INET 0 IPCTNL_MSG_CT_DELETE
      (NLM_F_ROOT ||| NLM_F_MATCH ||| NLM_F_REQUEST ||| NLM_F_ACK)) tuple
    (if dir ≠ 0 then CTA_TUPLE_REPLY else CTA_TUPLE_ORIG) hs
  simp only [h, Result.bind_ok]
  exact ⟨_, rfl⟩

theorem nfct_get_conntrack_sane (b : Build) (fuel : Nat) (w : World) (cth : nfct_handle)
    (tuple : nfct_tuple) (dir : Int) (id : Nat) (hs : w.sane b) :
    ∃ out, nfct_get_conntrack b (fuel + 2) w cth tuple dir id = Result.ok out := by
  unfold nfct_get_conntrack
  obtain ⟨w1, r1, h, s1⟩ := nfct_build_tuple_sane b fuel w
    (nfnl_fill_hdr cth.nfnlh nfnlhdr.zero AF_INET 0 IPCTNL_MSG_CT_GET
      (NLM_F_REQUEST ||| NLM_F_ACK)) tuple
    (if dir ≠ 0 then CTA_TUPLE_REPLY else CTA_TUPLE_ORIG) hs
  simp only [h, Result.bind_ok]
  exact send_then_listen_sane b fuel w1 _ _ s1

theorem nfct_get_expectation_sane (b : Build) (fuel : Nat) (w : World) (cth : nfct_handle)
    (tuple : nfct_tuple) (id : Nat) (hs : w.sane b) :
    ∃ out, nfct_get_expectation b (fuel + 2) w cth tuple id = Result.ok out := by
  unfold nfct_get_expectation
  obtain ⟨w1, r1, h, s1⟩ := nfct_build_tuple_sane b fuel w
    (nfnl_fill_hdr cth.nfnlh nfnlhdr.zero AF_INET 0 IPCTNL_MSG_EXP_GET
      (NLM_F_REQUEST ||| NLM_F_ACK)) tuple CTA_EXPECT_MASTER hs
  simp only [h, Result.bind_ok]
  exact send_then_listen_sane b fuel w1 _ _ s1

theorem nfct_delete_expectation_sane (b : Build) (fuel : Nat) (w : World) (cth : nfct_handle)
    (tuple : nfct_tuple) (id : Nat) (hs : w.sane b) :
    ∃ out, nfct_delete_expectation b (fuel + 2) w cth tuple id = Result.ok out := by
  unfold nfct_delete_expectation
  obtain ⟨w1, r1, h, s1⟩ := nfct_build_tuple_sane b fuel w
    (nfnl_fill_hdr cth.nfnlh nfnlhdr.zero AF_INET 0 IPCTNL_MSG_EXP_DELETE
      (NLM_F_ROOT ||| NLM_F_MATCH ||| NLM_F_REQUEST ||| NLM_F_ACK)) tuple CTA_EXPECT_MASTER hs
  simp only [h, Result.bind_ok]
  exact send_then_listen_sane b fuel w1 _ _ s1

theorem nfct_create_expectation_sane (b : Build) (fuel : Nat) (w : World) (cth : nfct_handle)
    (exp : nfct_expect) (hs : w.sane b) :
    ∃ out, nfct_create_expectation b (fuel + 2) w cth exp = Result.ok out := by
  unfold nfct_create_expectation
  obtain ⟨w1, r1, h, s1⟩ := nfct_create_expectation_body_sane b fuel w
    (nfnl_fill_hdr cth.nfnlh nfnlhdr.zero AF_INET 0 IPCTNL_MSG_EXP_NEW
      (NLM_F_REQUEST ||| NLM_F_CREATE ||| NLM_F_ACK)) exp hs
  simp only [h, Result.bind_ok]
  exact send_then_listen_sane b fuel w1 _ _ s1

theorem typemsg2enum_new (flags : Nat) (hf : flags < 65536)
    (h : flags &&& (NLM_F_CREATE ||| NLM_F_EXCL) = NLM_F_CREATE ||| NLM_F_EXCL) :
    typemsg2enum IPCTNL_MSG_CT_NEW flags = NFCT_MSG_NEW := by
  unfold typemsg2enum
  rw [Nat.mod_eq_of_lt hf, h]
  rfl

theorem typemsg2enum_update (flags : Nat) (hf : flags < 65536)
    (hc : flags &&& NLM_F_CREATE = 0) (he : flags &&& NLM_F_EXCL = 0) :
    typemsg2enum IPCTNL_MSG_CT_NEW flags = NFCT_MSG_UPDATE := by
  unfold typemsg2enum
  rw [Nat.mod_eq_of_lt hf, Nat.and_or_distrib_left, hc, he]
  rfl

theorem typemsg2enum_destroy (flags : Nat) :
    typemsg2enum IPCTNL_MSG_CT_DELETE flags = NFCT_MSG_DESTROY := rfl

theorem typemsg2enum_unknown (type flags : Nat) (ht : type < 65536)
    (h1 : type ≠ IPCTNL_MSG_CT_NEW) (h2 : type ≠ IPCTNL_MSG_CT_DELETE) :
    typemsg2enum type flags = NFCT_MSG_UNKNOWN := by
  unfold typemsg2enum
  rw [Nat.mod_eq_of_lt ht, if_neg h1, if_neg h2]

theorem callback_handler_flow (b : Build) (fuel : Nat) (w : World) (cth : nfct_handle)
    (n : nlmsghdr) (cb : CallbackArg → Nat → Nat → Nat → Int) (hs : w.sane b)
    (hh : cth.handler = some nfct_handler.event) (hcb : cth.callback = some cb)
    (hsub : NFNL_SUBSYS_ID n.nlmsg_type = NFNL_SUBSYS_CTNETLINK)
    (hl : 0 ≤ to_int n.nlmsg_len - (NLMSG_LENGTH sizeof_nfgenmsg : Nat)) :
    ∃ w1 ct flags,
      callback_handler b (fuel + 2) w n (some cth) =
        Result.ok (w1, cb (CallbackArg.conntrack ct) flags
          (typemsg2enum (NFNL_MSG_TYPE n.nlmsg_type) n.nlmsg_flags) cth.callback_data) ∧
      w1.sane b ∧
      w1.calls = w.calls ++ [⟨CallbackArg.conntrack ct, flags,
        typemsg2enum (NFNL_MSG_TYPE n.nlmsg_type) n.nlmsg_flags, cth.callback_data⟩] := by
  obtain ⟨w1, ret, h, s1⟩ := nfct_conntrack_netlink_handler_sane b fuel w cth n hs
  obtain ⟨wa, t0, wb, t1, wc, hd, _, _, _, fr, hres⟩ :=
    nfct_conntrack_netlink_handler_ok (attr_len_not_neg n hl) h
  rw [invoke_callback_some _ _ _ _ _ cb hcb] at hres
  simp only [Prod.mk.injEq] at hres
  refine ⟨w1, (parsed_flow b (nfnl_parse_attr b.endian CTA_MAX n.data (attr_len n)) t0 t1 hd).1,
    (parsed_flow b (nfnl_parse_attr b.endian CTA_MAX n.data (attr_len n)) t0 t1 hd).2, ?_, s1,
    ?_⟩
  · unfold callback_handler
    rw [if_neg (by rw [hsub]; decide)]
    simp only [hh, nfct_handler.run, nfct_event_netlink_handler]
    rw [h, hres.2]
  · rw [hres.1, fr.2.2.2.2.2.2]

theorem nfnl_listen_loop_step (handler : World → nlmsghdr → Result (World × Int)) (w w2 : World)
    (n : nlmsghdr) (rest : List nlmsghdr) (h1 : n.nlmsg_type ≠ NLMSG_DONE)
    (h2 : n.nlmsg_type ≠ NLMSG_ERROR) (hh : handler { w with inbox := rest } n = Result.ok (w2, 0)) :
    nfnl_listen_loop handler w (n :: rest) = nfnl_listen_loop handler w2 rest := by
  simp only [nfnl_listen_loop, h1, h2, if_false, hh, Result.bind_ok, ne_eq, not_true_eq_false]

theorem event_stream_kinds (b : Build) (fuel : Nat) (w : World) (cth : nfct_handle)
    (cb : CallbackArg → Nat → Nat → Nat → Int) (m1 m2 m3 : nlmsghdr) (hs : w.sane b)
    (hcb : cth.callback = some cb) (h0 : ∀ a f t d, cb a f t d = 0)
    (hin : w.inbox = [m1, m2, m3])
    (t1 : m1.nlmsg_type = (NFNL_SUBSYS_CTNETLINK <<< 8) ||| IPCTNL_MSG_CT_NEW)
    (t2 : m2.nlmsg_type = (NFNL_SUBSYS_CTNETLINK <<< 8) ||| IPCTNL_MSG_CT_NEW)
    (t3 : m3.nlmsg_type = (NFNL_SUBSYS_CTNETLINK <<< 8) ||| IPCTNL_MSG_CT_DELETE)
    (f1 : m1.nlmsg_flags < 65536)
    (g1 : m1.nlmsg_flags &&& (NLM_F_CREATE ||| NLM_F_EXCL) = NLM_F_CREATE ||| NLM_F_EXCL)
    (f2 : m2.nlmsg_flags < 65536) (g2 : m2.nlmsg_flags &&& NLM_F_CREATE = 0)
    (g3 : m2.nlmsg_flags &&& NLM_F_EXCL = 0)
    (l1 : 0 ≤ to_int m1.nlmsg_len - (NLMSG_LENGTH sizeof_nfgenmsg : Nat))
    (l2 : 0 ≤ to_int m2.nlmsg_len - (NLMSG_LENGTH sizeof_nfgenmsg : Nat))
    (l3 : 0 ≤ to_int m3.nlmsg_len - (NLMSG_LENGTH sizeof_nfgenmsg : Nat)) :
    ∃ w1 c1 ret, nfct_event_conntrack b (fuel + 2) w cth = Result.ok (w1, c1, ret) ∧
      w1.calls.map CallbackCall.type =
        w.calls.map CallbackCall.type ++ [NFCT_MSG_NEW, NFCT_MSG_UPDATE, NFCT_MSG_DESTROY] := by
  have k1 : typemsg2enum (NFNL_MSG_TYPE m1.nlmsg_type) m1.nlmsg_flags = NFCT_MSG_NEW := by
    rw [t1]
    exact typemsg2enum_new _ f1 g1
  have k2 : typemsg2enum (NFNL_MSG_TYPE m2.nlmsg_type) m2.nlmsg_flags = NFCT_MSG_UPDATE := by
    rw [t2]
    exact typemsg2enum_update _ f2 g2 g3
  have k3 : typemsg2enum (NFNL_MSG_TYPE m3.nlmsg_type) m3.nlmsg_flags = NFCT_MSG_DESTROY := by
    rw [t3]
    exact typemsg2enum_destroy _
  unfold nfct_event_conntrack listen_with nfnl_listen
  rw [hin]
  dsimp only
  obtain ⟨wa, cta, fa, ha, sa, ca⟩ := callback_handler_flow b fuel
    { w with trace := w.trace ++ [TransportEvent.listen], inbox := [m2, m3] }
    { cth with handler := some nfct_handler.event } m1 cb hs rfl hcb (by rw [t1]; decide) l1
  rw [h0] at ha
  rw [nfnl_listen_loop_step _ _ wa m1 [m2, m3] (by rw [t1]; decide) (by rw [t1]; decide) ha]
  obtain ⟨wb, ctb, fb, hb, sb, cb2⟩ := callback_handler_flow b fuel
    { wa with inbox := [m3] }
    { cth with handler := some nfct_handler.event } m2 cb sa rfl hcb (by rw [t2]; decide) l2
  rw [h0] at hb
  rw [nfnl_listen_loop_step _ _ wb m2 [m3] (by rw [t2]; decide) (by rw [t2]; decide) hb]
  obtain ⟨wc, ctc, fc, hc, sc, cc⟩ := callback_handler_flow b fuel
    { wb with inbox := [] }
    { cth with handler := some nfct_handler.event } m3 cb sb rfl hcb (by rw [t3]; decide) l3
  rw [h0] at hc
  rw [nfnl_listen_loop_step _ _ wc m3 [] (by rw [t3]; decide) (by rw [t3]; decide) hc]
  refine ⟨_, _, _, rfl, ?_⟩
  show wc.calls.map CallbackCall.type = _
  rw [cc, cb2, ca, k1, k2, k3]
  simp

/-! ### Reply modes of the operations -/

theorem drain_mode_drains {w w1 : World} {ret : Int} (h : drain_mode w w1 ret) : drains w w1 := by
  obtain ⟨req, h | h⟩ := h
  · exact ⟨req, [], h.2.1, fun h0 => absurd h.1 (not_lt.mpr h0)⟩
  · exact ⟨req, [TransportEvent.listen], h.2, fun _ => rfl⟩

theorem drain_mode_send_error {w w1 : World} {ret : Int} (h : drain_mode w w1 ret) :
    send_error_passes w w1 ret := by
  obtain ⟨req, h | h⟩ := h
  · exact ⟨req, [], h.2.1, fun _ => ⟨h.2.2.1, rfl, h.2.2.2⟩⟩
  · exact ⟨req, [TransportEvent.listen], h.2, fun h0 => absurd h0 (not_lt.mpr h.1)⟩

theorem nfnl_talk_ack_only {w w0 : World} (req : nfnlhdr) (fr : w.frame w0) :
    ack_only w (nfnl_talk w0 req).1 (nfnl_talk w0 req).2 :=
  ⟨req, by simp [nfnl_talk, fr.2.2.2.2.2.1], by simp [nfnl_talk, fr.2.2.2.1],
    by simp [nfnl_talk, fr.2.2.2.2.2.2]⟩

theorem send_then_listen_drain_mode {b : Build} {fuel : Nat} {w w0 w1 : World}
    {cth c1 : nfct_handle} {req : nfnlhdr} {ret : Int} (fr : w.frame w0)
    (h : send_then_listen b fuel w0 cth req = Result.ok (w1, c1, ret)) : drain_mode w w1 ret := by
  unfold send_then_listen at h
  simp only [nfnl_send] at h
  by_cases hneg : w0.send_result req < 0
  · rw [if_pos hneg] at h
    simp only [Result.ok.injEq, Prod.mk.injEq] at h
    refine ⟨req, Or.inl ⟨by rw [← fr.2.2.1]; exact hneg, ?_, ?_, ?_⟩⟩
    · rw [← h.1, ← fr.2.2.2.2.2.1]
    · rw [← h.2.2, ← fr.2.2.1]
    · rw [← h.1, ← fr.2.2.2.2.2.2]
  · rw [if_neg hneg] at h
    have ht := listen_with_trace h
    refine ⟨req, Or.inr ⟨by rw [← fr.2.2.1]; exact not_lt.mp hneg, ?_⟩⟩
    rw [ht, ← fr.2.2.2.2.2.1]
    simp

theorem nfct_create_conntrack_mode {b : Build} {fuel : Nat} {w w1 : World}
    {cth c1 : nfct_handle} {ct : nfct_conntrack} {ret : Int}
    (h : nfct_create_conntrack b fuel w cth ct = Result.ok (w1, c1, ret)) : ack_only w w1 ret := by
  unfold nfct_create_conntrack at h
  obtain ⟨⟨w2, req2⟩, hb, h⟩ := Result.bind_eq_ok h
  obtain ⟨_, _, _, _, fr⟩ := nfct_build_conntrack_ok hb
  simp only [Result.ok.injEq, Prod.mk.injEq] at h
  rw [← h.1, ← h.2.2]
  exact nfnl_talk_ack_only req2 fr

theorem nfct_delete_conntrack_mode {b : Build} {fuel : Nat} {w w1 : World}
    {cth c1 : nfct_handle} {tuple : nfct_tuple} {dir : Int} {id : Nat} {ret : Int}
    (h : nfct_delete_conntrack b fuel w cth tuple dir id = Result.ok (w1, c1, ret)) :
    ack_only w w1 ret := by
  unfold nfct_delete_conntrack at h
  obtain ⟨⟨w2, req2⟩, hb, h⟩ := Result.bind_eq_ok h
  obtain ⟨_, _, fr⟩ := nfct_build_tuple_ok hb
  simp only [Result.ok.injEq, Prod.mk.injEq] at h
  rw [← h.1, ← h.2.2]
  exact nfnl_talk_ack_only _ fr

theorem nfct_update_conntrack_mode {b : Build} {fuel : Nat} {w w1 : World}
    {cth c1 : nfct_handle} {ct : nfct_conntrack} {ret : Int}
    (h : nfct_update_conntrack b fuel w cth ct = Result.ok (w1, c1, ret)) :
    drain_mode w w1 ret := by
  unfold nfct_update_conntrack at h
  obtain ⟨⟨w2, req2⟩, hb, h⟩ := Result.bind_eq_ok h
  obtain ⟨_, _, _, _, fr⟩ := nfct_build_conntrack_ok hb
  exact send_then_listen_drain_mode fr h

theorem nfct_get_conntrack_mode {b : Build} {fuel : Nat} {w w1 : World}
    {cth c1 : nfct_handle} {tuple : nfct_tuple} {dir : Int} {id : Nat} {ret : Int}
    (h : nfct_get_conntrack b fuel w cth tuple dir id = Result.ok (w1, c1, ret)) :
    drain_mode w w1 ret := by
  unfold nfct_get_conntrack at h
  obtain ⟨⟨w2, req2⟩, hb, h⟩ := Result.bind_eq_ok h
  obtain ⟨_, _, fr⟩ := nfct_build_tuple_ok hb
  exact send_then_listen_drain_mode fr h

theorem nfct_get_expectation_mode {b : Build} {fuel : Nat} {w w1 : World}
    {cth c1 : nfct_handle} {tuple : nfct_tuple} {id : Nat} {ret : Int}
    (h : nfct_get_expectation b fuel w cth tuple id = Result.ok (w1, c1, ret)) :
    drain_mode w w1 ret := by
  unfold nfct_get_expectation at h
  obtain ⟨⟨w2, req2⟩, hb, h⟩ := Result.bind_eq_ok h
  obtain ⟨_, _, fr⟩ := nfct_build_tuple_ok hb
  exact send_then_listen_drain_mode fr h

theorem nfct_delete_expectation_mode {b : Build} {fuel : Nat} {w w1 : World}
    {cth c1 : nfct_handle} {tuple : nfct_tuple} {id : Nat} {ret : Int}
    (h : nfct_delete_expectation b fuel w cth tuple id = Result.ok (w1, c1, ret)) :
    drain_mode w w1 ret := by
  unfold nfct_delete_expectation at h
  obtain ⟨⟨w2, req2⟩, hb, h⟩ := Result.bind_eq_ok h
  obtain ⟨_, _, fr⟩ := nfct_build_tuple_ok hb
  exact send_then_listen_drain_mode fr h

theorem nfct_create_expectation_mode {b : Build} {fuel : Nat} {w w1 : World}
    {cth c1 : nfct_handle} {exp : nfct_expect} {ret : Int}
    (h : nfct_create_expectation b fuel w cth exp = Result.ok (w1, c1, ret)) :
    drain_mode w w1 ret := by
  unfold nfct_create_expectation at h
  obtain ⟨⟨w2, req2⟩, hb, h⟩ := Result.bind_eq_ok h
  obtain ⟨_, _, _, _, fr⟩ := nfct_create_expectation_body_ok hb
  exact send_then_listen_drain_mode fr h

theorem nfct_dump_conntrack_table_aux_mode {b : Build} {fuel : Nat} {w w1 : World}
    {cth c1 : nfct_handle} {zero : Int} {ret : Int}
    (h : nfct_dump_conntrack_table_aux b fuel w cth zero = Result.ok (w1, c1, ret)) :
    drain_mode w w1 ret :=
  send_then_listen_drain_mode (World.frame_refl w) h

theorem nfct_dump_expect_list_mode {b : Build} {fuel : Nat} {w w1 : World}
    {cth c1 : nfct_handle} {ret : Int}
    (h : nfct_dump_expect_list b fuel w cth = Result.ok (w1, c1, ret)) :
    drain_mode w w1 ret :=
  send_then_listen_drain_mode (World.frame_refl w) h

theorem not_ack_only_of_two_calls (w w1 : World) (ret : Int) (e1 e2 : TransportEvent)
    (h : w1.trace = w.trace ++ [e1, e2]) : ¬ ack_only w w1 ret := by
  rintro ⟨req, h2, _⟩
  rw [h] at h2
  have h3 := congrArg List.length h2
  simp at h3

/-! ### Bodies of the lookup requests -/

theorem nfct_delete_conntrack_body {b : Build} {fuel : Nat} {w w1 : World}
    {cth c1 : nfct_handle} {tuple : nfct_tuple} {dir : Int} {id : Nat} {ret : Int}
    (h : nfct_delete_conntrack b fuel w cth tuple dir id = Result.ok (w1, c1, ret)) :
    ∃ hd req, w1.trace = w.trace ++ [TransportEvent.talk req] ∧
      req.attrs = tuple_tree b hd tuple (if dir = 0 then CTA_TUPLE_ORIG else CTA_TUPLE_REPLY) ::
        (if id ≠ NFCT_ANY_ID then [nfattr.leaf CTA_ID (be_bytes 4 id)] else []) := by
  unfold nfct_delete_conntrack at h
  obtain ⟨⟨w2, req2⟩, hb, h⟩ := Result.bind_eq_ok h
  obtain ⟨hd, hreq, fr⟩ := nfct_build_tuple_ok hb
  simp only [Result.ok.injEq, Prod.mk.injEq] at h
  refine ⟨hd, if id ≠ NFCT_ANY_ID then
      nfnl_addattr_l req2 CTA_ID (obj_bytes b.endian 4 (htonl b.endian id)) else req2, ?_, ?_⟩
  · rw [← h.1]
    simp only [nfnl_talk, fr.2.2.2.2.2.1]
  · rw [hreq]
    by_cases hd0 : dir = 0 <;> by_cases hid : id ≠ NFCT_ANY_ID <;>
      simp [hd0, hid, nfnl_addattr_l, nfnl_fill_hdr, nfnlhdr.zero,
        (integer_leaf_payloads b id).1]

theorem nfct_get_conntrack_body {b : Build} {fuel : Nat} {w w1 : World}
    {cth c1 : nfct_handle} {tuple : nfct_tuple} {dir : Int} {id : Nat} {ret : Int}
    (h : nfct_get_conntrack b fuel w cth tuple dir id = Result.ok (w1, c1, ret)) :
    ∃ hd req rest, w1.trace = w.trace ++ TransportEvent.send req :: rest ∧
      req.attrs = tuple_tree b hd tuple (if dir = 0 then CTA_TUPLE_ORIG else CTA_TUPLE_REPLY) ::
        (if id ≠ NFCT_ANY_ID then [nfattr.leaf CTA_ID (be_bytes 4 id)] else []) := by
  unfold nfct_get_conntrack at h
  obtain ⟨⟨w2, req2⟩, hb, h⟩ := Result.bind_eq_ok h
  obtain ⟨hd, hreq, fr⟩ := nfct_build_tuple_ok hb
  obtain ⟨rest, ht⟩ := send_then_listen_trace h
  refine ⟨hd, if id ≠ NFCT_ANY_ID then
      nfnl_addattr_l req2 CTA_ID (obj_bytes b.endian 4 (htonl b.endian id)) else req2,
    rest, ?_, ?_⟩
  · rw [ht, fr.2.2.2.2.2.1]
  · rw [hreq]
    by_cases hd0 : dir = 0 <;> by_cases hid : id ≠ NFCT_ANY_ID <;>
      simp [hd0, hid, nfnl_addattr_l, nfnl_fill_hdr, nfnlhdr.zero,
        (integer_leaf_payloads b id).1]

theorem nfct_get_expectation_body {b : Build} {fuel : Nat} {w w1 : World}
    {cth c1 : nfct_handle} {tuple : nfct_tuple} {id : Nat} {ret : Int}
    (h : nfct_get_expectation b fuel w cth tuple id = Result.ok (w1, c1, ret)) :
    ∃ hd req rest, w1.trace = w.trace ++ TransportEvent.send req :: rest ∧
      req.attrs = tuple_tree b hd tuple CTA_EXPECT_MASTER ::
        (if id ≠ NFCT_ANY_ID then [nfattr.leaf CTA_EXPECT_ID (obj_bytes b.endian 4 id)]
          else []) := by
  unfold nfct_get_expectation at h
  obtain ⟨⟨w2, req2⟩, hb, h⟩ := Result.bind_eq_ok h
  obtain ⟨hd, hreq, fr⟩ := nfct_build_tuple_ok hb
  obtain ⟨rest, ht⟩ := send_then_listen_trace h
  refine ⟨hd, if id ≠ NFCT_ANY_ID then
      nfnl_addattr_l req2 CTA_EXPECT_ID (obj_bytes b.endian 4 id) else req2, rest, ?_, ?_⟩
  · rw [ht, fr.2.2.2.2.2.1]
  · rw [hreq]
    by_cases hid : id ≠ NFCT_ANY_ID <;>
      simp [hid, nfnl_addattr_l, nfnl_fill_hdr, nfnlhdr.zero]

theorem nfct_delete_expectation_body {b : Build} {fuel : Nat} {w w1 : World}
    {cth c1 : nfct_handle} {tuple : nfct_tuple} {id : Nat} {ret : Int}
    (h : nfct_delete_expectation b fuel w cth tuple id = Result.ok (w1, c1, ret)) :
    ∃ hd req rest, w1.trace = w.trace ++ TransportEvent.send req :: rest ∧
      req.attrs = tuple_tree b hd tuple CTA_EXPECT_MASTER ::
        (if id ≠ NFCT_ANY_ID then [nfattr.leaf CTA_EXPECT_ID (obj_bytes b.endian 4 id)]
          else []) := by
  unfold nfct_delete_expectation at h
  obtain ⟨⟨w2, req2⟩, hb, h⟩ := Result.bind_eq_ok h
  obtain ⟨hd, hreq, fr⟩ := nfct_build_tuple_ok hb
  obtain ⟨rest, ht⟩ := send_then_listen_trace h
  refine ⟨hd, if id ≠ NFCT_ANY_ID then
      nfnl_addattr_l req2 CTA_EXPECT_ID (obj_bytes b.endian 4 id) else req2, rest, ?_, ?_⟩
  · rw [ht, fr.2.2.2.2.2.1]
  · rw [hreq]
    by_cases hid : id ≠ NFCT_ANY_ID <;>
      simp [hid, nfnl_addattr_l, nfnl_fill_hdr, nfnlhdr.zero]

theorem obj_bytes_big (n v : Nat) : obj_bytes Endian.big n v = be_bytes n v := by
  simp [obj_bytes]

/-! ### The registry -/

theorem scan_proto_list_head (h : nfct_proto) (l : List nfct_proto) :
    scan_proto_list (h :: l) h.name = some h := by
  simp [scan_proto_list]

theorem scan_proto_list_name {l : List nfct_proto} {name : String} {h : nfct_proto}
    (hs : scan_proto_list l name = some h) : h.name = name ∧ h ∈ l := by
  unfold scan_proto_list at hs
  exact ⟨by simpa using List.find?_some hs, List.mem_of_find?_eq_some hs⟩

theorem findproto_result (b : Build) (fuel : Nat) :
    ∀ (w w1 : World) (name : String) (h : nfct_proto),
      findproto b fuel w (some name) = Result.ok (w1, some h) →
        h.name = name ∧ h ∈ w1.proto_list := by
  induction fuel with
  | zero => intro w w1 name h hf; simp [findproto] at hf
  | succ fuel ih =>
    intro w w1 name h hf
    rw [findproto_some] at hf
    cases hs : scan_proto_list w.proto_list name with
    | some hd =>
      simp only [hs, Result.ok.injEq, Prod.mk.injEq, Option.some.injEq] at hf
      rw [← hf.1, ← hf.2]
      exact scan_proto_list_name hs
    | none =>
      simp only [hs] at hf
      obtain ⟨⟨w2, okk⟩, _, h3⟩ := Result.bind_eq_ok hf
      cases okk with
      | true =>
        simp only [if_true] at h3
        exact ih _ _ _ _ h3
      | false =>
        simp at h3

theorem findproto_loader_fails (b : Build) (fuel : Nat) (w : World) (name : String)
    (hs : scan_proto_list w.proto_list name = none)
    (hl : plugin_path (lib_dir b w) name ∉ w.loaded)
    (hf : w.files (plugin_path (lib_dir b w) name) = none) :
    findproto b (fuel + 1) w (some name) = Result.ok (w.formatted b name, none) := by
  rw [findproto_some, hs]
  have hl1 : plugin_path (lib_dir b w) name ∉ (w.formatted b name).loaded := hl
  have hf1 : (w.formatted b name).files (plugin_path (lib_dir b w) name) = none := hf
  simp [dlopen, hl1, hf1]

theorem findproto_diverges_of_loaded (b : Build) (name : String) :
    ∀ (fuel : Nat) (w : World), scan_proto_list w.proto_list name = none →
      plugin_path (lib_dir b w) name ∈ w.loaded →
      findproto b fuel w (some name) = Result.diverge := by
  intro fuel
  induction fuel with
  | zero => intro w _ _; rfl
  | succ fuel ih =>
    intro w hs hl
    rw [findproto_some, hs]
    have hl1 : plugin_path (lib_dir b w) name ∈ (w.formatted b name).loaded := hl
    simp only [dlopen, if_pos hl1, Result.bind, if_true]
    exact ih (w.formatted b name) hs hl

theorem findproto_diverges_of_silent_plugin (b : Build) (w : World) (name : String)
    (hs : scan_proto_list w.proto_list name = none)
    (hf : w.files (plugin_path (lib_dir b w) name) = some []) :
    ∀ fuel, findproto b fuel w (some name) = Result.diverge := by
  intro fuel
  cases fuel with
  | zero => rfl
  | succ fuel =>
    by_cases hl : plugin_path (lib_dir b w) name ∈ w.loaded
    · exact findproto_diverges_of_loaded b name _ w hs hl
    · rw [findproto_some, hs]
      have hl1 : plugin_path (lib_dir b w) name ∉ (w.formatted b name).loaded := hl
      have hf1 : (w.formatted b name).files (plugin_path (lib_dir b w) name) = some [] := hf
      simp only [dlopen, if_neg hl1, hf1, run_init, Result.bind, if_true]
      exact findproto_diverges_of_loaded b name fuel
        { w.formatted b name with
          loaded := plugin_path (lib_dir b w) name :: (w.formatted b name).loaded } hs
        (List.mem_cons_self _ _)

/-! ### Building and parsing without a handler -/

theorem nfct_build_protoinfo_no_handler (b : Build) (fuel : Nat) (w : World) (req : nfnlhdr)
    (ct : nfct_conntrack) (h : no_handler b w (ct.tuple.get NFCT_DIR_ORIGINAL).protonum) :
    nfct_build_protoinfo b (fuel + 1) w req ct =
      Result.ok (w.missed b (ct.tuple.get NFCT_DIR_ORIGINAL).protonum, req) := by
  unfold nfct_build_protoinfo
  rw [findproto_no_handler b fuel w _ h]
  rfl

theorem parse_protoinfo_no_handler (b : Build) (fuel : Nat) (w : World) (attr : nfattr_ptr)
    (ct : nfct_conntrack) (h : no_handler b w (ct.tuple.get NFCT_DIR_ORIGINAL).protonum) :
    parse_protoinfo b (fuel + 1) w attr ct =
      Result.ok (w.missed b (ct.tuple.get NFCT_DIR_ORIGINAL).protonum, ct) := by
  unfold parse_protoinfo
  rw [findproto_no_handler b fuel w _ h]
  rfl

theorem parse_ip_fields (b : Build) (ip : nfattr_ptr) (t : nfct_tuple) :
    (parse_ip b ip t).l4src = t.l4src ∧ (parse_ip b ip t).l4dst = t.l4dst ∧
    (parse_ip b ip t).protonum = t.protonum ∧
    (∀ s, nfnl_parse_nested b.endian CTA_IP_MAX ip (CTA_IP_V4_SRC - 1) = some s →
      (parse_ip b ip t).src = deref_u32 b s) ∧
    (∀ d, nfnl_parse_nested b.endian CTA_IP_MAX ip (CTA_IP_V4_DST - 1) = some d →
      (parse_ip b ip t).dst = deref_u32 b d) := by
  cases hs : nfnl_parse_nested b.endian CTA_IP_MAX ip (CTA_IP_V4_SRC - 1) <;>
    cases hd : nfnl_parse_nested b.endian CTA_IP_MAX ip (CTA_IP_V4_DST - 1) <;>
    simp [parse_ip, hs, hd]

theorem with_ip_fields (b : Build) (attr : nfattr_ptr) :
    (with_ip b attr nfct_tuple.zero).l4src = ⟨0⟩ ∧ (with_ip b attr nfct_tuple.zero).l4dst = ⟨0⟩ ∧
    (with_ip b attr nfct_tuple.zero).protonum = 0 ∧
    (∀ ip s, nfnl_parse_nested b.endian CTA_TUPLE_MAX attr (CTA_TUPLE_IP - 1) = some ip →
      nfnl_parse_nested b.endian CTA_IP_MAX ip (CTA_IP_V4_SRC - 1) = some s →
      (with_ip b attr nfct_tuple.zero).src = deref_u32 b s) ∧
    (∀ ip d, nfnl_parse_nested b.endian CTA_TUPLE_MAX attr (CTA_TUPLE_IP - 1) = some ip →
      nfnl_parse_nested b.endian CTA_IP_MAX ip (CTA_IP_V4_DST - 1) = some d →
      (with_ip b attr nfct_tuple.zero).dst = deref_u32 b d) := by
  unfold with_ip
  cases hi : nfnl_parse_nested b.endian CTA_TUPLE_MAX attr (CTA_TUPLE_IP - 1) with
  | none => simp [nfct_tuple.zero]
  | some ip =>
    obtain ⟨h1, h2, h3, h4, h5⟩ := parse_ip_fields b ip nfct_tuple.zero
    refine ⟨h1, h2, h3, ?_, ?_⟩
    · intro ip1 s e1 e2
      cases e1
      exact h4 s e2
    · intro ip1 d e1 e2
      cases e1
      exact h5 d e2

theorem with_protonum_fields {b : Build} (p : nfattr_ptr) (t : nfct_tuple) :
    (with_protonum b p t).l4src = t.l4src ∧ (with_protonum b p t).l4dst = t.l4dst ∧
    (with_protonum b p t).src = t.src ∧ (with_protonum b p t).dst = t.dst ∧
    (∀ n, nfnl_parse_nested b.endian CTA_PROTO_MAX p (CTA_PROTO_NUM - 1) = some n →
      (with_protonum b p t).protonum = deref_u8 n) := by
  cases hn : nfnl_parse_nested b.endian CTA_PROTO_MAX p (CTA_PROTO_NUM - 1) <;>
    simp [with_protonum, hn]

/-! ### Message kinds and 32-bit counters -/

theorem lor_eq_zero (a b : Nat) : a ||| b = 0 ↔ a = 0 ∧ b = 0 := by
  constructor
  · intro h
    have ht : ∀ i, (a ||| b).testBit i = false := by intro i; rw [h]; simp
    constructor
    · apply Nat.eq_of_testBit_eq
      intro i
      have := ht i
      simp only [Nat.testBit_or, Bool.or_eq_false_iff] at this
      simp [this.1]
    · apply Nat.eq_of_testBit_eq
      intro i
      have := ht i
      simp only [Nat.testBit_or, Bool.or_eq_false_iff] at this
      simp [this.2]
  · rintro ⟨rfl, rfl⟩
    rfl

theorem typemsg2enum_new_iff (flags : Nat) (hf : flags < 65536) :
    typemsg2enum IPCTNL_MSG_CT_NEW flags = NFCT_MSG_NEW ↔
      flags &&& NLM_F_CREATE ≠ 0 ∨ flags &&& NLM_F_EXCL ≠ 0 := by
  unfold typemsg2enum
  rw [Nat.mod_eq_of_lt hf, Nat.and_or_distrib_left]
  have e : IPCTNL_MSG_CT_NEW % 65536 = IPCTNL_MSG_CT_NEW := rfl
  rw [if_pos e]
  by_cases h : flags &&& NLM_F_CREATE ||| flags &&& NLM_F_EXCL = 0
  · rw [if_neg (not_not.mpr h)]
    have h2 := (lor_eq_zero _ _).mp h
    simp [h2.1, h2.2, NFCT_MSG_UPDATE, NFCT_MSG_NEW]
  · rw [if_pos h]
    have h2 : ¬ (flags &&& NLM_F_CREATE = 0 ∧ flags &&& NLM_F_EXCL = 0) :=
      fun hx => h ((lor_eq_zero _ _).mpr hx)
    simp only [true_iff]
    by_cases hc : flags &&& NLM_F_CREATE = 0
    · exact Or.inr (fun he => h2 ⟨hc, he⟩)
    · exact Or.inl hc

theorem typemsg2enum_new_or_update (flags : Nat) :
    typemsg2enum IPCTNL_MSG_CT_NEW flags = NFCT_MSG_NEW ∨
      typemsg2enum IPCTNL_MSG_CT_NEW flags = NFCT_MSG_UPDATE := by
  unfold typemsg2enum
  have e : IPCTNL_MSG_CT_NEW % 65536 = IPCTNL_MSG_CT_NEW := rfl
  rw [if_pos e]
  split
  · exact Or.inl rfl
  · exact Or.inr rfl

theorem be_bytes_from_be (bs : List Nat) (hb : ∀ x ∈ bs, x < 256) :
    be_bytes bs.length (from_be bs) = bs := by
  unfold be_bytes from_be
  have h := le_bytes_from_le bs.reverse (fun x hx => hb x (List.mem_reverse.mp hx))
  rw [List.length_reverse] at h
  rw [h, List.reverse_reverse]

theorem from_be_lt (bs : List Nat) (hb : ∀ x ∈ bs, x < 256) : from_be bs < 256 ^ bs.length := by
  have h := from_be_be_bytes bs.length (from_be bs)
  rw [be_bytes_from_be bs hb] at h
  rw [h]
  exact Nat.mod_lt _ (by positivity)

theorem htonl_obj_value (e : Endian) (bs : List Nat) (hlen : bs.length = 4)
    (hb : ∀ x ∈ bs, x < 256) : htonl e (obj_value e bs) = from_be bs := by
  have hlt : from_be bs < 2 ^ 32 := by
    have := from_be_lt bs hb
    rw [hlen] at this
    exact this
  have hbe : be_bytes 4 (from_be bs) = bs := by
    have := be_bytes_from_be bs hb
    rw [hlen] at this
    exact this
  cases e with
  | big =>
    simp only [htonl, obj_value]
    exact Nat.mod_eq_of_lt hlt
  | little =>
    simp only [htonl, obj_value]
    have h := bswap32_from_le_be_bytes (from_be bs)
    rw [hbe, Nat.mod_eq_of_lt hlt] at h
    exact h

theorem counters_after_32 (b : Build) (attr : nfattr_ptr) (c : nfct_counters) :
    (∀ a, nfnl_parse_nested b.endian CTA_COUNTERS_MAX attr (CTA_COUNTERS32_PACKETS - 1) = some a →
      (counters_after b attr c).packets = htonl b.endian (deref_u32 b a)) ∧
    (∀ a, nfnl_parse_nested b.endian CTA_COUNTERS_MAX attr (CTA_COUNTERS32_BYTES - 1) = some a →
      (counters_after b attr c).bytes = htonl b.endian (deref_u32 b a)) := by
  constructor
  · intro a ha
    cases h4 : nfnl_parse_nested b.endian CTA_COUNTERS_MAX attr (CTA_COUNTERS32_BYTES - 1) <;>
      simp [counters_after, ha, h4]
  · intro a ha
    simp [counters_after, ha]

/-! ### Direction of the counters -/

theorem nfct_parse_counters_orig (b : Build) (a : nfattr_ptr) (ct : nfct_conntrack)
    (ht : a.nfa_type = CTA_COUNTERS_ORIG) :
    nfct_parse_counters b a ct (a.nfa_type - 1) =
      { ct with counters := ⟨counters_after b a ct.counters.original, ct.counters.reply⟩ } := by
  rw [nfct_parse_counters_eq, ht]
  simp [counters_dir, CTA_COUNTERS_ORIG, DirArray.set, DirArray.get, NFCT_DIR_ORIGINAL,
    NFCT_DIR_REPLY]

theorem nfct_parse_counters_reply (b : Build) (a : nfattr_ptr) (ct : nfct_conntrack)
    (ht : a.nfa_type = CTA_COUNTERS_REPLY) :
    nfct_parse_counters b a ct (a.nfa_type - 1) =
      { ct with counters := ⟨ct.counters.original, counters_after b a ct.counters.reply⟩ } := by
  rw [nfct_parse_counters_eq, ht]
  simp [counters_dir, CTA_COUNTERS_ORIG, CTA_COUNTERS_REPLY, DirArray.set, DirArray.get,
    NFCT_DIR_ORIGINAL, NFCT_DIR_REPLY]

theorem counters_after_values (b : Build) (attr : nfattr_ptr) (c : nfct_counters) :
    (counters_after b attr c).packets =
      (match nfnl_parse_nested b.endian CTA_COUNTERS_MAX attr (CTA_COUNTERS32_PACKETS - 1) with
        | some x => htonl b.endian (deref_u32 b x)
        | none =>
          match nfnl_parse_nested b.endian CTA_COUNTERS_MAX attr (CTA_COUNTERS_PACKETS - 1) with
          | some x => be64_to_cpu b.endian (deref_u64 b x)
          | none => c.packets) ∧
    (counters_after b attr c).bytes =
      (match nfnl_parse_nested b.endian CTA_COUNTERS_MAX attr (CTA_COUNTERS32_BYTES - 1) with
        | some x => htonl b.endian (deref_u32 b x)
        | none =>
          match nfnl_parse_nested b.endian CTA_COUNTERS_MAX attr (CTA_COUNTERS_BYTES - 1) with
          | some x => be64_to_cpu b.endian (deref_u64 b x)
          | none => c.bytes) := by
  cases h1 : nfnl_parse_nested b.endian CTA_COUNTERS_MAX attr (CTA_COUNTERS_PACKETS - 1) <;>
    cases h2 : nfnl_parse_nested b.endian CTA_COUNTERS_MAX attr (CTA_COUNTERS_BYTES - 1) <;>
    cases h3 : nfnl_parse_nested b.endian CTA_COUNTERS_MAX attr (CTA_COUNTERS32_PACKETS - 1) <;>
    cases h4 : nfnl_parse_nested b.endian CTA_COUNTERS_MAX attr (CTA_COUNTERS32_BYTES - 1) <;>
    simp [counters_after, h1, h2, h3, h4]

/-! ### The handler slot -/

theorem listen_with_handle {b : Build} {fuel : Nat} {w w1 : World} {cth c1 : nfct_handle}
    {ret : Int} (h : listen_with b fuel w cth = Result.ok (w1, c1, ret)) : c1 = cth := by
  unfold listen_with at h
  obtain ⟨⟨w2, r2⟩, _, h2⟩ := Result.bind_eq_ok h
  simp only [Result.ok.injEq, Prod.mk.injEq] at h2
  exact h2.2.1.symm

theorem send_then_listen_handle {b : Build} {fuel : Nat} {w w1 : World} {cth c1 : nfct_handle}
    {req : nfnlhdr} {ret : Int}
    (h : send_then_listen b fuel w cth req = Result.ok (w1, c1, ret)) : c1 = cth := by
  unfold send_then_listen at h
  simp only [nfnl_send] at h
  split at h
  · simp only [Result.ok.injEq, Prod.mk.injEq] at h
    exact h.2.1.symm
  · exact listen_with_handle h

theorem drains_with_of {b : Build} {fuel : Nat} {w w0 w1 : World} {cth c1 : nfct_handle}
    {req : nfnlhdr} {ret : Int} (fr : w.frame w0)
    (h : send_then_listen b fuel w0 cth req = Result.ok (w1, c1, ret)) :
    drains_with b fuel w w1 cth c1 ret :=
  ⟨send_then_listen_handle h, w0, req, fr, h⟩

theorem nfct_get_conntrack_slot {b : Build} {fuel : Nat} {w w1 : World}
    {cth c1 : nfct_handle} {tuple : nfct_tuple} {dir : Int} {id : Nat} {ret : Int}
    (h : nfct_get_conntrack b fuel w cth tuple dir id = Result.ok (w1, c1, ret)) :
    drains_with b fuel w w1 { cth with handler := some nfct_handler.conntrack } c1 ret := by
  unfold nfct_get_conntrack at h
  obtain ⟨⟨w2, req2⟩, hb, h⟩ := Result.bind_eq_ok h
  obtain ⟨_, _, fr⟩ := nfct_build_tuple_ok hb
  exact drains_with_of fr h

theorem nfct_get_expectation_slot {b : Build} {fuel : Nat} {w w1 : World}
    {cth c1 : nfct_handle} {tuple : nfct_tuple} {id : Nat} {ret : Int}
    (h : nfct_get_expectation b fuel w cth tuple id = Result.ok (w1, c1, ret)) :
    drains_with b fuel w w1 { cth with handler := some nfct_handler.expect } c1 ret := by
  unfold nfct_get_expectation at h
  obtain ⟨⟨w2, req2⟩, hb, h⟩ := Result.bind_eq_ok h
  obtain ⟨_, _, fr⟩ := nfct_build_tuple_ok hb
  exact drains_with_of fr h

theorem nfct_update_conntrack_slot {b : Build} {fuel : Nat} {w w1 : World}
    {cth c1 : nfct_handle} {ct : nfct_conntrack} {ret : Int}
    (h : nfct_update_conntrack b fuel w cth ct = Result.ok (w1, c1, ret)) :
    drains_with b fuel w w1 cth c1 ret := by
  unfold nfct_update_conntrack at h
  obtain ⟨⟨w2, req2⟩, hb, h⟩ := Result.bind_eq_ok h
  obtain ⟨_, _, _, _, fr⟩ := nfct_build_conntrack_ok hb
  exact drains_with_of fr h

theorem nfct_create_expectation_slot {b : Build} {fuel : Nat} {w w1 : World}
    {cth c1 : nfct_handle} {exp : nfct_expect} {ret : Int}
    (h : nfct_create_expectation b fuel w cth exp = Result.ok (w1, c1, ret)) :
    drains_with b fuel w w1 cth c1 ret := by
  unfold nfct_create_expectation at h
  obtain ⟨⟨w2, req2⟩, hb, h⟩ := Result.bind_eq_ok h
  obtain ⟨_, _, _, _, fr⟩ := nfct_create_expectation_body_ok hb
  exact drains_with_of fr h

theorem nfct_delete_expectation_slot {b : Build} {fuel : Nat} {w w1 : World}
    {cth c1 : nfct_handle} {tuple : nfct_tuple} {id : Nat} {ret : Int}
    (h : nfct_delete_expectation b fuel w cth tuple id = Result.ok (w1, c1, ret)) :
    drains_with b fuel w w1 cth c1 ret := by
  unfold nfct_delete_expectation at h
  obtain ⟨⟨w2, req2⟩, hb, h⟩ := Result.bind_eq_ok h
  obtain ⟨_, _, fr⟩ := nfct_build_tuple_ok hb
  exact drains_with_of fr h

theorem nfct_create_conntrack_handle {b : Build} {fuel : Nat} {w w1 : World}
    {cth c1 : nfct_handle} {ct : nfct_conntrack} {ret : Int}
    (h : nfct_create_conntrack b fuel w cth ct = Result.ok (w1, c1, ret)) : c1 = cth := by
  unfold nfct_create_conntrack at h
  obtain ⟨⟨w2, req2⟩, _, h⟩ := Result.bind_eq_ok h
  simp only [Result.ok.injEq, Prod.mk.injEq] at h
  exact h.2.1.symm

theorem nfct_delete_conntrack_handle {b : Build} {fuel : Nat} {w w1 : World}
    {cth c1 : nfct_handle} {tuple : nfct_tuple} {dir : Int} {id : Nat} {ret : Int}
    (h : nfct_delete_conntrack b fuel w cth tuple dir id = Result.ok (w1, c1, ret)) :
    c1 = cth := by
  unfold nfct_delete_conntrack at h
  obtain ⟨⟨w2, req2⟩, _, h⟩ := Result.bind_eq_ok h
  simp only [Result.ok.injEq, Prod.mk.injEq] at h
  exact h.2.1.symm

/-! ### Protocol numbers of the two tuples -/

theorem parse_tuple_protonum {b : Build} {fuel : Nat} {w w1 : World} {attr : nfattr_ptr}
    {t1 : nfct_tuple} (h : parse_tuple b fuel w attr nfct_tuple.zero = Result.ok (w1, t1)) :
    t1.protonum = carried_protonum b (some attr) := by
  have h2 := (parse_tuple_ok h).2
  have hi := (with_ip_fields b attr).2.2.1
  unfold carried_protonum
  cases hp : nfnl_parse_nested b.endian CTA_TUPLE_MAX attr (CTA_TUPLE_PROTO - 1) with
  | none =>
    simp only [hp] at h2 ⊢
    rw [h2.2, hi]
  | some p =>
    simp only [hp] at h2 ⊢
    obtain ⟨hd, _, ht⟩ := h2
    rw [ht, (with_l4_fields hd p _).2.2.1]
    cases hn : nfnl_parse_nested b.endian CTA_PROTO_MAX p (CTA_PROTO_NUM - 1) with
    | none => simp [with_protonum, hn, hi]
    | some n => simp [with_protonum, hn]

theorem conntrack_attrs_tuples (b : Build) (ct : nfct_conntrack) (h1 h2 h3 : Option nfct_proto) :
    ∃ rest, conntrack_attrs b ct h1 h2 h3 =
      nfattr.nest CTA_TUPLE_ORIG [ip_tree b (ct.tuple.get NFCT_DIR_ORIGINAL),
          nfattr.nest CTA_TUPLE_PROTO
            (nfattr.leaf CTA_PROTO_NUM (protonum_bytes (ct.tuple.get NFCT_DIR_ORIGINAL)) ::
              proto_leaves h1 (ct.tuple.get NFCT_DIR_ORIGINAL))] ::
        nfattr.nest CTA_TUPLE_REPLY [ip_tree b (ct.tuple.get NFCT_DIR_REPLY),
          nfattr.nest CTA_TUPLE_PROTO
            (nfattr.leaf CTA_PROTO_NUM (protonum_bytes (ct.tuple.get NFCT_DIR_REPLY)) ::
              proto_leaves h2 (ct.tuple.get NFCT_DIR_REPLY))] :: rest := by
  unfold conntrack_attrs tuple_tree proto_tree
  exact ⟨_, by simp only [List.cons_append, List.nil_append, List.append_assoc]; rfl⟩

/-! ## Lemmas: attributes framed in memory -/

theorem NFA_ALIGN_ge (n : Nat) : n ≤ NFA_ALIGN n := by
  unfold NFA_ALIGN
  omega

theorem NFA_ALIGN_add_four (n : Nat) : NFA_ALIGN (n + 4) = NFA_ALIGN n + 4 := by
  unfold NFA_ALIGN
  omega

theorem NFA_ALIGN_of_mod (n : Nat) (h : n % 4 = 0) : NFA_ALIGN n = n := by
  unfold NFA_ALIGN
  omega

theorem NFA_ALIGN_mod (n : Nat) : NFA_ALIGN n % 4 = 0 := by
  unfold NFA_ALIGN
  omega

theorem NFA_ALIGN_lt (n : Nat) : NFA_ALIGN n < n + 4 := by
  unfold NFA_ALIGN
  omega

theorem nfattr_frame_length (e : Endian) (t : Nat) (pl : List Nat) :
    (nfattr_frame e t pl).length = NFA_ALIGN (NFA_LENGTH pl.length) := by
  have h := NFA_ALIGN_ge pl.length
  simp only [nfattr_frame, List.length_append, obj_bytes_length, List.length_replicate,
    NFA_LENGTH, NFA_ALIGN_add_four]
  omega

theorem encode_attrs_nil (e : Endian) : encode_attrs e [] = [] := by
  simp [encode_attrs]

theorem encode_attrs_cons (e : Endian) (a : nfattr) (as : List nfattr) :
    encode_attrs e (a :: as) = a.encode e ++ encode_attrs e as := by
  simp [encode_attrs, nfattr.encode]

theorem nfattr.encode_length (e : Endian) (a : nfattr) :
    (a.encode e).length = NFA_ALIGN (NFA_LENGTH (a.payload e).length) :=
  nfattr_frame_length e _ _

theorem encode_attrs_length_mod (e : Endian) (as : List nfattr) :
    (encode_attrs e as).length % 4 = 0 := by
  induction as with
  | nil => simp [encode_attrs_nil]
  | cons a as ih =>
    rw [encode_attrs_cons, List.length_append, nfattr.encode_length]
    have := NFA_ALIGN_mod (NFA_LENGTH (a.payload e).length)
    omega

theorem encode_attrs_length_ge (e : Endian) (as : List nfattr) :
    4 * as.length ≤ (encode_attrs e as).length := by
  induction as with
  | nil => simp
  | cons a as ih =>
    rw [encode_attrs_cons, List.length_append, nfattr.encode_length, List.length_cons]
    have := NFA_ALIGN_ge (NFA_LENGTH (a.payload e).length)
    have e4 : NFA_LENGTH (a.payload e).length = (a.payload e).length + 4 := rfl
    omega

theorem encode_attrs_append (e : Endian) (as bs : List nfattr) :
    encode_attrs e (as ++ bs) = encode_attrs e as ++ encode_attrs e bs := by
  induction as with
  | nil => simp [encode_attrs_nil]
  | cons a as ih => simp [encode_attrs_cons, ih]

theorem mem_of_drop (xs ys : List Nat) (rest : Nat → Nat) (n : Nat) (h : n = xs.length) :
    (fun i => mem_of (xs ++ ys) rest (i + n)) = mem_of ys rest := by
  rw [mem_of_append]
  exact mem_of_shift xs _ n h

theorem nfattr_at_frame (e : Endian) (t : Nat) (pl ys : List Nat) (rest : Nat → Nat)
    (h : NFA_LENGTH pl.length < 65536) :
    nfattr_at e (mem_of (nfattr_frame e t pl ++ ys) rest) =
      ⟨NFA_LENGTH pl.length, t % 65536,
        mem_of (pl ++ List.replicate (NFA_ALIGN pl.length - pl.length) 0 ++ ys) rest⟩ := by
  have e16 : (256 : Nat) ^ 2 = 65536 := by norm_num
  unfold nfattr_at nfattr_frame
  simp only [List.append_assoc]
  congr 1
  · rw [obj_value_obj_bytes, e16, Nat.mod_eq_of_lt h]
  · rw [mem_of_drop _ _ _ 2 (by rw [obj_bytes_length]), obj_value_obj_bytes, e16]
  · rw [← List.append_assoc (obj_bytes e 2 _) (obj_bytes e 2 _)]
    exact mem_of_drop _ _ _ _ (by simp [obj_bytes_length, NFA_LENGTH])

theorem nfattr.ptr_eq (e : Endian) (a : nfattr) (rest : Nat → Nat) (h : a.fits e) :
    a.ptr e rest =
      ⟨NFA_LENGTH (a.payload e).length, a.nfa_type % 65536,
        mem_of (a.payload e ++
          List.replicate (NFA_ALIGN (a.payload e).length - (a.payload e).length) 0) rest⟩ := by
  have h1 := nfattr_at_frame e a.nfa_type (a.payload e) [] rest h
  simp only [List.append_nil] at h1
  exact h1

theorem nfattr.ptr_nfa_len (e : Endian) (a : nfattr) (rest : Nat → Nat) (h : a.fits e) :
    (a.ptr e rest).nfa_len = NFA_LENGTH (a.payload e).length := by
  rw [nfattr.ptr_eq e a rest h]

theorem nfattr.ptr_nfa_type (e : Endian) (a : nfattr) (rest : Nat → Nat) (h : a.fits e) :
    (a.ptr e rest).nfa_type = a.nfa_type % 65536 := by
  rw [nfattr.ptr_eq e a rest h]

theorem nfattr.ptr_mem (e : Endian) (a : nfattr) (rest : Nat → Nat) (h : a.fits e) :
    (a.ptr e rest).mem =
      mem_of (a.payload e ++
        List.replicate (NFA_ALIGN (a.payload e).length - (a.payload e).length) 0) rest := by
  rw [nfattr.ptr_eq e a rest h]

/-- The payload of a nest is its framed children, and no padding follows. -/
theorem nfattr.ptr_mem_nest (e : Endian) (t : Nat) (cs : List nfattr) (rest : Nat → Nat)
    (h : (nfattr.nest t cs).fits e) :
    ((nfattr.nest t cs).ptr e rest).mem = mem_of (encode_attrs e cs) rest := by
  rw [nfattr.ptr_mem e _ rest h]
  have hp : (nfattr.nest t cs).payload e = encode_attrs e cs := by simp [nfattr.payload]
  rw [hp, NFA_ALIGN_of_mod _ (encode_attrs_length_mod e cs)]
  simp

theorem nfattr.payload_leaf (e : Endian) (t : Nat) (d : List Nat) :
    (nfattr.leaf t d).payload e = d := by
  simp [nfattr.payload]

theorem nfattr.payload_nest (e : Endian) (t : Nat) (cs : List nfattr) :
    (nfattr.nest t cs).payload e = encode_attrs e cs := by
  simp [nfattr.payload]

theorem ptrs_cons (e : Endian) (a : nfattr) (as : List nfattr) (rest : Nat → Nat) :
    ptrs e (a :: as) rest = a.ptr e (mem_of (encode_attrs e as) rest) :: ptrs e as rest := rfl

theorem ptrs_length (e : Endian) (as : List nfattr) (rest : Nat → Nat) :
    (ptrs e as rest).length = as.length := by
  induction as with
  | nil => rfl
  | cons a as ih => simp [ptrs, ih]

/-- The walk over a framed list of attributes, bounded by the length of their
bytes, visits each of them in turn and stops behind the last. -/
theorem nfattr_walk_encode (e : Endian) (as : List nfattr) (rest : Nat → Nat)
    (hf : ∀ a ∈ as, a.fits e) :
    ∀ fuel, as.length ≤ fuel →
      nfattr_walk e fuel (mem_of (encode_attrs e as) rest)
        ((encode_attrs e as).length : Int) = ptrs e as rest := by
  induction as with
  | nil =>
    intro fuel _
    cases fuel with
    | zero => rfl
    | succ f => simp [nfattr_walk, encode_attrs_nil, ptrs]
  | cons a as ih =>
    intro fuel hfuel
    cases fuel with
    | zero => simp at hfuel
    | succ f =>
      have ha : a.fits e := hf a (List.mem_cons_self _ _)
      have hp : nfattr_at e (mem_of (encode_attrs e (a :: as)) rest) =
          a.ptr e (mem_of (encode_attrs e as) rest) := by
        rw [encode_attrs_cons, mem_of_append]
        rfl
      have hl : (encode_attrs e (a :: as)).length =
          NFA_ALIGN (NFA_LENGTH (a.payload e).length) + (encode_attrs e as).length := by
        rw [encode_attrs_cons, List.length_append, nfattr.encode_length]
      have hge := NFA_ALIGN_ge (NFA_LENGTH (a.payload e).length)
      have e4 : NFA_LENGTH (a.payload e).length = (a.payload e).length + 4 := rfl
      have e0 : NFA_LENGTH 0 = 4 := rfl
      unfold nfattr_walk
      rw [hp, nfattr.ptr_nfa_len e a _ ha, if_pos (by rw [hl, e0]; omega), ptrs_cons]
      congr 1
      have hn : (fun i => mem_of (encode_attrs e (a :: as)) rest
          (i + NFA_ALIGN (NFA_LENGTH (a.payload e).length))) = mem_of (encode_attrs e as) rest := by
        rw [encode_attrs_cons]
        exact mem_of_drop _ _ _ _ (nfattr.encode_length e a).symm
      have hlen : ((encode_attrs e (a :: as)).length : Int) -
          (NFA_ALIGN (NFA_LENGTH (a.payload e).length) : Nat) = (encode_attrs e as).length := by
        rw [hl]
        push_cast
        omega
      rw [hn, hlen]
      exact ih (fun x hx => hf x (List.mem_cons_of_mem _ hx)) f (by simpa using hfuel)

/-- The table `nfnl_parse_attr` fills from a framed list of attributes. -/
theorem nfnl_parse_attr_encode (e : Endian) (max : Nat) (as : List nfattr) (rest : Nat → Nat)
    (i : Nat) (hf : ∀ a ∈ as, a.fits e) :
    nfnl_parse_attr e max (mem_of (encode_attrs e as) rest) ((encode_attrs e as).length : Int) i =
      if i < max then (ptrs e as rest).reverse.find? (fun a => a.nfa_type == i + 1) else none := by
  unfold nfnl_parse_attr
  rw [nfattr_walk_encode e as rest hf]
  have := encode_attrs_length_ge e as
  simp only [Int.toNat_ofNat]
  omega

/-- The table `nfnl_parse_nested` fills from a framed nest. -/
theorem nfnl_parse_nested_ptr (e : Endian) (max t : Nat) (cs : List nfattr) (rest : Nat → Nat)
    (i : Nat) (h : (nfattr.nest t cs).fits e) (hf : ∀ a ∈ cs, a.fits e) :
    nfnl_parse_nested e max ((nfattr.nest t cs).ptr e rest) i =
      if i < max then (ptrs e cs rest).reverse.find? (fun a => a.nfa_type == i + 1) else none := by
  unfold nfnl_parse_nested NFA_PAYLOAD
  rw [nfattr.ptr_mem_nest e t cs rest h, nfattr.ptr_nfa_len e _ rest h, nfattr.payload_nest]
  have e1 : ((NFA_LENGTH (encode_attrs e cs).length : Nat) : Int) - (NFA_LENGTH 0 : Nat) =
      ((encode_attrs e cs).length : Int) := by
    simp only [NFA_LENGTH]
    push_cast
    omega
  rw [e1]
  exact nfnl_parse_attr_encode e max cs rest i hf

/-- Among framed attributes none of which carries the type `t`, the table has
no entry for `t`. -/
theorem ptrs_find_none (e : Endian) (as : List nfattr) (rest : Nat → Nat) (t : Nat)
    (hf : ∀ a ∈ as, a.fits e) (ht : ∀ a ∈ as, a.nfa_type % 65536 ≠ t) :
    (ptrs e as rest).reverse.find? (fun a => a.nfa_type == t) = none := by
  rw [List.find?_eq_none]
  intro p hp
  rw [List.mem_reverse] at hp
  induction as with
  | nil => simp [ptrs] at hp
  | cons a as ih =>
    rw [ptrs_cons, List.mem_cons] at hp
    rcases hp with hp | hp
    · rw [hp, nfattr.ptr_nfa_type e a _ (hf a (List.mem_cons_self _ _))]
      simpa using ht a (List.mem_cons_self _ _)
    · exact ih (fun x hx => hf x (List.mem_cons_of_mem _ hx))
        (fun x hx => ht x (List.mem_cons_of_mem _ hx)) hp

/-- The entry for `t` is the first attribute of the list when it carries `t`
and no later one does. -/
theorem ptrs_find_head (e : Endian) (a : nfattr) (as : List nfattr) (rest : Nat → Nat) (t : Nat)
    (ha : a.fits e) (hta : a.nfa_type % 65536 = t)
    (hf : ∀ x ∈ as, x.fits e) (ht : ∀ x ∈ as, x.nfa_type % 65536 ≠ t) :
    (ptrs e (a :: as) rest).reverse.find? (fun p => p.nfa_type == t) =
      some (a.ptr e (mem_of (encode_attrs e as) rest)) := by
  rw [ptrs_cons, List.reverse_cons, List.find?_append, ptrs_find_none e as rest t hf ht]
  simp [nfattr.ptr_nfa_type e a _ ha, hta]

/-- The entry for `t` is found behind a first attribute that does not carry `t`. -/
theorem ptrs_find_tail (e : Endian) (a : nfattr) (as : List nfattr) (rest : Nat → Nat) (t : Nat)
    (ha : a.fits e) (hta : a.nfa_type % 65536 ≠ t) :
    (ptrs e (a :: as) rest).reverse.find? (fun p => p.nfa_type == t) =
      (ptrs e as rest).reverse.find? (fun p => p.nfa_type == t) := by
  rw [ptrs_cons, List.reverse_cons, List.find?_append]
  cases (ptrs e as rest).reverse.find? (fun p => p.nfa_type == t) with
  | some x => rfl
  | none => simp [nfattr.ptr_nfa_type e a _ ha, hta]

theorem encode_attrs_mem_le (e : Endian) (as : List nfattr) (a : nfattr) (h : a ∈ as) :
    NFA_LENGTH (a.payload e).length ≤ (encode_attrs e as).length := by
  induction as with
  | nil => simp at h
  | cons x xs ih =>
    rw [encode_attrs_cons, List.length_append, nfattr.encode_length]
    rcases List.mem_cons.mp h with h1 | h1
    · rw [h1]
      have := NFA_ALIGN_ge (NFA_LENGTH (x.payload e).length)
      omega
    · have := ih h1
      omega

theorem fits_of_mem (e : Endian) (as : List nfattr) (n : Nat)
    (h : (encode_attrs e as).length < n) (hn : n ≤ 65536) : ∀ a ∈ as, a.fits e := by
  intro a ha
  have := encode_attrs_mem_le e as a ha
  unfold nfattr.fits
  omega

theorem nfattr.fits_leaf (e : Endian) (t : Nat) (d : List Nat) (h : d.length < 65532) :
    (nfattr.leaf t d).fits e := by
  unfold nfattr.fits NFA_LENGTH
  rw [nfattr.payload_leaf]
  omega

/-- The memory at `NFA_DATA` of a framed leaf starts with its payload. -/
theorem nfattr.ptr_mem_leaf (e : Endian) (t : Nat) (d : List Nat) (rest : Nat → Nat)
    (h : d.length < 65532) :
    ((nfattr.leaf t d).ptr e rest).mem =
      mem_of (d ++ List.replicate (NFA_ALIGN d.length - d.length) 0) rest := by
  rw [nfattr.ptr_mem e _ rest (nfattr.fits_leaf e t d h), nfattr.payload_leaf]

theorem mem_read_leaf (e : Endian) (t : Nat) (d : List Nat) (rest : Nat → Nat) (n : Nat)
    (hn : d.length = n) (h : n < 65532) (hb : ∀ x ∈ d, x < 256) :
    mem_read n ((nfattr.leaf t d).ptr e rest).mem = d := by
  rw [nfattr.ptr_mem_leaf e t d rest (by omega)]
  exact mem_read_of_eq n d _ rest hn hb

theorem deref_u32_leaf (b : Build) (t v : Nat) (rest : Nat → Nat) :
    deref_u32 b ((nfattr.leaf t (obj_bytes b.endian 4 v)).ptr b.endian rest) = v % 2 ^ 32 := by
  unfold deref_u32
  rw [mem_read_leaf b.endian t _ rest 4 (obj_bytes_length _ _ _) (by norm_num)
    (obj_bytes_lt _ _ _), obj_value_bytes]
  norm_num

theorem deref_ulong_leaf (b : Build) (t v : Nat) (rest : Nat → Nat) :
    deref_ulong b ((nfattr.leaf t (obj_bytes b.endian b.sizeof_long v)).ptr b.endian rest) =
      v % 256 ^ b.sizeof_long := by
  unfold deref_ulong
  have hs : b.sizeof_long < 65532 := by
    unfold Build.sizeof_long
    split <;> omega
  rw [mem_read_leaf b.endian t _ rest b.sizeof_long (obj_bytes_length _ _ _) hs
    (obj_bytes_lt _ _ _), obj_value_bytes]

theorem deref_u8_leaf (e : Endian) (t x : Nat) (xs : List Nat) (rest : Nat → Nat)
    (h : (x :: xs).length < 65532) :
    deref_u8 ((nfattr.leaf t (x :: xs)).ptr e rest) = x % 256 := by
  unfold deref_u8
  rw [nfattr.ptr_mem_leaf e t _ rest h]
  simp [mem_of]

theorem deref_u8_protonum_bytes (e : Endian) (t : nfct_tuple) (rest : Nat → Nat) :
    deref_u8 ((nfattr.leaf CTA_PROTO_NUM (protonum_bytes t)).ptr e rest) = t.protonum % 256 := by
  unfold protonum_bytes
  rw [deref_u8_leaf e _ _ _ rest (by simp)]
  exact Nat.mod_mod _ _

theorem ntohl_deref_u32 (b : Build) (type x : Nat) (rest : Nat → Nat) :
    ntohl b.endian (deref_u32 b
      ((nfattr.leaf type (obj_bytes b.endian 4 (htonl b.endian x))).ptr b.endian rest)) =
      x % 2 ^ 32 := by
  rw [deref_u32_leaf]
  have h : htonl b.endian x % 2 ^ 32 = htonl b.endian x := by
    cases hb : b.endian with
    | big => simp [htonl]
    | little =>
      simp only [htonl]
      apply Nat.mod_eq_of_lt
      rw [bswap32_eq]
      have := from_be_lt (be_bytes 4 (x % 2 ^ 32)).reverse (by
        intro y hy
        exact be_bytes_lt 4 _ y (List.mem_reverse.mp hy))
      simpa [from_be, be_bytes_length] using this
  rw [h, ntohl_htonl]

/-! ## Lemmas: parsing a framed tuple -/

theorem ip_tree_payload_length (b : Build) (t : nfct_tuple) (e : Endian) :
    ((ip_tree b t).payload e).length = 16 := by
  simp [ip_tree, nfattr.payload_nest, encode_attrs_cons, encode_attrs_nil, nfattr.encode_length,
    nfattr.payload_leaf, obj_bytes_length, NFA_LENGTH, NFA_ALIGN]

theorem ip_tree_fits (b : Build) (t : nfct_tuple) (e : Endian) : (ip_tree b t).fits e := by
  unfold nfattr.fits NFA_LENGTH
  rw [ip_tree_payload_length]
  norm_num

theorem proto_tree_payload_length (h : Option nfct_proto) (t : nfct_tuple) (e : Endian) :
    ((proto_tree h t).payload e).length = 8 + (encode_attrs e (proto_leaves h t)).length := by
  simp [proto_tree, nfattr.payload_nest, encode_attrs_cons, nfattr.encode_length,
    nfattr.payload_leaf, protonum_bytes, NFA_LENGTH, NFA_ALIGN]

theorem tuple_tree_payload_length (b : Build) (h : Option nfct_proto) (t : nfct_tuple)
    (type : Nat) (e : Endian) :
    ((tuple_tree b h t type).payload e).length =
      32 + (encode_attrs e (proto_leaves h t)).length := by
  have h1 := ip_tree_payload_length b t e
  have h2 := proto_tree_payload_length h t e
  have h3 := encode_attrs_length_mod e (proto_leaves h t)
  simp only [tuple_tree, nfattr.payload_nest, encode_attrs_cons, encode_attrs_nil,
    List.length_append, nfattr.encode_length, h1, h2, NFA_LENGTH, List.length_nil]
  unfold NFA_ALIGN
  omega

/-- The bytes of a framed tuple nest: 36 and what the handler contributed. -/
theorem tuple_tree_encode_length (b : Build) (h : Option nfct_proto) (t : nfct_tuple)
    (type : Nat) (e : Endian) :
    ((tuple_tree b h t type).encode e).length =
      36 + (encode_attrs e (proto_leaves h t)).length := by
  have h3 := encode_attrs_length_mod e (proto_leaves h t)
  rw [nfattr.encode_length, tuple_tree_payload_length]
  unfold NFA_LENGTH NFA_ALIGN
  omega

theorem proto_tree_fits (h : Option nfct_proto) (t : nfct_tuple) (e : Endian)
    (hL : (encode_attrs e (proto_leaves h t)).length + 36 < 65536) : (proto_tree h t).fits e := by
  unfold nfattr.fits NFA_LENGTH
  rw [proto_tree_payload_length]
  omega

theorem tuple_tree_fits (b : Build) (h : Option nfct_proto) (t : nfct_tuple) (type : Nat)
    (e : Endian) (hL : (encode_attrs e (proto_leaves h t)).length + 36 < 65536) :
    (tuple_tree b h t type).fits e := by
  unfold nfattr.fits NFA_LENGTH
  rw [tuple_tree_payload_length]
  omega

theorem parse_ip_ptr (b : Build) (t tup : nfct_tuple) (rest : Nat → Nat) :
    parse_ip b ((ip_tree b t).ptr b.endian rest) tup =
      { tup with src := t.src % 2 ^ 32, dst := t.dst % 2 ^ 32 } := by
  have f1 : ∀ ty v, (nfattr.leaf ty (obj_bytes b.endian 4 v)).fits b.endian := fun ty v =>
    nfattr.fits_leaf _ _ _ (by rw [obj_bytes_length]; norm_num)
  have hc : ∀ a ∈ [nfattr.leaf CTA_IP_V4_SRC (obj_bytes b.endian 4 t.src),
      nfattr.leaf CTA_IP_V4_DST (obj_bytes b.endian 4 t.dst)], a.fits b.endian := by
    intro a ha
    simp only [List.mem_cons, List.mem_singleton, List.not_mem_nil, or_false] at ha
    rcases ha with ha | ha <;> rw [ha] <;> exact f1 _ _
  have a1 : nfnl_parse_nested b.endian CTA_IP_MAX ((ip_tree b t).ptr b.endian rest)
      (CTA_IP_V4_SRC - 1) = some ((nfattr.leaf CTA_IP_V4_SRC (obj_bytes b.endian 4 t.src)).ptr
        b.endian (mem_of (encode_attrs b.endian
          [nfattr.leaf CTA_IP_V4_DST (obj_bytes b.endian 4 t.dst)]) rest)) := by
    unfold ip_tree
    rw [nfnl_parse_nested_ptr b.endian _ _ _ rest _ (ip_tree_fits b t b.endian) hc,
      if_pos (by decide)]
    exact ptrs_find_head b.endian _ _ rest _ (f1 _ _) rfl
      (fun x hx => by rw [List.mem_singleton.mp hx]; exact f1 _ _)
      (fun x hx => by
        rw [List.mem_singleton.mp hx]
        simp [nfattr.nfa_type, CTA_IP_V4_SRC, CTA_IP_V4_DST])
  have a2 : nfnl_parse_nested b.endian CTA_IP_MAX ((ip_tree b t).ptr b.endian rest)
      (CTA_IP_V4_DST - 1) = some ((nfattr.leaf CTA_IP_V4_DST (obj_bytes b.endian 4 t.dst)).ptr
        b.endian (mem_of (encode_attrs b.endian []) rest)) := by
    unfold ip_tree
    rw [nfnl_parse_nested_ptr b.endian _ _ _ rest _ (ip_tree_fits b t b.endian) hc,
      if_pos (by decide), ptrs_find_tail b.endian _ _ rest _ (f1 _ _)
        (by simp [nfattr.nfa_type, CTA_IP_V4_SRC, CTA_IP_V4_DST])]
    exact ptrs_find_head b.endian _ _ rest _ (f1 _ _) rfl
      (fun x hx => by simp at hx) (fun x hx => by simp at hx)
  simp only [parse_ip, a1, a2, deref_u32_leaf]

theorem tuple_tree_children_fit (b : Build) (h : Option nfct_proto) (t : nfct_tuple)
    (e : Endian) (hL : (encode_attrs e (proto_leaves h t)).length + 36 < 65536) :
    ∀ a ∈ [ip_tree b t, proto_tree h t], a.fits e := by
  intro a ha
  simp only [List.mem_cons, List.mem_singleton, List.not_mem_nil, or_false] at ha
  rcases ha with ha | ha <;> rw [ha]
  · exact ip_tree_fits b t e
  · exact proto_tree_fits h t e hL

theorem nested_ip_ptr (b : Build) (h : Option nfct_proto) (t : nfct_tuple) (type : Nat)
    (rest : Nat → Nat)
    (hL : (encode_attrs b.endian (proto_leaves h t)).length + 36 < 65536) :
    nfnl_parse_nested b.endian CTA_TUPLE_MAX ((tuple_tree b h t type).ptr b.endian rest)
      (CTA_TUPLE_IP - 1) =
      some ((ip_tree b t).ptr b.endian (mem_of (encode_attrs b.endian [proto_tree h t]) rest)) := by
  unfold tuple_tree
  rw [nfnl_parse_nested_ptr b.endian _ _ _ rest _ (tuple_tree_fits b h t type b.endian hL)
    (tuple_tree_children_fit b h t b.endian hL), if_pos (by decide)]
  exact ptrs_find_head b.endian _ _ rest _ (ip_tree_fits b t _) rfl
    (fun x hx => by rw [List.mem_singleton.mp hx]; exact proto_tree_fits h t _ hL)
    (fun x hx => by
      rw [List.mem_singleton.mp hx]
      simp [nfattr.nfa_type, proto_tree, CTA_TUPLE_IP, CTA_TUPLE_PROTO])

theorem nested_proto_ptr (b : Build) (h : Option nfct_proto) (t : nfct_tuple) (type : Nat)
    (rest : Nat → Nat)
    (hL : (encode_attrs b.endian (proto_leaves h t)).length + 36 < 65536) :
    nfnl_parse_nested b.endian CTA_TUPLE_MAX ((tuple_tree b h t type).ptr b.endian rest)
      (CTA_TUPLE_PROTO - 1) = some ((proto_tree h t).ptr b.endian rest) := by
  unfold tuple_tree
  rw [nfnl_parse_nested_ptr b.endian _ _ _ rest _ (tuple_tree_fits b h t type b.endian hL)
    (tuple_tree_children_fit b h t b.endian hL), if_pos (by decide),
    ptrs_find_tail b.endian _ _ rest _ (ip_tree_fits b t _)
      (by simp [nfattr.nfa_type, ip_tree, CTA_TUPLE_IP, CTA_TUPLE_PROTO]),
    ptrs_find_head b.endian _ _ rest (CTA_TUPLE_PROTO - 1 + 1) (proto_tree_fits h t _ hL) rfl
      (fun x hx => by simp at hx) (fun x hx => by simp at hx),
    encode_attrs_nil, mem_of_nil]

theorem with_ip_ptr (b : Build) (h : Option nfct_proto) (t tup : nfct_tuple) (type : Nat)
    (rest : Nat → Nat)
    (hL : (encode_attrs b.endian (proto_leaves h t)).length + 36 < 65536) :
    with_ip b ((tuple_tree b h t type).ptr b.endian rest) tup =
      { tup with src := t.src % 2 ^ 32, dst := t.dst % 2 ^ 32 } := by
  simp only [with_ip, nested_ip_ptr b h t type rest hL, parse_ip_ptr]

theorem with_protonum_ptr (b : Build) (h : Option nfct_proto) (t tup : nfct_tuple)
    (rest : Nat → Nat)
    (hL : (encode_attrs b.endian (proto_leaves h t)).length + 36 < 65536)
    (hnum : ∀ a ∈ proto_leaves h t, a.nfa_type % 65536 ≠ CTA_PROTO_NUM) :
    with_protonum b ((proto_tree h t).ptr b.endian rest) tup =
      { tup with protonum := t.protonum % 256 } := by
  have hls : ∀ a ∈ proto_leaves h t, a.fits b.endian :=
    fits_of_mem b.endian _ 65536 (by omega) (le_refl _)
  have fn : (nfattr.leaf CTA_PROTO_NUM (protonum_bytes t)).fits b.endian :=
    nfattr.fits_leaf _ _ _ (by simp [protonum_bytes])
  have a1 : nfnl_parse_nested b.endian CTA_PROTO_MAX ((proto_tree h t).ptr b.endian rest)
      (CTA_PROTO_NUM - 1) = some ((nfattr.leaf CTA_PROTO_NUM (protonum_bytes t)).ptr b.endian
        (mem_of (encode_attrs b.endian (proto_leaves h t)) rest)) := by
    unfold proto_tree
    rw [nfnl_parse_nested_ptr b.endian _ _ _ rest _ (proto_tree_fits h t b.endian hL)
      (by
        intro a ha
        rcases List.mem_cons.mp ha with ha | ha
        · rw [ha]; exact fn
        · exact hls a ha), if_pos (by decide)]
    exact ptrs_find_head b.endian _ _ rest _ fn rfl hls hnum
  simp only [with_protonum, a1, deref_u8_protonum_bytes]

/-- What `parse_tuple` reads from a framed tuple nest, whatever handler is
found for it: the two addresses, and the protocol number when the handler that
built the nest put no second attribute of type NUM into it. -/
theorem parse_tuple_ptr {b : Build} {fuel : Nat} {w w1 : World} {h : Option nfct_proto}
    {t tup t1 : nfct_tuple} {type : Nat} {rest : Nat → Nat}
    (hL : (encode_attrs b.endian (proto_leaves h t)).length + 36 < 65536)
    (hp : parse_tuple b fuel w ((tuple_tree b h t type).ptr b.endian rest) tup =
      Result.ok (w1, t1)) :
    w.frame w1 ∧ t1.src = t.src % 2 ^ 32 ∧ t1.dst = t.dst % 2 ^ 32 ∧
      ((∀ a ∈ proto_leaves h t, a.nfa_type % 65536 ≠ CTA_PROTO_NUM) →
        t1.protonum = t.protonum % 256) := by
  obtain ⟨fr, hm⟩ := parse_tuple_ok hp
  rw [nested_proto_ptr b h t type rest hL] at hm
  obtain ⟨hd, _, ht1⟩ := hm
  obtain ⟨f1, f2, f3, _⟩ := with_l4_fields (b := b) hd ((proto_tree h t).ptr b.endian rest)
    (with_protonum b ((proto_tree h t).ptr b.endian rest)
      (with_ip b ((tuple_tree b h t type).ptr b.endian rest) tup))
  obtain ⟨_, _, g2, g3, _⟩ := with_protonum_fields (b := b) ((proto_tree h t).ptr b.endian rest)
    (with_ip b ((tuple_tree b h t type).ptr b.endian rest) tup)
  refine ⟨fr, ?_, ?_, ?_⟩
  · rw [ht1, f1, g2, with_ip_ptr b h t tup type rest hL]
  · rw [ht1, f2, g3, with_ip_ptr b h t tup type rest hL]
  · intro hnum
    rw [ht1, f3, with_protonum_ptr b h t _ rest hL hnum]

/-! ## Lemmas: the parse table of a framed message -/

theorem last_of_type_cons (t : Nat) (a : nfattr) (as : List nfattr) :
    last_of_type t (a :: as) =
      match last_of_type t as with
      | some x => some x
      | none => if a.nfa_type % 65536 = t then some a else none := by
  unfold last_of_type
  rw [List.reverse_cons, List.find?_append]
  cases List.find? (fun a => a.nfa_type % 65536 == t) as.reverse with
  | some x => rfl
  | none =>
    by_cases h : a.nfa_type % 65536 = t <;> simp [h]

theorem ptrs_find_cons (e : Endian) (a : nfattr) (as : List nfattr) (rest : Nat → Nat) (t : Nat)
    (ha : a.fits e) :
    (ptrs e (a :: as) rest).reverse.find? (fun p => p.nfa_type == t) =
      match (ptrs e as rest).reverse.find? (fun p => p.nfa_type == t) with
      | some x => some x
      | none =>
        if a.nfa_type % 65536 = t then some (a.ptr e (mem_of (encode_attrs e as) rest))
        else none := by
  rw [ptrs_cons, List.reverse_cons, List.find?_append]
  cases List.find? (fun p => p.nfa_type == t) (ptrs e as rest).reverse with
  | some x => rfl
  | none =>
    by_cases h : a.nfa_type % 65536 = t <;> simp [nfattr.ptr_nfa_type e a _ ha, h]

/-- The table entry for `t` over a framed list points at the last attribute of
the list that carries `t`, and is empty when none does. -/
theorem ptrs_find (e : Endian) (as : List nfattr) (rest : Nat → Nat) (t : Nat)
    (hf : ∀ a ∈ as, a.fits e) :
    (∀ a, last_of_type t as = some a →
      ∃ r, (ptrs e as rest).reverse.find? (fun p => p.nfa_type == t) = some (a.ptr e r)) ∧
    (last_of_type t as = none →
      (ptrs e as rest).reverse.find? (fun p => p.nfa_type == t) = none) := by
  induction as with
  | nil =>
    constructor
    · intro a h
      simp [last_of_type] at h
    · intro _
      rfl
  | cons x xs ih =>
    obtain ⟨ih1, ih2⟩ := ih (fun a ha => hf a (List.mem_cons_of_mem _ ha))
    rw [last_of_type_cons, ptrs_find_cons e x xs rest t (hf x (List.mem_cons_self _ _))]
    cases hl : last_of_type t xs with
    | some y =>
      obtain ⟨r, hr⟩ := ih1 y hl
      constructor
      · intro a ha
        simp only [Option.some.injEq] at ha
        subst ha
        exact ⟨r, by rw [hr]⟩
      · intro h
        simp at h
    | none =>
      rw [ih2 hl]
      by_cases hx : x.nfa_type % 65536 = t
      · simp only [hx, if_true, Option.some.injEq]
        constructor
        · intro a ha
          subst ha
          exact ⟨_, rfl⟩
        · intro h
          simp at h
      · simp only [hx, if_false]
        constructor
        · intro a ha
          simp at ha
        · intro _
          trivial

theorem framed_data (e : Endian) (type flags : Nat) (attrs : List nfattr) (rest : Nat → Nat) :
    (framed e type flags attrs rest).data = mem_of (encode_attrs e attrs) rest := rfl

theorem framed_nlmsg_len (e : Endian) (type flags : Nat) (attrs : List nfattr)
    (rest : Nat → Nat) :
    (framed e type flags attrs rest).nlmsg_len =
      NLMSG_LENGTH sizeof_nfgenmsg + (encode_attrs e attrs).length := rfl

/-- For a message framed at its true length, `len` is the length of the body. -/
theorem attr_len_framed (e : Endian) (type flags : Nat) (attrs : List nfattr) (rest : Nat → Nat)
    (h : NLMSG_LENGTH sizeof_nfgenmsg + (encode_attrs e attrs).length < 2 ^ 31) :
    attr_len (framed e type flags attrs rest) = ((encode_attrs e attrs).length : Int) := by
  have e20 : NLMSG_LENGTH sizeof_nfgenmsg = 20 := rfl
  rw [e20] at h
  have h0 : (0 : Int) ≤ to_int (framed e type flags attrs rest).nlmsg_len -
      (NLMSG_LENGTH sizeof_nfgenmsg : Nat) := by
    rw [framed_nlmsg_len, to_int_of_lt _ (by rw [e20]; exact h), e20]
    push_cast
    omega
  rw [attr_len_of_nonneg _ h0, framed_nlmsg_len, to_int_of_lt _ (by rw [e20]; exact h), e20]
  push_cast
  omega

/-- The parse table of a message framed at its true length. -/
theorem cda_framed (e : Endian) (max type flags : Nat) (attrs : List nfattr) (rest : Nat → Nat)
    (i : Nat) (hi : i < max) (hf : ∀ a ∈ attrs, a.fits e)
    (h : NLMSG_LENGTH sizeof_nfgenmsg + (encode_attrs e attrs).length < 2 ^ 31) :
    (∀ a, last_of_type (i + 1) attrs = some a →
      ∃ r, nfnl_parse_attr e max (framed e type flags attrs rest).data
        (attr_len (framed e type flags attrs rest)) i = some (a.ptr e r)) ∧
    (last_of_type (i + 1) attrs = none →
      nfnl_parse_attr e max (framed e type flags attrs rest).data
        (attr_len (framed e type flags attrs rest)) i = none) := by
  rw [attr_len_framed e type flags attrs rest h, framed_data,
    nfnl_parse_attr_encode e max attrs rest i hf, if_pos hi]
  exact ptrs_find e attrs rest (i + 1) hf

/-! ## Lemmas: the expectation round trip -/

theorem expect_attrs_last (b : Build) (exp : nfct_expect) (h1 h2 h3 : Option nfct_proto) :
    last_of_type (CTA_EXPECT_TUPLE - 1 + 1) (expect_attrs b exp h1 h2 h3) =
      some (tuple_tree b h2 exp.tuple CTA_EXPECT_TUPLE) ∧
    last_of_type (CTA_EXPECT_MASK - 1 + 1) (expect_attrs b exp h1 h2 h3) =
      some (tuple_tree b h3 exp.mask CTA_EXPECT_MASK) ∧
    last_of_type (CTA_EXPECT_TIMEOUT - 1 + 1) (expect_attrs b exp h1 h2 h3) =
      some (nfattr.leaf CTA_EXPECT_TIMEOUT (obj_bytes b.endian b.sizeof_long exp.timeout)) ∧
    last_of_type (CTA_EXPECT_ID - 1 + 1) (expect_attrs b exp h1 h2 h3) = none := by
  simp [last_of_type, expect_attrs, tuple_tree, nfattr.nfa_type, CTA_EXPECT_MASTER,
    CTA_EXPECT_TUPLE, CTA_EXPECT_MASK, CTA_EXPECT_TIMEOUT, CTA_EXPECT_ID]

theorem sizeof_long_cases (b : Build) : b.sizeof_long = 4 ∨ b.sizeof_long = 8 := by
  unfold Build.sizeof_long
  split <;> simp

theorem expect_attrs_length (b : Build) (exp : nfct_expect) (h1 h2 h3 : Option nfct_proto) :
    (encode_attrs b.endian (expect_attrs b exp h1 h2 h3)).length =
      112 + b.sizeof_long + (encode_attrs b.endian (proto_leaves h1 exp.master)).length +
        (encode_attrs b.endian (proto_leaves h2 exp.tuple)).length +
        (encode_attrs b.endian (proto_leaves h3 exp.mask)).length := by
  have hs := sizeof_long_cases b
  have e1 := tuple_tree_encode_length b h1 exp.master CTA_EXPECT_MASTER b.endian
  have e2 := tuple_tree_encode_length b h2 exp.tuple CTA_EXPECT_TUPLE b.endian
  have e3 := tuple_tree_encode_length b h3 exp.mask CTA_EXPECT_MASK b.endian
  unfold nfattr.encode at e1 e2 e3
  simp only [expect_attrs, encode_attrs_cons, encode_attrs_nil, List.length_append,
    nfattr.encode, e1, e2, e3, nfattr_frame_length, nfattr.payload_leaf, obj_bytes_length,
    List.length_nil, NFA_LENGTH]
  unfold NFA_ALIGN
  rcases hs with hs | hs <;> rw [hs] <;> omega

theorem expect_attrs_fit (b : Build) (exp : nfct_expect) (h1 h2 h3 : Option nfct_proto)
    (hsz : NLMSG_LENGTH sizeof_nfgenmsg +
      (encode_attrs b.endian (expect_attrs b exp h1 h2 h3)).length ≤ NFCT_BUFSIZE) :
    (∀ a ∈ expect_attrs b exp h1 h2 h3, a.fits b.endian) ∧
    (encode_attrs b.endian (proto_leaves h2 exp.tuple)).length + 36 < 65536 ∧
    (encode_attrs b.endian (proto_leaves h3 exp.mask)).length + 36 < 65536 := by
  rw [expect_attrs_length] at hsz
  have e20 : NLMSG_LENGTH sizeof_nfgenmsg = 20 := rfl
  have eb : NFCT_BUFSIZE = 4096 := rfl
  rw [e20, eb] at hsz
  have hs := sizeof_long_cases b
  refine ⟨?_, by omega, by omega⟩
  intro a ha
  simp only [expect_attrs, List.mem_cons, List.mem_singleton, List.not_mem_nil, or_false] at ha
  rcases ha with ha | ha | ha | ha <;> rw [ha]
  · exact tuple_tree_fits b h1 _ _ _ (by omega)
  · exact tuple_tree_fits b h2 _ _ _ (by omega)
  · exact tuple_tree_fits b h3 _ _ _ (by omega)
  · exact nfattr.fits_leaf _ _ _ (by rw [obj_bytes_length]; omega)

/-- The record `nfct_expect_netlink_handler` hands over for the body
`nfct_create_expectation` builds, framed at its true length, whatever handlers
took part in building and parsing it. -/
theorem expect_roundtrip_aux {b : Build} {fuel : Nat} {wr w2 : World} {cth : nfct_handle}
    {type flags : Nat} {rest : Nat → Nat} {exp : nfct_expect} {h1 h2 h3 : Option nfct_proto}
    {ret : Int} {cb : CallbackArg → Nat → Nat → Nat → Int} (hcb : cth.callback = some cb)
    (hsz : NLMSG_LENGTH sizeof_nfgenmsg +
      (encode_attrs b.endian (expect_attrs b exp h1 h2 h3)).length ≤ NFCT_BUFSIZE)
    (hp : nfct_expect_netlink_handler b fuel wr cth
      (framed b.endian type flags (expect_attrs b exp h1 h2 h3) rest) = Result.ok (w2, ret)) :
    ∃ parsed, ret = 0 ∧
      w2.calls = wr.calls ++ [⟨CallbackArg.expect parsed, 0,
        typemsg2enum (NFNL_MSG_TYPE type) flags, cth.callback_data⟩] ∧
      parsed.tuple.src = exp.tuple.src % 2 ^ 32 ∧ parsed.tuple.dst = exp.tuple.dst % 2 ^ 32 ∧
      ((∀ a ∈ proto_leaves h2 exp.tuple, a.nfa_type % 65536 ≠ CTA_PROTO_NUM) →
        parsed.tuple.protonum = exp.tuple.protonum % 256) ∧
      parsed.mask.src = exp.mask.src % 2 ^ 32 ∧ parsed.mask.dst = exp.mask.dst % 2 ^ 32 ∧
      ((∀ a ∈ proto_leaves h3 exp.mask, a.nfa_type % 65536 ≠ CTA_PROTO_NUM) →
        parsed.mask.protonum = exp.mask.protonum % 256) ∧
      parsed.timeout = ntohl b.endian exp.timeout ∧
      parsed.master = nfct_tuple.zero ∧ parsed.id = 0 := by
  obtain ⟨hfit, hL2, hL3⟩ := expect_attrs_fit b exp h1 h2 h3 hsz
  have hlt : NLMSG_LENGTH sizeof_nfgenmsg +
      (encode_attrs b.endian (expect_attrs b exp h1 h2 h3)).length < 2 ^ 31 :=
    lt_of_le_of_lt hsz (by decide)
  have hl : ¬ (attr_len (framed b.endian type flags (expect_attrs b exp h1 h2 h3) rest) < 0) := by
    rw [attr_len_framed _ _ _ _ _ hlt]
    omega
  obtain ⟨l2, l3, l4, l5⟩ := expect_attrs_last b exp h1 h2 h3
  obtain ⟨r2, c2⟩ := (cda_framed b.endian CTA_EXPECT_MAX type flags _ rest (CTA_EXPECT_TUPLE - 1)
    (by decide) hfit hlt).1 _ l2
  obtain ⟨r3, c3⟩ := (cda_framed b.endian CTA_EXPECT_MAX type flags _ rest (CTA_EXPECT_MASK - 1)
    (by decide) hfit hlt).1 _ l3
  obtain ⟨r4, c4⟩ := (cda_framed b.endian CTA_EXPECT_MAX type flags _ rest
    (CTA_EXPECT_TIMEOUT - 1) (by decide) hfit hlt).1 _ l4
  have c5 := (cda_framed b.endian CTA_EXPECT_MAX type flags _ rest (CTA_EXPECT_ID - 1)
    (by decide) hfit hlt).2 l5
  obtain ⟨wa, t, wb, m, p1, p2, fr, hw, hr⟩ := nfct_expect_netlink_handler_ok hl hp
  rw [c2] at p1
  rw [c3] at p2
  obtain ⟨_, a1, a2, a3⟩ := parse_tuple_ptr hL2 p1
  obtain ⟨_, b1, b2, b3⟩ := parse_tuple_ptr hL3 p2
  rw [invoke_callback_some _ _ _ _ _ cb hcb] at hw
  refine ⟨parsed_expect b (nfnl_parse_attr b.endian CTA_EXPECT_MAX
      (framed b.endian type flags (expect_attrs b exp h1 h2 h3) rest).data
      (attr_len (framed b.endian type flags (expect_attrs b exp h1 h2 h3) rest))) t m,
    hr, ?_, a1, a2, a3, b1, b2, b3, ?_, rfl, ?_⟩
  · rw [hw]
    show wb.calls ++ _ = _
    rw [fr.2.2.2.2.2.2]
    rfl
  · show (parsed_expect b _ t m).timeout = _
    simp only [parsed_expect, c4, deref_ulong_leaf, ntohl_mod _ _ _ (sizeof_long_ge b)]
  · show (parsed_expect b _ t m).id = _
    simp only [parsed_expect, c5]

theorem num_once_tuple_tree {t : Nat} {attrs : List nfattr} {b : Build} {h : Option nfct_proto}
    {tu : nfct_tuple} (hn : num_once t attrs) (hm : tuple_tree b h tu t ∈ attrs) :
    ∀ a ∈ proto_leaves h tu, a.nfa_type % 65536 ≠ CTA_PROTO_NUM := by
  intro a ha
  exact hn _ hm rfl (proto_tree h tu) (by simp [tuple_tree, nfattr.children]) rfl a
    (by simpa [proto_tree, nfattr.children] using ha)

theorem encode_attrs_mem_encode_le (e : Endian) (as : List nfattr) (a : nfattr) (h : a ∈ as) :
    (a.encode e).length ≤ (encode_attrs e as).length := by
  induction as with
  | nil => simp at h
  | cons x xs ih =>
    rw [encode_attrs_cons, List.length_append]
    rcases List.mem_cons.mp h with h1 | h1
    · rw [h1]
      omega
    · have := ih h1
      omega

/-- In a message that fits the request buffer every attribute fits its header,
and so does the tuple nest around what a handler contributed. -/
theorem fits_of_bufsize (e : Endian) (attrs : List nfattr)
    (hsz : NLMSG_LENGTH sizeof_nfgenmsg + (encode_attrs e attrs).length ≤ NFCT_BUFSIZE) :
    (∀ a ∈ attrs, a.fits e) ∧
    (NLMSG_LENGTH sizeof_nfgenmsg + (encode_attrs e attrs).length < 2 ^ 31) ∧
    (∀ b h t type, tuple_tree b h t type ∈ attrs →
      (encode_attrs e (proto_leaves h t)).length + 36 < 65536) := by
  have e20 : NLMSG_LENGTH sizeof_nfgenmsg = 20 := rfl
  have eb : NFCT_BUFSIZE = 4096 := rfl
  rw [e20, eb] at hsz
  refine ⟨fits_of_mem e attrs 65536 (by omega) (le_refl _), by rw [e20]; omega, ?_⟩
  intro b h t type hm
  have h1 := encode_attrs_mem_encode_le e attrs _ hm
  rw [tuple_tree_encode_length] at h1
  omega

/-! ## Lemmas: the flow round trip -/

theorem conntrack_attrs_last (b : Build) (ct : nfct_conntrack) (h1 h2 h3 : Option nfct_proto) :
    last_of_type (CTA_TUPLE_ORIG - 1 + 1) (conntrack_attrs b ct h1 h2 h3) =
      some (tuple_tree b h1 ct.tuple.original CTA_TUPLE_ORIG) ∧
    last_of_type (CTA_TUPLE_REPLY - 1 + 1) (conntrack_attrs b ct h1 h2 h3) =
      some (tuple_tree b h2 ct.tuple.reply CTA_TUPLE_REPLY) ∧
    last_of_type (CTA_STATUS - 1 + 1) (conntrack_attrs b ct h1 h2 h3) =
      some (nfattr.leaf CTA_STATUS (obj_bytes b.endian 4 (htonl b.endian ct.status))) ∧
    last_of_type (CTA_TIMEOUT - 1 + 1) (conntrack_attrs b ct h1 h2 h3) =
      some (nfattr.leaf CTA_TIMEOUT
        (obj_bytes b.endian b.sizeof_long (htonl b.endian ct.timeout))) ∧
    last_of_type (CTA_MARK - 1 + 1) (conntrack_attrs b ct h1 h2 h3) =
      (if ct.mark ≠ 0 then
        some (nfattr.leaf CTA_MARK (obj_bytes b.endian 4 (htonl b.endian ct.mark))) else none) ∧
    last_of_type (CTA_ID - 1 + 1) (conntrack_attrs b ct h1 h2 h3) =
      (if ct.id ≠ NFCT_ANY_ID then
        some (nfattr.leaf CTA_ID (obj_bytes b.endian 4 (htonl b.endian ct.id))) else none) := by
  rcases protoinfo_part_cases h3 ct with hp | ⟨cs, hp⟩ <;>
    by_cases hm : ct.mark = 0 <;> by_cases hi : ct.id = NFCT_ANY_ID <;>
    by_cases hn : ct.nat.min_ip = 0 <;>
    simp [conntrack_attrs, last_of_type, tuple_tree, nfattr.nfa_type, hp, hm, hi, hn,
      DirArray.get, NFCT_DIR_ORIGINAL, NFCT_DIR_REPLY, CTA_MARK, CTA_ID, CTA_NAT,
      CTA_TUPLE_ORIG, CTA_TUPLE_REPLY, CTA_STATUS, CTA_TIMEOUT, CTA_PROTOINFO]

theorem conntrack_attrs_mem (b : Build) (ct : nfct_conntrack) (h1 h2 h3 : Option nfct_proto) :
    tuple_tree b h1 ct.tuple.original CTA_TUPLE_ORIG ∈ conntrack_attrs b ct h1 h2 h3 ∧
    tuple_tree b h2 ct.tuple.reply CTA_TUPLE_REPLY ∈ conntrack_attrs b ct h1 h2 h3 := by
  simp [conntrack_attrs, DirArray.get, NFCT_DIR_ORIGINAL, NFCT_DIR_REPLY]

theorem ntohl_deref_u32_long (b : Build) (type x : Nat) (rest : Nat → Nat)
    (hb : b.endian = Endian.little ∨ b.lp64 = false) :
    ntohl b.endian (deref_u32 b
      ((nfattr.leaf type (obj_bytes b.endian b.sizeof_long (htonl b.endian x))).ptr b.endian
        rest)) = x % 2 ^ 32 := by
  cases hl : b.lp64 with
  | false =>
    have e : b.sizeof_long = 4 := by simp [Build.sizeof_long, hl]
    rw [e]
    exact ntohl_deref_u32 b type x rest
  | true =>
    have e : b.sizeof_long = 4 + 4 := by simp [Build.sizeof_long, hl]
    have he : b.endian = Endian.little := by
      rcases hb with h | h
      · exact h
      · rw [hl] at h
        exact absurd h (by decide)
    rw [e, he]
    unfold deref_u32
    rw [nfattr.ptr_mem_leaf _ _ _ _ (by rw [obj_bytes_length]; norm_num)]
    simp only [obj_bytes, le_bytes_add, htonl, le_bytes_bswap32, he, List.append_assoc]
    exact ntohl_obj_value_be_bytes Endian.little (x % 2 ^ 32) _ _ |>.trans (Nat.mod_mod _ _)

/-- The record `nfct_conntrack_netlink_handler` hands over for the body
`nfct_build_conntrack` builds, framed at its true length, whatever handlers
took part in building and parsing it: both tuples come back with their
addresses, and with their protocol number when no handler added a second NUM;
status, mark and id come back as built; the timeout comes back where the
reader of the first four payload bytes finds the 32-bit value, so on a
little-endian host or with a 4-byte `unsigned long`. -/
theorem flow_roundtrip_aux {b : Build} {fuel : Nat} {wr w2 : World} {cth : nfct_handle}
    {type flags : Nat} {rest : Nat → Nat} {ct : nfct_conntrack} {h1 h2 h3 : Option nfct_proto}
    {ret : Int} {cb : CallbackArg → Nat → Nat → Nat → Int} (hcb : cth.callback = some cb)
    (hsz : NLMSG_LENGTH sizeof_nfgenmsg +
      (encode_attrs b.endian (conntrack_attrs b ct h1 h2 h3)).length ≤ NFCT_BUFSIZE)
    (hp : nfct_conntrack_netlink_handler b fuel wr cth
      (framed b.endian type flags (conntrack_attrs b ct h1 h2 h3) rest) = Result.ok (w2, ret)) :
    ∃ parsed pflags,
      w2.calls = wr.calls ++ [⟨CallbackArg.conntrack parsed, pflags,
        typemsg2enum (NFNL_MSG_TYPE type) flags, cth.callback_data⟩] ∧
      ret = cb (CallbackArg.conntrack parsed) pflags (typemsg2enum (NFNL_MSG_TYPE type) flags)
        cth.callback_data ∧
      parsed.tuple.original.src = ct.tuple.original.src % 2 ^ 32 ∧
      parsed.tuple.original.dst = ct.tuple.original.dst % 2 ^ 32 ∧
      ((∀ a ∈ proto_leaves h1 ct.tuple.original, a.nfa_type % 65536 ≠ CTA_PROTO_NUM) →
        parsed.tuple.original.protonum = ct.tuple.original.protonum % 256) ∧
      parsed.tuple.reply.src = ct.tuple.reply.src % 2 ^ 32 ∧
      parsed.tuple.reply.dst = ct.tuple.reply.dst % 2 ^ 32 ∧
      ((∀ a ∈ proto_leaves h2 ct.tuple.reply, a.nfa_type % 65536 ≠ CTA_PROTO_NUM) →
        parsed.tuple.reply.protonum = ct.tuple.reply.protonum % 256) ∧
      parsed.status = ct.status % 2 ^ 32 ∧
      (b.endian = Endian.little ∨ b.lp64 = false → parsed.timeout = ct.timeout % 2 ^ 32) ∧
      parsed.mark = ct.mark % 2 ^ 32 ∧ parsed.id = ct.id % 2 ^ 32 := by
  obtain ⟨hfit, hlt, hL⟩ := fits_of_bufsize b.endian _ hsz
  obtain ⟨m1, m2⟩ := conntrack_attrs_mem b ct h1 h2 h3
  have hl : ¬ (attr_len (framed b.endian type flags (conntrack_attrs b ct h1 h2 h3) rest) < 0) := by
    rw [attr_len_framed _ _ _ _ _ hlt]
    omega
  obtain ⟨l1, l2, l3, l7, l8, l12⟩ := conntrack_attrs_last b ct h1 h2 h3
  obtain ⟨r1, c1⟩ := (cda_framed b.endian CTA_MAX type flags _ rest (CTA_TUPLE_ORIG - 1)
    (by decide) hfit hlt).1 _ l1
  obtain ⟨r2, c2⟩ := (cda_framed b.endian CTA_MAX type flags _ rest (CTA_TUPLE_REPLY - 1)
    (by decide) hfit hlt).1 _ l2
  obtain ⟨r3, c3⟩ := (cda_framed b.endian CTA_MAX type flags _ rest (CTA_STATUS - 1)
    (by decide) hfit hlt).1 _ l3
  obtain ⟨r7, c7⟩ := (cda_framed b.endian CTA_MAX type flags _ rest (CTA_TIMEOUT - 1)
    (by decide) hfit hlt).1 _ l7
  have k8 := cda_framed b.endian CTA_MAX type flags (conntrack_attrs b ct h1 h2 h3) rest
    (CTA_MARK - 1) (by decide) hfit hlt
  have k12 := cda_framed b.endian CTA_MAX type flags (conntrack_attrs b ct h1 h2 h3) rest
    (CTA_ID - 1) (by decide) hfit hlt
  obtain ⟨wa, t0, wb, t1, wc, hd, p0, p1, _, fr, hres⟩ :=
    nfct_conntrack_netlink_handler_ok hl hp
  rw [c1] at p0
  rw [c2] at p1
  obtain ⟨_, a1, a2, a3⟩ := parse_tuple_ptr (hL _ _ _ _ m1) p0
  obtain ⟨_, b1, b2, b3⟩ := parse_tuple_ptr (hL _ _ _ _ m2) p1
  rw [invoke_callback_some _ _ _ _ _ cb hcb] at hres
  simp only [Prod.mk.injEq] at hres
  obtain ⟨s1, s2, s3, s4, _, s6, _, _⟩ := parsed_flow_scalars b
    (nfnl_parse_attr b.endian CTA_MAX
      (framed b.endian type flags (conntrack_attrs b ct h1 h2 h3) rest).data
      (attr_len (framed b.endian type flags (conntrack_attrs b ct h1 h2 h3) rest))) t0 t1 hd
  refine ⟨_, _, ?_, hres.2, ?_, ?_, ?_, ?_, ?_, ?_, ?_, ?_, ?_, ?_⟩
  · rw [hres.1]
    show wc.calls ++ _ = _
    rw [fr.2.2.2.2.2.2]
    rfl
  · rw [s1]; exact a1
  · rw [s1]; exact a2
  · rw [s1]; exact a3
  · rw [s1]; exact b1
  · rw [s1]; exact b2
  · rw [s1]; exact b3
  · rw [s2, c3]
    exact ntohl_deref_u32 b _ _ _
  · intro hb
    rw [s3, c7]
    exact ntohl_deref_u32_long b _ _ _ hb
  · rw [s4]
    by_cases h0 : ct.mark = 0
    · rw [k8.2 (by rw [l8]; simp [h0]), h0]
      rfl
    · obtain ⟨r, c⟩ := k8.1 (nfattr.leaf CTA_MARK (obj_bytes b.endian 4 (htonl b.endian ct.mark)))
        (by rw [l8]; simp [h0])
      rw [c]
      exact ntohl_deref_u32 b _ _ _
  · rw [s6]
    by_cases h0 : ct.id = NFCT_ANY_ID
    · rw [k12.2 (by rw [l12]; simp [h0]), h0]
      rfl
    · obtain ⟨r, c⟩ := k12.1 (nfattr.leaf CTA_ID (obj_bytes b.endian 4 (htonl b.endian ct.id)))
        (by rw [l12]; simp [h0])
      rw [c]
      exact ntohl_deref_u32 b _ _ _

theorem nfct_create_expectation_body_attrs {b : Build} {fuel : Nat} {w w1 : World}
    {req1 : nfnlhdr} {exp : nfct_expect}
    (h : nfct_create_expectation_body b fuel w nfnlhdr.zero exp = Result.ok (w1, req1)) :
    ∃ h1 h2 h3, req1.attrs = expect_attrs b exp h1 h2 h3 := by
  obtain ⟨h1, h2, h3, e, _⟩ := nfct_create_expectation_body_ok h
  exact ⟨h1, h2, h3, by rw [e]; simp [nfnlhdr.zero, expect_attrs]⟩

theorem expect_attrs_mem (b : Build) (exp : nfct_expect) (h1 h2 h3 : Option nfct_proto) :
    tuple_tree b h2 exp.tuple CTA_EXPECT_TUPLE ∈ expect_attrs b exp h1 h2 h3 ∧
    tuple_tree b h3 exp.mask CTA_EXPECT_MASK ∈ expect_attrs b exp h1 h2 h3 := by
  simp [expect_attrs]

theorem num_once_expect_attrs (b : Build) (exp : nfct_expect) (h1 h2 h3 : Option nfct_proto)
    (t : Nat)
    (hl1 : ∀ x ∈ proto_leaves h1 exp.master, x.nfa_type % 65536 ≠ CTA_PROTO_NUM)
    (hl2 : ∀ x ∈ proto_leaves h2 exp.tuple, x.nfa_type % 65536 ≠ CTA_PROTO_NUM)
    (hl3 : ∀ x ∈ proto_leaves h3 exp.mask, x.nfa_type % 65536 ≠ CTA_PROTO_NUM) :
    num_once t (expect_attrs b exp h1 h2 h3) := by
  have key : ∀ h tu ty, (∀ x ∈ proto_leaves h tu, x.nfa_type % 65536 ≠ CTA_PROTO_NUM) →
      ∀ p ∈ (tuple_tree b h tu ty).children, p.nfa_type = CTA_TUPLE_PROTO →
        ∀ x ∈ p.children.tail, x.nfa_type % 65536 ≠ CTA_PROTO_NUM := by
    intro h tu ty hh p hp hpt x hx
    simp only [tuple_tree, nfattr.children, List.mem_cons, List.mem_singleton,
      List.not_mem_nil, or_false] at hp
    rcases hp with hp | hp
    · rw [hp] at hpt
      exact absurd hpt (by simp [ip_tree, nfattr.nfa_type, CTA_TUPLE_IP, CTA_TUPLE_PROTO])
    · rw [hp] at hx
      exact hh x (by simpa [proto_tree, nfattr.children] using hx)
  intro tup ht _ p hp hpt x hx
  simp only [expect_attrs, List.mem_cons, List.mem_singleton, List.not_mem_nil, or_false] at ht
  rcases ht with ht | ht | ht | ht
  · rw [ht] at hp
    exact key h1 _ _ hl1 p hp hpt x hx
  · rw [ht] at hp
    exact key h2 _ _ hl2 p hp hpt x hx
  · rw [ht] at hp
    exact key h3 _ _ hl3 p hp hpt x hx
  · rw [ht] at hp
    simp [nfattr.children] at hp

theorem ptrs_any (e : Endian) (as : List nfattr) (rest : Nat → Nat) (t : Nat)
    (hf : ∀ a ∈ as, a.fits e) :
    (ptrs e as rest).any (fun p => p.nfa_type == t) =
      as.any (fun a => a.nfa_type % 65536 == t) := by
  induction as with
  | nil => rfl
  | cons a as ih =>
    rw [ptrs_cons, List.any_cons, List.any_cons,
      ih (fun x hx => hf x (List.mem_cons_of_mem _ hx)),
      nfattr.ptr_nfa_type e a _ (hf a (List.mem_cons_self _ _))]

/-- For a message framed at its true length from attributes whose type tags
are 16-bit values, an attribute of a type is in the message exactly when it is
in the list the message was framed from. -/
theorem msg_has_attr_framed (b : Build) (type flags : Nat) (attrs : List nfattr)
    (rest : Nat → Nat) (t : Nat) (hf : ∀ a ∈ attrs, a.fits b.endian)
    (ht : ∀ a ∈ attrs, a.nfa_type < 65536)
    (h : NLMSG_LENGTH sizeof_nfgenmsg + (encode_attrs b.endian attrs).length < 2 ^ 31) :
    msg_has_attr b (framed b.endian type flags attrs rest) t = has_attr t attrs := by
  unfold msg_has_attr
  rw [attr_len_framed b.endian type flags attrs rest h, framed_data]
  have hge := encode_attrs_length_ge b.endian attrs
  rw [nfattr_walk_encode b.endian attrs rest hf _ (by simp only [Int.toNat_ofNat]; omega),
    ptrs_any b.endian attrs rest t hf]
  unfold has_attr
  rw [Bool.eq_iff_iff, List.any_eq_true, List.any_eq_true]
  constructor
  · rintro ⟨a, ha, h1⟩
    rw [Nat.mod_eq_of_lt (ht a ha)] at h1
    exact ⟨a, ha, h1⟩
  · rintro ⟨a, ha, h1⟩
    exact ⟨a, ha, by rw [Nat.mod_eq_of_lt (ht a ha)]; exact h1⟩

/-- Every lookup that misses the registry formats the plugin path, and the
formatted path with its NUL is one byte longer than the array `path`: the
count of bytes written behind the array grows by exactly one before the loader
is asked, whatever the loader then does. -/
theorem findproto_miss_overruns (b : Build) (fuel : Nat) (w w1 : World) (name : String)
    (r : Option nfct_proto) (hs : scan_proto_list w.proto_list name = none)
    (h : findproto b (fuel + 1) w (some name) = Result.ok (w1, r)) :
    sprintf_bytes (plugin_path (lib_dir b w) name) = path_size (lib_dir b w) name + 1 ∧
      w.overrun < w1.overrun := by
  refine ⟨sprintf_bytes_plugin_path _ _, ?_⟩
  rw [findproto_some, hs] at h
  obtain ⟨⟨w2, okk⟩, h2, h3⟩ := Result.bind_eq_ok h
  have o1 : (w.formatted b name).overrun = w.overrun + 1 := World.formatted_overrun b w name
  have mono_init : ∀ (hs : List nfct_proto) (u u1 : World),
      run_init b u hs = Result.ok u1 → u1.overrun = u.overrun := by
    intro hs
    induction hs with
    | nil =>
      intro u u1 hu
      simp only [run_init, Result.ok.injEq] at hu
      rw [← hu]
    | cons x xs ih =>
      intro u u1 hu
      simp only [run_init, nfct_register_proto] at hu
      by_cases hv : x.version ≠ b.VERSION
      · simp [hv] at hu
      · simp only [hv, if_false, Result.bind_ok] at hu
        have hi := ih _ _ hu
        exact hi
  have o2 : w2.overrun = w.overrun + 1 := by
    unfold dlopen at h2
    by_cases hl : plugin_path (lib_dir b w) name ∈ (w.formatted b name).loaded
    · simp only [hl, if_true, Result.ok.injEq, Prod.mk.injEq] at h2
      rw [← h2.1, o1]
    · simp only [hl, if_false] at h2
      cases hf : (w.formatted b name).files (plugin_path (lib_dir b w) name) with
      | none =>
        simp only [hf, Result.ok.injEq, Prod.mk.injEq] at h2
        rw [← h2.1, o1]
      | some hs2 =>
        simp only [hf] at h2
        obtain ⟨w3, h4, h5⟩ := Result.bind_eq_ok h2
        simp only [Result.ok.injEq, Prod.mk.injEq] at h5
        rw [← h5.1, mono_init hs2 _ _ h4]
        exact o1
  have mono : ∀ (f : Nat) (u u1 : World) (n : Option String) (r : Option nfct_proto),
      findproto b f u n = Result.ok (u1, r) → u.overrun ≤ u1.overrun := by
    intro f
    induction f with
    | zero =>
      intro u u1 n r hu
      simp [findproto] at hu
    | succ f ih =>
      intro u u1 n r hu
      cases n with
      | none =>
        simp only [findproto, Result.ok.injEq, Prod.mk.injEq] at hu
        rw [← hu.1]
      | some n =>
        rw [findproto_some] at hu
        cases hsc : scan_proto_list u.proto_list n with
        | some hd =>
          simp only [hsc, Result.ok.injEq, Prod.mk.injEq] at hu
          rw [← hu.1]
        | none =>
          simp only [hsc] at hu
          obtain ⟨⟨u2, ok2⟩, g2, g3⟩ := Result.bind_eq_ok hu
          have q1 : (u.formatted b n).overrun = u.overrun + 1 := World.formatted_overrun b u n
          have q2 : (u.formatted b n).overrun ≤ u2.overrun := by
            unfold dlopen at g2
            by_cases hl : plugin_path (lib_dir b u) n ∈ (u.formatted b n).loaded
            · simp only [hl, if_true, Result.ok.injEq, Prod.mk.injEq] at g2
              rw [← g2.1]
            · simp only [hl, if_false] at g2
              cases hf : (u.formatted b n).files (plugin_path (lib_dir b u) n) with
              | none =>
                simp only [hf, Result.ok.injEq, Prod.mk.injEq] at g2
                rw [← g2.1]
              | some hs2 =>
                simp only [hf] at g2
                obtain ⟨u3, g4, g5⟩ := Result.bind_eq_ok g2
                simp only [Result.ok.injEq, Prod.mk.injEq] at g5
                rw [← g5.1, mono_init hs2 _ _ g4]
          cases ok2 with
          | true =>
            simp only [if_true] at g3
            have := ih _ _ _ _ g3
            omega
          | false =>
            simp only [Bool.false_eq_true, if_false, Result.ok.injEq, Prod.mk.injEq] at g3
            rw [← g3.1]
            omega
  cases okk with
  | true =>
    simp only [if_true] at h3
    have := mono _ _ _ _ _ h3
    omega
  | false =>
    simp only [Bool.false_eq_true, if_false, Result.ok.injEq, Prod.mk.injEq] at h3
    rw [← h3.1]
    omega

/-! ## Claims -/

set_option maxRecDepth 100000

/-- C1.  Evaluation at the failing input.  On a big-endian build whose
`unsigned long` is 8 bytes, with no handler to be found, the body
`nfct_build_conntrack` emits for the flow with timeout 300, framed at its true
length of 112 bytes, is parsed by `nfct_conntrack_netlink_handler` into a
record whose timeout is 0, not 300 modulo 2^32: the 8-byte TIMEOUT payload
holds the value in its last four bytes and the parser reads the first four. -/
theorem flow_roundtrip_timeout_be64 :
    ∃ w1 req1 w2 parsed flags,
      nfct_build_conntrack ex_build_be64 1 ex_world nfnlhdr.zero ex_flow =
        Result.ok (w1, req1) ∧
      (ex_msg_be 0x100 0 req1.attrs).nlmsg_len = 112 ∧
      nfct_conntrack_netlink_handler ex_build_be64 1 ex_world ex_handle
        (ex_msg_be 0x100 0 req1.attrs) = Result.ok (w2, 0) ∧
      w2.calls = [⟨CallbackArg.conntrack parsed, flags, NFCT_MSG_UPDATE, 0⟩] ∧
      parsed.timeout = 0 ∧ ex_flow.timeout % 2 ^ 32 = 300 ∧
      parsed.tuple = ex_flow.tuple ∧ parsed.status = ex_flow.status ∧
      parsed.mark = ex_flow.mark ∧ parsed.id = ex_flow.id := by
  refine ⟨_, _, _, _, _, rfl, by decide, rfl, rfl, rfl, by decide, rfl, rfl, rfl, rfl⟩

/-- C2, as stated, fails.  On a little-endian 32-bit build with an empty
registry, take the expectation `nfct_expect_alloc` makes from a master tuple
10.0.0.1 to 10.0.0.2, the timeout 300 and the id 42.  The body
`nfct_create_expectation` emits for it, framed at its true length of 136
bytes, is parsed by `nfct_expect_netlink_handler` into a record whose master
tuple is all zero, whose timeout is 300 where the record holds 0x2C010000, and
whose id is 0 where the record holds 0x2A000000. -/
theorem expect_roundtrip_loses_master :
    ∃ exp w1 req1 w2 parsed,
      nfct_expect_alloc ex_build_le32 true ex_expect.master ex_expect.tuple ex_expect.mask
        300 42 = some exp ∧
      nfct_create_expectation_body ex_build_le32 1 ex_world nfnlhdr.zero exp =
        Result.ok (w1, req1) ∧
      (ex_msg 0x200 0 req1.attrs).nlmsg_len = 136 ∧
      nfct_expect_netlink_handler ex_build_le32 1 ex_world ex_handle
        (ex_msg 0x200 0 req1.attrs) = Result.ok (w2, 0) ∧
      w2.calls = [⟨CallbackArg.expect parsed, 0, NFCT_MSG_UPDATE, 0⟩] ∧
      parsed.master = nfct_tuple.zero ∧ parsed.master ≠ exp.master ∧
      parsed.timeout = 300 ∧ exp.timeout = 0x2C010000 ∧ parsed.timeout ≠ exp.timeout ∧
      parsed.id = 0 ∧ exp.id = 0x2A000000 ∧ parsed.id ≠ exp.id := by
  refine ⟨ex_expect_live, _, _, _, _, by decide, rfl, by decide, rfl, rfl, rfl, by decide, rfl,
    rfl, by decide, rfl, rfl, by decide⟩

/-- C2, amended.  For every expectation record whose expected tuple and mask
hold values of their C types: whenever `nfct_create_expectation` has built its
body and that body fits the request buffer, and `nfct_expect_netlink_handler`
returns on it, framed at its true length, the handler has returned 0 and
handed the callback a record whose expected tuple and mask have the addresses
of the original, and its protocol number when no handler put a second NUM
attribute into the PROTO nest; whose timeout is `ntohl` of the stored timeout
field (so the value handed to `nfct_expect_alloc`, modulo 2^32); whose master
tuple is all zero (MASTER is not parsed) and whose id is 0 (no ID is emitted).
This holds whatever handlers took part.  In worlds whose plugins are well
formed the build and the handler return once they have fuel for two nested
lookups. -/
theorem expect_roundtrip (b : Build) (fuel : Nat) (w wr : World) (cth : nfct_handle)
    (type flags : Nat) (rest : Nat → Nat) (exp : nfct_expect)
    (cb : CallbackArg → Nat → Nat → Nat → Int) (hcb : cth.callback = some cb)
    (wt : exp.tuple.wf) (wk : exp.mask.wf) :
    (∀ w1 req1 w2 ret,
      nfct_create_expectation_body b fuel w nfnlhdr.zero exp = Result.ok (w1, req1) →
      NLMSG_LENGTH sizeof_nfgenmsg + (encode_attrs b.endian req1.attrs).length ≤ NFCT_BUFSIZE →
      nfct_expect_netlink_handler b fuel wr cth (framed b.endian type flags req1.attrs rest) =
        Result.ok (w2, ret) →
      ∃ parsed, ret = 0 ∧
        w2.calls = wr.calls ++ [⟨CallbackArg.expect parsed, 0,
          typemsg2enum (NFNL_MSG_TYPE type) flags, cth.callback_data⟩] ∧
        parsed.tuple.src = exp.tuple.src ∧ parsed.tuple.dst = exp.tuple.dst ∧
        (num_once CTA_EXPECT_TUPLE req1.attrs → parsed.tuple.protonum = exp.tuple.protonum) ∧
        parsed.mask.src = exp.mask.src ∧ parsed.mask.dst = exp.mask.dst ∧
        (num_once CTA_EXPECT_MASK req1.attrs → parsed.mask.protonum = exp.mask.protonum) ∧
        parsed.timeout = ntohl b.endian exp.timeout ∧
        (∀ t, exp.timeout = htonl b.endian t → parsed.timeout = t % 2 ^ 32) ∧
        parsed.master = nfct_tuple.zero ∧ parsed.id = 0) ∧
    (w.sane b → ∃ w1 req1,
      nfct_create_expectation_body b (fuel + 2) w nfnlhdr.zero exp = Result.ok (w1, req1)) ∧
    (wr.sane b → ∀ nlh, ∃ w2 ret,
      nfct_expect_netlink_handler b (fuel + 2) wr cth nlh = Result.ok (w2, ret)) := by
  refine ⟨?_, ?_, ?_⟩
  · intro w1 req1 w2 ret hb hsz hp
    obtain ⟨h1, h2, h3, ha⟩ := nfct_create_expectation_body_attrs hb
    rw [ha] at hsz hp
    obtain ⟨parsed, r0, hc, a1, a2, a3, b1, b2, b3, ht, hm, hi⟩ :=
      expect_roundtrip_aux hcb hsz hp
    obtain ⟨m2, m3⟩ := expect_attrs_mem b exp h1 h2 h3
    refine ⟨parsed, r0, hc, ?_, ?_, ?_, ?_, ?_, ?_, ht, ?_, hm, hi⟩
    · rw [a1, Nat.mod_eq_of_lt wt.1]
    · rw [a2, Nat.mod_eq_of_lt wt.2.1]
    · intro hn
      rw [ha] at hn
      rw [a3 (num_once_tuple_tree hn m2), Nat.mod_eq_of_lt wt.2.2]
    · rw [b1, Nat.mod_eq_of_lt wk.1]
    · rw [b2, Nat.mod_eq_of_lt wk.2.1]
    · intro hn
      rw [ha] at hn
      rw [b3 (num_once_tuple_tree hn m3), Nat.mod_eq_of_lt wk.2.2]
    · intro t e
      rw [ht, e, ntohl_htonl]
  · intro hs
    obtain ⟨w1, req1, h, _⟩ := nfct_create_expectation_body_sane b fuel w nfnlhdr.zero exp hs
    exact ⟨w1, req1, h⟩
  · intro hs nlh
    obtain ⟨w2, ret, h, _⟩ := nfct_expect_netlink_handler_sane b fuel wr cth nlh hs
    exact ⟨w2, ret, h⟩

/-- Witness for `expect_roundtrip`: the expectation of the counterexample on a
little-endian 32-bit build with an empty registry.  The message is 136 bytes
long, the expected tuple and the mask come back, and the timeout comes back as
300. -/
theorem expect_roundtrip_witness :
    ex_handle.callback = some (fun _ _ _ _ => 0) ∧ ex_expect_live.tuple.wf ∧
    ex_expect_live.mask.wf ∧
    ∃ w1 req1 w2,
      nfct_create_expectation_body ex_build_le32 1 ex_world nfnlhdr.zero ex_expect_live =
        Result.ok (w1, req1) ∧
      NLMSG_LENGTH sizeof_nfgenmsg + (encode_attrs ex_build_le32.endian req1.attrs).length =
        136 ∧
      nfct_expect_netlink_handler ex_build_le32 1 ex_world ex_handle
        (framed ex_build_le32.endian 0x200 0 req1.attrs (fun _ => 0)) = Result.ok (w2, 0) ∧
      num_once CTA_EXPECT_TUPLE req1.attrs ∧ num_once CTA_EXPECT_MASK req1.attrs ∧
      w2.calls = [⟨CallbackArg.expect ⟨nfct_tuple.zero, ex_expect_live.tuple,
        ex_expect_live.mask, 300, 0⟩, 0, NFCT_MSG_UPDATE, 0⟩] ∧
      ex_expect_live.timeout = htonl ex_build_le32.endian 300 ∧
      ∃ parsed, (0 : Int) = 0 ∧
        w2.calls = ex_world.calls ++ [⟨CallbackArg.expect parsed, 0,
          typemsg2enum (NFNL_MSG_TYPE 0x200) 0, ex_handle.callback_data⟩] ∧
        parsed.tuple.src = ex_expect_live.tuple.src ∧
        parsed.tuple.dst = ex_expect_live.tuple.dst ∧
        (num_once CTA_EXPECT_TUPLE req1.attrs →
          parsed.tuple.protonum = ex_expect_live.tuple.protonum) ∧
        parsed.mask.src = ex_expect_live.mask.src ∧
        parsed.mask.dst = ex_expect_live.mask.dst ∧
        (num_once CTA_EXPECT_MASK req1.attrs →
          parsed.mask.protonum = ex_expect_live.mask.protonum) ∧
        parsed.timeout = ntohl ex_build_le32.endian ex_expect_live.timeout ∧
        (∀ t, ex_expect_live.timeout = htonl ex_build_le32.endian t →
          parsed.timeout = t % 2 ^ 32) ∧
        parsed.master = nfct_tuple.zero ∧ parsed.id = 0 :=
  ⟨rfl, by unfold nfct_tuple.wf; decide, by unfold nfct_tuple.wf; decide,
    _, ⟨0, 0, 0, 0, expect_attrs ex_build_le32 ex_expect_live none none none⟩, _, rfl,
    by decide, rfl,
    num_once_expect_attrs ex_build_le32 ex_expect_live none none none _
      (fun x hx => by simp [proto_leaves] at hx) (fun x hx => by simp [proto_leaves] at hx)
      (fun x hx => by simp [proto_leaves] at hx),
    num_once_expect_attrs ex_build_le32 ex_expect_live none none none _
      (fun x hx => by simp [proto_leaves] at hx) (fun x hx => by simp [proto_leaves] at hx)
      (fun x hx => by simp [proto_leaves] at hx),
    rfl, by decide,
    (expect_roundtrip ex_build_le32 1 ex_world ex_world ex_handle 0x200 0 (fun _ => 0)
      ex_expect_live (fun _ _ _ _ => 0) rfl (by unfold nfct_tuple.wf; decide)
      (by unfold nfct_tuple.wf; decide)).1 _
      ⟨0, 0, 0, 0, expect_attrs ex_build_le32 ex_expect_live none none none⟩ _ 0 rfl
      (by decide) rfl⟩

/-- C3.  Whenever `nfct_build_conntrack` returns, the attributes it appended at the
top level hold a MARK attribute exactly when `ct.mark` is non-zero, an ID
attribute exactly when `ct.id` differs from `NFCT_ANY_ID`, and a NAT attribute
exactly when `ct.nat.min_ip` is non-zero; and in a world whose plugins are well
formed it does return once it has fuel for two nested lookups. -/
theorem build_conntrack_optional_attrs (b : Build) (fuel : Nat) (w : World) (req : nfnlhdr)
    (ct : nfct_conntrack) :
    (∀ w1 req1, nfct_build_conntrack b fuel w req ct = Result.ok (w1, req1) →
      ∃ emitted, req1.attrs = req.attrs ++ emitted ∧
        (has_attr CTA_MARK emitted = true ↔ ct.mark ≠ 0) ∧
        (has_attr CTA_ID emitted = true ↔ ct.id ≠ NFCT_ANY_ID) ∧
        (has_attr CTA_NAT emitted = true ↔ ct.nat.min_ip ≠ 0)) ∧
    (w.sane b → ∃ w1 req1, nfct_build_conntrack b (fuel + 2) w req ct = Result.ok (w1, req1)) := by
  constructor
  · intro w1 req1 h
    obtain ⟨h1, h2, h3, hreq, _⟩ := nfct_build_conntrack_ok h
    refine ⟨conntrack_attrs b ct h1 h2 h3, by rw [hreq], has_attr_conntrack_attrs b ct h1 h2 h3⟩
  · intro hs
    obtain ⟨w1, req1, h, _⟩ := nfct_build_conntrack_sane b fuel w req ct hs
    exact ⟨w1, req1, h⟩

/-- Witness for `build_conntrack_optional_attrs`: the TCP flow of the first
scenario (no mark, no id, no NAT) in a world with an empty registry. -/
theorem build_conntrack_optional_attrs_witness :
    (∃ emitted, (conntrack_attrs ex_build_le32 ex_flow none none none) =
        nfnlhdr.zero.attrs ++ emitted ∧
      (has_attr CTA_MARK emitted = true ↔ ex_flow.mark ≠ 0) ∧
      (has_attr CTA_ID emitted = true ↔ ex_flow.id ≠ NFCT_ANY_ID) ∧
      (has_attr CTA_NAT emitted = true ↔ ex_flow.nat.min_ip ≠ 0)) ∧
    (∃ w1 req1, nfct_build_conntrack ex_build_le32 (0 + 2) ex_world nfnlhdr.zero ex_flow =
      Result.ok (w1, req1)) :=
  ⟨(build_conntrack_optional_attrs ex_build_le32 1 ex_world nfnlhdr.zero ex_flow).1 _
      ⟨0, 0, 0, 0, conntrack_attrs ex_build_le32 ex_flow none none none⟩ rfl,
    (build_conntrack_optional_attrs ex_build_le32 0 ex_world nfnlhdr.zero ex_flow).2
      (ex_world_sane ex_build_le32)⟩

/-- C4.  The NAT sub-tree `nfct_build_nat` appends is one NAT nest whose first
child is MINIP, which holds MAXIP exactly when `nat.min_ip` differs from
`nat.max_ip` and a NAT_PROTO nest exactly when `nat.l4min` differs from
`nat.l4max`; every NAT_PROTO child is a nest without children, and
`nfct_build_protonat` appends such an empty nest whatever the protocol number. -/
theorem build_nat_shape (b : Build) (req : nfnlhdr) (ct : nfct_conntrack) :
    (∃ rest, (nfct_build_nat b req ct).attrs = req.attrs ++
        [nfattr.nest CTA_NAT
          (nfattr.leaf CTA_NAT_MINIP (obj_bytes b.endian 4 ct.nat.min_ip) :: rest)] ∧
      (has_attr CTA_NAT_MINIP rest = false) ∧
      (has_attr CTA_NAT_MAXIP rest = true ↔ ct.nat.min_ip ≠ ct.nat.max_ip) ∧
      (has_attr CTA_NAT_PROTO rest = true ↔ ct.nat.l4min ≠ ct.nat.l4max) ∧
      (∀ a ∈ rest, a.nfa_type = CTA_NAT_PROTO → a = nfattr.nest CTA_NAT_PROTO [])) ∧
    (nfct_build_protonat req ct).attrs = req.attrs ++ [nfattr.nest CTA_NAT_PROTO []] := by
  have hl4 : ct.nat.l4min ≠ ct.nat.l4max ↔ ct.nat.l4min.all ≠ ct.nat.l4max.all := by
    rcases ct.nat.l4min with ⟨x⟩
    rcases ct.nat.l4max with ⟨y⟩
    simp
  refine ⟨?_, by rw [nfct_build_protonat_eq]⟩
  rw [nfct_build_nat_eq, hl4]
  by_cases h1 : ct.nat.min_ip = ct.nat.max_ip <;>
    by_cases h2 : ct.nat.l4min.all = ct.nat.l4max.all <;>
    simp [nat_children, has_attr, nfattr.nfa_type, h1, h2, CTA_NAT_MINIP, CTA_NAT_MAXIP,
      CTA_NAT_PROTO]

/-- C5.  Whenever `nfct_build_conntrack` returns, what it appended is, in this
order: TUPLE_ORIG, TUPLE_REPLY, STATUS, TIMEOUT, then MARK, ID, PROTOINFO and
NAT, each only when present; each tuple is an IP nest holding V4_SRC then
V4_DST, followed by a PROTO nest whose first leaf is NUM.  In a world whose
plugins are well formed it does return once it has fuel for two nested
lookups. -/
theorem build_conntrack_order (b : Build) (fuel : Nat) (w : World) (req : nfnlhdr)
    (ct : nfct_conntrack) :
    (∀ w1 req1, nfct_build_conntrack b fuel w req ct = Result.ok (w1, req1) →
      ∃ (po pr pinfo : List nfattr),
        (pinfo = [] ∨ ∃ cs, pinfo = [nfattr.nest CTA_PROTOINFO cs]) ∧
        req1.attrs = req.attrs ++
          ([nfattr.nest CTA_TUPLE_ORIG
              [nfattr.nest CTA_TUPLE_IP
                [nfattr.leaf CTA_IP_V4_SRC
                    (obj_bytes b.endian 4 (ct.tuple.get NFCT_DIR_ORIGINAL).src),
                  nfattr.leaf CTA_IP_V4_DST
                    (obj_bytes b.endian 4 (ct.tuple.get NFCT_DIR_ORIGINAL).dst)],
                nfattr.nest CTA_TUPLE_PROTO
                  (nfattr.leaf CTA_PROTO_NUM (protonum_bytes (ct.tuple.get NFCT_DIR_ORIGINAL))
                    :: po)],
            nfattr.nest CTA_TUPLE_REPLY
              [nfattr.nest CTA_TUPLE_IP
                [nfattr.leaf CTA_IP_V4_SRC
                    (obj_bytes b.endian 4 (ct.tuple.get NFCT_DIR_REPLY).src),
                  nfattr.leaf CTA_IP_V4_DST
                    (obj_bytes b.endian 4 (ct.tuple.get NFCT_DIR_REPLY).dst)],
                nfattr.nest CTA_TUPLE_PROTO
                  (nfattr.leaf CTA_PROTO_NUM (protonum_bytes (ct.tuple.get NFCT_DIR_REPLY))
                    :: pr)],
            nfattr.leaf CTA_STATUS (obj_bytes b.endian 4 (htonl b.endian ct.status)),
            nfattr.leaf CTA_TIMEOUT
              (obj_bytes b.endian b.sizeof_long (htonl b.endian ct.timeout))]
          ++ (if ct.mark ≠ 0 then
                [nfattr.leaf CTA_MARK (obj_bytes b.endian 4 (htonl b.endian ct.mark))] else [])
          ++ (if ct.id ≠ NFCT_ANY_ID then
                [nfattr.leaf CTA_ID (obj_bytes b.endian 4 (htonl b.endian ct.id))] else [])
          ++ pinfo
          ++ (if ct.nat.min_ip ≠ 0 then [nfattr.nest CTA_NAT (nat_children b ct)] else []))) ∧
    (w.sane b → ∃ w1 req1, nfct_build_conntrack b (fuel + 2) w req ct = Result.ok (w1, req1)) := by
  constructor
  · intro w1 req1 h
    obtain ⟨h1, h2, h3, hreq, _⟩ := nfct_build_conntrack_ok h
    refine ⟨proto_leaves h1 (ct.tuple.get NFCT_DIR_ORIGINAL),
      proto_leaves h2 (ct.tuple.get NFCT_DIR_REPLY), protoinfo_part h3 ct,
      protoinfo_part_cases h3 ct, ?_⟩
    rw [hreq]
    rfl
  · intro hs
    obtain ⟨w1, req1, h, _⟩ := nfct_build_conntrack_sane b fuel w req ct hs
    exact ⟨w1, req1, h⟩

/-- Witness for `build_conntrack_order`: the TCP flow of the first scenario in
a world with an empty registry; nothing follows TIMEOUT. -/
theorem build_conntrack_order_witness :
    (∃ (po pr pinfo : List nfattr),
        (pinfo = [] ∨ ∃ cs, pinfo = [nfattr.nest CTA_PROTOINFO cs]) ∧
        (conntrack_attrs ex_build_le32 ex_flow none none none) = nfnlhdr.zero.attrs ++
          ([nfattr.nest CTA_TUPLE_ORIG
              [nfattr.nest CTA_TUPLE_IP
                [nfattr.leaf CTA_IP_V4_SRC
                    (obj_bytes ex_build_le32.endian 4 (ex_flow.tuple.get NFCT_DIR_ORIGINAL).src),
                  nfattr.leaf CTA_IP_V4_DST
                    (obj_bytes ex_build_le32.endian 4 (ex_flow.tuple.get NFCT_DIR_ORIGINAL).dst)],
                nfattr.nest CTA_TUPLE_PROTO
                  (nfattr.leaf CTA_PROTO_NUM (protonum_bytes (ex_flow.tuple.get NFCT_DIR_ORIGINAL))
                    :: po)],
            nfattr.nest CTA_TUPLE_REPLY
              [nfattr.nest CTA_TUPLE_IP
                [nfattr.leaf CTA_IP_V4_SRC
                    (obj_bytes ex_build_le32.endian 4 (ex_flow.tuple.get NFCT_DIR_REPLY).src),
                  nfattr.leaf CTA_IP_V4_DST
                    (obj_bytes ex_build_le32.endian 4 (ex_flow.tuple.get NFCT_DIR_REPLY).dst)],
                nfattr.nest CTA_TUPLE_PROTO
                  (nfattr.leaf CTA_PROTO_NUM (protonum_bytes (ex_flow.tuple.get NFCT_DIR_REPLY))
                    :: pr)],
            nfattr.leaf CTA_STATUS
              (obj_bytes ex_build_le32.endian 4 (htonl ex_build_le32.endian ex_flow.status)),
            nfattr.leaf CTA_TIMEOUT
              (obj_bytes ex_build_le32.endian ex_build_le32.sizeof_long
                (htonl ex_build_le32.endian ex_flow.timeout))]
          ++ (if ex_flow.mark ≠ 0 then
                [nfattr.leaf CTA_MARK
                  (obj_bytes ex_build_le32.endian 4 (htonl ex_build_le32.endian ex_flow.mark))]
              else [])
          ++ (if ex_flow.id ≠ NFCT_ANY_ID then
                [nfattr.leaf CTA_ID
                  (obj_bytes ex_build_le32.endian 4 (htonl ex_build_le32.endian ex_flow.id))]
              else [])
          ++ pinfo
          ++ (if ex_flow.nat.min_ip ≠ 0 then
                [nfattr.nest CTA_NAT (nat_children ex_build_le32 ex_flow)] else []))) ∧
    (∃ w1 req1, nfct_build_conntrack ex_build_le32 (0 + 2) ex_world nfnlhdr.zero ex_flow =
      Result.ok (w1, req1)) :=
  ⟨(build_conntrack_order ex_build_le32 1 ex_world nfnlhdr.zero ex_flow).1 _
      ⟨0, 0, 0, 0, conntrack_attrs ex_build_le32 ex_flow none none none⟩ rfl,
    (build_conntrack_order ex_build_le32 0 ex_world nfnlhdr.zero ex_flow).2
      (ex_world_sane ex_build_le32)⟩

/-- C6.  Evaluation at the failing input.  On a build whose `unsigned long` is
8 bytes wide (here little-endian), the TIMEOUT attribute `nfct_build_conntrack`
emits for timeout 300 has the 8-byte payload 00 00 01 2C 00 00 00 00, not the
4-byte payload 00 00 01 2C that is the big-endian encoding of 300. -/
theorem timeout_payload_lp64 :
    ∃ w1 req1,
      nfct_build_conntrack ex_build_le64 1 ex_world nfnlhdr.zero ex_flow =
        Result.ok (w1, req1) ∧
      (last_of_type CTA_TIMEOUT req1.attrs).map (nfattr.payload ex_build_le64.endian) =
        some [0x00, 0x00, 0x01, 0x2C, 0x00, 0x00, 0x00, 0x00] ∧
      be_bytes 4 (ex_flow.timeout % 2 ^ 32) = [0x00, 0x00, 0x01, 0x2C] := by
  refine ⟨_, _, rfl, rfl, by decide⟩

/-- C7.  Evaluation at the failing input.  With an 8-byte `unsigned long`, the
bytes `nfct_build_conntrack` emits for the TIMEOUT leaf of the flow with timeout
300 differ between a little-endian and a big-endian host: 00 00 01 2C 00 00 00
00 on the first, 00 00 00 00 00 00 01 2C on the second, while STATUS is the same
four bytes on both. -/
theorem timeout_bytes_follow_host_order :
    ∃ w_le req_le w_be req_be,
      nfct_build_conntrack ex_build_le64 1 ex_world nfnlhdr.zero ex_flow =
        Result.ok (w_le, req_le) ∧
      nfct_build_conntrack ex_build_be64 1 ex_world nfnlhdr.zero ex_flow =
        Result.ok (w_be, req_be) ∧
      (last_of_type CTA_TIMEOUT req_le.attrs).map (nfattr.payload ex_build_le64.endian) =
        some [0x00, 0x00, 0x01, 0x2C, 0x00, 0x00, 0x00, 0x00] ∧
      (last_of_type CTA_TIMEOUT req_be.attrs).map (nfattr.payload ex_build_be64.endian) =
        some [0x00, 0x00, 0x00, 0x00, 0x00, 0x00, 0x01, 0x2C] ∧
      (last_of_type CTA_STATUS req_le.attrs).map (nfattr.payload ex_build_le64.endian) =
        (last_of_type CTA_STATUS req_be.attrs).map (nfattr.payload ex_build_be64.endian) := by
  refine ⟨_, _, _, _, rfl, rfl, rfl, rfl, rfl⟩

/-- C8.  For every flow message whose length covers the two headers and every
installed callback: whenever `nfct_conntrack_netlink_handler` returns, it has
invoked the callback once, with a flags word in which the bit of STATUS,
PROTOINFO, TIMEOUT, MARK, COUNTERS_ORIG, COUNTERS_RPLY, USE and ID is set exactly
when the corresponding attribute is in the message, so framed in the bytes
its length covers, and with a record in which each of those fields whose
attribute is absent is zero.  For a message framed at its true length an
attribute is in the message exactly when it is in the list it was framed
from.  In a world whose plugins are well formed the handler does return once
it has fuel for two nested lookups. -/
theorem flow_flags_match_attrs (b : Build) (fuel : Nat) (w : World) (cth : nfct_handle)
    (nlh : nlmsghdr) (cb : CallbackArg → Nat → Nat → Nat → Int) (hcb : cth.callback = some cb)
    (hl : 0 ≤ to_int nlh.nlmsg_len - (NLMSG_LENGTH sizeof_nfgenmsg : Nat)) :
    (∀ w1 ret, nfct_conntrack_netlink_handler b fuel w cth nlh = Result.ok (w1, ret) →
      ∃ ct flags,
        w1.calls = w.calls ++ [⟨CallbackArg.conntrack ct, flags,
          typemsg2enum (NFNL_MSG_TYPE nlh.nlmsg_type) nlh.nlmsg_flags, cth.callback_data⟩] ∧
        (flags &&& NFCT_STATUS ≠ 0 ↔ msg_has_attr b nlh CTA_STATUS = true) ∧
        (flags &&& NFCT_PROTOINFO ≠ 0 ↔ msg_has_attr b nlh CTA_PROTOINFO = true) ∧
        (flags &&& NFCT_TIMEOUT ≠ 0 ↔ msg_has_attr b nlh CTA_TIMEOUT = true) ∧
        (flags &&& NFCT_MARK ≠ 0 ↔ msg_has_attr b nlh CTA_MARK = true) ∧
        (flags &&& NFCT_COUNTERS_ORIG ≠ 0 ↔ msg_has_attr b nlh CTA_COUNTERS_ORIG = true) ∧
        (flags &&& NFCT_COUNTERS_RPLY ≠ 0 ↔ msg_has_attr b nlh CTA_COUNTERS_REPLY = true) ∧
        (flags &&& NFCT_USE ≠ 0 ↔ msg_has_attr b nlh CTA_USE = true) ∧
        (flags &&& NFCT_ID ≠ 0 ↔ msg_has_attr b nlh CTA_ID = true) ∧
        (msg_has_attr b nlh CTA_STATUS = false → ct.status = 0) ∧
        (msg_has_attr b nlh CTA_PROTOINFO = false → ct.protoinfo = 0) ∧
        (msg_has_attr b nlh CTA_TIMEOUT = false → ct.timeout = 0) ∧
        (msg_has_attr b nlh CTA_MARK = false → ct.mark = 0) ∧
        (msg_has_attr b nlh CTA_COUNTERS_ORIG = false →
          ct.counters.get NFCT_DIR_ORIGINAL = ⟨0, 0⟩) ∧
        (msg_has_attr b nlh CTA_COUNTERS_REPLY = false →
          ct.counters.get NFCT_DIR_REPLY = ⟨0, 0⟩) ∧
        (msg_has_attr b nlh CTA_USE = false → ct.use = 0) ∧
        (msg_has_attr b nlh CTA_ID = false → ct.id = 0)) ∧
    (∀ type flags attrs rest t, (∀ a ∈ attrs, a.fits b.endian) →
      (∀ a ∈ attrs, a.nfa_type < 65536) →
      NLMSG_LENGTH sizeof_nfgenmsg + (encode_attrs b.endian attrs).length < 2 ^ 31 →
      msg_has_attr b (framed b.endian type flags attrs rest) t = has_attr t attrs) ∧
    (w.sane b → ∃ w1 ret,
      nfct_conntrack_netlink_handler b (fuel + 2) w cth nlh = Result.ok (w1, ret)) := by
  refine ⟨?_, fun type flags attrs rest t hf ht hlen =>
    msg_has_attr_framed b type flags attrs rest t hf ht hlen, ?_⟩
  · intro w1 ret h
    obtain ⟨wa, t0, wb, t1, wc, hd, _, _, _, fr, hres⟩ :=
      nfct_conntrack_netlink_handler_ok (attr_len_not_neg nlh hl) h
    rw [invoke_callback_some _ _ _ _ _ cb hcb] at hres
    simp only [Prod.mk.injEq] at hres
    have hp : ∀ i, i < CTA_MAX →
        ((nfnl_parse_attr b.endian CTA_MAX nlh.data (attr_len nlh) i).isSome = true ↔
          msg_has_attr b nlh (i + 1) = true) := by
      intro i hi
      rw [nfnl_parse_attr_isSome b.endian CTA_MAX nlh.data (attr_len nlh) i hi]
      rfl
    have hn : ∀ i, i < CTA_MAX → msg_has_attr b nlh (i + 1) = false →
        nfnl_parse_attr b.endian CTA_MAX nlh.data (attr_len nlh) i = none := by
      intro i hi hf
      have hf2 : (nfnl_parse_attr b.endian CTA_MAX nlh.data (attr_len nlh) i).isSome =
          false := by
        rw [nfnl_parse_attr_isSome b.endian CTA_MAX nlh.data (attr_len nlh) i hi]
        exact hf
      cases hx : nfnl_parse_attr b.endian CTA_MAX nlh.data (attr_len nlh) i with
      | none => rfl
      | some a => simp [hx] at hf2
    obtain ⟨b1, b2, b3, b4, b5, b6, b7, b8⟩ := flags_of_bits
      (nfnl_parse_attr b.endian CTA_MAX nlh.data (attr_len nlh) (CTA_STATUS - 1)).isSome
      (nfnl_parse_attr b.endian CTA_MAX nlh.data (attr_len nlh) (CTA_PROTOINFO - 1)).isSome
      (nfnl_parse_attr b.endian CTA_MAX nlh.data (attr_len nlh) (CTA_TIMEOUT - 1)).isSome
      (nfnl_parse_attr b.endian CTA_MAX nlh.data (attr_len nlh) (CTA_MARK - 1)).isSome
      (nfnl_parse_attr b.endian CTA_MAX nlh.data (attr_len nlh) (CTA_COUNTERS_ORIG - 1)).isSome
      (nfnl_parse_attr b.endian CTA_MAX nlh.data (attr_len nlh) (CTA_COUNTERS_REPLY - 1)).isSome
      (nfnl_parse_attr b.endian CTA_MAX nlh.data (attr_len nlh) (CTA_USE - 1)).isSome
      (nfnl_parse_attr b.endian CTA_MAX nlh.data (attr_len nlh) (CTA_ID - 1)).isSome
    obtain ⟨_, s2, s3, s4, s5, s6, _, s8⟩ := parsed_flow_scalars b
      (nfnl_parse_attr b.endian CTA_MAX nlh.data (attr_len nlh)) t0 t1 hd
    obtain ⟨k1, k2⟩ := parsed_flow_counters b nlh.data (attr_len nlh) t0 t1 hd
    refine ⟨(parsed_flow b (nfnl_parse_attr b.endian CTA_MAX nlh.data (attr_len nlh)) t0 t1 hd).1,
      (parsed_flow b (nfnl_parse_attr b.endian CTA_MAX nlh.data (attr_len nlh)) t0 t1 hd).2, ?_,
          ?_, ?_, ?_, ?_, ?_, ?_,
      ?_, ?_, ?_, ?_, ?_, ?_, ?_, ?_, ?_, ?_⟩
    · rw [hres.1, fr.2.2.2.2.2.2]
    · rw [parsed_flow_flags, b1]
      exact hp 2 (by decide)
    · rw [parsed_flow_flags, b2]
      exact hp 3 (by decide)
    · rw [parsed_flow_flags, b3]
      exact hp 6 (by decide)
    · rw [parsed_flow_flags, b4]
      exact hp 7 (by decide)
    · rw [parsed_flow_flags, b5]
      exact hp 8 (by decide)
    · rw [parsed_flow_flags, b6]
      exact hp 9 (by decide)
    · rw [parsed_flow_flags, b7]
      exact hp 10 (by decide)
    · rw [parsed_flow_flags, b8]
      exact hp 11 (by decide)
    · intro hf
      rw [s2, show CTA_STATUS - 1 = 2 from rfl, hn 2 (by decide) hf]
    · intro hf
      exact s8 (hn 3 (by decide) hf)
    · intro hf
      rw [s3, show CTA_TIMEOUT - 1 = 6 from rfl, hn 6 (by decide) hf]
    · intro hf
      rw [s4, show CTA_MARK - 1 = 7 from rfl, hn 7 (by decide) hf]
    · intro hf
      show (parsed_flow b (nfnl_parse_attr b.endian CTA_MAX nlh.data (attr_len nlh)) t0 t1
          hd).1.counters.original = _
      rw [k1, show CTA_COUNTERS_ORIG - 1 = 8 from rfl, hn 8 (by decide) hf]
    · intro hf
      show (parsed_flow b (nfnl_parse_attr b.endian CTA_MAX nlh.data (attr_len nlh)) t0 t1
          hd).1.counters.reply = _
      rw [k2, show CTA_COUNTERS_REPLY - 1 = 9 from rfl, hn 9 (by decide) hf]
    · intro hf
      rw [s5, show CTA_USE - 1 = 10 from rfl, hn 10 (by decide) hf]
    · intro hf
      rw [s6, show CTA_ID - 1 = 11 from rfl, hn 11 (by decide) hf]
  · intro hs
    obtain ⟨w1, ret, h, _⟩ := nfct_conntrack_netlink_handler_sane b fuel w cth nlh hs
    exact ⟨w1, ret, h⟩

/-- Witness for `flow_flags_match_attrs`: the body built for the TCP flow of
the first scenario, framed at its true length of 108 bytes and parsed in a
world with an empty registry; STATUS and TIMEOUT are in the message, MARK is
not. -/
theorem flow_flags_match_attrs_witness :
    ex_handle.callback = some (fun _ _ _ _ => 0) ∧
    (0 : Int) ≤ to_int (ex_msg 0x100 0
      (conntrack_attrs ex_build_le32 ex_flow none none none)).nlmsg_len -
        (NLMSG_LENGTH sizeof_nfgenmsg : Nat) ∧
    (ex_msg 0x100 0 (conntrack_attrs ex_build_le32 ex_flow none none none)).nlmsg_len = 108 ∧
    ex_world.sane ex_build_le32 ∧
    (∃ w1 ret, nfct_conntrack_netlink_handler ex_build_le32 (0 + 2) ex_world ex_handle
      (ex_msg 0x100 0 (conntrack_attrs ex_build_le32 ex_flow none none none)) =
        Result.ok (w1, ret)) ∧
    msg_has_attr ex_build_le32
      (ex_msg 0x100 0 (conntrack_attrs ex_build_le32 ex_flow none none none)) CTA_STATUS = true ∧
    msg_has_attr ex_build_le32
      (ex_msg 0x100 0 (conntrack_attrs ex_build_le32 ex_flow none none none)) CTA_TIMEOUT = true ∧
    msg_has_attr ex_build_le32
      (ex_msg 0x100 0 (conntrack_attrs ex_build_le32 ex_flow none none none)) CTA_MARK = false ∧
    msg_has_attr ex_build_le32
      (ex_msg 0x100 0 (conntrack_attrs ex_build_le32 ex_flow none none none)) CTA_USE = false ∧
    (∃ w1 ct flags,
      nfct_conntrack_netlink_handler ex_build_le32 1 ex_world ex_handle
        (ex_msg 0x100 0 (conntrack_attrs ex_build_le32 ex_flow none none none)) =
          Result.ok (w1, 0) ∧
      w1.calls = [⟨CallbackArg.conntrack ct, flags, NFCT_MSG_UPDATE, 0⟩] ∧
      flags &&& NFCT_STATUS ≠ 0 ∧ flags &&& NFCT_TIMEOUT ≠ 0 ∧ flags &&& NFCT_MARK = 0 ∧
      ct.mark = 0 ∧ ct.use = 0) := by
  have h := flow_flags_match_attrs ex_build_le32 1 ex_world ex_handle
    (ex_msg 0x100 0 (conntrack_attrs ex_build_le32 ex_flow none none none))
    (fun _ _ _ _ => 0) rfl (by decide)
  have h2 := flow_flags_match_attrs ex_build_le32 0 ex_world ex_handle
    (ex_msg 0x100 0 (conntrack_attrs ex_build_le32 ex_flow none none none))
    (fun _ _ _ _ => 0) rfl (by decide)
  obtain ⟨ct, flags, hc, b1, _, b3, b4, _, _, _, _, _, _, _, z4, _, _, z7, _⟩ := h.1 _ 0 rfl
  have m1 : msg_has_attr ex_build_le32
      (ex_msg 0x100 0 (conntrack_attrs ex_build_le32 ex_flow none none none)) CTA_STATUS =
        true := by decide
  have m3 : msg_has_attr ex_build_le32
      (ex_msg 0x100 0 (conntrack_attrs ex_build_le32 ex_flow none none none)) CTA_TIMEOUT =
        true := by decide
  have m4 : msg_has_attr ex_build_le32
      (ex_msg 0x100 0 (conntrack_attrs ex_build_le32 ex_flow none none none)) CTA_MARK =
        false := by decide
  have m7 : msg_has_attr ex_build_le32
      (ex_msg 0x100 0 (conntrack_attrs ex_build_le32 ex_flow none none none)) CTA_USE =
        false := by decide
  refine ⟨rfl, by decide, by decide, ex_world_sane _, h2.2.2 (ex_world_sane _), m1, m3, m4, m7,
    _, ct, flags, rfl, hc, ?_, ?_, ?_, ?_, ?_⟩
  · exact b1.mpr m1
  · exact b3.mpr m3
  · exact not_not.mp (fun hne => absurd (b4.mp hne) (by rw [m4]; decide))
  · exact z4 m4
  · exact z7 m7

/-- C9.  `typemsg2enum` answers NEW for CT_NEW when the flags carry CREATE and
EXCL, UPDATE for CT_NEW when they carry neither, DESTROY for CT_DELETE and
UNKNOWN for every other type; and a watch on the flow subsystem whose socket
delivers a CT_NEW with CREATE and EXCL, a CT_NEW with neither and a CT_DELETE
invokes a callback that keeps answering 0 three times, with the kinds new,
update, destroy in that order. -/
theorem typemsg2enum_classifies :
    (∀ type flags : Nat, type < 65536 → flags < 65536 →
      (type = IPCTNL_MSG_CT_NEW →
        flags &&& (NLM_F_CREATE ||| NLM_F_EXCL) = NLM_F_CREATE ||| NLM_F_EXCL →
        typemsg2enum type flags = NFCT_MSG_NEW) ∧
      (type = IPCTNL_MSG_CT_NEW → flags &&& NLM_F_CREATE = 0 → flags &&& NLM_F_EXCL = 0 →
        typemsg2enum type flags = NFCT_MSG_UPDATE) ∧
      (type = IPCTNL_MSG_CT_DELETE → typemsg2enum type flags = NFCT_MSG_DESTROY) ∧
      (type ≠ IPCTNL_MSG_CT_NEW → type ≠ IPCTNL_MSG_CT_DELETE →
        typemsg2enum type flags = NFCT_MSG_UNKNOWN)) ∧
    (∀ (b : Build) (fuel : Nat) (w : World) (cth : nfct_handle)
      (cb : CallbackArg → Nat → Nat → Nat → Int) (m1 m2 m3 : nlmsghdr),
      w.sane b → cth.callback = some cb → (∀ a f t d, cb a f t d = 0) →
      w.inbox = [m1, m2, m3] →
      m1.nlmsg_type = (NFNL_SUBSYS_CTNETLINK <<< 8) ||| IPCTNL_MSG_CT_NEW →
      m2.nlmsg_type = (NFNL_SUBSYS_CTNETLINK <<< 8) ||| IPCTNL_MSG_CT_NEW →
      m3.nlmsg_type = (NFNL_SUBSYS_CTNETLINK <<< 8) ||| IPCTNL_MSG_CT_DELETE →
      m1.nlmsg_flags < 65536 →
      m1.nlmsg_flags &&& (NLM_F_CREATE ||| NLM_F_EXCL) = NLM_F_CREATE ||| NLM_F_EXCL →
      m2.nlmsg_flags < 65536 → m2.nlmsg_flags &&& NLM_F_CREATE = 0 →
      m2.nlmsg_flags &&& NLM_F_EXCL = 0 →
      0 ≤ to_int m1.nlmsg_len - (NLMSG_LENGTH sizeof_nfgenmsg : Nat) →
      0 ≤ to_int m2.nlmsg_len - (NLMSG_LENGTH sizeof_nfgenmsg : Nat) →
      0 ≤ to_int m3.nlmsg_len - (NLMSG_LENGTH sizeof_nfgenmsg : Nat) →
      ∃ w1 c1 ret, nfct_event_conntrack b (fuel + 2) w cth = Result.ok (w1, c1, ret) ∧
        w1.calls.map CallbackCall.type =
          w.calls.map CallbackCall.type ++
            [NFCT_MSG_NEW, NFCT_MSG_UPDATE, NFCT_MSG_DESTROY]) := by
  refine ⟨?_, ?_⟩
  · intro type flags ht hf
    refine ⟨?_, ?_, ?_, ?_⟩
    · intro e h
      rw [e]
      exact typemsg2enum_new flags hf h
    · intro e h1 h2
      rw [e]
      exact typemsg2enum_update flags hf h1 h2
    · intro e
      rw [e]
      exact typemsg2enum_destroy flags
    · intro h1 h2
      exact typemsg2enum_unknown type flags ht h1 h2
  · intro b fuel w cth cb m1 m2 m3 hs hcb h0 hin t1 t2 t3 f1 g1 f2 g2 g3 l1 l2 l3
    exact event_stream_kinds b fuel w cth cb m1 m2 m3 hs hcb h0 hin t1 t2 t3 f1 g1 f2 g2 g3
      l1 l2 l3

/-- Witness for `typemsg2enum_classifies`: the four kinds at concrete
arguments, and the stream of the fourth scenario delivered to a callback that
answers 0. -/
theorem typemsg2enum_classifies_witness :
    typemsg2enum IPCTNL_MSG_CT_NEW (NLM_F_CREATE ||| NLM_F_EXCL) = NFCT_MSG_NEW ∧
    typemsg2enum IPCTNL_MSG_CT_NEW NLM_F_REQUEST = NFCT_MSG_UPDATE ∧
    typemsg2enum IPCTNL_MSG_CT_DELETE 0 = NFCT_MSG_DESTROY ∧
    typemsg2enum IPCTNL_MSG_CT_GET 0 = NFCT_MSG_UNKNOWN ∧
    (∃ w1 c1 ret,
      nfct_event_conntrack ex_build_le32 (0 + 2) { ex_world with inbox := ex_stream } ex_handle =
        Result.ok (w1, c1, ret) ∧
      w1.calls.map CallbackCall.type =
        ({ ex_world with inbox := ex_stream } : World).calls.map CallbackCall.type ++
          [NFCT_MSG_NEW, NFCT_MSG_UPDATE, NFCT_MSG_DESTROY]) :=
  ⟨(typemsg2enum_classifies.1 IPCTNL_MSG_CT_NEW (NLM_F_CREATE ||| NLM_F_EXCL) (by decide)
      (by decide)).1 rfl rfl,
    (typemsg2enum_classifies.1 IPCTNL_MSG_CT_NEW NLM_F_REQUEST (by decide)
      (by decide)).2.1 rfl rfl rfl,
    (typemsg2enum_classifies.1 IPCTNL_MSG_CT_DELETE 0 (by decide) (by decide)).2.2.1 rfl,
    (typemsg2enum_classifies.1 IPCTNL_MSG_CT_GET 0 (by decide) (by decide)).2.2.2
      (by decide) (by decide),
    typemsg2enum_classifies.2 ex_build_le32 0 { ex_world with inbox := ex_stream } ex_handle
      (fun _ _ _ _ => 0) _ _ _ (ex_world_sane _) rfl (fun _ _ _ _ => rfl) rfl rfl rfl rfl
      (by decide) (by decide) (by decide) (by decide) (by decide) (by decide) (by decide)
      (by decide)⟩

/-- C10.  Whenever a request-sending operation returns, the first thing it has
handed to the adapter is a request whose header carries the message type and
exactly the flags of the operations table: create_flow CT_NEW with
REQUEST, CREATE, ACK, EXCL; update_flow CT_NEW with REQUEST, ACK; delete_flow
CT_DELETE with REQUEST, ACK, ROOT, MATCH; get_flow CT_GET with REQUEST, ACK;
dump_flows CT_GET and dump_and_zero CT_GET_CTRZERO with REQUEST, ROOT, MATCH,
DUMP; flush_flows CT_DELETE with REQUEST, ACK; create_expectation EXP_NEW with
REQUEST, CREATE, ACK; get_expectation EXP_GET with REQUEST, ACK;
delete_expectation EXP_DELETE with REQUEST, ACK, ROOT, MATCH; dump_expectations
EXP_GET with REQUEST, ROOT, MATCH; flush_expectations EXP_DELETE with REQUEST,
ACK.  In a world whose plugins are well formed every one of them returns once
it has fuel for two nested lookups. -/
theorem request_headers (b : Build) (fuel : Nat) (w : World) (cth : nfct_handle)
    (ct : nfct_conntrack) (exp : nfct_expect) (tuple : nfct_tuple) (dir : Int) (id : Nat) :
    (∀ w1 c1 ret, nfct_create_conntrack b fuel w cth ct = Result.ok (w1, c1, ret) →
      hands_over w w1 IPCTNL_MSG_CT_NEW
        (NLM_F_REQUEST ||| NLM_F_CREATE ||| NLM_F_ACK ||| NLM_F_EXCL)) ∧
    (∀ w1 c1 ret, nfct_update_conntrack b fuel w cth ct = Result.ok (w1, c1, ret) →
      hands_over w w1 IPCTNL_MSG_CT_NEW (NLM_F_REQUEST ||| NLM_F_ACK)) ∧
    (∀ w1 c1 ret, nfct_delete_conntrack b fuel w cth tuple dir id = Result.ok (w1, c1, ret) →
      hands_over w w1 IPCTNL_MSG_CT_DELETE
        (NLM_F_REQUEST ||| NLM_F_ACK ||| NLM_F_ROOT ||| NLM_F_MATCH)) ∧
    (∀ w1 c1 ret, nfct_get_conntrack b fuel w cth tuple dir id = Result.ok (w1, c1, ret) →
      hands_over w w1 IPCTNL_MSG_CT_GET (NLM_F_REQUEST ||| NLM_F_ACK)) ∧
    (∀ w1 c1 ret, nfct_dump_conntrack_table b fuel w cth = Result.ok (w1, c1, ret) →
      hands_over w w1 IPCTNL_MSG_CT_GET
        (NLM_F_REQUEST ||| NLM_F_ROOT ||| NLM_F_MATCH ||| NLM_F_DUMP)) ∧
    (∀ w1 c1 ret,
      nfct_dump_conntrack_table_reset_counters b fuel w cth = Result.ok (w1, c1, ret) →
      hands_over w w1 IPCTNL_MSG_CT_GET_CTRZERO
        (NLM_F_REQUEST ||| NLM_F_ROOT ||| NLM_F_MATCH ||| NLM_F_DUMP)) ∧
    hands_over w (nfct_flush_conntrack_table w cth).1 IPCTNL_MSG_CT_DELETE
      (NLM_F_REQUEST ||| NLM_F_ACK) ∧
    (∀ w1 c1 ret, nfct_create_expectation b fuel w cth exp = Result.ok (w1, c1, ret) →
      hands_over w w1 IPCTNL_MSG_EXP_NEW (NLM_F_REQUEST ||| NLM_F_CREATE ||| NLM_F_ACK)) ∧
    (∀ w1 c1 ret, nfct_get_expectation b fuel w cth tuple id = Result.ok (w1, c1, ret) →
      hands_over w w1 IPCTNL_MSG_EXP_GET (NLM_F_REQUEST ||| NLM_F_ACK)) ∧
    (∀ w1 c1 ret, nfct_delete_expectation b fuel w cth tuple id = Result.ok (w1, c1, ret) →
      hands_over w w1 IPCTNL_MSG_EXP_DELETE
        (NLM_F_REQUEST ||| NLM_F_ACK ||| NLM_F_ROOT ||| NLM_F_MATCH)) ∧
    (∀ w1 c1 ret, nfct_dump_expect_list b fuel w cth = Result.ok (w1, c1, ret) →
      hands_over w w1 IPCTNL_MSG_EXP_GET (NLM_F_REQUEST ||| NLM_F_ROOT ||| NLM_F_MATCH)) ∧
    hands_over w (nfct_flush_expectation_table w cth).1 IPCTNL_MSG_EXP_DELETE
      (NLM_F_REQUEST ||| NLM_F_ACK) ∧
    (w.sane b →
      (∃ out, nfct_create_conntrack b (fuel + 2) w cth ct = Result.ok out) ∧
      (∃ out, nfct_update_conntrack b (fuel + 2) w cth ct = Result.ok out) ∧
      (∃ out, nfct_delete_conntrack b (fuel + 2) w cth tuple dir id = Result.ok out) ∧
      (∃ out, nfct_get_conntrack b (fuel + 2) w cth tuple dir id = Result.ok out) ∧
      (∃ out, nfct_dump_conntrack_table b (fuel + 2) w cth = Result.ok out) ∧
      (∃ out, nfct_dump_conntrack_table_reset_counters b (fuel + 2) w cth = Result.ok out) ∧
      (∃ out, nfct_create_expectation b (fuel + 2) w cth exp = Result.ok out) ∧
      (∃ out, nfct_get_expectation b (fuel + 2) w cth tuple id = Result.ok out) ∧
      (∃ out, nfct_delete_expectation b (fuel + 2) w cth tuple id = Result.ok out) ∧
      (∃ out, nfct_dump_expect_list b (fuel + 2) w cth = Result.ok out)) := by
  refine ⟨fun _ _ _ h => hands_over_create_conntrack h,
    fun _ _ _ h => hands_over_update_conntrack h,
    fun _ _ _ h => hands_over_delete_conntrack h,
    fun _ _ _ h => hands_over_get_conntrack h,
    fun _ _ _ h => hands_over_dump 0 h,
    fun _ _ _ h => hands_over_dump 1 h,
    hands_over_talk w w _ _ _ rfl (NFNL_MSG_TYPE_fill _ _ _ _ _ _ (by decide)) rfl,
    fun _ _ _ h => hands_over_create_expectation h,
    fun _ _ _ h => hands_over_get_expectation h,
    fun _ _ _ h => hands_over_delete_expectation h,
    fun _ _ _ h => hands_over_dump_expect h,
    hands_over_talk w w _ _ _ rfl (NFNL_MSG_TYPE_fill _ _ _ _ _ _ (by decide)) rfl, ?_⟩
  intro hs
  exact ⟨nfct_create_conntrack_sane b fuel w cth ct hs,
    nfct_update_conntrack_sane b fuel w cth ct hs,
    nfct_delete_conntrack_sane b fuel w cth tuple dir id hs,
    nfct_get_conntrack_sane b fuel w cth tuple dir id hs,
    send_then_listen_sane b fuel w _ _ hs, send_then_listen_sane b fuel w _ _ hs,
    nfct_create_expectation_sane b fuel w cth exp hs,
    nfct_get_expectation_sane b fuel w cth tuple id hs,
    nfct_delete_expectation_sane b fuel w cth tuple id hs,
    send_then_listen_sane b fuel w _ _ hs⟩

/-- Witness for `request_headers`: the operations run in a world with an empty
registry and a silent socket; create_flow hands over a CT_NEW request with
REQUEST, CREATE, ACK and EXCL. -/
theorem request_headers_witness :
    ex_world.sane ex_build_le32 ∧
    (∃ out, nfct_create_conntrack ex_build_le32 (0 + 2) ex_world ex_handle ex_flow =
      Result.ok out) ∧
    (∃ w1, nfct_create_conntrack ex_build_le32 1 ex_world ex_handle ex_flow =
        Result.ok (w1, ex_handle, 0) ∧
      hands_over ex_world w1 IPCTNL_MSG_CT_NEW
        (NLM_F_REQUEST ||| NLM_F_CREATE ||| NLM_F_ACK ||| NLM_F_EXCL)) :=
  ⟨ex_world_sane _,
    ((request_headers ex_build_le32 0 ex_world ex_handle ex_flow ex_expect
      ex_flow.tuple.original 0 0).2.2.2.2.2.2.2.2.2.2.2.2 (ex_world_sane _)).1,
    _, rfl,
    (request_headers ex_build_le32 1 ex_world ex_handle ex_flow ex_expect
      ex_flow.tuple.original 0 0).1 _ ex_handle 0 rfl⟩

/-- C11, as stated, fails.  On a little-endian 32-bit build with an empty
registry and an acknowledgement waiting on the socket,
`nfct_delete_expectation` does not go through the send-and-wait-for-ACK
primitive: it calls `nfnl_send` and then enters the receive loop. -/
theorem delete_expectation_enters_receive_loop :
    ∃ w1 c1 ret req,
      nfct_delete_expectation ex_build_le32 1 ex_world_ack ex_handle ex_flow.tuple.original
        NFCT_ANY_ID = Result.ok (w1, c1, ret) ∧
      w1.trace = [TransportEvent.send req, TransportEvent.listen] ∧
      ¬ ack_only ex_world_ack w1 ret := by
  exact ⟨_, _, _, _, rfl, rfl,
    not_ack_only_of_two_calls _ _ _ (TransportEvent.send _) TransportEvent.listen rfl⟩

/-- C11, amended.  Whenever they return, create_flow, delete_flow, flush_flows
and flush_expectations complete through one call of the send-and-wait-for-ACK
primitive and return its code without entering the receive loop, while
update_flow, get_flow, the two dumps, dump_expectations, create_expectation,
get_expectation and delete_expectation call `nfnl_send` first and, unless that
send failed, then run the receive loop once.  In a world whose plugins are
well formed every one of them returns once it has fuel for two nested
lookups. -/
theorem reply_modes (b : Build) (fuel : Nat) (w : World) (cth : nfct_handle)
    (ct : nfct_conntrack) (exp : nfct_expect) (tuple : nfct_tuple) (dir : Int) (id : Nat) :
    (∀ w1 c1 ret, nfct_create_conntrack b fuel w cth ct = Result.ok (w1, c1, ret) →
      ack_only w w1 ret) ∧
    (∀ w1 c1 ret, nfct_delete_conntrack b fuel w cth tuple dir id = Result.ok (w1, c1, ret) →
      ack_only w w1 ret) ∧
    ack_only w (nfct_flush_conntrack_table w cth).1 (nfct_flush_conntrack_table w cth).2.2 ∧
    ack_only w (nfct_flush_expectation_table w cth).1 (nfct_flush_expectation_table w cth).2.2 ∧
    (∀ w1 c1 ret, nfct_update_conntrack b fuel w cth ct = Result.ok (w1, c1, ret) →
      drains w w1) ∧
    (∀ w1 c1 ret, nfct_get_conntrack b fuel w cth tuple dir id = Result.ok (w1, c1, ret) →
      drains w w1) ∧
    (∀ w1 c1 ret, nfct_dump_conntrack_table b fuel w cth = Result.ok (w1, c1, ret) →
      drains w w1) ∧
    (∀ w1 c1 ret,
      nfct_dump_conntrack_table_reset_counters b fuel w cth = Result.ok (w1, c1, ret) →
      drains w w1) ∧
    (∀ w1 c1 ret, nfct_dump_expect_list b fuel w cth = Result.ok (w1, c1, ret) →
      drains w w1) ∧
    (∀ w1 c1 ret, nfct_create_expectation b fuel w cth exp = Result.ok (w1, c1, ret) →
      drains w w1) ∧
    (∀ w1 c1 ret, nfct_get_expectation b fuel w cth tuple id = Result.ok (w1, c1, ret) →
      drains w w1) ∧
    (∀ w1 c1 ret, nfct_delete_expectation b fuel w cth tuple id = Result.ok (w1, c1, ret) →
      drains w w1) ∧
    (w.sane b →
      (∃ out, nfct_create_conntrack b (fuel + 2) w cth ct = Result.ok out) ∧
      (∃ out, nfct_delete_conntrack b (fuel + 2) w cth tuple dir id = Result.ok out) ∧
      (∃ out, nfct_update_conntrack b (fuel + 2) w cth ct = Result.ok out) ∧
      (∃ out, nfct_get_conntrack b (fuel + 2) w cth tuple dir id = Result.ok out) ∧
      (∃ out, nfct_dump_conntrack_table b (fuel + 2) w cth = Result.ok out) ∧
      (∃ out, nfct_dump_conntrack_table_reset_counters b (fuel + 2) w cth = Result.ok out) ∧
      (∃ out, nfct_dump_expect_list b (fuel + 2) w cth = Result.ok out) ∧
      (∃ out, nfct_create_expectation b (fuel + 2) w cth exp = Result.ok out) ∧
      (∃ out, nfct_get_expectation b (fuel + 2) w cth tuple id = Result.ok out) ∧
      (∃ out, nfct_delete_expectation b (fuel + 2) w cth tuple id = Result.ok out)) := by
  refine ⟨fun _ _ _ h => nfct_create_conntrack_mode h,
    fun _ _ _ h => nfct_delete_conntrack_mode h,
    nfnl_talk_ack_only _ (World.frame_refl w), nfnl_talk_ack_only _ (World.frame_refl w),
    fun _ _ _ h => drain_mode_drains (nfct_update_conntrack_mode h),
    fun _ _ _ h => drain_mode_drains (nfct_get_conntrack_mode h),
    fun _ _ _ h => drain_mode_drains (nfct_dump_conntrack_table_aux_mode h),
    fun _ _ _ h => drain_mode_drains (nfct_dump_conntrack_table_aux_mode h),
    fun _ _ _ h => drain_mode_drains (nfct_dump_expect_list_mode h),
    fun _ _ _ h => drain_mode_drains (nfct_create_expectation_mode h),
    fun _ _ _ h => drain_mode_drains (nfct_get_expectation_mode h),
    fun _ _ _ h => drain_mode_drains (nfct_delete_expectation_mode h), ?_⟩
  intro hs
  exact ⟨nfct_create_conntrack_sane b fuel w cth ct hs,
    nfct_delete_conntrack_sane b fuel w cth tuple dir id hs,
    nfct_update_conntrack_sane b fuel w cth ct hs,
    nfct_get_conntrack_sane b fuel w cth tuple dir id hs,
    send_then_listen_sane b fuel w _ _ hs, send_then_listen_sane b fuel w _ _ hs,
    send_then_listen_sane b fuel w _ _ hs,
    nfct_create_expectation_sane b fuel w cth exp hs,
    nfct_get_expectation_sane b fuel w cth tuple id hs,
    nfct_delete_expectation_sane b fuel w cth tuple id hs⟩

/-- Witness for `reply_modes`: in the world with an acknowledgement waiting,
delete_expectation returns the code of that acknowledgement from the receive
loop and delete_flow returns the code of the send-and-wait-for-ACK primitive. -/
theorem reply_modes_witness :
    (∃ w1, nfct_delete_expectation ex_build_le32 1 ex_world_ack ex_handle
        ex_flow.tuple.original NFCT_ANY_ID = Result.ok (w1, ex_handle, 0) ∧
      drains ex_world_ack w1) ∧
    (∃ w1, nfct_delete_conntrack ex_build_le32 1 ex_world_ack ex_handle
        ex_flow.tuple.original 1 42 = Result.ok (w1, ex_handle, 0) ∧
      ack_only ex_world_ack w1 0) ∧
    (∃ out, nfct_delete_expectation ex_build_le32 (0 + 2) ex_world_ack ex_handle
      ex_flow.tuple.original NFCT_ANY_ID = Result.ok out) :=
  ⟨⟨_, rfl, (reply_modes ex_build_le32 1 ex_world_ack ex_handle ex_flow ex_expect
      ex_flow.tuple.original 1 NFCT_ANY_ID).2.2.2.2.2.2.2.2.2.2.2.1 _ ex_handle 0 rfl⟩,
    ⟨_, rfl, (reply_modes ex_build_le32 1 ex_world_ack ex_handle ex_flow ex_expect
      ex_flow.tuple.original 1 42).2.1 _ ex_handle 0 rfl⟩,
    ((reply_modes ex_build_le32 0 ex_world_ack ex_handle ex_flow ex_expect
      ex_flow.tuple.original 1 NFCT_ANY_ID).2.2.2.2.2.2.2.2.2.2.2.2
        (fun name => ⟨fun h => absurd h (by simp [ex_world_ack, ex_world]),
          fun hs h => absurd h (by simp [ex_world_ack, ex_world])⟩)).2.2.2.2.2.2.2.2.2⟩

/-- C12.  Whenever `nfct_delete_conntrack` or `nfct_get_conntrack` returns, the
body of the request it handed to the adapter is the tuple nested under
TUPLE_ORIG when `dir` is 0 and under TUPLE_REPLY otherwise (so when `dir` is
1), followed by an ID attribute exactly when `id` differs from `NFCT_ANY_ID`,
whose payload is the 4-byte big-endian encoding of `id`; for 42 that is
00 00 00 2A.  In a world whose plugins are well formed both return once they
have fuel for two nested lookups. -/
theorem flow_lookup_request_body (b : Build) (fuel : Nat) (w : World) (cth : nfct_handle)
    (tuple : nfct_tuple) (dir : Int) (id : Nat) :
    (∀ w1 c1 ret, nfct_delete_conntrack b fuel w cth tuple dir id = Result.ok (w1, c1, ret) →
      ∃ hd req, w1.trace = w.trace ++ [TransportEvent.talk req] ∧
        req.attrs =
          tuple_tree b hd tuple (if dir = 0 then CTA_TUPLE_ORIG else CTA_TUPLE_REPLY) ::
            (if id ≠ NFCT_ANY_ID then [nfattr.leaf CTA_ID (be_bytes 4 id)] else [])) ∧
    (∀ w1 c1 ret, nfct_get_conntrack b fuel w cth tuple dir id = Result.ok (w1, c1, ret) →
      ∃ hd req rest, w1.trace = w.trace ++ TransportEvent.send req :: rest ∧
        req.attrs =
          tuple_tree b hd tuple (if dir = 0 then CTA_TUPLE_ORIG else CTA_TUPLE_REPLY) ::
            (if id ≠ NFCT_ANY_ID then [nfattr.leaf CTA_ID (be_bytes 4 id)] else [])) ∧
    be_bytes 4 42 = [0x00, 0x00, 0x00, 0x2A] ∧
    (w.sane b →
      (∃ out, nfct_delete_conntrack b (fuel + 2) w cth tuple dir id = Result.ok out) ∧
      (∃ out, nfct_get_conntrack b (fuel + 2) w cth tuple dir id = Result.ok out)) :=
  ⟨fun _ _ _ h => nfct_delete_conntrack_body h, fun _ _ _ h => nfct_get_conntrack_body h,
    by decide,
    fun hs => ⟨nfct_delete_conntrack_sane b fuel w cth tuple dir id hs,
      nfct_get_conntrack_sane b fuel w cth tuple dir id hs⟩⟩

/-- Witness for `flow_lookup_request_body`: delete by reply tuple with id 42 on
a little-endian build with an empty registry hands over TUPLE_REPLY around the
addresses 10.0.0.2 and 10.0.0.1 and protocol 6, then ID with 00 00 00 2A. -/
theorem flow_lookup_request_body_witness :
    ∃ w1, nfct_delete_conntrack ex_build_le32 1 ex_world ex_handle ex_flow.tuple.reply 1 42 =
        Result.ok (w1, ex_handle, 0) ∧
      (∃ req, w1.trace = [TransportEvent.talk req] ∧
        req.attrs = [nfattr.nest CTA_TUPLE_REPLY
            [nfattr.nest CTA_TUPLE_IP [nfattr.leaf CTA_IP_V4_SRC [10, 0, 0, 2],
              nfattr.leaf CTA_IP_V4_DST [10, 0, 0, 1]],
             nfattr.nest CTA_TUPLE_PROTO [nfattr.leaf CTA_PROTO_NUM [6, 0]]],
          nfattr.leaf CTA_ID [0x00, 0x00, 0x00, 0x2A]]) ∧
      (∃ hd req, w1.trace = ex_world.trace ++ [TransportEvent.talk req] ∧
        req.attrs =
          tuple_tree ex_build_le32 hd ex_flow.tuple.reply
              (if (1 : Int) = 0 then CTA_TUPLE_ORIG else CTA_TUPLE_REPLY) ::
            (if 42 ≠ NFCT_ANY_ID then [nfattr.leaf CTA_ID (be_bytes 4 42)] else [])) :=
  ⟨_, rfl, ⟨_, rfl, rfl⟩,
    (flow_lookup_request_body ex_build_le32 1 ex_world ex_handle ex_flow.tuple.reply 1 42).1
      _ ex_handle 0 rfl⟩

/-- C13.  Evaluation at the failing input.  On a little-endian build with an
empty registry, `nfct_get_expectation` and `nfct_delete_expectation` called
with id 42 hand over a request whose ID attribute carries 2A 00 00 00, the
bytes of the id as the host holds it, not the big-endian encoding
00 00 00 2A; `nfct_get_conntrack` on the same build carries 00 00 00 2A. -/
theorem expectation_id_host_order :
    (∃ w1 c1 ret req rest,
      nfct_get_expectation ex_build_le32 1 ex_world ex_handle ex_expect.master 42 =
        Result.ok (w1, c1, ret) ∧
      w1.trace = TransportEvent.send req :: rest ∧
      req.attrs = [tuple_tree ex_build_le32 none ex_expect.master CTA_EXPECT_MASTER,
        nfattr.leaf CTA_EXPECT_ID [0x2A, 0x00, 0x00, 0x00]]) ∧
    (∃ w1 c1 ret req rest,
      nfct_delete_expectation ex_build_le32 1 ex_world ex_handle ex_expect.master 42 =
        Result.ok (w1, c1, ret) ∧
      w1.trace = TransportEvent.send req :: rest ∧
      req.attrs = [tuple_tree ex_build_le32 none ex_expect.master CTA_EXPECT_MASTER,
        nfattr.leaf CTA_EXPECT_ID [0x2A, 0x00, 0x00, 0x00]]) ∧
    (∃ w1 c1 ret req rest,
      nfct_get_conntrack ex_build_le32 1 ex_world ex_handle ex_expect.master 0 42 =
        Result.ok (w1, c1, ret) ∧
      w1.trace = TransportEvent.send req :: rest ∧
      req.attrs = [tuple_tree ex_build_le32 none ex_expect.master CTA_TUPLE_ORIG,
        nfattr.leaf CTA_ID [0x00, 0x00, 0x00, 0x2A]]) ∧
    be_bytes 4 42 = [0x00, 0x00, 0x00, 0x2A] :=
  ⟨⟨_, _, _, _, _, rfl, rfl, rfl⟩, ⟨_, _, _, _, _, rfl, rfl, rfl⟩,
    ⟨_, _, _, _, _, rfl, rfl, rfl⟩, by decide⟩

/-- C14.  For every registry state and every handler `h`: when the version of
`h` differs from that of the library, `nfct_register_proto` ends the process
with status 1 and the handler list is what it was; when the versions are
equal it returns, `h` is linked in, every handler registered before is still
in the list, and `findproto` on the name of `h` gives `h` itself at its first
scan, leaving the world as it is, whatever the loader would have done and
whatever was registered under that name before. -/
theorem register_then_find (b : Build) (fuel : Nat) (w : World) (h : nfct_proto) :
    (h.version ≠ b.VERSION →
      nfct_register_proto b w h = Result.exit 1 ∧
      nfct_register_proto_list b w h = w.proto_list) ∧
    (h.version = b.VERSION →
      ∃ w1, nfct_register_proto b w h = Result.ok w1 ∧
        w1.proto_list = nfct_register_proto_list b w h ∧
        w1.proto_list = h :: w.proto_list ∧
        (∀ g ∈ w.proto_list, g ∈ w1.proto_list) ∧
        scan_proto_list w1.proto_list h.name = some h ∧
        findproto b (fuel + 1) w1 (some h.name) = Result.ok (w1, some h) ∧
        ∀ files loaded,
          findproto b (fuel + 1) { w1 with files := files, loaded := loaded } (some h.name) =
            Result.ok ({ w1 with files := files, loaded := loaded }, some h)) := by
  constructor
  · intro hv
    simp [nfct_register_proto, nfct_register_proto_list, hv]
  · intro hv
    refine ⟨{ w with proto_list := h :: w.proto_list }, ?_, ?_, rfl, ?_, ?_, ?_, ?_⟩
    · simp [nfct_register_proto, hv]
    · simp [nfct_register_proto_list, hv]
    · intro g hg
      exact List.mem_cons_of_mem _ hg
    · exact scan_proto_list_head h _
    · exact findproto_found b fuel _ _ h (scan_proto_list_head h _)
    · intro files loaded
      exact findproto_found b fuel _ _ h (scan_proto_list_head h _)

/-- Witness for `register_then_find`: on a registry that already holds a
handler named "tcp", a stale handler ends the process, and a second handler
named "tcp" of the right version is found in place of the first. -/
theorem register_then_find_witness :
    (nfct_register_proto ex_build_le32 { ex_world with proto_list := [ex_proto_tcp] }
        ex_proto_stale = Result.exit 1 ∧
      nfct_register_proto_list ex_build_le32 { ex_world with proto_list := [ex_proto_tcp] }
        ex_proto_stale = [ex_proto_tcp]) ∧
    (∃ w1, nfct_register_proto ex_build_le32 { ex_world with proto_list := [ex_proto_tcp] }
        ex_proto_tcp_again = Result.ok w1 ∧
      w1.proto_list = [ex_proto_tcp_again, ex_proto_tcp] ∧
      findproto ex_build_le32 1 w1 (some "tcp") = Result.ok (w1, some ex_proto_tcp_again)) := by
  refine ⟨(register_then_find ex_build_le32 0 { ex_world with proto_list := [ex_proto_tcp] }
      ex_proto_stale).1 (by decide), ?_⟩
  obtain ⟨w1, h1, _, h3, _, _, h6, _⟩ :=
    (register_then_find ex_build_le32 0 { ex_world with proto_list := [ex_proto_tcp] }
      ex_proto_tcp_again).2 (by decide)
  exact ⟨w1, h1, h3, h6⟩

/-- C15.  Evaluation at the failing input.  In a world whose plugin file for
"tcp" can be mapped but registers no handler, `findproto` on "tcp" does not
return, however much fuel it is given: the loader succeeds, the scan after it
fails again, and the function calls itself without end. -/
theorem findproto_silent_plugin_diverges :
    ∀ fuel, findproto ex_build_le32 fuel ex_world_silent_plugin (some "tcp") =
      Result.diverge :=
  findproto_diverges_of_silent_plugin ex_build_le32 ex_world_silent_plugin "tcp" rfl
    (by simp [ex_world_silent_plugin, ex_world, plugin_path, lib_dir, ex_build_le32])

/-- C16.  Evaluation at the failing input: protocol number 132 (`sctp`) in a
world with an empty registry, the default plugin directory and no plugin file.
The array `path` of `findproto` has 37 elements while `sprintf` writes the 37
bytes of `/usr/lib/conntrack/nfct_proto_sctp.so` and a NUL, so the lookup that
finds no handler writes one byte behind the array before the loader is asked.
`nfct_build_tuple` emits the nest of IP with V4_SRC and V4_DST and PROTO with
NUM only, and `nfct_build_protoinfo` emits nothing, each after one such write;
`nfct_conntrack_netlink_handler` hands the callback the addresses, the number
132 and zero layer-4 regions and protoinfo for a reply of its true length,
after three such writes. -/
theorem missing_handler_overruns_path :
    proto2str 132 = some "sctp" ∧
    scan_proto_list ex_world.proto_list "sctp" = none ∧
    lib_dir ex_build_le32 ex_world = "/usr/lib/conntrack" ∧
    plugin_path "/usr/lib/conntrack" "sctp" = "/usr/lib/conntrack/nfct_proto_sctp.so" ∧
    path_size "/usr/lib/conntrack" "sctp" = 37 ∧
    sprintf_bytes (plugin_path "/usr/lib/conntrack" "sctp") = 38 ∧
    ex_world.overrun = 0 ∧
    (∃ w1, findproto ex_build_le32 1 ex_world (proto2str 132) = Result.ok (w1, none) ∧
      w1.overrun = 1) ∧
    (∃ w1 req1,
      nfct_build_tuple ex_build_le32 1 ex_world nfnlhdr.zero ex_tuple_sctp CTA_TUPLE_ORIG =
        Result.ok (w1, req1) ∧
      w1.overrun = 1 ∧
      req1.attrs =
        [nfattr.nest CTA_TUPLE_ORIG
          [nfattr.nest CTA_TUPLE_IP
            [nfattr.leaf CTA_IP_V4_SRC [10, 0, 0, 1], nfattr.leaf CTA_IP_V4_DST [10, 0, 0, 2]],
           nfattr.nest CTA_TUPLE_PROTO [nfattr.leaf CTA_PROTO_NUM [132, 0]]]]) ∧
    (∃ w1,
      nfct_build_protoinfo ex_build_le32 1 ex_world nfnlhdr.zero
        { ex_flow with tuple := ⟨ex_tuple_sctp, ex_tuple_sctp⟩ } =
          Result.ok (w1, nfnlhdr.zero) ∧
      w1.overrun = 1) ∧
    ex_reply_sctp.nlmsg_len = 148 ∧
    (∃ w1,
      nfct_conntrack_netlink_handler ex_build_le32 1 ex_world ex_handle_stop ex_reply_sctp =
        Result.ok (w1, 7) ∧
      w1.overrun = 3 ∧
      w1.calls = [⟨CallbackArg.conntrack
          { nfct_conntrack.zero with
            tuple := ⟨⟨0x0100000A, 0x0200000A, 132, 0, ⟨0⟩, ⟨0⟩⟩,
              ⟨0x0200000A, 0x0100000A, 132, 0, ⟨0⟩, ⟨0⟩⟩⟩
            status := 2 },
          NFCT_STATUS ||| NFCT_PROTOINFO, NFCT_MSG_UPDATE, 99⟩]) := by
  refine ⟨rfl, rfl, rfl, by decide, by decide, by decide, rfl, ⟨_, rfl, rfl⟩,
    ⟨_, _, rfl, rfl, rfl⟩, ⟨_, rfl, rfl⟩, by decide, ⟨_, rfl, rfl, rfl⟩⟩

/-- C17.  For a flow message whose length covers the two headers: when a
callback is installed and `nfct_conntrack_netlink_handler` returns, the
callback has been invoked exactly once more, with a record, the flags, the
message kind and the user data of the handle, and the value returned is the
value that invocation answered; when no callback is installed the value
returned is 0 and nothing was invoked.  For a message of the flow subsystem
on a handle with this handler installed, a non-zero result is the result of
the trampoline and of the receive loop, which stops there.  In a world whose
plugins are well formed the handler returns once it has fuel for two nested
lookups. -/
theorem flow_handler_returns_callback_result (b : Build) (fuel : Nat) (w : World)
    (cth : nfct_handle) (nlh : nlmsghdr)
    (hl : 0 ≤ to_int nlh.nlmsg_len - (NLMSG_LENGTH sizeof_nfgenmsg : Nat)) :
    (∀ cb w1 ret, cth.callback = some cb →
      nfct_conntrack_netlink_handler b fuel w cth nlh = Result.ok (w1, ret) →
      ∃ ct flags,
        w1.calls = w.calls ++ [⟨CallbackArg.conntrack ct, flags,
          typemsg2enum (NFNL_MSG_TYPE nlh.nlmsg_type) nlh.nlmsg_flags, cth.callback_data⟩] ∧
        ret = cb (CallbackArg.conntrack ct) flags
          (typemsg2enum (NFNL_MSG_TYPE nlh.nlmsg_type) nlh.nlmsg_flags) cth.callback_data) ∧
    (∀ w1 ret, cth.callback = none →
      nfct_conntrack_netlink_handler b fuel w cth nlh = Result.ok (w1, ret) →
      ret = 0 ∧ w1.calls = w.calls) ∧
    (∀ rest w1 ret, NFNL_SUBSYS_ID nlh.nlmsg_type = NFNL_SUBSYS_CTNETLINK →
      cth.handler = some nfct_handler.conntrack →
      nfct_conntrack_netlink_handler b fuel { w with inbox := rest } cth nlh =
        Result.ok (w1, ret) →
      ret ≠ 0 →
      callback_handler b fuel { w with inbox := rest } nlh (some cth) = Result.ok (w1, ret) ∧
      nfnl_listen_loop (fun w0 n => callback_handler b fuel w0 n (some cth)) w (nlh :: rest) =
        Result.ok (w1, ret)) ∧
    (w.sane b →
      ∃ w1 ret, nfct_conntrack_netlink_handler b (fuel + 2) w cth nlh = Result.ok (w1, ret)) := by
  refine ⟨?_, ?_, ?_, ?_⟩
  · intro cb w1 ret hcb h
    obtain ⟨wa, t0, wb, t1, wc, hd, _, _, _, fr, hi⟩ :=
      nfct_conntrack_netlink_handler_ok (attr_len_not_neg nlh hl) h
    rw [invoke_callback_some _ _ _ _ _ cb hcb] at hi
    simp only [Prod.mk.injEq] at hi
    refine ⟨_, _, ?_, hi.2⟩
    rw [hi.1, fr.2.2.2.2.2.2]
  · intro w1 ret hcb h
    obtain ⟨wa, t0, wb, t1, wc, hd, _, _, _, fr, hi⟩ :=
      nfct_conntrack_netlink_handler_ok (attr_len_not_neg nlh hl) h
    simp only [invoke_callback, hcb, Prod.mk.injEq] at hi
    exact ⟨hi.2, by rw [hi.1, fr.2.2.2.2.2.2]⟩
  · intro rest w1 ret hsub hh h hr
    have hc : callback_handler b fuel { w with inbox := rest } nlh (some cth) =
        Result.ok (w1, ret) := by
      unfold callback_handler
      rw [if_neg (fun hx => hx.1 hsub)]
      simp only [hh, nfct_handler.run]
      exact h
    refine ⟨hc, ?_⟩
    have h1 : nlh.nlmsg_type ≠ NLMSG_DONE := by
      intro hx; rw [hx] at hsub; exact absurd hsub (by decide)
    have h2 : nlh.nlmsg_type ≠ NLMSG_ERROR := by
      intro hx; rw [hx] at hsub; exact absurd hsub (by decide)
    rw [nfnl_listen_loop, if_neg h1, if_neg h2, hc]
    simp [Result.bind, hr]
  · intro hs
    obtain ⟨w1, ret, h, _⟩ := nfct_conntrack_netlink_handler_sane b fuel w cth nlh hs
    exact ⟨w1, ret, h⟩

/-- Witness for `flow_handler_returns_callback_result`: a flow message handled
on a handle whose callback answers 7; the handler and the receive loop both
return 7 after one invocation. -/
theorem flow_handler_returns_callback_result_witness :
    (0 : Int) ≤ to_int (ex_msg 0x100 0 []).nlmsg_len - (NLMSG_LENGTH sizeof_nfgenmsg : Nat) ∧
    (∃ w1, nfct_conntrack_netlink_handler ex_build_le32 1 ex_world ex_handle_stop
        (ex_msg 0x100 0 []) = Result.ok (w1, 7) ∧
      ∃ ct flags,
        w1.calls = ex_world.calls ++ [⟨CallbackArg.conntrack ct, flags,
          typemsg2enum (NFNL_MSG_TYPE (ex_msg 0x100 0 []).nlmsg_type)
            (ex_msg 0x100 0 []).nlmsg_flags, ex_handle_stop.callback_data⟩] ∧
        (7 : Int) = (fun _ _ _ _ => 7) (CallbackArg.conntrack ct) flags
          (typemsg2enum (NFNL_MSG_TYPE (ex_msg 0x100 0 []).nlmsg_type)
            (ex_msg 0x100 0 []).nlmsg_flags) ex_handle_stop.callback_data) ∧
    (∃ w1, nfnl_listen_loop
        (fun w0 n => callback_handler ex_build_le32 1 w0 n (some ex_handle_stop)) ex_world
        [ex_msg 0x100 0 [], ex_msg 0x100 0 []] = Result.ok (w1, 7)) :=
  ⟨by decide,
    ⟨_, rfl, (flow_handler_returns_callback_result ex_build_le32 1 ex_world ex_handle_stop
      (ex_msg 0x100 0 []) (by decide)).1 (fun _ _ _ _ => 7) _ 7 rfl rfl⟩,
    ⟨_, ((flow_handler_returns_callback_result ex_build_le32 1 ex_world ex_handle_stop
      (ex_msg 0x100 0 []) (by decide)).2.2.1 [ex_msg 0x100 0 []] _ 7 rfl rfl rfl
        (by decide)).2⟩⟩

/-- C18.  Evaluation at the failing input.  With a callback that answers 7 and
two expectation events on the socket, `nfct_expect_netlink_handler` invokes the
callback and returns 0, not 7, so `nfct_event_expectation` does not stop at
the first event: the callback is invoked for both and the pump runs to the end
of the stream.  `nfct_event_conntrack` with the same callback and two flow
events stops after the first and returns 7. -/
theorem expect_handler_drops_callback_result :
    (∃ w1, nfct_expect_netlink_handler ex_build_le32 1 ex_world ex_handle_exp_stop
        (ex_msg ((NFNL_SUBSYS_CTNETLINK_EXP <<< 8) ||| IPCTNL_MSG_EXP_NEW) 0 []) =
          Result.ok (w1, 0) ∧
      w1.calls = [⟨CallbackArg.expect nfct_expect.zero, 0, NFCT_MSG_UPDATE, 99⟩] ∧
      ex_handle_exp_stop.callback.map
        (fun cb => cb (CallbackArg.expect nfct_expect.zero) 0 NFCT_MSG_UPDATE 99) = some 7) ∧
    (∃ w1 c1, nfct_event_expectation ex_build_le32 1 ex_world_two_expect ex_handle_exp_stop =
        Result.ok (w1, c1, -1) ∧
      w1.calls = [⟨CallbackArg.expect nfct_expect.zero, 0, NFCT_MSG_UPDATE, 99⟩,
        ⟨CallbackArg.expect nfct_expect.zero, 0, NFCT_MSG_UPDATE, 99⟩] ∧
      w1.inbox = []) ∧
    (∃ w1 c1, nfct_event_conntrack ex_build_le32 1 ex_world_two_flow ex_handle_exp_stop =
        Result.ok (w1, c1, 7) ∧
      w1.calls = [⟨CallbackArg.conntrack nfct_conntrack.zero, 0, NFCT_MSG_UPDATE, 99⟩] ∧
      w1.inbox.length = 1) :=
  ⟨⟨_, rfl, rfl, rfl⟩, ⟨_, _, rfl, rfl, rfl⟩, ⟨_, _, rfl, rfl, rfl⟩⟩

/-- C19.  Whenever they return, update_flow, get_flow, dump_flows,
dump_and_zero, dump_expectations, get_expectation, create_expectation and
delete_expectation have called `nfnl_send` first, and when that send gave a
negative code the operation returns exactly that code, has not entered the
receive loop and has run no callback; create_flow, delete_flow, flush_flows and
flush_expectations return exactly the code the send-and-wait-for-ACK primitive
gave.  In a world whose plugins are well formed every one of them returns
once it has fuel for two nested lookups. -/
theorem transport_errors_pass (b : Build) (fuel : Nat) (w : World) (cth : nfct_handle)
    (ct : nfct_conntrack) (exp : nfct_expect) (tuple : nfct_tuple) (dir : Int) (id : Nat) :
    (∀ w1 c1 ret, nfct_update_conntrack b fuel w cth ct = Result.ok (w1, c1, ret) →
      send_error_passes w w1 ret) ∧
    (∀ w1 c1 ret, nfct_get_conntrack b fuel w cth tuple dir id = Result.ok (w1, c1, ret) →
      send_error_passes w w1 ret) ∧
    (∀ w1 c1 ret, nfct_dump_conntrack_table b fuel w cth = Result.ok (w1, c1, ret) →
      send_error_passes w w1 ret) ∧
    (∀ w1 c1 ret,
      nfct_dump_conntrack_table_reset_counters b fuel w cth = Result.ok (w1, c1, ret) →
      send_error_passes w w1 ret) ∧
    (∀ w1 c1 ret, nfct_dump_expect_list b fuel w cth = Result.ok (w1, c1, ret) →
      send_error_passes w w1 ret) ∧
    (∀ w1 c1 ret, nfct_get_expectation b fuel w cth tuple id = Result.ok (w1, c1, ret) →
      send_error_passes w w1 ret) ∧
    (∀ w1 c1 ret, nfct_create_expectation b fuel w cth exp = Result.ok (w1, c1, ret) →
      send_error_passes w w1 ret) ∧
    (∀ w1 c1 ret, nfct_delete_expectation b fuel w cth tuple id = Result.ok (w1, c1, ret) →
      send_error_passes w w1 ret) ∧
    (∀ w1 c1 ret, nfct_create_conntrack b fuel w cth ct = Result.ok (w1, c1, ret) →
      ack_only w w1 ret) ∧
    (∀ w1 c1 ret, nfct_delete_conntrack b fuel w cth tuple dir id = Result.ok (w1, c1, ret) →
      ack_only w w1 ret) ∧
    ack_only w (nfct_flush_conntrack_table w cth).1 (nfct_flush_conntrack_table w cth).2.2 ∧
    ack_only w (nfct_flush_expectation_table w cth).1 (nfct_flush_expectation_table w cth).2.2 ∧
    (w.sane b →
      (∃ out, nfct_update_conntrack b (fuel + 2) w cth ct = Result.ok out) ∧
      (∃ out, nfct_get_conntrack b (fuel + 2) w cth tuple dir id = Result.ok out) ∧
      (∃ out, nfct_dump_conntrack_table b (fuel + 2) w cth = Result.ok out) ∧
      (∃ out, nfct_dump_conntrack_table_reset_counters b (fuel + 2) w cth = Result.ok out) ∧
      (∃ out, nfct_dump_expect_list b (fuel + 2) w cth = Result.ok out) ∧
      (∃ out, nfct_get_expectation b (fuel + 2) w cth tuple id = Result.ok out) ∧
      (∃ out, nfct_create_expectation b (fuel + 2) w cth exp = Result.ok out) ∧
      (∃ out, nfct_delete_expectation b (fuel + 2) w cth tuple id = Result.ok out) ∧
      (∃ out, nfct_create_conntrack b (fuel + 2) w cth ct = Result.ok out) ∧
      (∃ out, nfct_delete_conntrack b (fuel + 2) w cth tuple dir id = Result.ok out)) := by
  refine ⟨fun _ _ _ h => drain_mode_send_error (nfct_update_conntrack_mode h),
    fun _ _ _ h => drain_mode_send_error (nfct_get_conntrack_mode h),
    fun _ _ _ h => drain_mode_send_error (nfct_dump_conntrack_table_aux_mode h),
    fun _ _ _ h => drain_mode_send_error (nfct_dump_conntrack_table_aux_mode h),
    fun _ _ _ h => drain_mode_send_error (nfct_dump_expect_list_mode h),
    fun _ _ _ h => drain_mode_send_error (nfct_get_expectation_mode h),
    fun _ _ _ h => drain_mode_send_error (nfct_create_expectation_mode h),
    fun _ _ _ h => drain_mode_send_error (nfct_delete_expectation_mode h),
    fun _ _ _ h => nfct_create_conntrack_mode h,
    fun _ _ _ h => nfct_delete_conntrack_mode h,
    nfnl_talk_ack_only _ (World.frame_refl w), nfnl_talk_ack_only _ (World.frame_refl w), ?_⟩
  intro hs
  exact ⟨nfct_update_conntrack_sane b fuel w cth ct hs,
    nfct_get_conntrack_sane b fuel w cth tuple dir id hs,
    send_then_listen_sane b fuel w _ _ hs, send_then_listen_sane b fuel w _ _ hs,
    send_then_listen_sane b fuel w _ _ hs,
    nfct_get_expectation_sane b fuel w cth tuple id hs,
    nfct_create_expectation_sane b fuel w cth exp hs,
    nfct_delete_expectation_sane b fuel w cth tuple id hs,
    nfct_create_conntrack_sane b fuel w cth ct hs,
    nfct_delete_conntrack_sane b fuel w cth tuple dir id hs⟩

/-- Witness for `transport_errors_pass`: over a transport whose send fails with
code -5, get_flow and create_expectation return -5 after the one send, and the
operations return when the registry is empty. -/
theorem transport_errors_pass_witness :
    (∃ w1 req, nfct_get_conntrack ex_build_le32 1 ex_world_down ex_handle
        ex_flow.tuple.original 0 NFCT_ANY_ID =
          Result.ok (w1, { ex_handle with handler := some nfct_handler.conntrack }, -5) ∧
      w1.trace = [TransportEvent.send req] ∧ send_error_passes ex_world_down w1 (-5)) ∧
    (∃ w1, nfct_create_expectation ex_build_le32 1 ex_world_down ex_handle ex_expect =
        Result.ok (w1, ex_handle, -5) ∧ send_error_passes ex_world_down w1 (-5)) ∧
    (∃ out, nfct_get_conntrack ex_build_le32 (0 + 2) ex_world_down ex_handle
      ex_flow.tuple.original 0 NFCT_ANY_ID = Result.ok out) :=
  ⟨⟨_, _, rfl, rfl, (transport_errors_pass ex_build_le32 1 ex_world_down ex_handle ex_flow
      ex_expect ex_flow.tuple.original 0 NFCT_ANY_ID).2.1 _ _ (-5) rfl⟩,
    ⟨_, rfl, (transport_errors_pass ex_build_le32 1 ex_world_down ex_handle ex_flow
      ex_expect ex_flow.tuple.original 0 NFCT_ANY_ID).2.2.2.2.2.2.1 _ ex_handle (-5) rfl⟩,
    ((transport_errors_pass ex_build_le32 0 ex_world_down ex_handle ex_flow ex_expect
      ex_flow.tuple.original 0 NFCT_ANY_ID).2.2.2.2.2.2.2.2.2.2.2.2
        (fun name => ⟨fun h => absurd h (by simp [ex_world_down, ex_world]),
          fun hs h => absurd h (by simp [ex_world_down, ex_world])⟩)).2.1⟩

/-- C20.  `callback_handler` answers 0 and leaves everything as it was, the
installed handler not run, when the subsystem id of the message is neither
that of flows nor that of expectations; when it is one of the two, the
outcome is that of one run of the handler installed in the handle given, and
it is `-ENODEV`, nothing run, when no handle is given or its handler slot is
empty. -/
theorem callback_handler_filters (b : Build) (fuel : Nat) (w : World) (n : nlmsghdr)
    (arg : Option nfct_handle) :
    (NFNL_SUBSYS_ID n.nlmsg_type ≠ NFNL_SUBSYS_CTNETLINK →
      NFNL_SUBSYS_ID n.nlmsg_type ≠ NFNL_SUBSYS_CTNETLINK_EXP →
      callback_handler b fuel w n arg = Result.ok (w, 0)) ∧
    (NFNL_SUBSYS_ID n.nlmsg_type = NFNL_SUBSYS_CTNETLINK ∨
        NFNL_SUBSYS_ID n.nlmsg_type = NFNL_SUBSYS_CTNETLINK_EXP →
      (∀ cth h, arg = some cth → cth.handler = some h →
        callback_handler b fuel w n arg = h.run b fuel w cth n) ∧
      (arg = none → callback_handler b fuel w n arg = Result.ok (w, -ENODEV)) ∧
      (∀ cth, arg = some cth → cth.handler = none →
        callback_handler b fuel w n arg = Result.ok (w, -ENODEV))) := by
  constructor
  · intro h1 h2
    unfold callback_handler
    rw [if_pos ⟨h1, h2⟩]
  · intro hs
    have hn : ¬ (NFNL_SUBSYS_ID n.nlmsg_type ≠ NFNL_SUBSYS_CTNETLINK ∧
        NFNL_SUBSYS_ID n.nlmsg_type ≠ NFNL_SUBSYS_CTNETLINK_EXP) := by
      rintro ⟨h1, h2⟩
      exact hs.elim h1 h2
    refine ⟨?_, ?_, ?_⟩
    · intro cth h ha hh
      unfold callback_handler
      rw [if_neg hn, ha]
      simp only [hh]
    · intro ha
      unfold callback_handler
      rw [if_neg hn, ha]
    · intro cth ha hh
      unfold callback_handler
      rw [if_neg hn, ha]
      simp only [hh]

/-- Witness for `callback_handler_filters`: a message of subsystem 3 is dropped
with 0, a flow message without a handle gives -19, a flow message on a handle
without a handler gives -19, and a flow message on a handle with the flow
handler installed gives what the callback answered, 7. -/
theorem callback_handler_filters_witness :
    callback_handler ex_build_le32 1 ex_world (ex_msg 0x300 0 []) (some ex_handle_stop) =
      Result.ok (ex_world, 0) ∧
    callback_handler ex_build_le32 1 ex_world (ex_msg 0x100 0 []) none =
      Result.ok (ex_world, -19) ∧
    callback_handler ex_build_le32 1 ex_world (ex_msg 0x200 0 []) (some ex_handle) =
      Result.ok (ex_world, -19) ∧
    callback_handler ex_build_le32 1 ex_world (ex_msg 0x100 0 []) (some ex_handle_stop) =
      nfct_handler.conntrack.run ex_build_le32 1 ex_world ex_handle_stop (ex_msg 0x100 0 []) ∧
    (∃ w1, callback_handler ex_build_le32 1 ex_world (ex_msg 0x100 0 []) (some ex_handle_stop) =
      Result.ok (w1, 7)) :=
  ⟨(callback_handler_filters ex_build_le32 1 ex_world (ex_msg 0x300 0 [])
      (some ex_handle_stop)).1 (by decide) (by decide),
    ((callback_handler_filters ex_build_le32 1 ex_world (ex_msg 0x100 0 []) none).2
      (Or.inl (by decide))).2.1 rfl,
    ((callback_handler_filters ex_build_le32 1 ex_world (ex_msg 0x200 0 [])
      (some ex_handle)).2 (Or.inr (by decide))).2.2 ex_handle rfl rfl,
    ((callback_handler_filters ex_build_le32 1 ex_world (ex_msg 0x100 0 [])
      (some ex_handle_stop)).2 (Or.inl (by decide))).1 ex_handle_stop nfct_handler.conntrack
        rfl rfl,
    ⟨_, rfl⟩⟩

/-- C21, as stated, fails.  On a handle whose handler slot is empty, with two
flow messages waiting on the socket, `nfct_update_conntrack` sends its request
and enters the receive loop without installing a handler: the slot is still
empty afterwards, the trampoline answers `-ENODEV` for the first message and
the callback is never invoked. -/
theorem update_conntrack_installs_no_handler :
    ∃ w1 c1 req,
      nfct_update_conntrack ex_build_le32 1 ex_world_two_flow ex_handle ex_flow =
        Result.ok (w1, c1, -ENODEV) ∧
      w1.trace = [TransportEvent.send req, TransportEvent.listen] ∧
      ex_handle.handler = none ∧ c1.handler = none ∧ w1.calls = [] :=
  ⟨_, _, _, rfl, rfl, rfl, rfl, rfl⟩

/-- C21, amended.  Whenever they return: get_flow, dump_flows and
dump_and_zero run their receive loop on the handle with
`nfct_conntrack_netlink_handler` installed, event_flows with
`nfct_event_netlink_handler`, get_expectation, dump_expectations and
event_expectations with `nfct_expect_netlink_handler`, and that is the handle
afterwards; update_flow, create_expectation and delete_expectation run their
receive loop on the handle as they found it; create_flow, delete_flow,
flush_flows and flush_expectations leave the whole handle, so its handler
slot, callback and callback data, as it was.  In a world whose plugins are
well formed every one of them returns once it has fuel for two nested
lookups. -/
theorem handler_slot_discipline (b : Build) (fuel : Nat) (w : World) (cth : nfct_handle)
    (ct : nfct_conntrack) (exp : nfct_expect) (tuple : nfct_tuple) (dir : Int) (id : Nat) :
    (∀ w1 c1 ret, nfct_get_conntrack b fuel w cth tuple dir id = Result.ok (w1, c1, ret) →
      drains_with b fuel w w1 { cth with handler := some nfct_handler.conntrack } c1 ret) ∧
    (∀ w1 c1 ret, nfct_dump_conntrack_table b fuel w cth = Result.ok (w1, c1, ret) →
      drains_with b fuel w w1 { cth with handler := some nfct_handler.conntrack } c1 ret) ∧
    (∀ w1 c1 ret,
      nfct_dump_conntrack_table_reset_counters b fuel w cth = Result.ok (w1, c1, ret) →
      drains_with b fuel w w1 { cth with handler := some nfct_handler.conntrack } c1 ret) ∧
    (∀ w1 c1 ret, nfct_event_conntrack b fuel w cth = Result.ok (w1, c1, ret) →
      listens_with b fuel w w1 { cth with handler := some nfct_handler.event } c1 ret) ∧
    (∀ w1 c1 ret, nfct_get_expectation b fuel w cth tuple id = Result.ok (w1, c1, ret) →
      drains_with b fuel w w1 { cth with handler := some nfct_handler.expect } c1 ret) ∧
    (∀ w1 c1 ret, nfct_dump_expect_list b fuel w cth = Result.ok (w1, c1, ret) →
      drains_with b fuel w w1 { cth with handler := some nfct_handler.expect } c1 ret) ∧
    (∀ w1 c1 ret, nfct_event_expectation b fuel w cth = Result.ok (w1, c1, ret) →
      listens_with b fuel w w1 { cth with handler := some nfct_handler.expect } c1 ret) ∧
    (∀ w1 c1 ret, nfct_update_conntrack b fuel w cth ct = Result.ok (w1, c1, ret) →
      drains_with b fuel w w1 cth c1 ret) ∧
    (∀ w1 c1 ret, nfct_create_expectation b fuel w cth exp = Result.ok (w1, c1, ret) →
      drains_with b fuel w w1 cth c1 ret) ∧
    (∀ w1 c1 ret, nfct_delete_expectation b fuel w cth tuple id = Result.ok (w1, c1, ret) →
      drains_with b fuel w w1 cth c1 ret) ∧
    (∀ w1 c1 ret, nfct_create_conntrack b fuel w cth ct = Result.ok (w1, c1, ret) →
      c1 = cth) ∧
    (∀ w1 c1 ret, nfct_delete_conntrack b fuel w cth tuple dir id = Result.ok (w1, c1, ret) →
      c1 = cth) ∧
    (nfct_flush_conntrack_table w cth).2.1 = cth ∧
    (nfct_flush_expectation_table w cth).2.1 = cth ∧
    (w.sane b →
      (∃ out, nfct_get_conntrack b (fuel + 2) w cth tuple dir id = Result.ok out) ∧
      (∃ out, nfct_dump_conntrack_table b (fuel + 2) w cth = Result.ok out) ∧
      (∃ out, nfct_dump_conntrack_table_reset_counters b (fuel + 2) w cth = Result.ok out) ∧
      (∃ out, nfct_event_conntrack b (fuel + 2) w cth = Result.ok out) ∧
      (∃ out, nfct_get_expectation b (fuel + 2) w cth tuple id = Result.ok out) ∧
      (∃ out, nfct_dump_expect_list b (fuel + 2) w cth = Result.ok out) ∧
      (∃ out, nfct_event_expectation b (fuel + 2) w cth = Result.ok out) ∧
      (∃ out, nfct_update_conntrack b (fuel + 2) w cth ct = Result.ok out) ∧
      (∃ out, nfct_create_expectation b (fuel + 2) w cth exp = Result.ok out) ∧
      (∃ out, nfct_delete_expectation b (fuel + 2) w cth tuple id = Result.ok out) ∧
      (∃ out, nfct_create_conntrack b (fuel + 2) w cth ct = Result.ok out) ∧
      (∃ out, nfct_delete_conntrack b (fuel + 2) w cth tuple dir id = Result.ok out)) := by
  refine ⟨fun _ _ _ h => nfct_get_conntrack_slot h,
    fun _ _ _ h => drains_with_of (World.frame_refl w) h,
    fun _ _ _ h => drains_with_of (World.frame_refl w) h,
    fun _ _ _ h => ⟨listen_with_handle h, h⟩,
    fun _ _ _ h => nfct_get_expectation_slot h,
    fun _ _ _ h => drains_with_of (World.frame_refl w) h,
    fun _ _ _ h => ⟨listen_with_handle h, h⟩,
    fun _ _ _ h => nfct_update_conntrack_slot h,
    fun _ _ _ h => nfct_create_expectation_slot h,
    fun _ _ _ h => nfct_delete_expectation_slot h,
    fun _ _ _ h => nfct_create_conntrack_handle h,
    fun _ _ _ h => nfct_delete_conntrack_handle h, rfl, rfl, ?_⟩
  intro hs
  exact ⟨nfct_get_conntrack_sane b fuel w cth tuple dir id hs,
    send_then_listen_sane b fuel w _ _ hs, send_then_listen_sane b fuel w _ _ hs,
    listen_with_sane b fuel w _ hs,
    nfct_get_expectation_sane b fuel w cth tuple id hs,
    send_then_listen_sane b fuel w _ _ hs, listen_with_sane b fuel w _ hs,
    nfct_update_conntrack_sane b fuel w cth ct hs,
    nfct_create_expectation_sane b fuel w cth exp hs,
    nfct_delete_expectation_sane b fuel w cth tuple id hs,
    nfct_create_conntrack_sane b fuel w cth ct hs,
    nfct_delete_conntrack_sane b fuel w cth tuple dir id hs⟩

/-- Witness for `handler_slot_discipline`: on a handle with an empty slot and
two flow messages waiting, get_flow installs the flow handler and its callback
is invoked, update_flow leaves the slot empty, and create_flow returns the
handle it was given. -/
theorem handler_slot_discipline_witness :
    (∃ w1 c1, nfct_get_conntrack ex_build_le32 1 ex_world_two_flow ex_handle
        ex_flow.tuple.original 0 NFCT_ANY_ID = Result.ok (w1, c1, -1) ∧
      c1.handler = some nfct_handler.conntrack ∧ w1.calls.length = 2 ∧
      drains_with ex_build_le32 1 ex_world_two_flow w1
        { ex_handle with handler := some nfct_handler.conntrack } c1 (-1)) ∧
    (∃ w1 c1, nfct_update_conntrack ex_build_le32 1 ex_world_two_flow ex_handle ex_flow =
        Result.ok (w1, c1, -ENODEV) ∧
      drains_with ex_build_le32 1 ex_world_two_flow w1 ex_handle c1 (-ENODEV)) ∧
    (∃ w1 c1, nfct_create_conntrack ex_build_le32 1 ex_world_two_flow ex_handle ex_flow =
        Result.ok (w1, c1, 0) ∧ c1 = ex_handle) ∧
    (∃ out, nfct_update_conntrack ex_build_le32 (0 + 2) ex_world_two_flow ex_handle ex_flow =
      Result.ok out) :=
  ⟨⟨_, _, rfl, rfl, rfl, (handler_slot_discipline ex_build_le32 1 ex_world_two_flow ex_handle
      ex_flow ex_expect ex_flow.tuple.original 0 NFCT_ANY_ID).1 _ _ (-1) rfl⟩,
    ⟨_, _, rfl, (handler_slot_discipline ex_build_le32 1 ex_world_two_flow ex_handle
      ex_flow ex_expect ex_flow.tuple.original 0
        NFCT_ANY_ID).2.2.2.2.2.2.2.1 _ _ (-ENODEV) rfl⟩,
    ⟨_, _, rfl, (handler_slot_discipline ex_build_le32 1 ex_world_two_flow ex_handle
      ex_flow ex_expect ex_flow.tuple.original 0
        NFCT_ANY_ID).2.2.2.2.2.2.2.2.2.2.1 _ _ 0 rfl⟩,
    ((handler_slot_discipline ex_build_le32 0 ex_world_two_flow ex_handle ex_flow ex_expect
      ex_flow.tuple.original 0 NFCT_ANY_ID).2.2.2.2.2.2.2.2.2.2.2.2.2.2
        (fun name => ⟨fun h => absurd h (by simp [ex_world_two_flow, ex_world]),
          fun hs h => absurd h (by simp [ex_world_two_flow, ex_world])⟩)).2.2.2.2.2.2.2.1⟩

/-- C22.  For a flow message the handler does not reject for its length, the
attributes being those framed in the `nlmsg_len - 20` bytes behind the two
headers: whenever `nfct_conntrack_netlink_handler` returns with a callback
installed, the record it handed over has in `counters[ORIGINAL]` the packets
and bytes read from the COUNTERS_ORIG attribute and in `counters[REPLY]` those
read from COUNTERS_REPLY, and the counters of a direction whose attribute is
absent are zero.  The call `nfct_parse_counters(attr, ct, NFA_TYPE(attr) - 1)`
writes the original direction for a COUNTERS_ORIG attribute and the reply
direction for a COUNTERS_REPLY attribute, leaving the other direction as it
was; the value written is that of the 32-bit leaf when there is one, else that
of the 64-bit leaf, each read as the 4 or 8 bytes found at the data address of
the leaf.  In a world whose plugins are well formed the handler returns once
it has fuel for two nested lookups. -/
theorem counters_land_in_direction (b : Build) (fuel : Nat) (w : World) (cth : nfct_handle)
    (nlh : nlmsghdr) (hl : 0 ≤ attr_len nlh) :
    (∀ cb w1 ret, cth.callback = some cb →
      nfct_conntrack_netlink_handler b fuel w cth nlh = Result.ok (w1, ret) →
      ∃ ct flags,
        w1.calls = w.calls ++ [⟨CallbackArg.conntrack ct, flags,
          typemsg2enum (NFNL_MSG_TYPE nlh.nlmsg_type) nlh.nlmsg_flags, cth.callback_data⟩] ∧
        ct.counters.get NFCT_DIR_ORIGINAL =
          (match nfnl_parse_attr b.endian CTA_MAX nlh.data (attr_len nlh) (CTA_COUNTERS_ORIG - 1)
              with
            | some a => counters_after b a ⟨0, 0⟩
            | none => ⟨0, 0⟩) ∧
        ct.counters.get NFCT_DIR_REPLY =
          (match nfnl_parse_attr b.endian CTA_MAX nlh.data (attr_len nlh) (CTA_COUNTERS_REPLY - 1)
              with
            | some a => counters_after b a ⟨0, 0⟩
            | none => ⟨0, 0⟩)) ∧
    (∀ a ct, a.nfa_type = CTA_COUNTERS_ORIG →
      nfct_parse_counters b a ct (a.nfa_type - 1) =
        { ct with counters := ⟨counters_after b a ct.counters.original, ct.counters.reply⟩ }) ∧
    (∀ a ct, a.nfa_type = CTA_COUNTERS_REPLY →
      nfct_parse_counters b a ct (a.nfa_type - 1) =
        { ct with counters := ⟨ct.counters.original, counters_after b a ct.counters.reply⟩ }) ∧
    (∀ a c,
      (counters_after b a c).packets =
        (match nfnl_parse_nested b.endian CTA_COUNTERS_MAX a (CTA_COUNTERS32_PACKETS - 1) with
          | some x => htonl b.endian (deref_u32 b x)
          | none =>
            match nfnl_parse_nested b.endian CTA_COUNTERS_MAX a (CTA_COUNTERS_PACKETS - 1) with
            | some x => be64_to_cpu b.endian (deref_u64 b x)
            | none => c.packets) ∧
      (counters_after b a c).bytes =
        (match nfnl_parse_nested b.endian CTA_COUNTERS_MAX a (CTA_COUNTERS32_BYTES - 1) with
          | some x => htonl b.endian (deref_u32 b x)
          | none =>
            match nfnl_parse_nested b.endian CTA_COUNTERS_MAX a (CTA_COUNTERS_BYTES - 1) with
            | some x => be64_to_cpu b.endian (deref_u64 b x)
            | none => c.bytes)) ∧
    (w.sane b →
      ∃ w1 ret, nfct_conntrack_netlink_handler b (fuel + 2) w cth nlh = Result.ok (w1, ret)) := by
  refine ⟨?_, fun a ct ht => nfct_parse_counters_orig b a ct ht,
    fun a ct ht => nfct_parse_counters_reply b a ct ht,
    fun a c => counters_after_values b a c, ?_⟩
  · intro cb w1 ret hcb h
    obtain ⟨wa, t0, wb, t1, wc, hd, _, _, _, fr, hi⟩ :=
      nfct_conntrack_netlink_handler_ok (not_lt.mpr hl) h
    rw [invoke_callback_some _ _ _ _ _ cb hcb] at hi
    simp only [Prod.mk.injEq] at hi
    obtain ⟨c0, c1⟩ := parsed_flow_counters b nlh.data (attr_len nlh) t0 t1 hd
    refine ⟨_, _, by rw [hi.1, fr.2.2.2.2.2.2], ?_, ?_⟩
    · exact c0
    · exact c1
  · intro hs
    obtain ⟨w1, ret, h, _⟩ := nfct_conntrack_netlink_handler_sane b fuel w cth nlh hs
    exact ⟨w1, ret, h⟩

/-- Witness for `counters_land_in_direction`: a reply of 48 bytes with
COUNTERS_ORIG only gives 5 packets and 100 bytes in the original direction and
zeros in the reply direction; a reply of 76 bytes with both nests, on a
big-endian host, fills both directions. -/
theorem counters_land_in_direction_witness :
    ex_reply_counters_orig.nlmsg_len = 48 ∧ (0 : Int) ≤ attr_len ex_reply_counters_orig ∧
    (∃ w1, nfct_conntrack_netlink_handler ex_build_le32 1 ex_world ex_handle_stop
        ex_reply_counters_orig = Result.ok (w1, 7) ∧
      w1.calls = [⟨CallbackArg.conntrack
        { nfct_conntrack.zero with counters := ⟨⟨5, 100⟩, ⟨0, 0⟩⟩ },
        NFCT_COUNTERS_ORIG, NFCT_MSG_UPDATE, 99⟩] ∧
      ∃ ct flags,
        w1.calls = ex_world.calls ++ [⟨CallbackArg.conntrack ct, flags,
          typemsg2enum (NFNL_MSG_TYPE ex_reply_counters_orig.nlmsg_type)
            ex_reply_counters_orig.nlmsg_flags, ex_handle_stop.callback_data⟩] ∧
        ct.counters.get NFCT_DIR_ORIGINAL =
          (match nfnl_parse_attr ex_build_le32.endian CTA_MAX ex_reply_counters_orig.data
              (attr_len ex_reply_counters_orig) (CTA_COUNTERS_ORIG - 1) with
            | some a => counters_after ex_build_le32 a ⟨0, 0⟩
            | none => ⟨0, 0⟩) ∧
        ct.counters.get NFCT_DIR_REPLY =
          (match nfnl_parse_attr ex_build_le32.endian CTA_MAX ex_reply_counters_orig.data
              (attr_len ex_reply_counters_orig) (CTA_COUNTERS_REPLY - 1) with
            | some a => counters_after ex_build_le32 a ⟨0, 0⟩
            | none => ⟨0, 0⟩)) ∧
    ex_reply_counters_both.nlmsg_len = 76 ∧
    (∃ w1, nfct_conntrack_netlink_handler ex_build_be64 1 ex_world ex_handle_stop
        ex_reply_counters_both = Result.ok (w1, 7) ∧
      w1.calls = [⟨CallbackArg.conntrack
        { nfct_conntrack.zero with counters := ⟨⟨5, 100⟩, ⟨7, 200⟩⟩ },
        NFCT_COUNTERS_ORIG ||| NFCT_COUNTERS_RPLY, NFCT_MSG_UPDATE, 99⟩]) :=
  ⟨by decide, by decide,
    ⟨_, rfl, rfl, (counters_land_in_direction ex_build_le32 1 ex_world ex_handle_stop
      ex_reply_counters_orig (by decide)).1 (fun _ _ _ _ => 7) _ 7 rfl rfl⟩,
    by decide, ⟨_, rfl, rfl⟩⟩

/-- C23.  For every 4-byte payload, on a little-endian host as on a big-endian
one: when a counters nest carries it in COUNTERS32_PACKETS, the packets value
`nfct_parse_counters` stores is the payload read as a big-endian unsigned
32-bit integer, and likewise for COUNTERS32_BYTES and the bytes value; the
`htonl` the code applies to the word it loaded gives the same value as
`ntohl`. -/
theorem counters32_read_big_endian (b : Build) (attr : nfattr_ptr) (ct : nfct_conntrack)
    (parent : Nat) (bs : List Nat) (hlen : bs.length = 4) (hb : ∀ x ∈ bs, x < 256) :
    (∀ a, nfnl_parse_nested b.endian CTA_COUNTERS_MAX attr (CTA_COUNTERS32_PACKETS - 1) = some a →
      a.data = bs →
      ((nfct_parse_counters b attr ct parent).counters.get (counters_dir parent)).packets =
        from_be bs) ∧
    (∀ a, nfnl_parse_nested b.endian CTA_COUNTERS_MAX attr (CTA_COUNTERS32_BYTES - 1) = some a →
      a.data = bs →
      ((nfct_parse_counters b attr ct parent).counters.get (counters_dir parent)).bytes =
        from_be bs) ∧
    htonl b.endian (obj_value b.endian bs) = from_be bs ∧
    ntohl b.endian (obj_value b.endian bs) = from_be bs ∧
    from_be bs < 2 ^ 32 := by
  have hh := htonl_obj_value b.endian bs hlen hb
  have hlt : from_be bs < 2 ^ 32 := by
    have := from_be_lt bs hb
    rw [hlen] at this
    exact this
  refine ⟨?_, ?_, hh, hh, hlt⟩
  · intro a ha hd
    rw [nfct_parse_counters_eq]
    simp only [DirArray.get_set]
    rw [(counters_after_32 b attr _).1 a ha]
    have h4 : a.nfa_len - NFA_LENGTH 0 = 4 := by
      have hm := congrArg List.length hd
      rw [nfattr_ptr.data, mem_read_length, hlen] at hm
      exact hm
    unfold deref_u32
    rw [← h4]
    rw [nfattr_ptr.data] at hd
    rw [hd]
    exact hh
  · intro a ha hd
    rw [nfct_parse_counters_eq]
    simp only [DirArray.get_set]
    rw [(counters_after_32 b attr _).2 a ha]
    have h4 : a.nfa_len - NFA_LENGTH 0 = 4 := by
      have hm := congrArg List.length hd
      rw [nfattr_ptr.data, mem_read_length, hlen] at hm
      exact hm
    unfold deref_u32
    rw [← h4]
    rw [nfattr_ptr.data] at hd
    rw [hd]
    exact hh

/-- Witness for `counters32_read_big_endian`: the payload 00 00 01 2C in both
32-bit leaves of a COUNTERS_ORIG nest is stored as 300, on a little-endian and
on a big-endian build. -/
theorem counters32_read_big_endian_witness :
    (nfct_parse_counters ex_build_le32
        ((nfattr.nest CTA_COUNTERS_ORIG [nfattr.leaf CTA_COUNTERS32_PACKETS [0, 0, 1, 0x2C],
          nfattr.leaf CTA_COUNTERS32_BYTES [0, 0, 1, 0x2C]]).ptr Endian.little (fun _ => 0))
        nfct_conntrack.zero (CTA_COUNTERS_ORIG - 1)).counters = ⟨⟨300, 300⟩, ⟨0, 0⟩⟩ ∧
    (nfct_parse_counters ex_build_be64
        ((nfattr.nest CTA_COUNTERS_ORIG [nfattr.leaf CTA_COUNTERS32_PACKETS [0, 0, 1, 0x2C],
          nfattr.leaf CTA_COUNTERS32_BYTES [0, 0, 1, 0x2C]]).ptr Endian.big (fun _ => 0))
        nfct_conntrack.zero (CTA_COUNTERS_ORIG - 1)).counters = ⟨⟨300, 300⟩, ⟨0, 0⟩⟩ ∧
    ((nfct_parse_counters ex_build_le32
        ((nfattr.nest CTA_COUNTERS_ORIG [nfattr.leaf CTA_COUNTERS32_PACKETS [0, 0, 1, 0x2C],
          nfattr.leaf CTA_COUNTERS32_BYTES [0, 0, 1, 0x2C]]).ptr Endian.little (fun _ => 0))
        nfct_conntrack.zero (CTA_COUNTERS_ORIG - 1)).counters.get
          (counters_dir (CTA_COUNTERS_ORIG - 1))).packets = from_be [0, 0, 1, 0x2C] ∧
    from_be [0, 0, 1, 0x2C] = 300 :=
  ⟨by decide, by decide,
    (counters32_read_big_endian ex_build_le32
      ((nfattr.nest CTA_COUNTERS_ORIG [nfattr.leaf CTA_COUNTERS32_PACKETS [0, 0, 1, 0x2C],
        nfattr.leaf CTA_COUNTERS32_BYTES [0, 0, 1, 0x2C]]).ptr Endian.little (fun _ => 0))
      nfct_conntrack.zero (CTA_COUNTERS_ORIG - 1) [0, 0, 1, 0x2C] rfl (by decide)).1
        _ rfl rfl,
    by decide⟩

/-- C24, as stated, fails.  `nfct_build_conntrack` emits a message for a flow
record whose original tuple has protocol 6 and whose reply tuple has protocol
17, and `nfct_conntrack_netlink_handler` hands the callback a record with
those two different numbers when it parses that message, framed with its true
length of 108 bytes. -/
theorem protonum_mismatch_passes :
    ∃ w1 req1 w2 parsed flags,
      nfct_build_conntrack ex_build_le32 1 ex_world nfnlhdr.zero ex_flow_mixed =
        Result.ok (w1, req1) ∧
      (ex_flow_mixed.tuple.get NFCT_DIR_ORIGINAL).protonum ≠
        (ex_flow_mixed.tuple.get NFCT_DIR_REPLY).protonum ∧
      (ex_msg 0x100 0 req1.attrs).nlmsg_len = 108 ∧
      nfct_conntrack_netlink_handler ex_build_le32 1 ex_world ex_handle
        (ex_msg 0x100 0 req1.attrs) = Result.ok (w2, 0) ∧
      w2.calls = [⟨CallbackArg.conntrack parsed, flags, NFCT_MSG_UPDATE, 0⟩] ∧
      (parsed.tuple.get NFCT_DIR_ORIGINAL).protonum = 6 ∧
      (parsed.tuple.get NFCT_DIR_REPLY).protonum = 17 :=
  ⟨_, _, _, _, _, rfl, by decide, by decide, rfl, rfl, rfl, rfl⟩

/-- C24, amended.  The codec carries the protocol number of each tuple
through without comparing the two.  Whenever `nfct_build_conntrack` returns,
the message starts with TUPLE_ORIG and TUPLE_REPLY whose PROTO nests start
with a NUM leaf whose first payload byte, read where the leaf lies in memory,
is the protocol number of that tuple of the record (modulo 256), so a record
with equal numbers gives a message with equal numbers.  Whenever
`nfct_conntrack_netlink_handler` returns with a callback installed, for a
message it does not reject for its length, each tuple of the record handed
over has the protocol number its tuple attribute carries within the
`nlmsg_len - 20` bytes behind the two headers, so a message with equal numbers
gives a record with equal numbers.  In a
world whose plugins are well formed both return once they have fuel for two
nested lookups. -/
theorem protonum_carried_through (b : Build) (fuel : Nat) (w : World) (req : nfnlhdr)
    (ct : nfct_conntrack) (cth : nfct_handle) (nlh : nlmsghdr)
    (hl : 0 ≤ attr_len nlh) :
    (∀ w1 req1, nfct_build_conntrack b fuel w req ct = Result.ok (w1, req1) →
      ∃ ip0 n0 l0 ip1 n1 l1 rest,
        req1.attrs = req.attrs ++
          nfattr.nest CTA_TUPLE_ORIG [ip0, nfattr.nest CTA_TUPLE_PROTO (n0 :: l0)] ::
          nfattr.nest CTA_TUPLE_REPLY [ip1, nfattr.nest CTA_TUPLE_PROTO (n1 :: l1)] :: rest ∧
        n0.nfa_type = CTA_PROTO_NUM ∧ n1.nfa_type = CTA_PROTO_NUM ∧
        (∀ m, deref_u8 (n0.ptr b.endian m) =
          (ct.tuple.get NFCT_DIR_ORIGINAL).protonum % 256) ∧
        (∀ m, deref_u8 (n1.ptr b.endian m) = (ct.tuple.get NFCT_DIR_REPLY).protonum % 256) ∧
        ((ct.tuple.get NFCT_DIR_ORIGINAL).protonum = (ct.tuple.get NFCT_DIR_REPLY).protonum →
          ∀ m, deref_u8 (n0.ptr b.endian m) = deref_u8 (n1.ptr b.endian m))) ∧
    (∀ cb w1 ret, cth.callback = some cb →
      nfct_conntrack_netlink_handler b fuel w cth nlh = Result.ok (w1, ret) →
      ∃ parsed flags,
        w1.calls = w.calls ++ [⟨CallbackArg.conntrack parsed, flags,
          typemsg2enum (NFNL_MSG_TYPE nlh.nlmsg_type) nlh.nlmsg_flags, cth.callback_data⟩] ∧
        (parsed.tuple.get NFCT_DIR_ORIGINAL).protonum =
          carried_protonum b (nfnl_parse_attr b.endian CTA_MAX nlh.data (attr_len nlh)
              (CTA_TUPLE_ORIG - 1)) ∧
        (parsed.tuple.get NFCT_DIR_REPLY).protonum =
          carried_protonum b (nfnl_parse_attr b.endian CTA_MAX nlh.data (attr_len nlh)
              (CTA_TUPLE_REPLY - 1)) ∧
        (carried_protonum b (nfnl_parse_attr b.endian CTA_MAX nlh.data (attr_len nlh)
            (CTA_TUPLE_ORIG - 1)) =
            carried_protonum b (nfnl_parse_attr b.endian CTA_MAX nlh.data (attr_len nlh)
                (CTA_TUPLE_REPLY - 1)) →
          (parsed.tuple.get NFCT_DIR_ORIGINAL).protonum =
            (parsed.tuple.get NFCT_DIR_REPLY).protonum)) ∧
    (w.sane b →
      (∃ w1 req1, nfct_build_conntrack b (fuel + 2) w req ct = Result.ok (w1, req1)) ∧
      (∃ w1 ret,
        nfct_conntrack_netlink_handler b (fuel + 2) w cth nlh = Result.ok (w1, ret))) := by
  refine ⟨?_, ?_, ?_⟩
  · intro w1 req1 h
    obtain ⟨h1, h2, h3, hreq, _⟩ := nfct_build_conntrack_ok h
    obtain ⟨rest, hr⟩ := conntrack_attrs_tuples b ct h1 h2 h3
    refine ⟨ip_tree b (ct.tuple.get NFCT_DIR_ORIGINAL),
      nfattr.leaf CTA_PROTO_NUM (protonum_bytes (ct.tuple.get NFCT_DIR_ORIGINAL)),
      proto_leaves h1 (ct.tuple.get NFCT_DIR_ORIGINAL),
      ip_tree b (ct.tuple.get NFCT_DIR_REPLY),
      nfattr.leaf CTA_PROTO_NUM (protonum_bytes (ct.tuple.get NFCT_DIR_REPLY)),
      proto_leaves h2 (ct.tuple.get NFCT_DIR_REPLY), rest, by rw [hreq, hr], rfl, rfl,
      fun m => deref_u8_protonum_bytes _ _ m, fun m => deref_u8_protonum_bytes _ _ m, ?_⟩
    intro he m
    rw [deref_u8_protonum_bytes, deref_u8_protonum_bytes, he]
  · intro cb w1 ret hcb h
    obtain ⟨wa, t0, wb, t1, wc, hd, p0, p1, _, fr, hi⟩ :=
      nfct_conntrack_netlink_handler_ok (not_lt.mpr hl) h
    rw [invoke_callback_some _ _ _ _ _ cb hcb] at hi
    simp only [Prod.mk.injEq] at hi
    have ht := (parsed_flow_scalars b (nfnl_parse_attr b.endian CTA_MAX nlh.data (attr_len nlh)) t0
        t1 hd).1
    have e0 : t0.protonum =
        carried_protonum b (nfnl_parse_attr b.endian CTA_MAX nlh.data (attr_len nlh)
            (CTA_TUPLE_ORIG - 1)) := by
      cases h0 : nfnl_parse_attr b.endian CTA_MAX nlh.data (attr_len nlh) (CTA_TUPLE_ORIG - 1) with
      | none =>
        simp only [h0] at p0
        rw [p0.2]
        rfl
      | some a =>
        simp only [h0] at p0
        exact parse_tuple_protonum p0
    have e1 : t1.protonum =
        carried_protonum b (nfnl_parse_attr b.endian CTA_MAX nlh.data (attr_len nlh)
            (CTA_TUPLE_REPLY - 1)) := by
      cases h0 : nfnl_parse_attr b.endian CTA_MAX nlh.data (attr_len nlh) (CTA_TUPLE_REPLY - 1) with
      | none =>
        simp only [h0] at p1
        rw [p1.2]
        rfl
      | some a =>
        simp only [h0] at p1
        exact parse_tuple_protonum p1
    have g0 : ((parsed_flow b (nfnl_parse_attr b.endian CTA_MAX nlh.data (attr_len nlh)) t0 t1
        hd).1.tuple.get
        NFCT_DIR_ORIGINAL).protonum = t0.protonum := by rw [ht]; rfl
    have g1 : ((parsed_flow b (nfnl_parse_attr b.endian CTA_MAX nlh.data (attr_len nlh)) t0 t1
        hd).1.tuple.get
        NFCT_DIR_REPLY).protonum = t1.protonum := by rw [ht]; rfl
    refine ⟨(parsed_flow b (nfnl_parse_attr b.endian CTA_MAX nlh.data (attr_len nlh)) t0 t1 hd).1,
      (parsed_flow b (nfnl_parse_attr b.endian CTA_MAX nlh.data (attr_len nlh)) t0 t1 hd).2,
      by rw [hi.1, fr.2.2.2.2.2.2], g0.trans e0, g1.trans e1, ?_⟩
    intro he
    rw [g0, g1, e0, e1, he]
  · intro hs
    obtain ⟨w1, req1, h, _⟩ := nfct_build_conntrack_sane b fuel w req ct hs
    obtain ⟨w2, ret, h2, _⟩ := nfct_conntrack_netlink_handler_sane b fuel w cth nlh hs
    exact ⟨⟨w1, req1, h⟩, ⟨w2, ret, h2⟩⟩

/-- Witness for `protonum_carried_through`: the TCP flow of the first scenario
is built with NUM 6 in both tuples, and parsing a reply of its true length
whose tuples both carry 132 hands the callback a record with protocol 132 in
both tuples. -/
theorem protonum_carried_through_witness :
    (∃ ip0 n0 l0 ip1 n1 l1 rest,
      conntrack_attrs ex_build_le32 ex_flow none none none = nfnlhdr.zero.attrs ++
        nfattr.nest CTA_TUPLE_ORIG [ip0, nfattr.nest CTA_TUPLE_PROTO (n0 :: l0)] ::
        nfattr.nest CTA_TUPLE_REPLY [ip1, nfattr.nest CTA_TUPLE_PROTO (n1 :: l1)] :: rest ∧
      n0.nfa_type = CTA_PROTO_NUM ∧ n1.nfa_type = CTA_PROTO_NUM ∧
      (∀ m, deref_u8 (n0.ptr ex_build_le32.endian m) =
        (ex_flow.tuple.get NFCT_DIR_ORIGINAL).protonum % 256) ∧
      (∀ m, deref_u8 (n1.ptr ex_build_le32.endian m) =
        (ex_flow.tuple.get NFCT_DIR_REPLY).protonum % 256) ∧
      ((ex_flow.tuple.get NFCT_DIR_ORIGINAL).protonum =
          (ex_flow.tuple.get NFCT_DIR_REPLY).protonum →
        ∀ m, deref_u8 (n0.ptr ex_build_le32.endian m) =
          deref_u8 (n1.ptr ex_build_le32.endian m))) ∧
    (∃ w1 ret,
      nfct_conntrack_netlink_handler ex_build_le32 (0 + 2) ex_world ex_handle
        (ex_msg 0x100 0 []) = Result.ok (w1, ret)) ∧
    ex_reply_sctp.nlmsg_len = 148 ∧ (0 : Int) ≤ attr_len ex_reply_sctp ∧
    (∃ w1, nfct_conntrack_netlink_handler ex_build_le32 1 ex_world ex_handle_stop
        ex_reply_sctp = Result.ok (w1, 7) ∧
      ∃ parsed flags,
        w1.calls = ex_world.calls ++ [⟨CallbackArg.conntrack parsed, flags,
          typemsg2enum (NFNL_MSG_TYPE ex_reply_sctp.nlmsg_type) ex_reply_sctp.nlmsg_flags,
          ex_handle_stop.callback_data⟩] ∧
        (parsed.tuple.get NFCT_DIR_ORIGINAL).protonum =
          carried_protonum ex_build_le32 (nfnl_parse_attr ex_build_le32.endian CTA_MAX
            ex_reply_sctp.data (attr_len ex_reply_sctp) (CTA_TUPLE_ORIG - 1)) ∧
        (parsed.tuple.get NFCT_DIR_REPLY).protonum =
          carried_protonum ex_build_le32 (nfnl_parse_attr ex_build_le32.endian CTA_MAX
            ex_reply_sctp.data (attr_len ex_reply_sctp) (CTA_TUPLE_REPLY - 1)) ∧
        (carried_protonum ex_build_le32 (nfnl_parse_attr ex_build_le32.endian CTA_MAX
              ex_reply_sctp.data (attr_len ex_reply_sctp) (CTA_TUPLE_ORIG - 1)) =
            carried_protonum ex_build_le32 (nfnl_parse_attr ex_build_le32.endian CTA_MAX
              ex_reply_sctp.data (attr_len ex_reply_sctp) (CTA_TUPLE_REPLY - 1)) →
          (parsed.tuple.get NFCT_DIR_ORIGINAL).protonum =
            (parsed.tuple.get NFCT_DIR_REPLY).protonum)) ∧
    carried_protonum ex_build_le32 (nfnl_parse_attr ex_build_le32.endian CTA_MAX
      ex_reply_sctp.data (attr_len ex_reply_sctp) (CTA_TUPLE_ORIG - 1)) = 132 ∧
    carried_protonum ex_build_le32 (nfnl_parse_attr ex_build_le32.endian CTA_MAX
      ex_reply_sctp.data (attr_len ex_reply_sctp) (CTA_TUPLE_REPLY - 1)) = 132 :=
  ⟨(protonum_carried_through ex_build_le32 1 ex_world nfnlhdr.zero ex_flow ex_handle
      (ex_msg 0x100 0 []) (by decide)).1 _
        ⟨0, 0, 0, 0, conntrack_attrs ex_build_le32 ex_flow none none none⟩ rfl,
    ((protonum_carried_through ex_build_le32 0 ex_world nfnlhdr.zero ex_flow ex_handle
      (ex_msg 0x100 0 []) (by decide)).2.2 (ex_world_sane _)).2,
    by decide, by decide,
    ⟨_, rfl, (protonum_carried_through ex_build_le32 1 ex_world nfnlhdr.zero ex_flow
      ex_handle_stop ex_reply_sctp (by decide)).2.1 (fun _ _ _ _ => 7) _ 7 rfl rfl⟩,
    by decide, by decide⟩

/-- C25.  For every 16-bit flags word, `typemsg2enum` classifies a CT_NEW
message as NEW exactly when at least one of CREATE and EXCL is set, and as
UPDATE exactly when neither is; so a word with exactly one of the two, such
as CREATE without EXCL, gives NEW and not UPDATE. -/
theorem typemsg2enum_single_flag (flags : Nat) (hf : flags < 65536) :
    (typemsg2enum IPCTNL_MSG_CT_NEW flags = NFCT_MSG_NEW ↔
      flags &&& NLM_F_CREATE ≠ 0 ∨ flags &&& NLM_F_EXCL ≠ 0) ∧
    (typemsg2enum IPCTNL_MSG_CT_NEW flags = NFCT_MSG_UPDATE ↔
      flags &&& NLM_F_CREATE = 0 ∧ flags &&& NLM_F_EXCL = 0) ∧
    (flags &&& NLM_F_CREATE ≠ 0 → flags &&& NLM_F_EXCL = 0 →
      typemsg2enum IPCTNL_MSG_CT_NEW flags = NFCT_MSG_NEW ∧
      typemsg2enum IPCTNL_MSG_CT_NEW flags ≠ NFCT_MSG_UPDATE) ∧
    (flags &&& NLM_F_CREATE = 0 → flags &&& NLM_F_EXCL ≠ 0 →
      typemsg2enum IPCTNL_MSG_CT_NEW flags = NFCT_MSG_NEW ∧
      typemsg2enum IPCTNL_MSG_CT_NEW flags ≠ NFCT_MSG_UPDATE) := by
  have hn := typemsg2enum_new_iff flags hf
  have hne : NFCT_MSG_NEW ≠ NFCT_MSG_UPDATE := by decide
  refine ⟨hn, ?_, ?_, ?_⟩
  · constructor
    · intro hu
      by_contra hx
      have h1 : flags &&& NLM_F_CREATE ≠ 0 ∨ flags &&& NLM_F_EXCL ≠ 0 := by
        by_cases hc : flags &&& NLM_F_CREATE = 0
        · exact Or.inr (fun he => hx ⟨hc, he⟩)
        · exact Or.inl hc
      exact hne ((hn.mpr h1).symm.trans hu)
    · rintro ⟨hc, he⟩
      rcases typemsg2enum_new_or_update flags with h | h
      · rcases hn.mp h with h1 | h1
        · exact absurd hc h1
        · exact absurd he h1
      · exact h
  · intro hc _
    have h := hn.mpr (Or.inl hc)
    exact ⟨h, by rw [h]; exact hne⟩
  · intro _ he
    have h := hn.mpr (Or.inr he)
    exact ⟨h, by rw [h]; exact hne⟩

/-- Witness for `typemsg2enum_single_flag`: CREATE alone and EXCL alone both
give NEW for a CT_NEW message. -/
theorem typemsg2enum_single_flag_witness :
    (typemsg2enum IPCTNL_MSG_CT_NEW NLM_F_CREATE = NFCT_MSG_NEW ∧
      typemsg2enum IPCTNL_MSG_CT_NEW NLM_F_CREATE ≠ NFCT_MSG_UPDATE) ∧
    (typemsg2enum IPCTNL_MSG_CT_NEW NLM_F_EXCL = NFCT_MSG_NEW ∧
      typemsg2enum IPCTNL_MSG_CT_NEW NLM_F_EXCL ≠ NFCT_MSG_UPDATE) ∧
    (typemsg2enum IPCTNL_MSG_CT_NEW (NLM_F_REQUEST ||| NLM_F_ACK) = NFCT_MSG_UPDATE ↔
      (NLM_F_REQUEST ||| NLM_F_ACK) &&& NLM_F_CREATE = 0 ∧
        (NLM_F_REQUEST ||| NLM_F_ACK) &&& NLM_F_EXCL = 0) :=
  ⟨(typemsg2enum_single_flag NLM_F_CREATE (by decide)).2.2.1 (by decide) (by decide),
    (typemsg2enum_single_flag NLM_F_EXCL (by decide)).2.2.2 (by decide) (by decide),
    (typemsg2enum_single_flag (NLM_F_REQUEST ||| NLM_F_ACK) (by decide)).2.1⟩

end Nfct
